import Mathlib

/-!
# Winsock compatibility layer (`dlls/winsock/socket.c`): a shallow embedding

The C functions of `socket.c` are rendered as Lean functions.  Values of the
host headers (`errno.h`, `netdb.h`, `sys/socket.h`, `netinet/tcp.h`) differ
from host to host and are taken as parameters (`HostErrno`, `HostHerrno`,
`HostSockOpts`); `linux_errno`, `linux_herrno`, `linux_sockopts` give the
values of Linux/glibc on x86.  Host system calls are answered by an oracle
(`Host`) and every call the code makes is recorded in a trace of `Call`s.
-/

namespace Winsock

/-! ## Windows Sockets constants -/

/-- Modelled from the spec: the Windows Sockets error namespace the spec speaks of
(`winsock.h`, where the constants are defined, is not among the sources).  The spec does not
give the numbers; they are the ones the Windows Sockets interface fixes, all of them
`WSABASEERR` plus a positive offset. -/
def WSABASEERR : Nat := 10000
def WSAEINTR : Nat := WSABASEERR + 4
def WSAEBADF : Nat := WSABASEERR + 9
def WSAEACCES : Nat := WSABASEERR + 13
def WSAEFAULT : Nat := WSABASEERR + 14
def WSAEINVAL : Nat := WSABASEERR + 22
def WSAEMFILE : Nat := WSABASEERR + 24
def WSAEWOULDBLOCK : Nat := WSABASEERR + 35
def WSAEINPROGRESS : Nat := WSABASEERR + 36
def WSAEALREADY : Nat := WSABASEERR + 37
def WSAENOTSOCK : Nat := WSABASEERR + 38
def WSAEDESTADDRREQ : Nat := WSABASEERR + 39
def WSAEMSGSIZE : Nat := WSABASEERR + 40
def WSAEPROTOTYPE : Nat := WSABASEERR + 41
def WSAENOPROTOOPT : Nat := WSABASEERR + 42
def WSAEPROTONOSUPPORT : Nat := WSABASEERR + 43
def WSAESOCKTNOSUPPORT : Nat := WSABASEERR + 44
def WSAEOPNOTSUPP : Nat := WSABASEERR + 45
def WSAEPFNOSUPPORT : Nat := WSABASEERR + 46
def WSAEAFNOSUPPORT : Nat := WSABASEERR + 47
def WSAEADDRINUSE : Nat := WSABASEERR + 48
def WSAEADDRNOTAVAIL : Nat := WSABASEERR + 49
def WSAENETDOWN : Nat := WSABASEERR + 50
def WSAENETUNREACH : Nat := WSABASEERR + 51
def WSAENETRESET : Nat := WSABASEERR + 52
def WSAECONNABORTED : Nat := WSABASEERR + 53
def WSAECONNRESET : Nat := WSABASEERR + 54
def WSAENOBUFS : Nat := WSABASEERR + 55
def WSAEISCONN : Nat := WSABASEERR + 56
def WSAENOTCONN : Nat := WSABASEERR + 57
def WSAESHUTDOWN : Nat := WSABASEERR + 58
def WSAETOOMANYREFS : Nat := WSABASEERR + 59
def WSAETIMEDOUT : Nat := WSABASEERR + 60
def WSAECONNREFUSED : Nat := WSABASEERR + 61
def WSAELOOP : Nat := WSABASEERR + 62
def WSAENAMETOOLONG : Nat := WSABASEERR + 63
def WSAEHOSTDOWN : Nat := WSABASEERR + 64
def WSAEHOSTUNREACH : Nat := WSABASEERR + 65
def WSAENOTEMPTY : Nat := WSABASEERR + 66
def WSAEPROCLIM : Nat := WSABASEERR + 67
def WSAEUSERS : Nat := WSABASEERR + 68
def WSAEDQUOT : Nat := WSABASEERR + 69
def WSAESTALE : Nat := WSABASEERR + 70
def WSAEREMOTE : Nat := WSABASEERR + 71
def WSAHOST_NOT_FOUND : Nat := WSABASEERR + 1001
def WSATRY_AGAIN : Nat := WSABASEERR + 1002
def WSANO_RECOVERY : Nat := WSABASEERR + 1003
def WSANO_DATA : Nat := WSABASEERR + 1004

/-- The value `SOCKET_ERROR` of `winsock.h`. -/
def SOCKET_ERROR : Int := -1

/-! ## Host constants -/

/-- The `errno.h` values of the host that `wsaErrno` switches on.  A constant the host may
lack (the `#ifdef` cases of the source) is `none` when it is not defined. -/
structure HostErrno where
  EINTR : Int
  EBADF : Int
  EPERM : Int
  EACCES : Int
  EFAULT : Int
  EINVAL : Int
  EMFILE : Int
  EWOULDBLOCK : Int
  EINPROGRESS : Int
  EALREADY : Int
  ENOTSOCK : Int
  EDESTADDRREQ : Int
  EMSGSIZE : Int
  EPROTOTYPE : Int
  ENOPROTOOPT : Int
  EPROTONOSUPPORT : Int
  ESOCKTNOSUPPORT : Int
  EOPNOTSUPP : Int
  EPFNOSUPPORT : Int
  EAFNOSUPPORT : Int
  EADDRINUSE : Int
  EADDRNOTAVAIL : Int
  ENETDOWN : Int
  ENETUNREACH : Int
  ENETRESET : Int
  ECONNABORTED : Int
  EPIPE : Int
  ECONNRESET : Int
  ENOBUFS : Int
  EISCONN : Int
  ENOTCONN : Int
  ESHUTDOWN : Int
  ETOOMANYREFS : Int
  ETIMEDOUT : Int
  ECONNREFUSED : Int
  ELOOP : Int
  ENAMETOOLONG : Int
  EHOSTDOWN : Int
  EHOSTUNREACH : Int
  ENOTEMPTY : Int
  EPROCLIM : Option Int
  EUSERS : Option Int
  EDQUOT : Option Int
  ESTALE : Option Int
  EREMOTE : Option Int

/-- The `netdb.h` resolver codes that `wsaHerrno` switches on. -/
structure HostHerrno where
  HOST_NOT_FOUND : Int
  TRY_AGAIN : Int
  NO_RECOVERY : Int
  NO_DATA : Int

/-- The `errno.h` values of Linux (x86, glibc); `EPROCLIM` is not defined there. -/
def linux_errno : HostErrno where
  EINTR := 4
  EBADF := 9
  EPERM := 1
  EACCES := 13
  EFAULT := 14
  EINVAL := 22
  EMFILE := 24
  EWOULDBLOCK := 11
  EINPROGRESS := 115
  EALREADY := 114
  ENOTSOCK := 88
  EDESTADDRREQ := 89
  EMSGSIZE := 90
  EPROTOTYPE := 91
  ENOPROTOOPT := 92
  EPROTONOSUPPORT := 93
  ESOCKTNOSUPPORT := 94
  EOPNOTSUPP := 95
  EPFNOSUPPORT := 96
  EAFNOSUPPORT := 97
  EADDRINUSE := 98
  EADDRNOTAVAIL := 99
  ENETDOWN := 100
  ENETUNREACH := 101
  ENETRESET := 102
  ECONNABORTED := 103
  EPIPE := 32
  ECONNRESET := 104
  ENOBUFS := 105
  EISCONN := 106
  ENOTCONN := 107
  ESHUTDOWN := 108
  ETOOMANYREFS := 109
  ETIMEDOUT := 110
  ECONNREFUSED := 111
  ELOOP := 40
  ENAMETOOLONG := 36
  EHOSTDOWN := 112
  EHOSTUNREACH := 113
  ENOTEMPTY := 39
  EPROCLIM := none
  EUSERS := some 87
  EDQUOT := some 122
  ESTALE := some 116
  EREMOTE := some 66

/-- The `netdb.h` resolver codes of Linux (glibc). -/
def linux_herrno : HostHerrno where
  HOST_NOT_FOUND := 1
  TRY_AGAIN := 2
  NO_RECOVERY := 3
  NO_DATA := 4

/-! ## Error translation (`wsaErrno`, `wsaHerrno`) -/

/-- A `case` that is compiled only when the host defines its label (`#ifdef LABEL`). -/
def ifdef_case (label : Option Int) (result : Nat) : List (Int × Nat) :=
  match label with
  | some v => [(v, result)]
  | none => []

/-- A C `switch` whose cases all `return`: control goes to the case whose label equals the
scrutinee and to `default` when there is none.  `cases` lists (label, returned value) in
source order; a label shared by fall-through (`case A: case B: return r;`) is listed once
per label. -/
def switch_return (cases : List (Int × Nat)) (dflt : Nat) (x : Int) : Nat :=
  match cases.lookup x with
  | some r => r
  | none => dflt

/-- The `case` lines of the `switch(loc_errno)` of `wsaErrno`, in source order. -/
def wsaErrno_cases (E : HostErrno) : List (Int × Nat) :=
  [ (E.EINTR, WSAEINTR),
    (E.EBADF, WSAEBADF),
    (E.EPERM, WSAEACCES),
    (E.EACCES, WSAEACCES),
    (E.EFAULT, WSAEFAULT),
    (E.EINVAL, WSAEINVAL),
    (E.EMFILE, WSAEMFILE),
    (E.EWOULDBLOCK, WSAEWOULDBLOCK),
    (E.EINPROGRESS, WSAEINPROGRESS),
    (E.EALREADY, WSAEALREADY),
    (E.ENOTSOCK, WSAENOTSOCK),
    (E.EDESTADDRREQ, WSAEDESTADDRREQ),
    (E.EMSGSIZE, WSAEMSGSIZE),
    (E.EPROTOTYPE, WSAEPROTOTYPE),
    (E.ENOPROTOOPT, WSAENOPROTOOPT),
    (E.EPROTONOSUPPORT, WSAEPROTONOSUPPORT),
    (E.ESOCKTNOSUPPORT, WSAESOCKTNOSUPPORT),
    (E.EOPNOTSUPP, WSAEOPNOTSUPP),
    (E.EPFNOSUPPORT, WSAEPFNOSUPPORT),
    (E.EAFNOSUPPORT, WSAEAFNOSUPPORT),
    (E.EADDRINUSE, WSAEADDRINUSE),
    (E.EADDRNOTAVAIL, WSAEADDRNOTAVAIL),
    (E.ENETDOWN, WSAENETDOWN),
    (E.ENETUNREACH, WSAENETUNREACH),
    (E.ENETRESET, WSAENETRESET),
    (E.ECONNABORTED, WSAECONNABORTED),
    (E.EPIPE, WSAECONNRESET),
    (E.ECONNRESET, WSAECONNRESET),
    (E.ENOBUFS, WSAENOBUFS),
    (E.EISCONN, WSAEISCONN),
    (E.ENOTCONN, WSAENOTCONN),
    (E.ESHUTDOWN, WSAESHUTDOWN),
    (E.ETOOMANYREFS, WSAETOOMANYREFS),
    (E.ETIMEDOUT, WSAETIMEDOUT),
    (E.ECONNREFUSED, WSAECONNREFUSED),
    (E.ELOOP, WSAELOOP),
    (E.ENAMETOOLONG, WSAENAMETOOLONG),
    (E.EHOSTDOWN, WSAEHOSTDOWN),
    (E.EHOSTUNREACH, WSAEHOSTUNREACH),
    (E.ENOTEMPTY, WSAENOTEMPTY) ]
  ++ ifdef_case E.EPROCLIM WSAEPROCLIM
  ++ ifdef_case E.EUSERS WSAEUSERS
  ++ ifdef_case E.EDQUOT WSAEDQUOT
  ++ ifdef_case E.ESTALE WSAESTALE
  ++ ifdef_case E.EREMOTE WSAEREMOTE
  ++ [ (0, 0) ]

/-- The labels that have an explicit `case` in `wsaErrno`. -/
def wsaErrno_labels (E : HostErrno) : List Int :=
  (wsaErrno_cases E).map Prod.fst

/-- `UINT16 wsaErrno(void)`: the Windows Sockets code for the host `errno`, which is passed
as `loc_errno`.  Every returned constant is below 2^16, so the conversion to `UINT16`
keeps it. -/
def wsaErrno (E : HostErrno) (loc_errno : Int) : Nat :=
  switch_return (wsaErrno_cases E) WSAEOPNOTSUPP loc_errno

/-- The `case` lines of the `switch(loc_errno)` of `wsaHerrno`, in source order. -/
def wsaHerrno_cases (E : HostErrno) (R : HostHerrno) : List (Int × Nat) :=
  [ (R.HOST_NOT_FOUND, WSAHOST_NOT_FOUND),
    (R.TRY_AGAIN, WSATRY_AGAIN),
    (R.NO_RECOVERY, WSANO_RECOVERY),
    (R.NO_DATA, WSANO_DATA),
    (E.ENOBUFS, WSAENOBUFS),
    (0, 0) ]

/-- The labels that have an explicit `case` in `wsaHerrno`. -/
def wsaHerrno_labels (E : HostErrno) (R : HostHerrno) : List Int :=
  (wsaHerrno_cases E R).map Prod.fst

/-- `UINT16 wsaHerrno(int loc_errno)`: the Windows Sockets code for a resolver error. -/
def wsaHerrno (E : HostErrno) (R : HostHerrno) (loc_errno : Int) : Nat :=
  switch_return (wsaHerrno_cases E R) WSAEOPNOTSUPP loc_errno

/-- A host on which `wsaErrno` and `wsaHerrno` compile: C refuses a `switch` in which two
`case` labels have the same value. -/
def HostErrno.compiles (E : HostErrno) (R : HostHerrno) : Prop :=
  (wsaErrno_labels E).Nodup ∧ (wsaHerrno_labels E R).Nodup

instance (E : HostErrno) (R : HostHerrno) : Decidable (E.compiles R) := by
  unfold HostErrno.compiles; infer_instance

/-! ## Socket option tables (`_ws_sock_ops`, `_px_sock_ops`, `_ws_tcp_ops`, `_px_tcp_ops`) -/

/-- Modelled from the spec: the socket levels and options of the Windows side ("socket-level,
TCP-level"; `winsock.h`, where they are defined, is not among the sources), with the
numbers the Windows Sockets interface fixes. -/
def WS_SOL_SOCKET : Int := 0xffff
def WS_IPPROTO_TCP : Int := 6
def WS_SO_DEBUG : Int := 0x0001
def WS_SO_REUSEADDR : Int := 0x0004
def WS_SO_KEEPALIVE : Int := 0x0008
def WS_SO_DONTROUTE : Int := 0x0010
def WS_SO_BROADCAST : Int := 0x0020
def WS_SO_LINGER : Int := 0x0080
def WS_SO_OOBINLINE : Int := 0x0100
def WS_SO_SNDBUF : Int := 0x1001
def WS_SO_RCVBUF : Int := 0x1002
def WS_SO_SNDTIMEO : Int := 0x1005
def WS_SO_RCVTIMEO : Int := 0x1006
def WS_SO_ERROR : Int := 0x1007
def WS_SO_TYPE : Int := 0x1008
def WS_TCP_NODELAY : Int := 0x0001

/-- The constant `WS_SO_DONTLINGER`, which `winsock.h` defines as `(UINT)(~WS_SO_LINGER)`:
an unsigned 32-bit value. -/
def WS_SO_DONTLINGER : Int := 0xffffffff - WS_SO_LINGER

/-- The value an `INT` has once C converts it to `UINT` for a comparison with a `UINT`. -/
def as_UINT (x : Int) : Int := x % 4294967296

/-- The socket levels and options of the host (`sys/socket.h`, `netinet/in.h`,
`netinet/tcp.h`).  An option the host may lack (`#ifdef` in the tables) is `none`. -/
structure HostSockOpts where
  SOL_SOCKET : Int
  IPPROTO_TCP : Int
  SO_DEBUG : Int
  SO_REUSEADDR : Int
  SO_KEEPALIVE : Int
  SO_DONTROUTE : Int
  SO_BROADCAST : Int
  SO_LINGER : Int
  SO_OOBINLINE : Int
  SO_SNDBUF : Int
  SO_RCVBUF : Int
  SO_ERROR : Int
  SO_TYPE : Int
  SO_RCVTIMEO : Option Int
  SO_SNDTIMEO : Option Int
  TCP_NODELAY : Option Int

/-- The socket levels and options of Linux (x86, glibc). -/
def linux_sockopts : HostSockOpts where
  SOL_SOCKET := 1
  IPPROTO_TCP := 6
  SO_DEBUG := 1
  SO_REUSEADDR := 2
  SO_KEEPALIVE := 9
  SO_DONTROUTE := 5
  SO_BROADCAST := 6
  SO_LINGER := 13
  SO_OOBINLINE := 10
  SO_SNDBUF := 7
  SO_RCVBUF := 8
  SO_ERROR := 4
  SO_TYPE := 3
  SO_RCVTIMEO := some 20
  SO_SNDTIMEO := some 21
  TCP_NODELAY := some 1

/-- An array entry that is compiled only when the host defines `guard` (`#ifdef`). -/
def ifdef_entry (guard : Option Int) (entry : Int) : List Int :=
  match guard with
  | some _ => [entry]
  | none => []

/-- The array `_ws_sock_ops`, its terminating 0 included. -/
def _ws_sock_ops (C : HostSockOpts) : List Int :=
  [ WS_SO_DEBUG, WS_SO_REUSEADDR, WS_SO_KEEPALIVE, WS_SO_DONTROUTE,
    WS_SO_BROADCAST, WS_SO_LINGER, WS_SO_OOBINLINE, WS_SO_SNDBUF,
    WS_SO_RCVBUF, WS_SO_ERROR, WS_SO_TYPE ]
  ++ ifdef_entry C.SO_RCVTIMEO WS_SO_RCVTIMEO
  ++ ifdef_entry C.SO_SNDTIMEO WS_SO_SNDTIMEO
  ++ [ 0 ]

/-- The array `_px_sock_ops` (it has no terminator). -/
def _px_sock_ops (C : HostSockOpts) : List Int :=
  [ C.SO_DEBUG, C.SO_REUSEADDR, C.SO_KEEPALIVE, C.SO_DONTROUTE, C.SO_BROADCAST,
    C.SO_LINGER, C.SO_OOBINLINE, C.SO_SNDBUF, C.SO_RCVBUF, C.SO_ERROR, C.SO_TYPE ]
  ++ C.SO_RCVTIMEO.toList
  ++ C.SO_SNDTIMEO.toList

/-- The array `_ws_tcp_ops`, its terminating 0 included. -/
def _ws_tcp_ops (C : HostSockOpts) : List Int :=
  ifdef_entry C.TCP_NODELAY WS_TCP_NODELAY ++ [ 0 ]

/-- The array `_px_tcp_ops`, its terminating 0 included. -/
def _px_tcp_ops (C : HostSockOpts) : List Int :=
  C.TCP_NODELAY.toList ++ [ 0 ]

/-- The loop `for(i=0; ops[i]; i++) if( ops[i] == optname ) break;` of `convert_sockopt`:
`scan_ops rest optname i` is the value of `i` when the loop stops, started at index `i`
with `rest` the array from that index on. -/
def scan_ops : List Int → Int → Nat → Nat
  | [], _, i => i
  | x :: rest, optname, i =>
    if x = 0 then i
    else if x = optname then i
    else scan_ops rest optname (i + 1)

/-- `static int convert_sockopt(INT *level, INT *optname)`: the returned value, and `*level`
and `*optname` as the call leaves them. -/
def convert_sockopt (C : HostSockOpts) (level optname : Int) : Int × Int × Int :=
  if level = WS_SOL_SOCKET then
    let i := scan_ops (_ws_sock_ops C) optname 0
    if (_ws_sock_ops C).getD i 0 ≠ 0 then
      (1, C.SOL_SOCKET, (_px_sock_ops C).getD i 0)
    else
      (0, C.SOL_SOCKET, optname)
  else if level = WS_IPPROTO_TCP then
    let i := scan_ops (_ws_tcp_ops C) optname 0
    if (_ws_tcp_ops C).getD i 0 ≠ 0 then
      (1, C.IPPROTO_TCP, (_px_tcp_ops C).getD i 0)
    else
      (0, C.IPPROTO_TCP, optname)
  else
    (0, level, optname)

/-- The reverse lookup the specification speaks of ("reverse-looking-up by host pair"): the
index of the first entry equal to `x` in a host table, if any. -/
def host_index (px : List Int) (x : Int) : Option Nat :=
  if px.indexOf x < px.length then some (px.indexOf x) else none

/-- The reverse lookup of the specification: search the host tables for the host pair and
give the Windows pair at the same index.  The level table is searched first (`SOL_SOCKET`,
then `IPPROTO_TCP`), then the option table of that level, up to the length of the Windows
table without its terminator. -/
def reverse_sockopt (C : HostSockOpts) (host_level host_optname : Int) : Option (Int × Int) :=
  if host_level = C.SOL_SOCKET then
    match host_index ((_px_sock_ops C).take ((_ws_sock_ops C).length - 1)) host_optname with
    | some i => some (WS_SOL_SOCKET, (_ws_sock_ops C).getD i 0)
    | none => none
  else if host_level = C.IPPROTO_TCP then
    match host_index ((_px_tcp_ops C).take ((_ws_tcp_ops C).length - 1)) host_optname with
    | some i => some (WS_IPPROTO_TCP, (_ws_tcp_ops C).getD i 0)
    | none => none
  else none

/-- The Windows (level, option) pairs that `convert_sockopt` supports: the level is
`WS_SOL_SOCKET` and the option an entry of `_ws_sock_ops` before its terminator, or the
level is `WS_IPPROTO_TCP` and the option such an entry of `_ws_tcp_ops`. -/
def supported_sockopt (C : HostSockOpts) (level optname : Int) : Prop :=
  (level = WS_SOL_SOCKET ∧ optname ∈ _ws_sock_ops C ∧ optname ≠ 0) ∨
  (level = WS_IPPROTO_TCP ∧ optname ∈ _ws_tcp_ops C ∧ optname ≠ 0)

instance (C : HostSockOpts) (level optname : Int) : Decidable (supported_sockopt C level optname) := by
  unfold supported_sockopt; infer_instance

/-- A host whose option constants tell the translated options apart: the two levels differ,
the socket-level options of `_px_sock_ops` are pairwise distinct. -/
def HostSockOpts.distinct (C : HostSockOpts) : Prop :=
  C.SOL_SOCKET ≠ C.IPPROTO_TCP ∧ (_px_sock_ops C).Nodup

instance (C : HostSockOpts) : Decidable C.distinct := by
  unfold HostSockOpts.distinct; infer_instance

/-! ## The outside world: host calls, handle server, last error

Diagnostic output (`TRACE`, `WARN`, `FIXME`) is left out of the embedding. -/

/-- A host `fd_set`: the descriptors that are in the set. -/
abbrev fd_set := List Int

/-- The argument `optval` as the host `setsockopt` receives it: the caller's pointer passed
on as it came (`none` is `NULL`, otherwise the bytes it points to), the address of the local
`struct linger`, or the address of the local `int woptval`. -/
inductive HostOptVal where
  | caller (bytes : Option (List Nat))
  | linger (l_onoff l_linger : Int)
  | woptval (v : Int)
deriving DecidableEq, Repr

/-- The host socket calls that take a descriptor, at most one socket address and integer
arguments: `bind`, `connect`, `getpeername`, `getsockname`, `ioctl`, `recv`, `recvfrom`,
`send`, `sendto`, `shutdown`. -/
inductive HostFn where
  | bind
  | connect
  | getpeername
  | getsockname
  | ioctl
  | recv
  | recvfrom
  | send
  | sendto
  | shutdown
deriving DecidableEq, Repr

/-- One action of this layer on the outside world (host system call, request to the handle
server, call of another Windows service, write of the thread's last-error value), with the
arguments it was given.  Of a socket address only the address family is kept (`none` for
`NULL` or for a call without one); the bytes of data buffers are not kept. -/
inductive Call where
  | FILE_GetUnixHandle (s : Int) (fd : Int)
  | close (fd : Int)
  | getsockopt (fd level optname : Int)
  | setsockopt (fd level optname : Int) (optval : HostOptVal) (optlen : Int)
  | listen (fd backlog : Int)
  | select (nfds : Int) (readfds writefds exceptfds : Option fd_set)
      (timeout : Option (Int × Int))
  | enable_socket_event (handle : Int) (mask sstate cstate : Nat)
  | SetLastError (err : Nat)
  | host (f : HostFn) (fd : Int) (addr : Option Int) (args : List Int)
  | get_socket_event (handle : Int) (service : Bool) (s_event c_event : Int)
  | accept_socket (lhandle : Int)
  | set_socket_event (handle mask event : Int)
  | fopen_netdev
  | WS_ALLOC
  | WS_FREE (ptr : Int)
  | CreateEventA
  | SERVICE_AddObject (hObj info : Int)
  | SERVICE_Delete (service : Int)
  | create_socket (family type protocol : Int)
  | PostMessageA (hWnd uMsg wParam lParam : Int)
deriving DecidableEq, Repr

/-- What a host call with an `int` result answers: the returned value and the value `errno`
has after the call. -/
structure SysResult where
  ret : Int
  errno : Int
deriving DecidableEq, Repr

/-- What the host `getsockopt` answers: result, `errno`, and the integer it stores in the
option buffer. -/
structure GetsockoptResult where
  ret : Int
  errno : Int
  optval : Int
deriving DecidableEq, Repr

/-- What the host `select` answers: result, `errno`, and the three sets as it leaves them
(the set of a `NULL` argument is not looked at). -/
structure SelectResult where
  ret : Int
  errno : Int
  readfds : fd_set
  writefds : fd_set
  exceptfds : fd_set
deriving DecidableEq, Repr

/-- What the handle server answers to a `get_socket_event` request: the status of the call,
the fields `mask`, `pmask` and `state` of the reply and the error code per event bit that
comes as reply data. -/
structure SocketEvent where
  status : Nat
  mask : Nat
  pmask : Nat
  state : Nat
  errors : List Nat
deriving DecidableEq, Repr

/-- The collaborators of this layer that are not in `socket.c`: the host kernel, the handle
server and other Windows services.  Each answer may depend on every call made before it
(`List Call`, oldest first) and on the arguments.  `FILE_GetUnixHandle` answers `none` when
the handle is not a socket (the C function then returns -1) and leaves `handle_error` as last
error.  `host` answers the calls of `HostFn`.  `accept_socket` and `set_socket_event` answer
the status of the request (`accept_socket` with the new handle), and so does
`create_socket`.  `fopen_netdev` answers the
lines `fgets` will read from `/proc/net/dev` (`none`: the file cannot be opened), `WS_ALLOC`
the block `HeapAlloc` gives (`none` is `NULL`). -/
structure Host where
  FILE_GetUnixHandle : List Call → Int → Option Nat
  handle_error : List Call → Int → Nat
  getsockopt : List Call → Int → Int → Int → GetsockoptResult
  setsockopt : List Call → Int → Int → Int → HostOptVal → Int → SysResult
  listen : List Call → Int → Int → SysResult
  select : List Call → Int → Option fd_set → Option fd_set → Option fd_set →
    Option (Int × Int) → SelectResult
  host : List Call → HostFn → Int → Option Int → List Int → SysResult
  get_socket_event : List Call → Int → Bool → Int → Int → SocketEvent
  accept_socket : List Call → Int → Nat × Int
  RtlNtStatusToDosError : Nat → Nat
  set_socket_event : List Call → Int → Int → Int → Nat
  fopen_netdev : List Call → Option (List (List Nat))
  WS_ALLOC : List Call → Option Int
  CreateEventA : List Call → Int
  SERVICE_AddObject : List Call → Int → Int → Int
  create_socket : List Call → Int → Int → Int → Nat × Int

/-- The state a call of this layer runs in: the calls made so far (oldest first), the host
`errno` and the thread's last-error value. -/
structure World where
  trace : List Call
  errno : Int
  last_error : Nat
deriving DecidableEq, Repr

/-- Record a call. -/
def World.call (w : World) (c : Call) : World :=
  { w with trace := w.trace ++ [c] }

/-- `SetLastError(err)`. -/
def SetLastError (w : World) (err : Nat) : World :=
  { w with trace := w.trace ++ [Call.SetLastError err], last_error := err }

/-- The host `close(fd)`; its result is not looked at by this layer. -/
def close (w : World) (fd : Int) : World :=
  w.call (Call.close fd)

/-- `static int _get_sock_fd(SOCKET s)`: the descriptor `FILE_GetUnixHandle( s, GENERIC_READ )`
gives, -1 when there is none. -/
def _get_sock_fd (S : Host) (w : World) (s : Int) : Int × World :=
  match S.FILE_GetUnixHandle w.trace s with
  | some fd => ((fd : Int), w.call (Call.FILE_GetUnixHandle s fd))
  | none =>
    (-1, { w with trace := w.trace ++ [Call.FILE_GetUnixHandle s (-1)],
                  last_error := S.handle_error w.trace s })

/-- `static void _enable_event(SOCKET s, unsigned int event, unsigned int sstate,
unsigned int cstate)`: the `enable_socket_event` request to the handle server. -/
def _enable_event (w : World) (s : Int) (event sstate cstate : Nat) : World :=
  w.call (Call.enable_socket_event s event sstate cstate)

/-- The descriptor a call closes, if it is a `close`. -/
def Call.closed : Call → Option Int
  | Call.close fd => some fd
  | _ => none

/-- The descriptor a call obtained, if it is a handle resolution that succeeded. -/
def Call.resolved : Call → Option Int
  | Call.FILE_GetUnixHandle _ fd => if fd = -1 then none else some fd
  | _ => none

/-- Whether a call is a host `setsockopt`. -/
def Call.is_setsockopt : Call → Bool
  | Call.setsockopt _ _ _ _ _ => true
  | _ => false

/-- Whether a call is a host `getsockopt`. -/
def Call.is_getsockopt : Call → Bool
  | Call.getsockopt _ _ _ => true
  | _ => false

/-- The descriptors closed in a trace, in order. -/
def closed_fds (tr : List Call) : List Int := tr.filterMap Call.closed

/-- The descriptors that handle resolution produced in a trace, in order. -/
def resolved_fds (tr : List Call) : List Int := tr.filterMap Call.resolved

/-- The host `setsockopt` calls of a trace. -/
def setsockopt_calls (tr : List Call) : List Call := tr.filter Call.is_setsockopt

/-- The host `getsockopt` calls of a trace. -/
def getsockopt_calls (tr : List Call) : List Call := tr.filter Call.is_getsockopt

/-! ## Event bits of the handle server protocol -/

/-- Modelled from the spec: the event bits and the socket state bits of the readiness mask
(`winsock.h`, where they are defined, is not among the sources), used in
`enable_socket_event` requests. -/
def FD_READ : Nat := 0x0001
def FD_WRITE : Nat := 0x0002
def FD_OOB : Nat := 0x0004
def FD_ACCEPT : Nat := 0x0008
def FD_CONNECT : Nat := 0x0010
def FD_CLOSE : Nat := 0x0020
def WS_FD_LISTENING : Nat := 0x10000000
def WS_FD_NONBLOCKING : Nat := 0x20000000
def WS_FD_CONNECTED : Nat := 0x40000000
def WS_FD_CONNECT : Nat := FD_CONNECT

/-! ## `getsockopt`, `setsockopt`, `listen` -/

/-- The C type sizes used by `WSOCK32_setsockopt`: `sizeof(int)` and `sizeof(struct linger)`
(two `int`s) on the hosts Wine runs on. -/
def sizeof_int : Int := 4
def sizeof_linger : Int := 8

/-- The byte at index `i` of a buffer; what lies past the end of the list reads as 0. -/
def byte_at (b : List Nat) (i : Nat) : Int := ((b.getD i 0 % 256 : Nat) : Int)

/-- The unsigned 16-bit value `((UINT16*)p)[k]` (little-endian host). -/
def read_UINT16 (b : List Nat) (k : Nat) : Int :=
  byte_at b (2 * k) + 256 * byte_at b (2 * k + 1)

/-- The signed 16-bit value `*((INT16 *) p)` (little-endian host). -/
def read_INT16 (b : List Nat) : Int :=
  let u := read_UINT16 b 0
  if u < 32768 then u else u - 65536

/-- The signed 32-bit value `*(int*)p` (little-endian host). -/
def read_int (b : List Nat) : Int :=
  let u := byte_at b 0 + 256 * byte_at b 1 + 65536 * byte_at b 2 + 16777216 * byte_at b 3
  if u < 2147483648 then u else u - 4294967296

/-- The value `*(int*)optval` for the pointer `optval` as it stands; `none` when the pointer is
`NULL` (the read faults). -/
def HostOptVal.deref_int : HostOptVal → Option Int
  | HostOptVal.caller none => none
  | HostOptVal.caller (some b) => some (read_int b)
  | HostOptVal.linger l_onoff _ => some l_onoff
  | HostOptVal.woptval v => some v

/-- `INT WINAPI WSOCK32_getsockopt(SOCKET s, INT level, INT optname, char *optval,
INT *optlen)`: the returned value and the world after the call.  The option value itself is
written by the host into the caller's buffer. -/
def WSOCK32_getsockopt (S : Host) (C : HostSockOpts) (E : HostErrno) (w : World)
    (s level optname : Int) : Int × World :=
  let (fd, w) := _get_sock_fd S w s
  if fd ≠ -1 then
    let (converted, level, optname) := convert_sockopt C level optname
    if converted = 0 then
      let w := SetLastError w WSAENOPROTOOPT
      let w := close w fd
      (SOCKET_ERROR, w)
    else
      let r := S.getsockopt w.trace fd level optname
      let w := { w.call (Call.getsockopt fd level optname) with errno := r.errno }
      if r.ret = 0 then
        let w := close w fd
        (0, w)
      else
        let w := SetLastError w (if w.errno = E.EBADF then WSAENOTSOCK else wsaErrno E w.errno)
        let w := close w fd
        (SOCKET_ERROR, w)
  else
    (SOCKET_ERROR, w)

/-- The tail of `WSOCK32_setsockopt` from the `SO_RCVBUF` test on, with `level`, `optname`,
`optval`, `optlen` as the conversions left them.  `none`: the call faults on a `NULL`
`optval`. -/
def setsockopt_forward (S : Host) (C : HostSockOpts) (E : HostErrno) (w : World)
    (fd level optname : Int) (optval : HostOptVal) (optlen : Int) : Option (Int × World) :=
  let forward : Option (Int × World) :=
    let r := S.setsockopt w.trace fd level optname optval optlen
    let w := { w.call (Call.setsockopt fd level optname optval optlen) with errno := r.errno }
    if r.ret = 0 then
      let w := close w fd
      some (0, w)
    else
      let w := SetLastError w (wsaErrno E w.errno)
      let w := close w fd
      some (SOCKET_ERROR, w)
  if optname = C.SO_RCVBUF then
    match optval.deref_int with
    | none => none
    | some v =>
      if v < 2048 then
        let w := close w fd
        some (0, w)
      else forward
  else forward

/-- `INT WINAPI WSOCK32_setsockopt(SOCKET16 s, INT level, INT optname, char *optval,
INT optlen)`: the returned value and the world after the call; `none` when the call faults
on a `NULL` `optval`.  `optval` is `none` for `NULL` and the bytes pointed to otherwise.  The
parameter `s` has the 16-bit type `SOCKET16`, so the handle is taken modulo 2^16.  On the
`WS_SO_DEBUG` path the message of `FIXME` (a class that is on by default) has the argument
`*(DWORD*)optval`, so the pointer is read there too. -/
def WSOCK32_setsockopt (S : Host) (C : HostSockOpts) (E : HostErrno) (w : World)
    (s level optname : Int) (optval : Option (List Nat)) (optlen : Int) :
    Option (Int × World) :=
  let s := s % 65536
  let (fd, w) := _get_sock_fd S w s
  if fd ≠ -1 then
    if optname = WS_SO_DEBUG ∧ level = WS_SOL_SOCKET then
      match optval with
      | none => none
      | some _ => some (0, w)
    else if as_UINT optname = WS_SO_DONTLINGER ∧ level = WS_SOL_SOCKET then
      match optval with
      | none => none
      | some b =>
        let l_onoff : Int := if read_int b ≠ 0 then 0 else 1
        setsockopt_forward S C E w fd C.SOL_SOCKET C.SO_LINGER
          (HostOptVal.linger l_onoff 0) sizeof_linger
    else
      let (converted, level, optname) := convert_sockopt C level optname
      if converted = 0 then
        let w := SetLastError w WSAENOPROTOOPT
        let w := close w fd
        some (SOCKET_ERROR, w)
      else if optname = C.SO_LINGER ∧ optval ≠ none then
        match optval with
        | none => none
        | some b =>
          setsockopt_forward S C E w fd level optname
            (HostOptVal.linger (read_UINT16 b 0) (read_UINT16 b 1)) sizeof_linger
      else if as_UINT optlen < sizeof_int then
        match optval with
        | none => none
        | some b =>
          setsockopt_forward S C E w fd level optname
            (HostOptVal.woptval (read_INT16 b)) sizeof_int
      else
        setsockopt_forward S C E w fd level optname (HostOptVal.caller optval) optlen
  else
    let w := SetLastError w WSAENOTSOCK
    some (SOCKET_ERROR, w)

/-- `INT WINAPI WSOCK32_listen(SOCKET s, INT backlog)`: the returned value and the world after
the call. -/
def WSOCK32_listen (S : Host) (E : HostErrno) (w : World) (s backlog : Int) : Int × World :=
  let (fd, w) := _get_sock_fd S w s
  if fd ≠ -1 then
    let r := S.listen w.trace fd backlog
    let w := { w.call (Call.listen fd backlog) with errno := r.errno }
    if r.ret = 0 then
      let w := close w fd
      let w := _enable_event w s FD_ACCEPT WS_FD_LISTENING (WS_FD_CONNECT ||| WS_FD_CONNECTED)
      (0, w)
    else
      let w := SetLastError w (wsaErrno E w.errno)
      (SOCKET_ERROR, w)
  else
    let w := SetLastError w WSAENOTSOCK
    (SOCKET_ERROR, w)


/-- A host on which every call succeeds: each handle resolves to a fresh descriptor (3 plus
the number of calls made before), `select` times out, every socket is in blocking mode with
no event selected, `accept_socket` gives the handle 200, `/proc/net/dev` has its two header
lines only. -/
def quiet_host : Host where
  FILE_GetUnixHandle := fun tr _ => some (3 + tr.length)
  handle_error := fun _ _ => 6
  getsockopt := fun _ _ _ _ => { ret := 0, errno := 0, optval := 0 }
  setsockopt := fun _ _ _ _ _ _ => { ret := 0, errno := 0 }
  listen := fun _ _ _ => { ret := 0, errno := 0 }
  select := fun _ _ _ _ _ _ => { ret := 0, errno := 0, readfds := [], writefds := [], exceptfds := [] }
  host := fun _ _ _ _ _ => { ret := 0, errno := 0 }
  get_socket_event := fun _ _ _ _ _ =>
    { status := 0, mask := 0, pmask := 0, state := 0, errors := [] }
  accept_socket := fun _ _ => (0, 200)
  RtlNtStatusToDosError := fun _ => 6
  set_socket_event := fun _ _ _ _ => 0
  fopen_netdev := fun _ => some [[10], [10]]
  WS_ALLOC := fun _ => some 0x50000000
  CreateEventA := fun _ => 300
  SERVICE_AddObject := fun _ _ _ => 1
  create_socket := fun _ _ _ _ => (0, 100)

/-- The world before any call: empty trace, `errno` 0, last error 0. -/
def World.init : World := { trace := [], errno := 0, last_error := 0 }

/-- The host `quiet_host`, except that `listen` fails with `EADDRINUSE` (98 on Linux). -/
def listen_fails_host : Host :=
  { quiet_host with listen := fun _ _ _ => { ret := -1, errno := 98 } }

/-! ## Socket sets and `select` (`fd_set_import`, `fd_set_export`, `fd_set_unimport`,
`__ws_select`) -/

/-- A Windows-format socket set (`ws_fd_set16` or `ws_fd_set32`): the count and the array of
socket handles.  The two layouts differ in field width only; which one a pointer is read as
is chosen by the flag `b32`. -/
structure ws_fd_set where
  fd_count : Nat
  fd_array : List Int
deriving DecidableEq, Repr

/-- The host macro `FD_SET(fd, fds)`. -/
def FD_SET (fd : Int) (fds : fd_set) : fd_set :=
  if fd ∈ fds then fds else fd :: fds

/-- The host macro `FD_ISSET(fd, fds)`. -/
def FD_ISSET (fd : Int) (fds : fd_set) : Bool :=
  decide (fd ∈ fds)

/-- The host macro `FD_ZERO(fds)`. -/
def FD_ZERO : fd_set := []

/-- The variables of one `fd_set_import` call: the world, `*highfd`, the array `lfd` and
the host set `*fds`. -/
structure ImportState where
  w : World
  highfd : Int
  lfd : List Int
  fds : fd_set
deriving DecidableEq, Repr

/-- The loop `for( i = 0; i < count; i++ )` of `fd_set_import`: `n` iterations are left and
the next index is `i`. -/
def fd_set_import_loop (S : Host) (fd_array : List Int) : Nat → Nat → ImportState → ImportState
  | 0, _, st => st
  | n + 1, i, st =>
    let s := fd_array.getD i 0
    let (fd, w) := _get_sock_fd S st.w s
    let st : ImportState :=
      if fd ≠ -1 then
        { w := w,
          lfd := st.lfd.set i fd,
          highfd := if fd > st.highfd then fd else st.highfd,
          fds := FD_SET fd st.fds }
      else
        { st with w := w, lfd := st.lfd.set i (-1) }
    fd_set_import_loop S fd_array n (i + 1) st

/-- `static fd_set* fd_set_import( fd_set* fds, void* wsfds, int* highfd, int lfd[],
BOOL b32 )`: the returned pointer (`none` is `NULL`, otherwise the set it points to) and the
variables as the call leaves them. -/
def fd_set_import (S : Host) (w : World) (fds : fd_set) (wsfds : Option ws_fd_set)
    (highfd : Int) (lfd : List Int) (_b32 : Bool) : Option fd_set × ImportState :=
  match wsfds with
  | some ws =>
    let count := ws.fd_count
    let st := fd_set_import_loop S ws.fd_array count 0
      { w := w, highfd := highfd, lfd := lfd, fds := FD_ZERO }
    (some st.fds, st)
  | none => (none, { w := w, highfd := highfd, lfd := lfd, fds := fds })

/-- `inline static int sock_error_p(int s)`: whether the host reports a pending `SO_ERROR`. -/
def sock_error_p (S : Host) (C : HostSockOpts) (w : World) (s : Int) : Bool × World :=
  let r := S.getsockopt w.trace s C.SOL_SOCKET C.SO_ERROR
  (decide (r.optval ≠ 0),
   { w.call (Call.getsockopt s C.SOL_SOCKET C.SO_ERROR) with errno := r.errno })

/-- The variables of one `fd_set_export` call: the world, the set `*exceptfds` (`none` when
the pointer is `NULL`), the array of the wire set, the array `lfd`, `j` and `num_err`. -/
structure ExportState where
  w : World
  exceptfds : Option fd_set
  fd_array : List Int
  lfd : List Int
  j : Nat
  num_err : Int
deriving DecidableEq, Repr

/-- The body of the loop of `fd_set_export` at index `i`. -/
def fd_set_export_body (S : Host) (C : HostSockOpts) (fds : fd_set) (i : Nat)
    (st : ExportState) : ExportState :=
  if st.lfd.getD i 0 ≥ 0 then
    let fd := st.lfd.getD i 0
    let st : ExportState :=
      if FD_ISSET fd fds then
        match st.exceptfds with
        | some ex =>
          let (err, w) := sock_error_p S C st.w fd
          if err then
            { st with w := w, exceptfds := some (FD_SET fd ex), num_err := st.num_err + 1 }
          else
            { st with w := w, fd_array := st.fd_array.set st.j (st.fd_array.getD i 0),
                      j := st.j + 1 }
        | none =>
          { st with fd_array := st.fd_array.set st.j (st.fd_array.getD i 0),
                    j := st.j + 1 }
      else st
    { st with w := close st.w fd, lfd := st.lfd.set i (-1) }
  else st

/-- The loop `for( i = 0, j = 0; i < count; i++ )` of `fd_set_export`: `n` iterations are
left and the next index is `i`. -/
def fd_set_export_loop (S : Host) (C : HostSockOpts) (fds : fd_set) :
    Nat → Nat → ExportState → ExportState
  | 0, _, st => st
  | n + 1, i, st => fd_set_export_loop S C fds n (i + 1) (fd_set_export_body S C fds i st)

/-- What `fd_set_export` returns and leaves behind: `num_err`, the world, `*exceptfds`, the
wire set and `lfd`. -/
structure ExportResult where
  num_err : Int
  w : World
  exceptfds : Option fd_set
  wsfds : Option ws_fd_set
  lfd : List Int
deriving DecidableEq, Repr

/-- `static int fd_set_export( fd_set* fds, fd_set* exceptfds, void* wsfds, int lfd[],
BOOL b32 )`. -/
def fd_set_export (S : Host) (C : HostSockOpts) (w : World) (fds : fd_set)
    (exceptfds : Option fd_set) (wsfds : Option ws_fd_set) (lfd : List Int) (_b32 : Bool) :
    ExportResult :=
  match wsfds with
  | some ws =>
    let count := ws.fd_count
    let st := fd_set_export_loop S C fds count 0
      { w := w, exceptfds := exceptfds, fd_array := ws.fd_array, lfd := lfd, j := 0,
        num_err := 0 }
    { num_err := st.num_err, w := st.w, exceptfds := st.exceptfds,
      wsfds := some { fd_count := st.j, fd_array := st.fd_array }, lfd := st.lfd }
  | none =>
    { num_err := 0, w := w, exceptfds := exceptfds, wsfds := none, lfd := lfd }

/-- The loop `for( i = 0; i < count; i++ ) if ( lfd[i] >= 0 ) close(lfd[i]);` of
`fd_set_unimport`. -/
def fd_set_unimport_loop (lfd : List Int) : Nat → Nat → World → World
  | 0, _, w => w
  | n + 1, i, w =>
    let w := if lfd.getD i 0 ≥ 0 then close w (lfd.getD i 0) else w
    fd_set_unimport_loop lfd n (i + 1) w

/-- `static void fd_set_unimport( void* wsfds, int lfd[], BOOL b32 )`. -/
def fd_set_unimport (w : World) (wsfds : Option ws_fd_set) (lfd : List Int) (_b32 : Bool) :
    World :=
  match wsfds with
  | some ws => fd_set_unimport_loop lfd ws.fd_count 0 w
  | none => w

/-- The variables of the exception-set loop of `__ws_select`. -/
structure ExceptLoopState where
  w : World
  fd_array : List Int
  exceptfd : List Int
  j : Nat
deriving DecidableEq, Repr

/-- The body of the exception-set loop of `__ws_select` at index `i`. -/
def ws_select_except_body (exceptfds : fd_set) (i : Nat) (st : ExceptLoopState) :
    ExceptLoopState :=
  let fd := st.exceptfd.getD i 0
  let st : ExceptLoopState :=
    if fd ≥ 0 ∧ FD_ISSET fd exceptfds = true then
      { st with fd_array := st.fd_array.set st.j (st.fd_array.getD i 0), j := st.j + 1 }
    else st
  let st : ExceptLoopState := if fd ≥ 0 then { st with w := close st.w fd } else st
  { st with exceptfd := st.exceptfd.set i (-1) }

/-- The loop `for (i = j = 0; i < count; i++)` over the exception set in `__ws_select`. -/
def ws_select_except_loop (exceptfds : fd_set) : Nat → Nat → ExceptLoopState → ExceptLoopState
  | 0, _, st => st
  | n + 1, i, st => ws_select_except_loop exceptfds n (i + 1) (ws_select_except_body exceptfds i st)

/-- The store `((ws_fd_set32*)p)->fd_count = 0` of `__ws_select`, made whatever the layout of
the set: a 32-bit zero at offset 0.  On a `ws_fd_set16` (16-bit count followed by 16-bit
handles) it clears the count and the first handle. -/
def clear_fd_count (b32 : Bool) (wsfds : Option ws_fd_set) : Option ws_fd_set :=
  match wsfds with
  | some ws =>
    if b32 then some { ws with fd_count := 0 }
    else some { fd_count := 0, fd_array := ws.fd_array.set 0 0 }
  | none => none

/-- The local variables of `__ws_select` that C leaves uninitialised, as the stack holds them
on entry: the three host sets and the three descriptor arrays of `FD_SETSIZE` entries. -/
structure SelectLocals where
  readfds : fd_set
  writefds : fd_set
  exceptfds : fd_set
  readfd : List Int
  writefd : List Int
  exceptfd : List Int
deriving DecidableEq, Repr

/-- The caller's memory as far as it holds wire sets: the wire set object at each address.
A pointer to a wire set is `none` for `NULL` and `some a` for the object at address `a`; two
pointers with the same address are the same object. -/
abbrev WsMem := Nat → ws_fd_set

/-- The wire set behind a pointer (`none` for `NULL`). -/
def WsMem.deref (mem : WsMem) : Option Nat → Option ws_fd_set
  | none => none
  | some a => some (mem a)

/-- The memory after the object behind a pointer has been written; nothing is written
through `NULL`. -/
def WsMem.store (mem : WsMem) : Option Nat → Option ws_fd_set → WsMem
  | some a, some ws => Function.update mem a ws
  | _, _ => mem

/-- What `__ws_select` returns and leaves behind: the value, the world and the caller's
memory. -/
structure SelectOutcome where
  ret : Int
  w : World
  mem : WsMem

/-- The part of `__ws_select` that follows the host `select`: `highfd` holds the result of
`select`, `readfds` and `writefds` the host sets as `select` left them, `p_except` the
exception host set behind the pointer `p_except` (`none` when that pointer is `NULL`).  Every
read and write of a wire set goes through its pointer into `mem`, in the order of the
source. -/
def ws_select_finish (S : Host) (C : HostSockOpts) (E : HostErrno) (w : World) (b32 : Bool)
    (highfd : Int) (readfds writefds : fd_set) (p_except : Option fd_set) (mem : WsMem)
    (ws_readfds ws_writefds ws_exceptfds : Option Nat)
    (readfd writefd exceptfd : List Int) : SelectOutcome :=
  if highfd > 0 then
    let er := fd_set_export S C w readfds p_except (mem.deref ws_readfds) readfd b32
    let mem := mem.store ws_readfds er.wsfds
    let ew := fd_set_export S C er.w writefds er.exceptfds (mem.deref ws_writefds) writefd b32
    let mem := mem.store ws_writefds ew.wsfds
    match ew.exceptfds, mem.deref ws_exceptfds with
    | some exceptfds, some ws =>
      let count := ws.fd_count
      let st := ws_select_except_loop exceptfds count 0
        { w := ew.w, fd_array := ws.fd_array, exceptfd := exceptfd, j := 0 }
      { ret := highfd, w := st.w,
        mem := mem.store ws_exceptfds (some { fd_count := st.j, fd_array := st.fd_array }) }
    | _, _ => { ret := highfd, w := ew.w, mem := mem }
  else
    let w := fd_set_unimport w (mem.deref ws_readfds) readfd b32
    let w := fd_set_unimport w (mem.deref ws_writefds) writefd b32
    let w := fd_set_unimport w (mem.deref ws_exceptfds) exceptfd b32
    let mem := mem.store ws_readfds (clear_fd_count b32 (mem.deref ws_readfds))
    let mem := mem.store ws_writefds (clear_fd_count b32 (mem.deref ws_writefds))
    let mem := mem.store ws_exceptfds (clear_fd_count b32 (mem.deref ws_exceptfds))
    if highfd = 0 then { ret := 0, w := w, mem := mem }
    else
      let w := SetLastError w (wsaErrno E w.errno)
      { ret := SOCKET_ERROR, w := w, mem := mem }

/-- `static INT __ws_select( BOOL b32, void *ws_readfds, void *ws_writefds,
void *ws_exceptfds, struct timeval *timeout )`: the three imports, the host `select`, and
`ws_select_finish` for the rest.  The three arguments are pointers into the caller's memory
`mem`, so the same wire set can be passed more than once. -/
def __ws_select (S : Host) (C : HostSockOpts) (E : HostErrno) (w : World) (L : SelectLocals)
    (b32 : Bool) (mem : WsMem) (ws_readfds ws_writefds ws_exceptfds : Option Nat)
    (timeout : Option (Int × Int)) : SelectOutcome :=
  let highfd : Int := 0
  let (p_read, ir) := fd_set_import S w L.readfds (mem.deref ws_readfds) highfd L.readfd b32
  let (p_write, iw) :=
    fd_set_import S ir.w L.writefds (mem.deref ws_writefds) ir.highfd L.writefd b32
  let (p_except, ie) :=
    fd_set_import S iw.w L.exceptfds (mem.deref ws_exceptfds) iw.highfd L.exceptfd b32
  let r := S.select ie.w.trace (ie.highfd + 1) p_read p_write p_except timeout
  let w : World :=
    { ie.w.call (Call.select (ie.highfd + 1) p_read p_write p_except timeout) with
      errno := r.errno }
  let readfds := if p_read.isSome then r.readfds else ir.fds
  let writefds := if p_write.isSome then r.writefds else iw.fds
  ws_select_finish S C E w b32 r.ret readfds writefds (p_except.map (fun _ => r.exceptfds))
    mem ws_readfds ws_writefds ws_exceptfds ir.lfd iw.lfd ie.lfd

/-- A memory holding the wire sets of a list at the addresses 0, 1, ...; every other address
holds an empty set. -/
def wire_memory (sets : List ws_fd_set) : WsMem :=
  fun a => sets.getD a { fd_count := 0, fd_array := [] }

/-- The descriptors (entries that are not negative) in `lfd[i]`, ..., `lfd[i+n-1]`, in
order. -/
def live_fds (lfd : List Int) : Nat → Nat → List Int
  | 0, _ => []
  | n + 1, i => (if lfd.getD i 0 ≥ 0 then [lfd.getD i 0] else []) ++ live_fds lfd n (i + 1)

/-- The number of entries a wire set holds (0 for a `NULL` pointer). -/
def wire_count (wsfds : Option ws_fd_set) : Nat :=
  match wsfds with
  | some ws => ws.fd_count
  | none => 0

/-- A host on which descriptor 3 of the read set is reported readable by `select` (result
1) and has a pending socket error. -/
def pending_error_host : Host :=
  { quiet_host with
    select := fun _ _ _ _ _ _ =>
      { ret := 1, errno := 0, readfds := [3], writefds := [], exceptfds := [] }
    getsockopt := fun _ _ _ _ => { ret := 0, errno := 0, optval := 111 } }

/-- Local variables of `__ws_select` with 64-entry arrays, all zero. -/
def zero_locals : SelectLocals :=
  { readfds := [], writefds := [], exceptfds := [],
    readfd := List.replicate 64 0, writefd := List.replicate 64 0,
    exceptfd := List.replicate 64 0 }

/-! ## Directory records (`list_size`, `list_dup`, `hostent_size`, `check_buffer_he`,
`WS_dup_he`) -/

/-- The flag `WS_DUP_LINEAR`. -/
def WS_DUP_LINEAR : Nat := 0x0001
/-- The flag `WS_DUP_OFFSET`: internal pointers are offsets. -/
def WS_DUP_OFFSET : Nat := 0x0002
/-- The flag `WS_DUP_SEGPTR`: internal pointers are SEGPTRs. -/
def WS_DUP_SEGPTR : Nat := 0x0004

/-- The sizes of the C types `WS_dup_he` computes with (`winsock.h`, `winsock16.h` and
`netdb.h` are not among the sources): `sizeof(char*)`, `sizeof(struct hostent)` of the
host, `sizeof(struct ws_hostent16)` and `sizeof(struct ws_hostent32)`. -/
structure Layout where
  sizeof_ptr : Nat
  sizeof_hostent : Nat
  sizeof_ws_hostent16 : Nat
  sizeof_ws_hostent32 : Nat
deriving DecidableEq, Repr

/-- The sizes on 32-bit x86 Linux: 4-byte pointers, a 20-byte host `struct hostent`, 16-byte
Windows records. -/
def x86_layout : Layout :=
  { sizeof_ptr := 4, sizeof_hostent := 20, sizeof_ws_hostent16 := 16, sizeof_ws_hostent32 := 16 }

/-- The bytes before the first NUL of the memory a `char*` points to: the C string.  The
memory is given by the list of its bytes; what lies past the end of the list reads as 0. -/
def cstr (s : List Nat) : List Nat := s.takeWhile (fun b => decide (b ≠ 0))

/-- The C function `strlen`. -/
def strlen (s : List Nat) : Nat := (cstr s).length

/-- The first `k` bytes of the memory a pointer points to (what `memcpy` reads). -/
def read_bytes (s : List Nat) (k : Nat) : List Nat :=
  (List.range k).map (fun i => s.getD i 0)

/-- A host `struct hostent`.  `h_aliases` and `h_addr_list` are `none` for a `NULL` pointer
and otherwise the entries of the `NULL`-terminated array, each entry given by the bytes
it points to.  `h_length` is an address length, so it is not negative. -/
structure hostent where
  h_name : List Nat
  h_aliases : Option (List (List Nat))
  h_addrtype : Int
  h_length : Nat
  h_addr_list : Option (List (List Nat))
deriving DecidableEq, Repr

/-- One byte-sized cell of the scratch buffer: a byte, the first cell of a stored pointer
(which carries the pointer value), a further cell of a stored pointer, or a cell nothing
was written to. -/
inductive Cell where
  | byte (b : Nat)
  | ptr (v : Int)
  | ptr_rest
  | undef
deriving DecidableEq, Repr

/-- The contents of a buffer, by offset from its start. -/
abbrev Mem := Nat → Cell

/-- Write the bytes `bs` at offset `p` (`strcpy`, `memcpy`). -/
def store_bytes (m : Mem) (p : Nat) (bs : List Nat) : Mem :=
  fun a => if p ≤ a ∧ a < p + bs.length then Cell.byte (bs.getD (a - p) 0) else m a

/-- Write the pointer `v` at offset `p`: it takes `P` cells. -/
def store_ptr (P : Nat) (m : Mem) (p : Nat) (v : Int) : Mem :=
  fun a => if p ≤ a ∧ a < p + P then (if a = p then Cell.ptr v else Cell.ptr_rest) else m a

/-- Read `n` bytes at offset `p`; `none` when a cell in that range does not hold a byte. -/
def load_bytes (m : Mem) : Nat → Nat → Option (List Nat)
  | _, 0 => some []
  | p, n + 1 =>
    match m p, load_bytes m (p + 1) n with
    | Cell.byte b, some bs => some (b :: bs)
    | _, _ => none

/-- Read a pointer of `P` cells at offset `p`; `none` when the cells do not hold one
pointer that was stored there. -/
def load_ptr (P : Nat) (m : Mem) (p : Nat) : Option Int :=
  match m p with
  | Cell.ptr v =>
    if (List.range P).all (fun k => decide (k = 0 ∨ m (p + k) = Cell.ptr_rest)) then some v
    else none
  | _ => none

/-- The number of bytes `list_size` counts and `list_dup` copies for one entry:
`(item_size) ? item_size : strlen(l[i]) + 1`. -/
def entry_size (item_size : Nat) (entry : List Nat) : Nat :=
  if item_size ≠ 0 then item_size else strlen entry + 1

/-- The loop `for(i=0;l[i];i++) j += (item_size) ? item_size : strlen(l[i]) + 1;` of
`list_size`, on the entries that are left. -/
def list_size_loop (item_size : Nat) : List (List Nat) → Nat → Nat
  | [], j => j
  | entry :: rest, j => list_size_loop item_size rest (j + entry_size item_size entry)

/-- `static int list_size(char** l, int item_size)`. -/
def list_size (Y : Layout) (l : Option (List (List Nat))) (item_size : Nat) : Nat :=
  match l with
  | some l => list_size_loop item_size l 0 + (l.length + 1) * Y.sizeof_ptr
  | none => 0

/-- The loop `for(i=0;i<j;i++)` of `list_dup`: `n` iterations are left, the next index is
`i`, `p` is the offset the next entry is copied to.  It gives the buffer and `p` after
the loop. -/
def list_dup_loop (Y : Layout) (l_src : List (List Nat)) (ref : Nat) (base : Int)
    (item_size : Nat) : Nat → Nat → Mem → Nat → Mem × Nat
  | 0, _, m, p => (m, p)
  | n + 1, i, m, p =>
    let m := store_ptr Y.sizeof_ptr m (ref + i * Y.sizeof_ptr) (base + ((p : Int) - (ref : Int)))
    let k := entry_size item_size (l_src.getD i [])
    let m := store_bytes m p (read_bytes (l_src.getD i []) k)
    list_dup_loop Y l_src ref base item_size n (i + 1) m (p + k)

/-- `static int list_dup(char** l_src, char* ref, char* base, int item_size)`, with `ref`
given as an offset into the buffer: the returned value and the buffer after the call;
`none` when `l_src` is `NULL` (the count loop reads through it). -/
def list_dup (Y : Layout) (l_src : Option (List (List Nat))) (m : Mem) (ref : Nat)
    (base : Int) (item_size : Nat) : Option (Nat × Mem) :=
  match l_src with
  | none => none
  | some l =>
    let j := l.length
    let p := ref + (j + 1) * Y.sizeof_ptr
    let (m, p) := list_dup_loop Y l ref base item_size j 0 m p
    let m := store_ptr Y.sizeof_ptr m (ref + j * Y.sizeof_ptr) 0
    some (p - ref, m)

/-- `static int hostent_size(struct hostent* p_he)`. -/
def hostent_size (Y : Layout) (p_he : Option hostent) : Nat :=
  match p_he with
  | some he =>
    Y.sizeof_hostent + (strlen he.h_name + 1) + list_size Y he.h_aliases 0
      + list_size Y he.h_addr_list he.h_length
  | none => 0

/-- The fixed part of the flattened record (`struct ws_hostent16` or `struct ws_hostent32`):
the three pointer fields and the two 16-bit fields. -/
structure ws_hostent where
  h_name : Int
  h_aliases : Int
  h_addrtype : Int
  h_length : Int
  h_addr_list : Int
deriving DecidableEq, Repr

/-- The conversion of an `int` to `INT16`. -/
def to_INT16 (x : Int) : Int := (x + 32768) % 65536 - 32768

/-- The scratch buffer `he_buffer`: its linear address, its segmented address
(`SEGPTR_GET`), the fixed part of the record at its start and the cells of the buffer by
offset. -/
structure HeBuffer where
  addr : Int
  segptr : Int
  header : ws_hostent
  mem : Mem

/-- A block as `SEGPTR_ALLOC` hands it out: nothing written to its cells yet. -/
def HeBuffer.fresh (addr segptr : Int) : HeBuffer :=
  { addr := addr, segptr := segptr,
    header := { h_name := 0, h_aliases := 0, h_addrtype := 0, h_length := 0, h_addr_list := 0 },
    mem := fun _ => Cell.undef }

/-- The static variables `he_buffer` (`none` is `NULL`) and `he_len`. -/
structure HeState where
  he_buffer : Option HeBuffer
  he_len : Nat

/-- `static struct ws_hostent* check_buffer_he(int size)`.  `alloc` answers `SEGPTR_ALLOC`:
`none` when the allocation fails, otherwise the linear and the segmented address of the
new block, whose cells are not initialised. -/
def check_buffer_he (alloc : Nat → Option (Int × Int)) (st : HeState) (size : Nat) : HeState :=
  let fresh : HeState :=
    { he_buffer := (alloc size).map (fun a => HeBuffer.fresh a.1 a.2),
      he_len := size }
  match st.he_buffer with
  | some _ => if st.he_len ≥ size then st else fresh
  | none => fresh

/-- The value of `p_base` in `WS_dup_he`: `NULL` with `WS_DUP_OFFSET`, the segmented address
of the buffer with `WS_DUP_SEGPTR`, the buffer itself otherwise. -/
def dup_base (flag : Nat) (buf : HeBuffer) : Int :=
  if flag &&& WS_DUP_OFFSET ≠ 0 then 0
  else if flag &&& WS_DUP_SEGPTR ≠ 0 then buf.segptr
  else buf.addr

/-- The size of the fixed part `WS_dup_he` skips: `sizeof(struct ws_hostent16)` with
`WS_DUP_SEGPTR`, `sizeof(struct ws_hostent32)` otherwise. -/
def dup_header_size (Y : Layout) (flag : Nat) : Nat :=
  if flag &&& WS_DUP_SEGPTR ≠ 0 then Y.sizeof_ws_hostent16 else Y.sizeof_ws_hostent32

/-- `int WS_dup_he(struct hostent* p_he, int flag)`: the returned size and the static
variables after the call; `none` when the call faults (a write through a `NULL`
`he_buffer`, a read through a `NULL` list).  Sizes are natural numbers: the `int`
arithmetic of the source is taken not to overflow. -/
def WS_dup_he (Y : Layout) (alloc : Nat → Option (Int × Int)) (st : HeState)
    (p_he : Option hostent) (flag : Nat) : Option (Nat × HeState) :=
  let size := hostent_size Y p_he
  match p_he with
  | none => some (size, st)
  | some he =>
    if size ≠ 0 then
      let st := check_buffer_he alloc st size
      match st.he_buffer with
      | none => none
      | some buf =>
        let p_base := dup_base flag buf
        let p := dup_header_size Y flag
        let p_name := p
        let m := store_bytes buf.mem p (cstr he.h_name ++ [0])
        let p := p + (strlen he.h_name + 1)
        let p_aliases := p
        match list_dup Y he.h_aliases m p (p_base + (p : Int)) 0 with
        | none => none
        | some (n, m) =>
          let p := p + n
          let p_addr := p
          match list_dup Y he.h_addr_list m p (p_base + (p : Int)) he.h_length with
          | none => none
          | some (_, m) =>
            let header : ws_hostent :=
              { h_addrtype := to_INT16 he.h_addrtype,
                h_length := to_INT16 he.h_length,
                h_name := p_base + (p_name : Int),
                h_aliases := p_base + (p_aliases : Int),
                h_addr_list := p_base + (p_addr : Int) }
            let size := size + dup_header_size Y flag - Y.sizeof_hostent
            some (size, { st with he_buffer := some { buf with header := header, mem := m } })
    else some (size, st)

/-- The bytes the entries of a list take when copied: the sum of their `entry_size`. -/
def entries_size (item_size : Nat) (l : List (List Nat)) : Nat :=
  (l.map (entry_size item_size)).sum

/-- An allocator that always succeeds, at linear address 0x40001000 and segmented address
0x10570000. -/
def alloc_ok : Nat → Option (Int × Int) := fun _ => some (0x40001000, 0x10570000)

/-- An allocator that always fails. -/
def alloc_fails : Nat → Option (Int × Int) := fun _ => none

/-- The static variables before the first call: no buffer yet. -/
def HeState.init : HeState := { he_buffer := none, he_len := 0 }

/-- The offset at which `WS_dup_he` puts the alias pointer array: after the fixed part and
the name with its NUL. -/
def aliases_offset (Y : Layout) (flag : Nat) (name : List Nat) : Nat :=
  dup_header_size Y flag + (strlen name + 1)

/-- The offset at which `WS_dup_he` puts the address pointer array: after the alias pointer
array and the alias strings. -/
def addr_list_offset (Y : Layout) (flag : Nat) (name : List Nat) (aliases : List (List Nat)) :
    Nat :=
  aliases_offset Y flag name + ((aliases.length + 1) * Y.sizeof_ptr + entries_size 0 aliases)

/-- The host `quiet_host`, except that `select` fails with `EINTR` (4 on Linux) and leaves
the sets as they are not looked at afterwards. -/
def select_fails_host : Host :=
  { quiet_host with
    select := fun _ _ _ _ _ _ =>
      { ret := -1, errno := 4, readfds := [], writefds := [], exceptfds := [] } }

/-! ## Protocol records (`protoent_size`, `check_buffer_pe`, `WS_dup_pe`) -/

/-- The sizes of the C types `WS_dup_pe` computes with (their headers are not among the
sources): `sizeof(struct protoent)` of the host, `sizeof(struct ws_protoent16)` and
`sizeof(struct ws_protoent32)`. -/
structure PeLayout where
  sizeof_protoent : Nat
  sizeof_ws_protoent16 : Nat
  sizeof_ws_protoent32 : Nat
deriving DecidableEq, Repr

/-- The sizes on 32-bit x86 Linux: a 12-byte host `struct protoent`, a packed 10-byte
16-bit record and a 12-byte 32-bit record. -/
def x86_pe_layout : PeLayout :=
  { sizeof_protoent := 12, sizeof_ws_protoent16 := 10, sizeof_ws_protoent32 := 12 }

/-- A host `struct protoent`.  `p_aliases` is `none` for a `NULL` pointer and otherwise the
entries of the `NULL`-terminated array, each entry given by the bytes it points to. -/
structure protoent where
  p_name : List Nat
  p_aliases : Option (List (List Nat))
  p_proto : Int
deriving DecidableEq, Repr

/-- `static int protoent_size(struct protoent* p_pe)`. -/
def protoent_size (Y : Layout) (Z : PeLayout) (p_pe : Option protoent) : Nat :=
  match p_pe with
  | some pe => Z.sizeof_protoent + (strlen pe.p_name + 1) + list_size Y pe.p_aliases 0
  | none => 0

/-- The fixed part of the flattened record (`struct ws_protoent16` or
`struct ws_protoent32`): the two pointer fields and the 16-bit protocol number. -/
structure ws_protoent where
  p_name : Int
  p_aliases : Int
  p_proto : Int
deriving DecidableEq, Repr

/-- The scratch buffer `pe_buffer`: its linear address, its segmented address
(`SEGPTR_GET`), the fixed part of the record at its start and the cells of the buffer by
offset. -/
structure PeBuffer where
  addr : Int
  segptr : Int
  header : ws_protoent
  mem : Mem

/-- A block as `SEGPTR_ALLOC` hands it out: nothing written to its cells yet. -/
def PeBuffer.fresh (addr segptr : Int) : PeBuffer :=
  { addr := addr, segptr := segptr,
    header := { p_name := 0, p_aliases := 0, p_proto := 0 },
    mem := fun _ => Cell.undef }

/-- The static variables `pe_buffer` (`none` is `NULL`) and `pe_len`. -/
structure PeState where
  pe_buffer : Option PeBuffer
  pe_len : Nat

/-- `static struct ws_protoent* check_buffer_pe(int size)`.  `alloc` answers
`SEGPTR_ALLOC`: `none` when the allocation fails, otherwise the linear and the segmented
address of the new block. -/
def check_buffer_pe (alloc : Nat → Option (Int × Int)) (st : PeState) (size : Nat) : PeState :=
  let fresh : PeState :=
    { pe_buffer := (alloc size).map (fun a => PeBuffer.fresh a.1 a.2),
      pe_len := size }
  match st.pe_buffer with
  | some _ => if st.pe_len ≥ size then st else fresh
  | none => fresh

/-- The value of `p_base` in `WS_dup_pe`: `NULL` with `WS_DUP_OFFSET`, the segmented address
of the buffer with `WS_DUP_SEGPTR`, the buffer itself otherwise. -/
def dup_base_pe (flag : Nat) (buf : PeBuffer) : Int :=
  if flag &&& WS_DUP_OFFSET ≠ 0 then 0
  else if flag &&& WS_DUP_SEGPTR ≠ 0 then buf.segptr
  else buf.addr

/-- The size of the fixed part `WS_dup_pe` skips: `sizeof(struct ws_protoent16)` with
`WS_DUP_SEGPTR`, `sizeof(struct ws_protoent32)` otherwise. -/
def dup_header_size_pe (Z : PeLayout) (flag : Nat) : Nat :=
  if flag &&& WS_DUP_SEGPTR ≠ 0 then Z.sizeof_ws_protoent16 else Z.sizeof_ws_protoent32

/-- `int WS_dup_pe(struct protoent* p_pe, int flag)`: the returned size and the static
variables after the call; `none` when the call faults (a write through a `NULL`
`pe_buffer`, a read through a `NULL` alias list).  Sizes are natural numbers: the `int`
arithmetic of the source is taken not to overflow. -/
def WS_dup_pe (Y : Layout) (Z : PeLayout) (alloc : Nat → Option (Int × Int)) (st : PeState)
    (p_pe : Option protoent) (flag : Nat) : Option (Nat × PeState) :=
  let size := protoent_size Y Z p_pe
  match p_pe with
  | none => some (size, st)
  | some pe =>
    if size ≠ 0 then
      let st := check_buffer_pe alloc st size
      match st.pe_buffer with
      | none => none
      | some buf =>
        let p_base := dup_base_pe flag buf
        let p := dup_header_size_pe Z flag
        let p_name := p
        let m := store_bytes buf.mem p (cstr pe.p_name ++ [0])
        let p := p + (strlen pe.p_name + 1)
        let p_aliases := p
        match list_dup Y pe.p_aliases m p (p_base + (p : Int)) 0 with
        | none => none
        | some (_, m) =>
          let header : ws_protoent :=
            { p_proto := to_INT16 pe.p_proto,
              p_name := p_base + (p_name : Int),
              p_aliases := p_base + (p_aliases : Int) }
          let size := size + dup_header_size_pe Z flag - Z.sizeof_protoent
          some (size, { st with pe_buffer := some { buf with header := header, mem := m } })
    else some (size, st)

/-- The static variables of `check_buffer_pe` before the first call: no buffer yet. -/
def PeState.init : PeState := { pe_buffer := none, pe_len := 0 }

/-! ## Socket state requests and the blocking wait (`_is_blocking`, `_get_sock_mask`,
`_sync_sock_state`, `_get_sock_error`, `set_error`, `do_block`) -/

/-- Modelled from the spec: further bits and values of the handle server protocol and of
`winsock.h` (not among the sources): the state bits for read and write readiness, the bit
that marks events for the service thread, the bit numbers of `FD_ACCEPT` and `FD_CONNECT`,
and the handle value `INVALID_SOCKET` (`~0` as a 32-bit `SOCKET`). -/
def WS_FD_READ : Nat := FD_READ
def WS_FD_WRITE : Nat := FD_WRITE
def WS_FD_SERVEVENT : Nat := 0x01000000
def FD_ACCEPT_BIT : Nat := 3
def FD_CONNECT_BIT : Nat := 4
def INVALID_SOCKET : Int := 4294967295

/-- The `get_socket_event` request as `_is_blocking`, `_get_sock_mask` and `_get_sock_error`
send it: `service = FALSE`, `s_event = 0`, `c_event = 0`. -/
def get_socket_event (S : Host) (w : World) (s : Int) : SocketEvent × World :=
  (S.get_socket_event w.trace s false 0 0, w.call (Call.get_socket_event s false 0 0))

/-- `static int _is_blocking(SOCKET s)`: whether `WS_FD_NONBLOCKING` is clear in the state
the handle server reports. -/
def _is_blocking (S : Host) (w : World) (s : Int) : Bool × World :=
  let (r, w) := get_socket_event S w s
  (decide (r.state &&& WS_FD_NONBLOCKING = 0), w)

/-- `static unsigned int _get_sock_mask(SOCKET s)`. -/
def _get_sock_mask (S : Host) (w : World) (s : Int) : Nat × World :=
  let (r, w) := get_socket_event S w s
  (r.mask, w)

/-- `static void _sync_sock_state(SOCKET s)`: a dummy request, `(void)_is_blocking(s)`. -/
def _sync_sock_state (S : Host) (w : World) (s : Int) : World :=
  (_is_blocking S w s).2

/-- `static int _get_sock_error(SOCKET s, unsigned int bit)`: entry `bit` of the reply
data. -/
def _get_sock_error (S : Host) (w : World) (s : Int) (bit : Nat) : Nat × World :=
  let (r, w) := get_socket_event S w s
  (r.errors.getD bit 0, w)

/-- `inline static unsigned int set_error( unsigned int err )`: a status that is not 0 is
stored as last error, mapped by `RtlNtStatusToDosError` unless it lies in the range of the
WSA codes. -/
def set_error (S : Host) (w : World) (err : Nat) : Nat × World :=
  if err ≠ 0 then
    let err := if err < WSABASEERR ∨ err ≥ 0x10000000 then S.RtlNtStatusToDosError err else err
    (err, SetLastError w err)
  else (err, w)

/-- `static int do_block( int fd, int mask )`: `fd` is put into the read, write and
exception set as bits 0, 1, 2 of `mask` say, the host `select` is called on the three sets
with descriptor bound `fd+1` and no timeout; the result is -1 when `select` returns 0 or
less and otherwise the bits of the sets `fd` is left in.  The two loops over `i = 0, 1, 2`
are written out. -/
def do_block (S : Host) (w : World) (fd : Int) (mask : Nat) : Int × World :=
  let fds0 := if mask &&& (1 <<< 0) ≠ 0 then FD_SET fd FD_ZERO else FD_ZERO
  let fds1 := if mask &&& (1 <<< 1) ≠ 0 then FD_SET fd FD_ZERO else FD_ZERO
  let fds2 := if mask &&& (1 <<< 2) ≠ 0 then FD_SET fd FD_ZERO else FD_ZERO
  let r := S.select w.trace (fd + 1) (some fds0) (some fds1) (some fds2) none
  let w : World :=
    { w.call (Call.select (fd + 1) (some fds0) (some fds1) (some fds2) none) with
      errno := r.errno }
  if r.ret ≤ 0 then (-1, w)
  else
    let b0 : Nat := if FD_ISSET fd r.readfds then 1 <<< 0 else 0
    let b1 : Nat := if FD_ISSET fd r.writefds then 1 <<< 1 else 0
    let b2 : Nat := if FD_ISSET fd r.exceptfds then 1 <<< 2 else 0
    (((b0 ||| b1 ||| b2 : Nat) : Int), w)

/-! ## `recv`, `recvfrom`, `send`, `sendto` -/

/-- The address family constants and socket address sizes of the two sides (`winsock.h`
and the host headers are not among the sources).  `AF_IPX` is `some` on a host where
`HAVE_IPX` is defined. -/
structure AddrFamilies where
  WS_AF_PUP : Int
  WS_AF_IPX : Int
  AF_UNSPEC : Int
  AF_INET : Int
  AF_IPX : Option Int
  sizeof_sockaddr : Int
  sizeof_sockaddr_ipx : Int
deriving DecidableEq, Repr

/-- The values on Linux with IPX support. -/
def linux_families : AddrFamilies :=
  { WS_AF_PUP := 4, WS_AF_IPX := 6, AF_UNSPEC := 0, AF_INET := 2, AF_IPX := some 4,
    sizeof_sockaddr := 16, sizeof_sockaddr_ipx := 16 }

/-- The conversion of the caller's address with which `bind`, `connect` and `sendto` start.
An address is given by its family field (`none` for a `NULL` pointer).  `WS_AF_PUP` is
overwritten with `AF_UNSPEC`; with `HAVE_IPX` a `WS_AF_IPX` address is replaced by a host
`struct sockaddr_ipx` (from `malloc`, taken to succeed) and the length by its size. -/
def convert_sockaddr (A : AddrFamilies) (name : Option Int) (namelen : Int) :
    Option Int × Int :=
  if name = some A.WS_AF_PUP then (some A.AF_UNSPEC, namelen)
  else
    match A.AF_IPX with
    | some af_ipx =>
      if name = some A.WS_AF_IPX then (some af_ipx, A.sizeof_sockaddr_ipx) else (name, namelen)
    | none => (name, namelen)

/-- `INT WINAPI WSOCK32_recv(SOCKET s, char *buf, INT len, INT flags)`. -/
def WSOCK32_recv (S : Host) (E : HostErrno) (w : World) (s len flags : Int) : Int × World :=
  let (fd, w) := _get_sock_fd S w s
  if fd ≠ -1 then
    let (blocking, w) := _is_blocking S w s
    let w := if blocking then (do_block S w fd 1).2 else w
    let r := S.host w.trace HostFn.recv fd none [len, flags]
    let w : World := { w.call (Call.host HostFn.recv fd none [len, flags]) with errno := r.errno }
    if r.ret ≥ 0 then
      let w := close w fd
      let w := _enable_event w s FD_READ 0 0
      (r.ret, w)
    else
      let w := SetLastError w (wsaErrno E w.errno)
      let w := close w fd
      (SOCKET_ERROR, w)
  else
    let w := SetLastError w WSAENOTSOCK
    (SOCKET_ERROR, w)

/-- `INT WINAPI WSOCK32_recvfrom(SOCKET s, char *buf, INT len, INT flags,
struct sockaddr *from, INT *fromlen32)`.  The conversions of a received IPX address
(`HAVE_IPX`) rewrite the caller's buffer and make no call. -/
def WSOCK32_recvfrom (S : Host) (E : HostErrno) (w : World) (s len flags : Int)
    (sa_from : Option Int) : Int × World :=
  let (fd, w) := _get_sock_fd S w s
  if fd ≠ -1 then
    let (blocking, w) := _is_blocking S w s
    let w := if blocking then (do_block S w fd 1).2 else w
    let r := S.host w.trace HostFn.recvfrom fd sa_from [len, flags]
    let w : World :=
      { w.call (Call.host HostFn.recvfrom fd sa_from [len, flags]) with errno := r.errno }
    if r.ret ≥ 0 then
      let w := close w fd
      let w := _enable_event w s FD_READ 0 0
      (r.ret, w)
    else
      let w := SetLastError w (wsaErrno E w.errno)
      let w := close w fd
      (SOCKET_ERROR, w)
  else
    let w := SetLastError w WSAENOTSOCK
    (SOCKET_ERROR, w)

/-- `INT WINAPI WSOCK32_send(SOCKET s, char *buf, INT len, INT flags)`. -/
def WSOCK32_send (S : Host) (E : HostErrno) (w : World) (s len flags : Int) : Int × World :=
  let (fd, w) := _get_sock_fd S w s
  if fd ≠ -1 then
    let (blocking, w) := _is_blocking S w s
    let w := if blocking then (do_block S w fd 2).2 else w
    let r := S.host w.trace HostFn.send fd none [len, flags]
    let w : World := { w.call (Call.host HostFn.send fd none [len, flags]) with errno := r.errno }
    if r.ret < 0 then
      let w := SetLastError w (wsaErrno E w.errno)
      let w := if w.last_error = WSAEWOULDBLOCK then _enable_event w s FD_WRITE 0 0 else w
      let w := close w fd
      (SOCKET_ERROR, w)
    else
      let w := close w fd
      (r.ret, w)
  else
    let w := SetLastError w WSAENOTSOCK
    (SOCKET_ERROR, w)

/-- `INT WINAPI WSOCK32_sendto(SOCKET s, char *buf, INT len, INT flags, struct sockaddr *to,
INT tolen)`. -/
def WSOCK32_sendto (S : Host) (E : HostErrno) (A : AddrFamilies) (w : World)
    (s len flags : Int) (sa_to : Option Int) (tolen : Int) : Int × World :=
  let (fd, w) := _get_sock_fd S w s
  if fd ≠ -1 then
    let (sa_to, tolen) := convert_sockaddr A sa_to tolen
    let (blocking, w) := _is_blocking S w s
    let w := if blocking then (do_block S w fd 2).2 else w
    let r := S.host w.trace HostFn.sendto fd sa_to [len, flags, tolen]
    let w : World :=
      { w.call (Call.host HostFn.sendto fd sa_to [len, flags, tolen]) with errno := r.errno }
    if r.ret < 0 then
      let w := SetLastError w (wsaErrno E w.errno)
      let w := if w.last_error = WSAEWOULDBLOCK then _enable_event w s FD_WRITE 0 0 else w
      let w := close w fd
      (SOCKET_ERROR, w)
    else
      let w := close w fd
      (r.ret, w)
  else
    let w := SetLastError w WSAENOTSOCK
    (SOCKET_ERROR, w)

/-- The host `quiet_host`, except that the readiness wait is interrupted (`select` fails with
`EINTR`, 4 on Linux) and the calls of `HostFn` fail with `EWOULDBLOCK` (11 on Linux); the
sockets are in blocking mode. -/
def interrupted_wait_host : Host :=
  { quiet_host with
    select := fun _ _ _ _ _ _ =>
      { ret := -1, errno := 4, readfds := [], writefds := [], exceptfds := [] }
    host := fun _ _ _ _ _ => { ret := -1, errno := 11 } }

/-- The host `quiet_host`, except that every socket is in non-blocking mode and the calls of
`HostFn` fail with `EWOULDBLOCK` (11 on Linux). -/
def would_block_host : Host :=
  { quiet_host with
    get_socket_event := fun _ _ _ _ _ =>
      { status := 0, mask := 0, pmask := 0, state := WS_FD_NONBLOCKING, errors := [] }
    host := fun _ _ _ _ _ => { ret := -1, errno := 11 } }

/-! ## `accept`, `bind`, `connect`, `getpeername`, `getsockname`, `ioctlsocket` -/

/-- `#define WS_ACCEPT_QUEUE 6`. -/
def WS_ACCEPT_QUEUE : Nat := 6

/-- The static arrays `accept_old` and `accept_new` (`WS_ACCEPT_QUEUE` entries each). -/
structure AcceptQueue where
  accept_old : List Int
  accept_new : List Int
deriving DecidableEq, Repr

/-- The loop `for (q=0; q<WS_ACCEPT_QUEUE; q++) if (InterlockedCompareExchange(
&accept_old[q], s, 0) == 0) break;` of `WSOCK32_async_accept`: `n` iterations are left
and the next index is `q`.  It gives the value of `q` when the loop stops and the array
`accept_old`. -/
def async_accept_scan (s : Int) : Nat → Nat → List Int → Nat × List Int
  | 0, q, accept_old => (q, accept_old)
  | n + 1, q, accept_old =>
    if accept_old.getD q 0 = 0 then (q, accept_old.set q s)
    else async_accept_scan s n (q + 1) accept_old

/-- `static void WSOCK32_async_accept(SOCKET s, SOCKET as)`. -/
def WSOCK32_async_accept (w : World) (Q : AcceptQueue) (s as : Int) : World × AcceptQueue :=
  let (q, accept_old) := async_accept_scan s WS_ACCEPT_QUEUE 0 Q.accept_old
  let Q : AcceptQueue :=
    if q < WS_ACCEPT_QUEUE then
      { accept_old := accept_old, accept_new := Q.accept_new.set q as }
    else
      { Q with accept_old := accept_old }
  (_enable_event w s WS_FD_SERVEVENT 0 0, Q)

/-- `SOCKET WINAPI WSOCK32_accept(SOCKET s, struct sockaddr *addr, INT *addrlen32)`: the
returned handle, the world and the accept queue after the call.  The conversion of a
received IPX address (`HAVE_IPX`) rewrites the caller's buffer and makes no call. -/
def WSOCK32_accept (S : Host) (E : HostErrno) (w : World) (Q : AcceptQueue) (s : Int)
    (addr : Option Int) : Int × World × AcceptQueue :=
  let (fd, w) := _get_sock_fd S w s
  if fd ≠ -1 then
    let (blocking, w) := _is_blocking S w s
    let w :=
      if blocking then
        let w := (do_block S w fd 5).2
        let w := _sync_sock_state S w s
        let (err, w) := _get_sock_error S w s FD_ACCEPT_BIT
        SetLastError w err
      else w
    let w := close w fd
    let reply := S.accept_socket w.trace s
    let w := w.call (Call.accept_socket s)
    let w := (set_error S w reply.1).2
    let as := reply.2
    if as ≠ 0 then
      let (omask, w) := _get_sock_mask S w s
      let (fd, w) := _get_sock_fd S w as
      let r := S.host w.trace HostFn.getpeername fd addr []
      let w : World := { w.call (Call.host HostFn.getpeername fd addr []) with errno := r.errno }
      let w := if r.ret ≠ -1 then w else SetLastError w (wsaErrno E w.errno)
      let w := close w fd
      if omask &&& WS_FD_SERVEVENT ≠ 0 then
        let (w, Q) := WSOCK32_async_accept w Q s as
        (as, w, Q)
      else (as, w, Q)
    else (INVALID_SOCKET, w, Q)
  else (INVALID_SOCKET, w, Q)

/-- The request `_enable_event(s, FD_CONNECT|FD_READ|FD_WRITE, WS_FD_CONNECTED|WS_FD_READ|
WS_FD_WRITE, WS_FD_CONNECT|WS_FD_LISTENING)` at the label `connect_success` of
`WSOCK32_connect`, and the `return 0` after it. -/
def connect_success (w : World) (s : Int) : Int × World :=
  (0, _enable_event w s (FD_CONNECT ||| FD_READ ||| FD_WRITE)
        (WS_FD_CONNECTED ||| WS_FD_READ ||| WS_FD_WRITE) (WS_FD_CONNECT ||| WS_FD_LISTENING))

/-- `INT WINAPI WSOCK32_connect(SOCKET s, struct sockaddr *name, INT namelen)`. -/
def WSOCK32_connect (S : Host) (E : HostErrno) (A : AddrFamilies) (w : World) (s : Int)
    (name : Option Int) (namelen : Int) : Int × World :=
  let (fd, w) := _get_sock_fd S w s
  if fd ≠ -1 then
    let (name, namelen) := convert_sockaddr A name namelen
    let r := S.host w.trace HostFn.connect fd name [namelen]
    let w : World := { w.call (Call.host HostFn.connect fd name [namelen]) with errno := r.errno }
    if r.ret = 0 then
      let w := close w fd
      connect_success w s
    else if w.errno = E.EINPROGRESS then
      let w := _enable_event w s (FD_CONNECT ||| FD_READ ||| FD_WRITE)
        (WS_FD_CONNECT ||| WS_FD_READ ||| WS_FD_WRITE) (WS_FD_CONNECTED ||| WS_FD_LISTENING)
      let (blocking, w) := _is_blocking S w s
      if blocking then
        let w := (do_block S w fd 7).2
        let w := _sync_sock_state S w s
        let (result, w) := _get_sock_error S w s FD_CONNECT_BIT
        if result ≠ 0 then
          let w := SetLastError w result
          let w := close w fd
          (SOCKET_ERROR, w)
        else
          let w := close w fd
          connect_success w s
      else
        let w := SetLastError w WSAEWOULDBLOCK
        let w := close w fd
        (SOCKET_ERROR, w)
    else
      let w := SetLastError w (wsaErrno E w.errno)
      let w := close w fd
      (SOCKET_ERROR, w)
  else (SOCKET_ERROR, w)

/-- The ioctl codes of the two sides (`winsock.h` and the host headers are not among the
sources): the Windows codes `WS_FIONREAD`, `WS_FIONBIO`, `WS_SIOCATMARK`,
`WS_IOW('f',125,u_long)` and `SIO_GET_INTERFACE_LIST`, and the host codes. -/
structure IoctlCodes where
  WS_FIONREAD : Int
  WS_FIONBIO : Int
  WS_SIOCATMARK : Int
  WS_IOW_f_125 : Int
  SIO_GET_INTERFACE_LIST : Int
  FIONREAD : Int
  FIONBIO : Int
  SIOCATMARK : Int
  SIOCGIFADDR : Int
  SIOCGIFBRDADDR : Int
  SIOCGIFNETMASK : Int
  SIOCGIFFLAGS : Int
deriving DecidableEq, Repr

/-- The codes on Linux (the Windows codes as 32-bit patterns read as `LONG`). -/
def linux_ioctls : IoctlCodes :=
  { WS_FIONREAD := 0x4004667f, WS_FIONBIO := 0x8004667e - 0x100000000,
    WS_SIOCATMARK := 0x40047307, WS_IOW_f_125 := 0x8004667d - 0x100000000,
    SIO_GET_INTERFACE_LIST := 0x4004747f,
    FIONREAD := 0x541b, FIONBIO := 0x5421, SIOCATMARK := 0x8905,
    SIOCGIFADDR := 0x8915, SIOCGIFBRDADDR := 0x8919, SIOCGIFNETMASK := 0x891b,
    SIOCGIFFLAGS := 0x8913 }

/-- The end of `WSOCK32_ioctlsocket`: the host `ioctl` with `newcmd`. -/
def ioctlsocket_forward (S : Host) (E : HostErrno) (w : World) (fd newcmd : Int) :
    Int × World :=
  let r := S.host w.trace HostFn.ioctl fd none [newcmd]
  let w : World := { w.call (Call.host HostFn.ioctl fd none [newcmd]) with errno := r.errno }
  if r.ret = 0 then
    let w := close w fd
    (0, w)
  else
    let w := SetLastError w (if w.errno = E.EBADF then WSAENOTSOCK else wsaErrno E w.errno)
    let w := close w fd
    (SOCKET_ERROR, w)

/-- `INT WINAPI WSOCK32_ioctlsocket(SOCKET s, LONG cmd, ULONG *argp)`: `argp` is `none` for
`NULL` and the value pointed to otherwise; the result is `none` when the call faults on
reading `*argp` through `NULL`.  The cases `SIOCGIFBRDADDR`, `SIOCGIFNETMASK`,
`SIOCGIFADDR` and `default` all leave `newcmd = cmd`. -/
def WSOCK32_ioctlsocket (S : Host) (E : HostErrno) (I : IoctlCodes) (w : World)
    (s cmd : Int) (argp : Option Nat) : Option (Int × World) :=
  let (fd, w) := _get_sock_fd S w s
  if fd ≠ -1 then
    if cmd = I.WS_FIONREAD then some (ioctlsocket_forward S E w fd I.FIONREAD)
    else if cmd = I.WS_FIONBIO then
      let (mask, w) := _get_sock_mask S w s
      if mask ≠ 0 then
        match argp with
        | none => none
        | some arg =>
          if arg ≠ 0 then
            let w := close w fd
            some (0, w)
          else
            let w := SetLastError w WSAEINVAL
            let w := close w fd
            some (SOCKET_ERROR, w)
      else
        let w := close w fd
        match argp with
        | none => none
        | some arg =>
          if arg ≠ 0 then some (0, _enable_event w s 0 WS_FD_NONBLOCKING 0)
          else some (0, _enable_event w s 0 0 WS_FD_NONBLOCKING)
    else if cmd = I.WS_SIOCATMARK then some (ioctlsocket_forward S E w fd I.SIOCATMARK)
    else if cmd = I.WS_IOW_f_125 then
      let w := SetLastError w WSAEINVAL
      some (SOCKET_ERROR, w)
    else some (ioctlsocket_forward S E w fd cmd)
  else some (SOCKET_ERROR, w)

/-! ## `WSAEventSelect`, `WSAAsyncSelect`, `shutdown` -/

/-- `int WINAPI WSAEventSelect(SOCKET s, WSAEVENT hEvent, LONG lEvent)`: the
`set_socket_event` request. -/
def WSAEventSelect (S : Host) (w : World) (s hEvent lEvent : Int) : Int × World :=
  let ret := S.set_socket_event w.trace s lEvent hEvent
  let w := w.call (Call.set_socket_event s lEvent hEvent)
  if ret = 0 then (0, w)
  else
    let w := SetLastError w WSAEINVAL
    (SOCKET_ERROR, w)

/-- `INT WINAPI WSAAsyncSelect(SOCKET s, HWND hWnd, UINT uMsg, LONG lEvent)`.  The event
mask `lEvent` is given as the natural number of its bit pattern.  The fields written into
the block `info` are not kept. -/
def WSAAsyncSelect (S : Host) (w : World) (s _hWnd _uMsg : Int) (lEvent : Nat) : Int × World :=
  let (fd, w) := _get_sock_fd S w s
  if fd ≠ -1 then
    let w := close w fd
    if lEvent ≠ 0 then
      let p_info := S.WS_ALLOC w.trace
      let w := w.call Call.WS_ALLOC
      match p_info with
      | some info =>
        let hObj := S.CreateEventA w.trace
        let w := w.call Call.CreateEventA
        let service := S.SERVICE_AddObject w.trace hObj info
        let w := w.call (Call.SERVICE_AddObject hObj info)
        let (err, w) := WSAEventSelect S w s hObj ((lEvent ||| WS_FD_SERVEVENT : Nat) : Int)
        if err ≠ 0 then
          let w := w.call (Call.SERVICE_Delete service)
          let w := w.call (Call.WS_FREE info)
          (err, w)
        else (0, w)
      | none =>
        let w := SetLastError w WSAENOBUFS
        (SOCKET_ERROR, w)
    else
      let w := (WSAEventSelect S w s 0 0).2
      (0, w)
  else
    let w := SetLastError w WSAEINVAL
    (SOCKET_ERROR, w)

/-- The host constants `SHUT_RD`, `SHUT_WR` and `SHUT_RDWR`, each `none` on a host that does
not define it. -/
structure HostShut where
  SHUT_RD : Option Int
  SHUT_WR : Option Int
  SHUT_RDWR : Option Int
deriving DecidableEq, Repr

/-- The values on Linux. -/
def linux_shut : HostShut := { SHUT_RD := some 0, SHUT_WR := some 1, SHUT_RDWR := some 2 }

/-- `INT WINAPI WSOCK32_shutdown(SOCKET s, INT how)`. -/
def WSOCK32_shutdown (S : Host) (E : HostErrno) (H : HostShut) (w : World) (s how : Int) :
    Int × World :=
  let (fd, w) := _get_sock_fd S w s
  if fd ≠ -1 then
    let (how, w) : Int × World :=
      if how = 0 then
        let w := _enable_event w s 0 0 WS_FD_READ
        (H.SHUT_RD.getD how, w)
      else if how = 1 then
        let w := _enable_event w s 0 0 WS_FD_WRITE
        (H.SHUT_WR.getD how, w)
      else
        let how := if how = 2 then H.SHUT_RDWR.getD how else how
        let w := (WSAAsyncSelect S w s 0 0 0).2
        (how, w)
    let r := S.host w.trace HostFn.shutdown fd none [how]
    let w : World := { w.call (Call.host HostFn.shutdown fd none [how]) with errno := r.errno }
    if r.ret = 0 then
      let w := if how > 1 then _enable_event w s 0 0 (WS_FD_CONNECTED ||| WS_FD_LISTENING) else w
      let w := close w fd
      (0, w)
    else
      let w := SetLastError w (wsaErrno E w.errno)
      let w := close w fd
      (SOCKET_ERROR, w)
  else
    let w := SetLastError w WSAENOTSOCK
    (SOCKET_ERROR, w)

/-! ## `WSAIoctl` and the interface list of `/proc/net/dev` -/

/-- The C function `isspace` in the C locale. -/
def isspace (c : Nat) : Bool := decide (c = 32 ∨ (9 ≤ c ∧ c ≤ 13))

/-- The C function `isdigit`. -/
def isdigit (c : Nat) : Bool := decide (48 ≤ c ∧ c ≤ 57)

/-- `fgets(buf, sizeof(buf), procfs)`: the buffer and the rest of the stream after the call.
The stream is the list of the lines still to be read (each as `fgets` delivers it, without
the terminating NUL); at the end of the stream the buffer is left as it is. -/
def fgets (buf : List Nat) (stream : List (List Nat)) : List Nat × List (List Nat) :=
  match stream with
  | [] => (buf, [])
  | line :: rest => (line ++ [0], rest)

/-- The loop `while (fgets(buf, sizeof buf, procfs)) intcnt++;` of
`WSAIOCTL_GetInterfaceCount`. -/
def count_lines : List (List Nat) → Int → Int
  | [], intcnt => intcnt
  | _ :: rest, intcnt => count_lines rest (intcnt + 1)

/-- `int WSAIOCTL_GetInterfaceCount(void)`. -/
def WSAIOCTL_GetInterfaceCount (S : Host) (w : World) : Int × World :=
  let procfs := S.fopen_netdev w.trace
  let w := w.call Call.fopen_netdev
  match procfs with
  | none => (-1, w)
  | some stream =>
    let stream := (fgets [] stream).2
    let stream := (fgets [] stream).2
    (count_lines stream 0, w)

/-- The loop `for (i=0; i<intNumber; i++) fgets(buf, sizeof(buf), procfs);` of
`WSAIOCTL_GetInterfaceName`. -/
def skip_lines : Nat → List Nat → List (List Nat) → List Nat × List (List Nat)
  | 0, buf, stream => (buf, stream)
  | n + 1, buf, stream =>
    let (buf, stream) := fgets buf stream
    skip_lines n buf stream

/-- The loop `while (isspace(buf[i])) i++;` of `WSAIOCTL_GetInterfaceName`, with at most `n`
iterations left (a byte past the end of `buf` reads as 0, which is no space). -/
def skip_spaces (buf : List Nat) : Nat → Nat → Nat
  | 0, i => i
  | n + 1, i => if isspace (buf.getD i 0) then skip_spaces buf n (i + 1) else i

/-- The loop `while (isdigit(buf[i])) *intName++ = buf[i++];` of
`WSAIOCTL_GetInterfaceName`: it gives `i` and the output with its write position. -/
def copy_digits (buf : List Nat) : Nat → Nat → List Nat → Nat → Nat × List Nat × Nat
  | 0, i, out, p => (i, out, p)
  | n + 1, i, out, p =>
    if isdigit (buf.getD i 0) then copy_digits buf n (i + 1) (out.set p (buf.getD i 0)) (p + 1)
    else (i, out, p)

/-- The loop `while (buf[i])` of `WSAIOCTL_GetInterfaceName`, with at most `n` iterations
left: `out` is the memory at `intName` as first passed and `p` the offset of the moving
pointer.  The result is `false` when the loop ends in `return(FALSE)`, with the output and
the write position at that point. -/
def copy_name (buf : List Nat) : Nat → Nat → List Nat → Nat → Bool × List Nat × Nat
  | 0, _, out, p => (true, out, p)
  | n + 1, i, out, p =>
    if buf.getD i 0 = 0 then (true, out, p)
    else if isspace (buf.getD i 0) then (true, out, p)
    else if buf.getD i 0 = 58 then
      let hold := i
      let dotname := p
      let out := out.set p (buf.getD i 0)
      let (i, out, p) := copy_digits buf buf.length (i + 1) out (p + 1)
      let (i, p) := if buf.getD i 0 ≠ 58 then (hold, dotname) else (i, p)
      if buf.getD i 0 = 0 then (false, out, p)
      else (true, out, p)
    else copy_name buf n (i + 1) (out.set p (buf.getD i 0)) (p + 1)

/-- `int WSAIOCTL_GetInterfaceName(int intNumber, char *intName)`: the returned value and
the memory at `intName` after the call.  `buf0` is what the local array `buf` holds on
entry, `out` what the memory at `intName` holds (a write past its end is dropped). -/
def WSAIOCTL_GetInterfaceName (S : Host) (w : World) (intNumber : Nat) (buf0 out : List Nat) :
    Int × List Nat × World :=
  let procfs := S.fopen_netdev w.trace
  let w := w.call Call.fopen_netdev
  match procfs with
  | none => (-1, out, w)
  | some stream =>
    let (buf, stream) := fgets buf0 stream
    let (buf, stream) := fgets buf stream
    let (buf, stream) := skip_lines intNumber buf stream
    let buf := (fgets buf stream).1
    let i := skip_spaces buf buf.length 0
    let (named, out, p) := copy_name buf buf.length i out 0
    if named then (1, out.set p 0, w) else (0, out, w)

/-- An accept queue with all `WS_ACCEPT_QUEUE` slots free. -/
def AcceptQueue.init : AcceptQueue :=
  { accept_old := List.replicate WS_ACCEPT_QUEUE 0, accept_new := List.replicate WS_ACCEPT_QUEUE 0 }

/-! ## `socket` -/

/-- The host constants `SOCK_STREAM`, `SOCK_DGRAM`, `SOCK_RAW` and `IPPROTO_UDP`, which
`WSOCK32_socket` compares its arguments with (`IPPROTO_TCP` is in `HostSockOpts`). -/
structure HostSockTypes where
  SOCK_STREAM : Int
  SOCK_DGRAM : Int
  SOCK_RAW : Int
  IPPROTO_UDP : Int
deriving DecidableEq, Repr

/-- The values on Linux. -/
def linux_socktypes : HostSockTypes :=
  { SOCK_STREAM := 1, SOCK_DGRAM := 2, SOCK_RAW := 3, IPPROTO_UDP := 17 }

/-- The `switch(af)` of `WSOCK32_socket`: the value of `af` after it, `none` for the
`default` case.  With `HAVE_IPX` the case `WS_AF_IPX` sets `af = AF_IPX` and falls through
to the `break` of `AF_INET` and `AF_UNSPEC`. -/
def socket_family (A : AddrFamilies) (af : Int) : Option Int :=
  if A.AF_IPX ≠ none ∧ af = A.WS_AF_IPX then A.AF_IPX
  else if af = A.AF_INET ∨ af = A.AF_UNSPEC then some af
  else none

/-- The `switch(protocol)` that `WSOCK32_socket` runs when `af == AF_UNSPEC`: the value of
`af` after it, `none` for the `default` case.  The case `IPPROTO_TCP` has no `break` of its
own when the type is not `SOCK_STREAM`: control falls through into the case `IPPROTO_UDP`,
and from there into `default`. -/
def socket_infer_family (C : HostSockOpts) (A : AddrFamilies) (T : HostSockTypes)
    (type protocol : Int) : Option Int :=
  if protocol = C.IPPROTO_TCP then
    if type = T.SOCK_STREAM then some A.AF_INET
    else if type = T.SOCK_DGRAM then some A.AF_INET
    else none
  else if protocol = T.IPPROTO_UDP then
    if type = T.SOCK_DGRAM then some A.AF_INET
    else none
  else none

/-- `SOCKET WINAPI WSOCK32_socket(INT af, INT type, INT protocol)`. -/
def WSOCK32_socket (S : Host) (C : HostSockOpts) (A : AddrFamilies) (T : HostSockTypes)
    (w : World) (af type protocol : Int) : Int × World :=
  match socket_family A af with
  | none =>
    let w := SetLastError w WSAEAFNOSUPPORT
    (INVALID_SOCKET, w)
  | some af =>
    if ¬ (type = T.SOCK_STREAM ∨ type = T.SOCK_DGRAM ∨ type = T.SOCK_RAW) then
      let w := SetLastError w WSAESOCKTNOSUPPORT
      (INVALID_SOCKET, w)
    else if protocol < 0 then
      let w := SetLastError w WSAEPROTONOSUPPORT
      (INVALID_SOCKET, w)
    else
      match (if af = A.AF_UNSPEC then socket_infer_family C A T type protocol else some af) with
      | none =>
        let w := SetLastError w WSAEPROTOTYPE
        (INVALID_SOCKET, w)
      | some af =>
        let reply := S.create_socket w.trace af type protocol
        let w := w.call (Call.create_socket af type protocol)
        let w := (set_error S w reply.1).2
        let ret := reply.2
        if ret ≠ 0 then (ret, w)
        else
          let w := if w.last_error = WSAEACCES then SetLastError w WSAESOCKTNOSUPPORT else w
          (INVALID_SOCKET, w)

/-- Whether a call is a `create_socket` request. -/
def Call.is_create_socket : Call → Bool
  | Call.create_socket _ _ _ => true
  | _ => false

/-- The `create_socket` requests of a trace. -/
def create_socket_calls (tr : List Call) : List Call := tr.filter Call.is_create_socket

/-! ## `WSASend` -/

/-- The host constants `MSG_OOB` and `MSG_DONTROUTE`, which `WSASend` tests the flags of the
caller with. -/
structure HostMsgFlags where
  MSG_OOB : Nat
  MSG_DONTROUTE : Nat
deriving DecidableEq, Repr

/-- The values on Linux. -/
def linux_msgflags : HostMsgFlags := { MSG_OOB := 1, MSG_DONTROUTE := 4 }

/-- The conversion of a 32-bit unsigned value (`ULONG`, `DWORD`) to `INT`. -/
def as_INT (x : Nat) : Int :=
  if x % 4294967296 < 2147483648 then ((x % 4294967296 : Nat) : Int)
  else ((x % 4294967296 : Nat) : Int) - 4294967296

/-- The loop `for(dwCount = 0; dwCount < dwBufferCount; dwCount++ )` of `WSASend` on the
buffers that are left, each given by its field `len`: `rc` and `*lpNumberOfBytesSent` (a
`DWORD`) after the loop. -/
def WSASend_loop (S : Host) (E : HostErrno) (s iFlags : Int) :
    List Nat → Int → Nat → World → Int × Nat × World
  | [], rc, sent, w => (rc, sent, w)
  | len :: rest, _, sent, w =>
    let (rc, w) := WSOCK32_send S E w s (as_INT len) iFlags
    if rc ≠ 0 then (rc, sent, w)
    else WSASend_loop S E s iFlags rest rc ((sent + len) % 4294967296) w

/-- `INT WINAPI WSASend( SOCKET s, LPWSABUF lpBuffers, DWORD dwBufferCount,
LPDWORD lpNumberOfBytesSent, DWORD dwFlags, ...)`: the returned value, the value left in
`*lpNumberOfBytesSent` and the world.  `lpBuffers` is the list of the `len` fields of the
`dwBufferCount` buffers. -/
def WSASend (S : Host) (E : HostErrno) (M : HostMsgFlags) (w : World) (s : Int)
    (lpBuffers : List Nat) (dwFlags : Nat) : Int × Nat × World :=
  let iFlags : Nat := 0
  let iFlags := if dwFlags &&& M.MSG_DONTROUTE ≠ 0 then iFlags ||| M.MSG_DONTROUTE else iFlags
  let iFlags := if dwFlags &&& M.MSG_OOB ≠ 0 then iFlags ||| M.MSG_OOB else iFlags
  WSASend_loop S E s iFlags lpBuffers 0 0 w

/-- The host `quiet_host`, except that the sockets are in non-blocking mode and every call of
`HostFn` returns its first integer argument: a `send` sends its buffer in full. -/
def send_all_host : Host :=
  { quiet_host with
    get_socket_event := fun _ _ _ _ _ =>
      { status := 0, mask := 0, pmask := 0, state := WS_FD_NONBLOCKING, errors := [] }
    host := fun _ _ _ _ args => { ret := args.headD 0, errno := 0 } }

/-- The host `quiet_host`, except that the host `connect` (every call of `HostFn`) fails with
`EINPROGRESS` (115 on Linux); the sockets are in blocking mode and report no event error. -/
def connect_pending_host : Host :=
  { quiet_host with host := fun _ _ _ _ _ => { ret := -1, errno := 115 } }

/-- The host `quiet_host`, except that the sockets are in non-blocking mode and have an
event mask with `WS_FD_SERVEVENT` and `FD_ACCEPT` (an `WSAAsyncSelect` is active on the
listening socket). -/
def async_listen_host : Host :=
  { quiet_host with
    get_socket_event := fun _ _ _ _ _ =>
      { status := 0, mask := WS_FD_SERVEVENT ||| FD_ACCEPT, pmask := 0,
        state := WS_FD_NONBLOCKING ||| WS_FD_LISTENING, errors := [] } }

/-- An accept queue whose slots 0 and 1 are taken and whose other slots are free. -/
def two_taken_queue : AcceptQueue :=
  { accept_old := [7, 8, 0, 0, 0, 0], accept_new := [0, 9, 0, 0, 0, 0] }

/-- An accept queue with all `WS_ACCEPT_QUEUE` slots taken. -/
def full_queue : AcceptQueue :=
  { accept_old := [7, 8, 9, 10, 11, 12], accept_new := [0, 13, 0, 0, 14, 0] }

/-- The world when `fd_set_import` reaches entry `i`: entries 0, ..., `i-1` of the wire array
have each gone through `_get_sock_fd`. -/
def import_world (S : Host) (fd_array : List Int) (w : World) : Nat → World
  | 0 => w
  | i + 1 => (_get_sock_fd S (import_world S fd_array w i) (fd_array.getD i 0)).2

/-- What `_get_sock_fd` gives for entry `i` of the wire array when `fd_set_import` reaches
it: the descriptor the handle resolves to, -1 when it does not resolve. -/
def import_fd (S : Host) (fd_array : List Int) (w : World) (i : Nat) : Int :=
  (_get_sock_fd S (import_world S fd_array w i) (fd_array.getD i 0)).1

/-- The host `quiet_host`, except that the handle 13 does not resolve. -/
def one_bad_handle_host : Host :=
  { quiet_host with
    FILE_GetUnixHandle := fun tr s => if s = 13 then none else some (3 + tr.length) }

/-- Whether entry `i` is looked at by `fd_set_export`: `lfd[i] >= 0` and the descriptor
`lfd[i]` is set in the host set. -/
def export_ready (fds : fd_set) (lfd : List Int) (i : Nat) : Bool :=
  decide (lfd.getD i 0 ≥ 0) && FD_ISSET (lfd.getD i 0) fds

/-- The world when `fd_set_export` reaches entry `i`; `track` says whether an exception set
was supplied.  Every entry before `i` with `lfd[k] >= 0` has had its descriptor closed, after
a query for the pending socket error when it was set in the host set and `track` holds. -/
def export_world (S : Host) (C : HostSockOpts) (w : World) (fds : fd_set) (track : Bool)
    (lfd : List Int) : Nat → World
  | 0 => w
  | i + 1 =>
    if lfd.getD i 0 ≥ 0 then
      close
        (if export_ready fds lfd i && track then
          (sock_error_p S C (export_world S C w fds track lfd i) (lfd.getD i 0)).2
        else export_world S C w fds track lfd i)
        (lfd.getD i 0)
    else export_world S C w fds track lfd i

/-- Whether entry `i` is diverted: it is looked at, an exception set was supplied, and its
descriptor has a pending socket error when the loop reaches it. -/
def export_diverted (S : Host) (C : HostSockOpts) (w : World) (fds : fd_set) (track : Bool)
    (lfd : List Int) (i : Nat) : Bool :=
  export_ready fds lfd i && track &&
    (sock_error_p S C (export_world S C w fds track lfd i) (lfd.getD i 0)).1

/-- Whether entry `i` is kept: it is looked at and not diverted. -/
def export_kept (S : Host) (C : HostSockOpts) (w : World) (fds : fd_set) (track : Bool)
    (lfd : List Int) (i : Nat) : Bool :=
  export_ready fds lfd i && !export_diverted S C w fds track lfd i

/-- The indices below `i` of the entries kept, in ascending order. -/
def kept_entries (S : Host) (C : HostSockOpts) (w : World) (fds : fd_set) (track : Bool)
    (lfd : List Int) (i : Nat) : List Nat :=
  (List.range i).filter (export_kept S C w fds track lfd)

/-- The indices below `i` of the entries diverted, in ascending order. -/
def diverted_entries (S : Host) (C : HostSockOpts) (w : World) (fds : fd_set) (track : Bool)
    (lfd : List Int) (i : Nat) : List Nat :=
  (List.range i).filter (export_diverted S C w fds track lfd)

/-- The loop invariant of `fd_set_export` before entry `i`, for a call with the world `w`,
the exception set `exceptfds`, the wire array `fd_array` and the array `lfd`. -/
def export_invariant (S : Host) (C : HostSockOpts) (w : World) (fds : fd_set)
    (exceptfds : Option fd_set) (fd_array lfd : List Int) (i : Nat) (st : ExportState) : Prop :=
  st.w = export_world S C w fds exceptfds.isSome lfd i ∧
  (∀ k, i ≤ k → st.lfd.getD k 0 = lfd.getD k 0) ∧
  st.j = (kept_entries S C w fds exceptfds.isSome lfd i).length ∧
  st.fd_array =
    (kept_entries S C w fds exceptfds.isSome lfd i).map (fun k => fd_array.getD k 0) ++
      fd_array.drop (kept_entries S C w fds exceptfds.isSome lfd i).length ∧
  st.num_err = ((diverted_entries S C w fds exceptfds.isSome lfd i).length : Int) ∧
  st.exceptfds = exceptfds.map (fun ex =>
    (diverted_entries S C w fds exceptfds.isSome lfd i).foldl
      (fun e k => FD_SET (lfd.getD k 0) e) ex)

/-- A host on which every descriptor above 3 has a pending socket error and descriptor 3 and
those below have none. -/
def error_above_three_host : Host :=
  { quiet_host with
    getsockopt := fun _ s _ _ => { ret := 0, errno := 0, optval := if s > 3 then 111 else 0 } }

/-! ## The socket state kept by the handle server -/

/-- Modelled from the spec: the handle server's treatment of an `enable_socket_event`
request (the server is not among the sources): the state of the socket becomes
`(state | sstate) & ~cstate`, on 32-bit unsigned values. -/
def socket_state_update (state sstate cstate : Nat) : Nat :=
  (state ||| sstate) &&& (4294967295 ^^^ cstate)

/-- How many of the flags `WS_FD_CONNECT`, `WS_FD_CONNECTED` and `WS_FD_LISTENING` are set
in a socket state. -/
def connection_flags (state : Nat) : Nat :=
  (if state &&& WS_FD_CONNECT ≠ 0 then 1 else 0) +
  (if state &&& WS_FD_CONNECTED ≠ 0 then 1 else 0) +
  (if state &&& WS_FD_LISTENING ≠ 0 then 1 else 0)

/-- An `enable_socket_event` request with the state arguments `sstate` and `cstate` takes
every state with at most one of the three flags set to a state with at most one of them
set. -/
def request_preserves (sstate cstate : Nat) : Prop :=
  ∀ state, connection_flags state ≤ 1 →
    connection_flags (socket_state_update state sstate cstate) ≤ 1

/-- A call is no `enable_socket_event` request, or it is one that preserves "at most one
of the three flags". -/
def call_preserves : Call → Prop
  | Call.enable_socket_event _ _ sstate cstate => request_preserves sstate cstate
  | _ => True

/-- The trace `tr2` is `tr1` followed by calls of which every `enable_socket_event` request
preserves "at most one of the three flags". -/
def new_calls_preserve (tr1 tr2 : List Call) : Prop :=
  ∃ evs, tr2 = tr1 ++ evs ∧ ∀ c, c ∈ evs → call_preserves c

/-- Whether a call is an `enable_socket_event` request. -/
def Call.is_enable_socket_event : Call → Bool
  | Call.enable_socket_event _ _ _ _ => true
  | _ => false

/-- The `enable_socket_event` requests of a trace. -/
def enable_socket_event_calls (tr : List Call) : List Call :=
  tr.filter Call.is_enable_socket_event

/-! ## `WINSOCK_DoAsyncEvent` -/

/-- The `WSAAsyncSelect()` control struct `ws_select_info`, together with the address `ptr`
of the block, which is what `WS_FREE(info)` is called with. -/
structure ws_select_info where
  ptr : Int
  service : Int
  event : Int
  sock : Int
  hWnd : Int
  uMsg : Int
  lEvent : Nat
deriving DecidableEq, Repr

/-- The request block of `WINSOCK_DoAsyncEvent`: the `get_socket_event` request with
`service = TRUE` and `s_event = c_event = info->event`, and `set_error( SERVER_CALL() )`.
The result is the reply and the world. -/
def async_event_request (S : Host) (w : World) (info : ws_select_info) : SocketEvent × World :=
  let r := S.get_socket_event w.trace info.sock true info.event info.event
  let w := w.call (Call.get_socket_event info.sock true info.event info.event)
  let w := (set_error S w r.status).2
  (r, w)

/-- The loop `for (q=0; q<WS_ACCEPT_QUEUE; q++)` of `WINSOCK_DoAsyncEvent`: `n` iterations
are left and the next index is `q`. -/
def async_event_scan (S : Host) (info : ws_select_info) :
    Nat → Nat → World → AcceptQueue → World × AcceptQueue
  | 0, _, w, Q => (w, Q)
  | n + 1, q, w, Q =>
    let (w, Q) : World × AcceptQueue :=
      if Q.accept_old.getD q 0 = info.sock then
        let as := Q.accept_new.getD q 0
        if as ≠ 0 then
          let Q : AcceptQueue :=
            { accept_new := Q.accept_new.set q 0, accept_old := Q.accept_old.set q 0 }
          let w := (WSAAsyncSelect S w as info.hWnd info.uMsg info.lEvent).2
          (w, Q)
        else (w, Q)
      else (w, Q)
    async_event_scan S info n (q + 1) w Q

/-- The loop `for (i=0; i<FD_MAX_EVENTS; i++)` of `WINSOCK_DoAsyncEvent`: `n` iterations are
left and the next index is `i`.  The macro `WSAMAKESELECTREPLY` (`winsock.h`, not among the
sources) is a parameter; an entry of `errors` that the reply data does not reach reads
as 0. -/
def async_event_dispatch (WSAMAKESELECTREPLY : Nat → Nat → Int) (info : ws_select_info)
    (pmask : Nat) (errors : List Nat) : Nat → Nat → World → World
  | 0, _, w => w
  | n + 1, i, w =>
    let w :=
      if pmask &&& (1 <<< i) ≠ 0 then
        w.call (Call.PostMessageA info.hWnd info.uMsg info.sock
          (WSAMAKESELECTREPLY (1 <<< i) (errors.getD i 0)))
      else w
    async_event_dispatch WSAMAKESELECTREPLY info pmask errors n (i + 1) w

/-- `VOID CALLBACK WINSOCK_DoAsyncEvent( ULONG_PTR ptr )`, with `info` the block `ptr` points
to: the world and the accept queue after the call.  `FD_MAX_EVENTS` (not among the sources)
is a parameter. -/
def WINSOCK_DoAsyncEvent (S : Host) (FD_MAX_EVENTS : Nat)
    (WSAMAKESELECTREPLY : Nat → Nat → Int) (w : World) (Q : AcceptQueue)
    (info : ws_select_info) : World × AcceptQueue :=
  let w := SetLastError w 0
  let (r, w) := async_event_request S w info
  let pmask := r.pmask
  let errors := r.errors
  let orphan := decide (w.last_error = WSAENOTSOCK ∨ w.last_error = WSAEINVAL)
  let pmask := if orphan then WS_FD_SERVEVENT else pmask
  let (pmask, w, Q) : Nat × World × AcceptQueue :=
    if pmask &&& WS_FD_SERVEVENT ≠ 0 then
      let (w, Q) := async_event_scan S info WS_ACCEPT_QUEUE 0 w Q
      (pmask &&& (4294967295 ^^^ WS_FD_SERVEVENT), w, Q)
    else (pmask, w, Q)
  let w := async_event_dispatch WSAMAKESELECTREPLY info pmask errors FD_MAX_EVENTS 0 w
  let w :=
    if orphan then (w.call (Call.SERVICE_Delete info.service)).call (Call.WS_FREE info.ptr)
    else w
  (w, Q)

/-- Whether a call releases a registration: `SERVICE_Delete` or `WS_FREE`. -/
def Call.is_release : Call → Bool
  | Call.SERVICE_Delete _ => true
  | Call.WS_FREE _ => true
  | _ => false

/-- The `SERVICE_Delete` and `WS_FREE` calls of a trace. -/
def release_calls (tr : List Call) : List Call := tr.filter Call.is_release

/-- Whether a call is a `PostMessageA`. -/
def Call.is_PostMessageA : Call → Bool
  | Call.PostMessageA _ _ _ _ => true
  | _ => false

/-- The `PostMessageA` calls of a trace. -/
def PostMessageA_calls (tr : List Call) : List Call := tr.filter Call.is_PostMessageA

/-- The host `quiet_host`, except that the socket of every `get_socket_event` request is
gone: the request fails with the status `WSAENOTSOCK`, while the reply still carries the
pending events `FD_READ` and `FD_CLOSE`. -/
def closed_socket_host : Host :=
  { quiet_host with
    get_socket_event := fun _ _ _ _ _ =>
      { status := WSAENOTSOCK, mask := 0, pmask := FD_READ ||| FD_CLOSE, state := 0,
        errors := [] } }

/-- The host `quiet_host`, except that the events `FD_READ` and `FD_CLOSE` are pending on
every socket. -/
def pending_events_host : Host :=
  { quiet_host with
    get_socket_event := fun _ _ _ _ _ =>
      { status := 0, mask := 0, pmask := FD_READ ||| FD_CLOSE, state := 0, errors := [] } }

/-- The value `MAKELONG(event, error)`, one way to fill in `WSAMAKESELECTREPLY`. -/
def select_reply (event error : Nat) : Int := ((event % 65536 + 65536 * (error % 65536) : Nat) : Int)

/-- A registration for the socket handle 100: block at address 4096, service 9, event
object 7, window 1, message 1024, events `FD_READ` and `FD_CLOSE`. -/
def sample_info : ws_select_info :=
  { ptr := 4096, service := 9, event := 7, sock := 100, hWnd := 1, uMsg := 1024,
    lEvent := FD_READ ||| FD_CLOSE }

/-- The line buffer size `sizeof buf` of `WSAIOCTL_GetInterfaceCount` and
`WSAIOCTL_GetInterfaceName` (`char buf[512]`). -/
def netdev_line_buffer : Nat := 512

/-- The pieces in which `fgets` with a buffer of `size` bytes delivers one line of a file
(the line with its newline): at most `size - 1` bytes each.  `fuel` bounds the number of
pieces. -/
def line_pieces (size : Nat) : Nat → List Nat → List (List Nat)
  | 0, _ => []
  | fuel + 1, line =>
    if line.length ≤ size - 1 then [line]
    else line.take (size - 1) :: line_pieces size fuel (line.drop (size - 1))

/-- The stream `fgets` with a buffer of `size` bytes delivers for a file given by its
lines. -/
def fgets_stream (size : Nat) (file : List (List Nat)) : List (List Nat) :=
  file.flatMap (fun line => line_pieces size line.length line)

/-- The host `quiet_host` with a device file of two header lines and the three interface
lines `"  lo:   219 3\n"`, `"eth0:123456 7\n"` (the first statistic starts right after the
colon) and `"eth0:1: 5 0\n"` (an alias). -/
def three_interfaces_host : Host :=
  { quiet_host with
    fopen_netdev := fun _ =>
      some [[73, 110, 116, 101, 114, 45, 124, 10], [32, 102, 97, 99, 101, 32, 124, 10],
            [32, 32, 108, 111, 58, 32, 32, 32, 50, 49, 57, 32, 51, 10],
            [101, 116, 104, 48, 58, 49, 50, 51, 52, 53, 54, 32, 55, 10],
            [101, 116, 104, 48, 58, 49, 58, 32, 53, 32, 48, 10]] }

/-- A host on which `select` reports descriptor 3 readable (result 1) and no socket has a
pending error. -/
def one_readable_host : Host :=
  { quiet_host with
    select := fun _ _ _ _ _ _ =>
      { ret := 1, errno := 0, readfds := [3], writefds := [], exceptfds := [] } }

/-! ## Theorems -/

/-- In a table without repeated labels, looking a listed label up gives its own entry. -/
theorem lookup_of_mem_of_nodup (l : List (Int × Nat)) (k : Int) (v : Nat)
    (hnd : (l.map Prod.fst).Nodup) (hm : (k, v) ∈ l) : l.lookup k = some v := by
  induction l with
  | nil => cases hm
  | cons p t ih =>
    obtain ⟨a, b⟩ := p
    simp only [List.map_cons, List.nodup_cons] at hnd
    rcases List.mem_cons.1 hm with h | h
    · cases h
      simp [List.lookup]
    · have hne : k ≠ a := by
        rintro rfl
        exact hnd.1 (List.mem_map.2 ⟨(k, v), h, rfl⟩)
      have : (k == a) = false := by simpa using hne
      simp [List.lookup, this, ih hnd.2 h]

/-- What a lookup finds is an entry of the table. -/
theorem mem_of_lookup_eq_some (l : List (Int × Nat)) (k : Int) (v : Nat)
    (h : l.lookup k = some v) : (k, v) ∈ l := by
  induction l with
  | nil => simp [List.lookup] at h
  | cons p t ih =>
    obtain ⟨a, b⟩ := p
    by_cases hka : k = a
    · subst hka
      simp [List.lookup] at h
      subst h
      exact List.mem_cons_self _ _
    · have : (k == a) = false := by simpa using hka
      simp [List.lookup, this] at h
      exact List.mem_cons_of_mem _ (ih h)

/-- A lookup fails exactly on the labels that are not listed. -/
theorem lookup_eq_none_of_not_mem (l : List (Int × Nat)) (k : Int)
    (h : k ∉ l.map Prod.fst) : l.lookup k = none := by
  induction l with
  | nil => rfl
  | cons p t ih =>
    obtain ⟨a, b⟩ := p
    simp only [List.map_cons, List.mem_cons, not_or] at h
    have : (k == a) = false := by simpa using h.1
    simp [List.lookup, this, ih h.2]

attribute [simp] WSABASEERR WSAEINTR WSAEBADF WSAEACCES WSAEFAULT WSAEINVAL WSAEMFILE
  WSAEWOULDBLOCK WSAEINPROGRESS WSAEALREADY WSAENOTSOCK WSAEDESTADDRREQ WSAEMSGSIZE
  WSAEPROTOTYPE WSAENOPROTOOPT WSAEPROTONOSUPPORT WSAESOCKTNOSUPPORT WSAEOPNOTSUPP
  WSAEPFNOSUPPORT WSAEAFNOSUPPORT WSAEADDRINUSE WSAEADDRNOTAVAIL WSAENETDOWN WSAENETUNREACH
  WSAENETRESET WSAECONNABORTED WSAECONNRESET WSAENOBUFS WSAEISCONN WSAENOTCONN WSAESHUTDOWN
  WSAETOOMANYREFS WSAETIMEDOUT WSAECONNREFUSED WSAELOOP WSAENAMETOOLONG WSAEHOSTDOWN
  WSAEHOSTUNREACH WSAENOTEMPTY WSAEPROCLIM WSAEUSERS WSAEDQUOT WSAESTALE WSAEREMOTE
  WSAHOST_NOT_FOUND WSATRY_AGAIN WSANO_RECOVERY WSANO_DATA

/-- An `#ifdef` case contributes its entry exactly when the host defines the label. -/
theorem mem_ifdef_case (o : Option Int) (r : Nat) (k : Int) (v : Nat) :
    (k, v) ∈ ifdef_case o r ↔ o = some k ∧ v = r := by
  cases o with
  | none => simp [ifdef_case]
  | some a =>
    simp only [ifdef_case, List.mem_singleton, Prod.mk.injEq, Option.some.injEq]
    constructor
    · rintro ⟨h1, h2⟩; exact ⟨h1.symm, h2⟩
    · rintro ⟨h1, h2⟩; exact ⟨h1.symm, h2⟩

/-- On a switch without repeated labels, a listed label returns the value of its case. -/
theorem switch_return_of_mem (l : List (Int × Nat)) (d : Nat) (k : Int) (v : Nat)
    (hnd : (l.map Prod.fst).Nodup) (hm : (k, v) ∈ l) : switch_return l d k = v := by
  simp [switch_return, lookup_of_mem_of_nodup l k v hnd hm]

/-- A label without a case returns the default. -/
theorem switch_return_of_not_mem (l : List (Int × Nat)) (d : Nat) (k : Int)
    (h : k ∉ l.map Prod.fst) : switch_return l d k = d := by
  simp [switch_return, lookup_eq_none_of_not_mem l k h]

/-- A lookup of a listed label finds something. -/
theorem lookup_ne_none_of_mem (l : List (Int × Nat)) (k : Int)
    (hk : k ∈ l.map Prod.fst) : l.lookup k ≠ none := by
  induction l with
  | nil => cases hk
  | cons p t ih =>
    obtain ⟨a, b⟩ := p
    by_cases e : k = a
    · subst e; simp [List.lookup]
    · have hf : (k == a) = false := by simpa using e
      simp only [List.map_cons, List.mem_cons] at hk
      simp only [List.lookup, hf]
      exact ih (hk.resolve_left e)

/-- A switch returns the value of a case with the scrutinee as label, or the default. -/
theorem switch_return_cases (l : List (Int × Nat)) (d : Nat) (k : Int) :
    (k, switch_return l d k) ∈ l ∨ (k ∉ l.map Prod.fst ∧ switch_return l d k = d) := by
  unfold switch_return
  cases h : l.lookup k with
  | some v => exact Or.inl (mem_of_lookup_eq_some l k v h)
  | none => exact Or.inr ⟨fun hk => lookup_ne_none_of_mem l k hk h, rfl⟩

/-- The only case of `wsaErrno` that returns 0 is `case 0`. -/
theorem wsaErrno_cases_zero (E : HostErrno) (k : Int) (h : (k, 0) ∈ wsaErrno_cases E) :
    k = 0 := by
  simp [wsaErrno_cases, mem_ifdef_case] at h
  exact h

/-- The only case of `wsaHerrno` that returns 0 is `case 0`. -/
theorem wsaHerrno_cases_zero (E : HostErrno) (R : HostHerrno) (k : Int)
    (h : (k, 0) ∈ wsaHerrno_cases E R) : k = 0 := by
  simp [wsaHerrno_cases] at h
  exact h

/-- C1: on a host where the two switches compile, `wsaErrno` returns 0 exactly for errno 0
and `wsaHerrno` returns 0 exactly for resolver code 0, and an input that has no `case` of
its own returns `WSAEOPNOTSUPP` in both. -/
theorem wsaErrno_wsaHerrno_zero_iff (E : HostErrno) (R : HostHerrno) (hc : E.compiles R) :
    (∀ e : Int, wsaErrno E e = 0 ↔ e = 0) ∧
    (∀ h : Int, wsaHerrno E R h = 0 ↔ h = 0) ∧
    (∀ e : Int, e ∉ wsaErrno_labels E → wsaErrno E e = WSAEOPNOTSUPP) ∧
    (∀ h : Int, h ∉ wsaHerrno_labels E R → wsaHerrno E R h = WSAEOPNOTSUPP) := by
  obtain ⟨hE, hR⟩ := hc
  refine ⟨fun e => ⟨fun h0 => ?_, fun h0 => ?_⟩, fun h => ⟨fun h0 => ?_, fun h0 => ?_⟩,
    fun e he => switch_return_of_not_mem _ _ _ he,
    fun h hh => switch_return_of_not_mem _ _ _ hh⟩
  · rcases switch_return_cases (wsaErrno_cases E) WSAEOPNOTSUPP e with hm | ⟨_, hd⟩
    · rw [show switch_return (wsaErrno_cases E) WSAEOPNOTSUPP e = 0 from h0] at hm
      exact wsaErrno_cases_zero E e hm
    · rw [show switch_return (wsaErrno_cases E) WSAEOPNOTSUPP e = 0 from h0] at hd
      simp at hd
  · subst h0
    exact switch_return_of_mem _ _ 0 0 hE (by simp [wsaErrno_cases])
  · rcases switch_return_cases (wsaHerrno_cases E R) WSAEOPNOTSUPP h with hm | ⟨_, hd⟩
    · rw [show switch_return (wsaHerrno_cases E R) WSAEOPNOTSUPP h = 0 from h0] at hm
      exact wsaHerrno_cases_zero E R h hm
    · rw [show switch_return (wsaHerrno_cases E R) WSAEOPNOTSUPP h = 0 from h0] at hd
      simp at hd
  · subst h0
    exact switch_return_of_mem _ _ 0 0 hR (by simp [wsaHerrno_cases])

/-- C1 at the Linux constants: the switches compile there, errno 0 gives 0, `EAGAIN` (11) gives
`WSAEWOULDBLOCK`, and `ENOMEM` (12), which has no case, gives `WSAEOPNOTSUPP`. -/
theorem wsaErrno_wsaHerrno_zero_iff_linux :
    linux_errno.compiles linux_herrno ∧
    ((∀ e : Int, wsaErrno linux_errno e = 0 ↔ e = 0) ∧
     (∀ h : Int, wsaHerrno linux_errno linux_herrno h = 0 ↔ h = 0) ∧
     (∀ e : Int, e ∉ wsaErrno_labels linux_errno → wsaErrno linux_errno e = WSAEOPNOTSUPP) ∧
     (∀ h : Int, h ∉ wsaHerrno_labels linux_errno linux_herrno →
        wsaHerrno linux_errno linux_herrno h = WSAEOPNOTSUPP)) ∧
    wsaErrno linux_errno 12 = WSAEOPNOTSUPP :=
  ⟨by decide, wsaErrno_wsaHerrno_zero_iff linux_errno linux_herrno (by decide), by decide⟩

set_option maxHeartbeats 4000000 in
/-- Two cases of `wsaErrno` that return the same value have the same label, or are one of the
two fall-through pairs `EPERM`/`EACCES` and `EPIPE`/`ECONNRESET`. -/
theorem wsaErrno_cases_shared (E : HostErrno) (v : Nat) (e1 e2 : Int)
    (h1 : (e1, v) ∈ wsaErrno_cases E) (h2 : (e2, v) ∈ wsaErrno_cases E) :
    e1 = e2 ∨ (e1 = E.EPERM ∧ e2 = E.EACCES) ∨ (e1 = E.EACCES ∧ e2 = E.EPERM) ∨
      (e1 = E.EPIPE ∧ e2 = E.ECONNRESET) ∨ (e1 = E.ECONNRESET ∧ e2 = E.EPIPE) := by
  simp only [wsaErrno_cases, List.mem_append, List.mem_cons, List.mem_singleton, Prod.mk.injEq,
    mem_ifdef_case, List.mem_nil_iff, or_false, or_assoc] at h1
  rcases h1 with ⟨h1a, rfl⟩ | ⟨h1a, rfl⟩ | ⟨h1a, rfl⟩ | ⟨h1a, rfl⟩ | ⟨h1a, rfl⟩ | ⟨h1a, rfl⟩ | ⟨h1a, rfl⟩ | ⟨h1a, rfl⟩ | ⟨h1a, rfl⟩ | ⟨h1a, rfl⟩ | ⟨h1a, rfl⟩ | ⟨h1a, rfl⟩ | ⟨h1a, rfl⟩ | ⟨h1a, rfl⟩ | ⟨h1a, rfl⟩ | ⟨h1a, rfl⟩ | ⟨h1a, rfl⟩ | ⟨h1a, rfl⟩ | ⟨h1a, rfl⟩ | ⟨h1a, rfl⟩ | ⟨h1a, rfl⟩ | ⟨h1a, rfl⟩ | ⟨h1a, rfl⟩ | ⟨h1a, rfl⟩ | ⟨h1a, rfl⟩ | ⟨h1a, rfl⟩ | ⟨h1a, rfl⟩ | ⟨h1a, rfl⟩ | ⟨h1a, rfl⟩ | ⟨h1a, rfl⟩ | ⟨h1a, rfl⟩ | ⟨h1a, rfl⟩ | ⟨h1a, rfl⟩ | ⟨h1a, rfl⟩ | ⟨h1a, rfl⟩ | ⟨h1a, rfl⟩ | ⟨h1a, rfl⟩ | ⟨h1a, rfl⟩ | ⟨h1a, rfl⟩ | ⟨h1a, rfl⟩ | ⟨h1a, rfl⟩ | ⟨h1a, rfl⟩ | ⟨h1a, rfl⟩ | ⟨h1a, rfl⟩ | ⟨h1a, rfl⟩ | ⟨h1a, rfl⟩ <;>
  · simp [wsaErrno_cases, mem_ifdef_case] at h2
    first
      | exact Or.inl (h1a.trans h2.symm)
      | (rcases h2 with h2 | h2 <;> simp [h1a, h2])
      | simp_all

/-- A label of `wsaErrno` returns the value written in its case. -/
theorem wsaErrno_mem_cases (E : HostErrno) (e : Int) (h : e ∈ wsaErrno_labels E) :
    (e, wsaErrno E e) ∈ wsaErrno_cases E := by
  rcases switch_return_cases (wsaErrno_cases E) WSAEOPNOTSUPP e with hm | ⟨hn, _⟩
  · exact hm
  · exact absurd h hn

/-- C2 (as stated, refuted): on Linux `EPERM` (1) and `EACCES` (13) are two distinct errno
values with an explicit case each, and `wsaErrno` returns the same code, `WSAEACCES`, for
both. -/
theorem wsaErrno_EPERM_EACCES_same_code :
    linux_errno.EPERM ∈ wsaErrno_labels linux_errno ∧
    linux_errno.EACCES ∈ wsaErrno_labels linux_errno ∧
    linux_errno.EPERM ≠ linux_errno.EACCES ∧
    wsaErrno linux_errno linux_errno.EPERM = wsaErrno linux_errno linux_errno.EACCES := by
  decide

/-- C2 (amended): on a host where the switch compiles, two distinct errno values with an
explicit case each get different codes unless they are `EPERM` and `EACCES` (both
`WSAEACCES`) or `EPIPE` and `ECONNRESET` (both `WSAECONNRESET`); errno 0 returns 0. -/
theorem wsaErrno_injective_except_fallthrough (E : HostErrno)
    (hE : (wsaErrno_labels E).Nodup) :
    (∀ e1 e2 : Int, e1 ∈ wsaErrno_labels E → e2 ∈ wsaErrno_labels E → e1 ≠ e2 →
      wsaErrno E e1 = wsaErrno E e2 →
        (e1 = E.EPERM ∧ e2 = E.EACCES) ∨ (e1 = E.EACCES ∧ e2 = E.EPERM) ∨
        (e1 = E.EPIPE ∧ e2 = E.ECONNRESET) ∨ (e1 = E.ECONNRESET ∧ e2 = E.EPIPE)) ∧
    wsaErrno E E.EPERM = WSAEACCES ∧ wsaErrno E E.EACCES = WSAEACCES ∧
    wsaErrno E E.EPIPE = WSAECONNRESET ∧ wsaErrno E E.ECONNRESET = WSAECONNRESET ∧
    wsaErrno E 0 = 0 := by
  refine ⟨fun e1 e2 h1 h2 hne heq => ?_, ?_, ?_, ?_, ?_, ?_⟩
  · have m1 := wsaErrno_mem_cases E e1 h1
    have m2 := wsaErrno_mem_cases E e2 h2
    rw [heq] at m1
    exact (wsaErrno_cases_shared E _ e1 e2 m1 m2).resolve_left hne
  · exact switch_return_of_mem _ _ _ _ hE (by simp [wsaErrno_cases])
  · exact switch_return_of_mem _ _ _ _ hE (by simp [wsaErrno_cases])
  · exact switch_return_of_mem _ _ _ _ hE (by simp [wsaErrno_cases])
  · exact switch_return_of_mem _ _ _ _ hE (by simp [wsaErrno_cases])
  · exact switch_return_of_mem _ _ 0 0 hE (by simp [wsaErrno_cases])

/-- C2 (amended) at the Linux constants, where the labels of the switch are distinct. -/
theorem wsaErrno_injective_except_fallthrough_linux :
    (wsaErrno_labels linux_errno).Nodup ∧
    ((∀ e1 e2 : Int, e1 ∈ wsaErrno_labels linux_errno → e2 ∈ wsaErrno_labels linux_errno →
      e1 ≠ e2 → wsaErrno linux_errno e1 = wsaErrno linux_errno e2 →
        (e1 = 1 ∧ e2 = 13) ∨ (e1 = 13 ∧ e2 = 1) ∨ (e1 = 32 ∧ e2 = 104) ∨
        (e1 = 104 ∧ e2 = 32)) ∧
    wsaErrno linux_errno 1 = WSAEACCES ∧ wsaErrno linux_errno 13 = WSAEACCES ∧
    wsaErrno linux_errno 32 = WSAECONNRESET ∧ wsaErrno linux_errno 104 = WSAECONNRESET ∧
    wsaErrno linux_errno 0 = 0) :=
  ⟨by decide, wsaErrno_injective_except_fallthrough linux_errno (by decide)⟩

/-- Starting the scan at index `i` shifts the stopping index by `i`. -/
theorem scan_ops_shift (rest : List Int) (o : Int) (i : Nat) :
    scan_ops rest o i = i + scan_ops rest o 0 := by
  induction rest generalizing i with
  | nil => simp [scan_ops]
  | cons x t ih =>
    simp only [scan_ops]
    split_ifs
    · rfl
    · rfl
    · rw [ih (i + 1), ih (0 + 1)]; omega

/-- The scan stops at the position of the option among the entries before the first 0, or
at that 0 when the option is not among them. -/
theorem scan_ops_eq_indexOf (rest : List Int) (o : Int) :
    scan_ops rest o 0 = List.indexOf o (rest.takeWhile (fun x => decide (x ≠ 0))) := by
  induction rest with
  | nil => simp [scan_ops]
  | cons x t ih =>
    simp only [scan_ops]
    by_cases hx : x = 0
    · simp [hx]
    · by_cases hxo : x = o
      · subst hxo
        simp [hx, List.takeWhile_cons]
      · rw [if_neg hx, if_neg hxo, scan_ops_shift, ih]
        simp only [List.takeWhile_cons, hx, ne_eq, not_false_eq_true, decide_True, ite_true]
        rw [List.indexOf_cons_ne _ hxo]
        omega

/-- A table made of non-zero entries and a terminating 0 is scanned up to that 0. -/
theorem takeWhile_entries (entries : List Int) (h : ∀ x ∈ entries, x ≠ 0) :
    (entries ++ [0]).takeWhile (fun x => decide (x ≠ 0)) = entries := by
  induction entries with
  | nil => simp
  | cons x t ih =>
    have hx : x ≠ 0 := h x (List.mem_cons_self _ _)
    simp only [List.cons_append, List.takeWhile_cons, hx, ne_eq, not_false_eq_true, decide_True,
      ite_true]
    rw [ih (fun y hy => h y (List.mem_cons_of_mem _ hy))]

/-- The scan of a well-formed table: where it stops, and what the table holds there. -/
theorem scan_ops_table (entries : List Int) (o : Int) (h : ∀ x ∈ entries, x ≠ 0) :
    scan_ops (entries ++ [0]) o 0 = List.indexOf o entries ∧
    ((entries ++ [0]).getD (scan_ops (entries ++ [0]) o 0) 0 ≠ 0 ↔ o ∈ entries) ∧
    (o ∈ entries → (entries ++ [0]).getD (scan_ops (entries ++ [0]) o 0) 0 = o ∧
      scan_ops (entries ++ [0]) o 0 < entries.length) := by
  have e : scan_ops (entries ++ [0]) o 0 = List.indexOf o entries := by
    rw [scan_ops_eq_indexOf, takeWhile_entries entries h]
  have found : o ∈ entries → (entries ++ [0]).getD (List.indexOf o entries) 0 = o ∧
      List.indexOf o entries < entries.length := by
    intro ho
    have hlt : List.indexOf o entries < entries.length := List.indexOf_lt_length.2 ho
    refine ⟨?_, hlt⟩
    rw [List.getD_eq_getElem?_getD, List.getElem?_append_left hlt, List.getElem?_eq_getElem hlt]
    simp [List.getElem_indexOf]
  refine ⟨e, ?_, ?_⟩
  · rw [e]
    constructor
    · intro hne
      by_contra ho
      have hge : entries.length ≤ List.indexOf o entries := by
        have hnlt : ¬ List.indexOf o entries < entries.length :=
          fun hlt => ho (List.indexOf_lt_length.1 hlt)
        omega
      have hle : List.indexOf o entries ≤ entries.length := List.indexOf_le_length
      have heq : List.indexOf o entries = entries.length := le_antisymm hle hge
      apply hne
      rw [heq, List.getD_eq_getElem?_getD]
      simp
    · intro ho
      rw [(found ho).1]
      exact h o ho
  · intro ho
    rw [e]
    exact found ho


/-- The shape of `_ws_sock_ops`: non-zero entries, one terminating 0, and as many entries as
`_px_sock_ops` has. -/
theorem ws_sock_ops_shape (C : HostSockOpts) :
    ∃ entries : List Int, _ws_sock_ops C = entries ++ [0] ∧ (∀ x ∈ entries, x ≠ 0) ∧
      entries.length = (_px_sock_ops C).length := by
  cases hr : C.SO_RCVTIMEO <;> cases hs : C.SO_SNDTIMEO <;>
    exact ⟨(_ws_sock_ops C).dropLast, by simp [_ws_sock_ops, ifdef_entry, hr, hs],
      by simp [_ws_sock_ops, ifdef_entry, hr, hs, WS_SO_DEBUG, WS_SO_REUSEADDR,
        WS_SO_KEEPALIVE, WS_SO_DONTROUTE, WS_SO_BROADCAST, WS_SO_LINGER, WS_SO_OOBINLINE,
        WS_SO_SNDBUF, WS_SO_RCVBUF, WS_SO_SNDTIMEO, WS_SO_RCVTIMEO, WS_SO_ERROR, WS_SO_TYPE],
      by simp [_ws_sock_ops, _px_sock_ops, ifdef_entry, hr, hs]⟩

/-- The shape of `_ws_tcp_ops` and `_px_tcp_ops`: the same number of entries, then a 0. -/
theorem ws_tcp_ops_shape (C : HostSockOpts) :
    ∃ entries pentries : List Int, _ws_tcp_ops C = entries ++ [0] ∧ (∀ x ∈ entries, x ≠ 0) ∧
      _px_tcp_ops C = pentries ++ [0] ∧ entries.length = pentries.length ∧ pentries.Nodup := by
  cases hn : C.TCP_NODELAY with
  | none => exact ⟨[], [], by simp [_ws_tcp_ops, ifdef_entry, hn], by simp,
      by simp [_px_tcp_ops, hn], rfl, List.nodup_nil⟩
  | some v => exact ⟨[WS_TCP_NODELAY], [v], by simp [_ws_tcp_ops, ifdef_entry, hn],
      by simp [WS_TCP_NODELAY],
      by simp [_px_tcp_ops, hn], rfl, List.nodup_singleton v⟩

/-- An option is an entry before the terminator exactly when it is in the array and not 0. -/
theorem mem_entries_iff (entries : List Int) (o : Int) (h : ∀ x ∈ entries, x ≠ 0) :
    o ∈ entries ↔ (o ∈ entries ++ [0] ∧ o ≠ 0) := by
  constructor
  · intro ho
    exact ⟨List.mem_append_left _ ho, h o ho⟩
  · rintro ⟨ho, hne⟩
    rcases List.mem_append.1 ho with h1 | h1
    · exact h1
    · simp at h1; exact absurd h1 hne

/-- What `convert_sockopt` does at level `WS_SOL_SOCKET`. -/
theorem convert_sockopt_sol_socket (C : HostSockOpts) (optname : Int) :
    (optname ∈ _ws_sock_ops C ∧ optname ≠ 0 →
      ∃ i, i < (_px_sock_ops C).length ∧ (_ws_sock_ops C).getD i 0 = optname ∧
        convert_sockopt C WS_SOL_SOCKET optname = (1, C.SOL_SOCKET, (_px_sock_ops C).getD i 0)) ∧
    (¬ (optname ∈ _ws_sock_ops C ∧ optname ≠ 0) →
      convert_sockopt C WS_SOL_SOCKET optname = (0, C.SOL_SOCKET, optname)) := by
  obtain ⟨entries, hws, hnz, hlen⟩ := ws_sock_ops_shape C
  obtain ⟨-, hiff, hfound⟩ := scan_ops_table entries optname hnz
  rw [hws, ← mem_entries_iff entries optname hnz]
  constructor
  · intro ho
    refine ⟨scan_ops (entries ++ [0]) optname 0, hlen ▸ (hfound ho).2, (hfound ho).1, ?_⟩
    simp only [convert_sockopt, if_true, hws]
    rw [if_pos (hiff.2 ho)]
  · intro ho
    simp only [convert_sockopt, if_true, hws]
    rw [if_neg (fun h => ho (hiff.1 h))]

/-- What `convert_sockopt` does at level `WS_IPPROTO_TCP`. -/
theorem convert_sockopt_ipproto_tcp (C : HostSockOpts) (optname : Int) :
    (optname ∈ _ws_tcp_ops C ∧ optname ≠ 0 →
      ∃ i, i + 1 < (_px_tcp_ops C).length ∧ (_ws_tcp_ops C).getD i 0 = optname ∧
        convert_sockopt C WS_IPPROTO_TCP optname = (1, C.IPPROTO_TCP, (_px_tcp_ops C).getD i 0)) ∧
    (¬ (optname ∈ _ws_tcp_ops C ∧ optname ≠ 0) →
      convert_sockopt C WS_IPPROTO_TCP optname = (0, C.IPPROTO_TCP, optname)) := by
  obtain ⟨entries, pentries, hws, hnz, hpx, hlen, -⟩ := ws_tcp_ops_shape C
  obtain ⟨-, hiff, hfound⟩ := scan_ops_table entries optname hnz
  have hlv : ¬ (WS_IPPROTO_TCP = WS_SOL_SOCKET) := by decide
  rw [hws, ← mem_entries_iff entries optname hnz]
  constructor
  · intro ho
    refine ⟨scan_ops (entries ++ [0]) optname 0, ?_, (hfound ho).1, ?_⟩
    · rw [hpx, List.length_append, ← hlen]
      have := (hfound ho).2
      simpa using this
    · simp only [convert_sockopt, if_neg hlv, if_true, hws]
      rw [if_pos (hiff.2 ho)]
  · intro ho
    simp only [convert_sockopt, if_neg hlv, if_true, hws]
    rw [if_neg (fun h => ho (hiff.1 h))]

/-- What `convert_sockopt` does at any other level: nothing, and it returns 0. -/
theorem convert_sockopt_other_level (C : HostSockOpts) (level optname : Int)
    (h1 : level ≠ WS_SOL_SOCKET) (h2 : level ≠ WS_IPPROTO_TCP) :
    convert_sockopt C level optname = (0, level, optname) := by
  simp only [convert_sockopt, if_neg h1, if_neg h2]

/-- The value `convert_sockopt` returns is 1 on the supported pairs and 0 on all others. -/
theorem convert_sockopt_ret (C : HostSockOpts) (level optname : Int) :
    (supported_sockopt C level optname → (convert_sockopt C level optname).1 = 1) ∧
    (¬ supported_sockopt C level optname → (convert_sockopt C level optname).1 = 0) := by
  by_cases h1 : level = WS_SOL_SOCKET
  · subst h1
    have hne : ¬ (WS_SOL_SOCKET = WS_IPPROTO_TCP) := by decide
    obtain ⟨ha, hb⟩ := convert_sockopt_sol_socket C optname
    constructor
    · intro hs
      rcases hs with ⟨-, hs⟩ | ⟨hl, -⟩
      · obtain ⟨i, -, -, e⟩ := ha hs
        rw [e]
      · exact absurd hl hne
    · intro hs
      rw [hb (fun h => hs (Or.inl ⟨rfl, h⟩))]
  · by_cases h2 : level = WS_IPPROTO_TCP
    · subst h2
      obtain ⟨ha, hb⟩ := convert_sockopt_ipproto_tcp C optname
      constructor
      · intro hs
        rcases hs with ⟨hl, -⟩ | ⟨-, hs⟩
        · exact absurd hl h1
        · obtain ⟨i, -, -, e⟩ := ha hs
          rw [e]
      · intro hs
        rw [hb (fun h => hs (Or.inr ⟨rfl, h⟩))]
    · constructor
      · intro hs
        rcases hs with ⟨hl, -⟩ | ⟨hl, -⟩
        · exact absurd hl h1
        · exact absurd hl h2
      · intro _
        rw [convert_sockopt_other_level C level optname h1 h2]

/-- A descriptor the handle server gives is not -1. -/
theorem nat_fd_ne_neg_one (fd : Nat) : (fd : Int) ≠ -1 := by omega

/-- `WSOCK32_getsockopt` on a resolved handle and an unsupported pair. -/
theorem WSOCK32_getsockopt_unsupported (S : Host) (C : HostSockOpts) (E : HostErrno)
    (w : World) (s level optname : Int) (fd : Nat)
    (hfd : S.FILE_GetUnixHandle w.trace s = some fd)
    (hu : ¬ supported_sockopt C level optname) :
    (WSOCK32_getsockopt S C E w s level optname).1 = SOCKET_ERROR ∧
    (WSOCK32_getsockopt S C E w s level optname).2.last_error = WSAENOPROTOOPT ∧
    getsockopt_calls (WSOCK32_getsockopt S C E w s level optname).2.trace =
      getsockopt_calls w.trace := by
  have hc := (convert_sockopt_ret C level optname).2 hu
  rcases hcs : convert_sockopt C level optname with ⟨c, l, o⟩
  rw [hcs] at hc
  simp only at hc
  subst hc
  simp [WSOCK32_getsockopt, _get_sock_fd, hfd, nat_fd_ne_neg_one, hcs, SetLastError, close,
    World.call, getsockopt_calls, Call.is_getsockopt]

/-- `WSOCK32_setsockopt` on a resolved handle and an unsupported pair other than
`WS_SO_DONTLINGER` at `WS_SOL_SOCKET`. -/
theorem WSOCK32_setsockopt_unsupported (S : Host) (C : HostSockOpts) (E : HostErrno)
    (w : World) (s level optname : Int) (optval : Option (List Nat)) (optlen : Int) (fd : Nat)
    (hfd : S.FILE_GetUnixHandle w.trace (s % 65536) = some fd)
    (hu : ¬ supported_sockopt C level optname)
    (hd : ¬ (as_UINT optname = WS_SO_DONTLINGER ∧ level = WS_SOL_SOCKET)) :
    ∃ w', WSOCK32_setsockopt S C E w s level optname optval optlen = some (SOCKET_ERROR, w') ∧
      w'.last_error = WSAENOPROTOOPT ∧ setsockopt_calls w'.trace = setsockopt_calls w.trace := by
  have hc := (convert_sockopt_ret C level optname).2 hu
  rcases hcs : convert_sockopt C level optname with ⟨c, l, o⟩
  rw [hcs] at hc
  simp only at hc
  subst hc
  have hdebug : ¬ (optname = WS_SO_DEBUG ∧ level = WS_SOL_SOCKET) := by
    rintro ⟨h1, h2⟩
    apply hu
    left
    subst h1 h2
    refine ⟨rfl, ?_, by decide⟩
    simp [_ws_sock_ops]
  simp [WSOCK32_setsockopt, _get_sock_fd, hfd, nat_fd_ne_neg_one, hcs, SetLastError, close,
    World.call, setsockopt_calls, Call.is_setsockopt, hdebug, hd]

/-- C3 (as stated, refuted): `WS_SO_DONTLINGER` (-129 as an `INT`) at `WS_SOL_SOCKET` is not
an entry of `_ws_sock_ops` and `convert_sockopt` returns 0 for it, yet `WSOCK32_setsockopt`
on a resolved handle does not fail: it calls the host `setsockopt` (with `SO_LINGER`) and
returns 0, leaving the last error untouched. -/
theorem WSOCK32_setsockopt_DONTLINGER_not_refused :
    ¬ supported_sockopt linux_sockopts WS_SOL_SOCKET (-129) ∧
    (convert_sockopt linux_sockopts WS_SOL_SOCKET (-129)).1 = 0 ∧
    WSOCK32_setsockopt quiet_host linux_sockopts linux_errno World.init 100 WS_SOL_SOCKET (-129)
        (some [1, 0, 0, 0]) 4 =
      some (0, { trace := [Call.FILE_GetUnixHandle 100 3,
                           Call.setsockopt 3 1 13 (HostOptVal.linger 0 0) 8,
                           Call.close 3],
                 errno := 0, last_error := 0 }) := by
  decide

/-- C3 (amended): `convert_sockopt` returns 1 exactly on the supported pairs (level
`WS_SOL_SOCKET` with an entry of `_ws_sock_ops`, level `WS_IPPROTO_TCP` with an entry of
`_ws_tcp_ops`) and then gives the host pair at the same table index; on every other pair,
any other level and option 0 included, it returns 0.  On such a pair and a handle that
resolves, `WSOCK32_getsockopt` returns `SOCKET_ERROR` with last error `WSAENOPROTOOPT` and
makes no host `getsockopt` call, and `WSOCK32_setsockopt` does the same (no host
`setsockopt` call) unless the pair is `WS_SO_DONTLINGER` at `WS_SOL_SOCKET`, which it
converts itself without asking `convert_sockopt`. -/
theorem convert_sockopt_supported_or_refused (C : HostSockOpts) (level optname : Int) :
    ((convert_sockopt C level optname).1 = 1 ↔ supported_sockopt C level optname) ∧
    ((convert_sockopt C level optname).1 = 0 ↔ ¬ supported_sockopt C level optname) ∧
    (level = WS_SOL_SOCKET → optname ∈ _ws_sock_ops C → optname ≠ 0 →
      ∃ i, i < (_px_sock_ops C).length ∧ (_ws_sock_ops C).getD i 0 = optname ∧
        convert_sockopt C level optname = (1, C.SOL_SOCKET, (_px_sock_ops C).getD i 0)) ∧
    (level = WS_IPPROTO_TCP → optname ∈ _ws_tcp_ops C → optname ≠ 0 →
      ∃ i, i + 1 < (_px_tcp_ops C).length ∧ (_ws_tcp_ops C).getD i 0 = optname ∧
        convert_sockopt C level optname = (1, C.IPPROTO_TCP, (_px_tcp_ops C).getD i 0)) ∧
    (¬ supported_sockopt C level optname →
      ∀ (S : Host) (E : HostErrno) (w : World) (s : Int) (fd : Nat),
        S.FILE_GetUnixHandle w.trace s = some fd →
          (WSOCK32_getsockopt S C E w s level optname).1 = SOCKET_ERROR ∧
          (WSOCK32_getsockopt S C E w s level optname).2.last_error = WSAENOPROTOOPT ∧
          getsockopt_calls (WSOCK32_getsockopt S C E w s level optname).2.trace =
            getsockopt_calls w.trace) ∧
    (¬ supported_sockopt C level optname →
      ¬ (as_UINT optname = WS_SO_DONTLINGER ∧ level = WS_SOL_SOCKET) →
      ∀ (S : Host) (E : HostErrno) (w : World) (s : Int) (optval : Option (List Nat))
        (optlen : Int) (fd : Nat),
        S.FILE_GetUnixHandle w.trace (s % 65536) = some fd →
          ∃ w', WSOCK32_setsockopt S C E w s level optname optval optlen =
              some (SOCKET_ERROR, w') ∧
            w'.last_error = WSAENOPROTOOPT ∧
            setsockopt_calls w'.trace = setsockopt_calls w.trace) := by
  obtain ⟨h1, h0⟩ := convert_sockopt_ret C level optname
  refine ⟨⟨fun h => ?_, h1⟩, ⟨fun h => ?_, h0⟩, ?_, ?_, ?_, ?_⟩
  · by_contra hn
    rw [h0 hn] at h
    exact absurd h (by decide)
  · intro hs
    rw [h1 hs] at h
    exact absurd h (by decide)
  · rintro rfl hm hne
    exact (convert_sockopt_sol_socket C optname).1 ⟨hm, hne⟩
  · rintro rfl hm hne
    exact (convert_sockopt_ipproto_tcp C optname).1 ⟨hm, hne⟩
  · intro hu S E w s fd hfd
    exact WSOCK32_getsockopt_unsupported S C E w s level optname fd hfd hu
  · intro hu hd S E w s optval optlen fd hfd
    exact WSOCK32_setsockopt_unsupported S C E w s level optname optval optlen fd hfd hu hd

/-- C3 (amended) on Linux at the unsupported pair (level 7, option 1): `convert_sockopt`
returns 0 and both entry points refuse the call on a resolved handle. -/
theorem convert_sockopt_supported_or_refused_linux :
    ¬ supported_sockopt linux_sockopts 7 1 ∧
    (convert_sockopt linux_sockopts 7 1).1 = 0 ∧
    (WSOCK32_getsockopt quiet_host linux_sockopts linux_errno World.init 100 7 1).1 =
      SOCKET_ERROR ∧
    (∃ w', WSOCK32_setsockopt quiet_host linux_sockopts linux_errno World.init 100 7 1
        (some [1, 0, 0, 0]) 4 = some (SOCKET_ERROR, w') ∧
      w'.last_error = WSAENOPROTOOPT ∧
      setsockopt_calls w'.trace = setsockopt_calls World.init.trace) :=
  have hu : ¬ supported_sockopt linux_sockopts 7 1 := by decide
  have h := convert_sockopt_supported_or_refused linux_sockopts 7 1
  ⟨hu, h.2.1.2 hu,
    (h.2.2.2.2.1 hu quiet_host linux_errno World.init 100 3 (by decide)).1,
    h.2.2.2.2.2 hu (by decide) quiet_host linux_errno World.init 100 (some [1, 0, 0, 0]) 4 3
      (by decide)⟩

/-- Looking a host option up in a table without repeated entries finds the index it came
from. -/
theorem host_index_getD (px : List Int) (i : Nat) (hnd : px.Nodup) (hi : i < px.length) :
    host_index px (px.getD i 0) = some i := by
  have e : px.getD i 0 = px[i] := by
    rw [List.getD_eq_getElem?_getD, List.getElem?_eq_getElem hi]; rfl
  rw [e]
  unfold host_index
  rw [List.indexOf_getElem hnd i hi, if_pos hi]

/-- Translating a supported pair and looking the host pair up backwards gives the pair back. -/
theorem reverse_sockopt_convert (C : HostSockOpts) (hd : C.distinct) (level optname : Int)
    (hs : supported_sockopt C level optname) :
    (convert_sockopt C level optname).1 = 1 ∧
    reverse_sockopt C (convert_sockopt C level optname).2.1 (convert_sockopt C level optname).2.2 =
      some (level, optname) := by
  obtain ⟨hlv, hnd⟩ := hd
  rcases hs with ⟨rfl, hm, hne⟩ | ⟨rfl, hm, hne⟩
  · obtain ⟨i, hi, hw, hc⟩ := (convert_sockopt_sol_socket C optname).1 ⟨hm, hne⟩
    obtain ⟨entries, hws, -, hlen⟩ := ws_sock_ops_shape C
    rw [hc]
    refine ⟨rfl, ?_⟩
    have hl : (_ws_sock_ops C).length - 1 = (_px_sock_ops C).length := by
      rw [hws, List.length_append, hlen]; simp
    simp only [reverse_sockopt, if_true, hl, List.take_length]
    rw [host_index_getD _ i hnd hi]
    simp only [hw]
  · obtain ⟨i, hi, hw, hc⟩ := (convert_sockopt_ipproto_tcp C optname).1 ⟨hm, hne⟩
    obtain ⟨entries, pentries, hws, -, hpx, hlen, hpnd⟩ := ws_tcp_ops_shape C
    rw [hc]
    refine ⟨rfl, ?_⟩
    have hl : (_px_tcp_ops C).take ((_ws_tcp_ops C).length - 1) = pentries := by
      rw [hws, hpx, List.length_append, hlen]; simp
    have hi2 : i < pentries.length := by
      rw [hpx, List.length_append] at hi
      simpa using hi
    have hg : (_px_tcp_ops C).getD i 0 = pentries.getD i 0 := by
      rw [hpx, List.getD_eq_getElem?_getD, List.getD_eq_getElem?_getD,
        List.getElem?_append_left hi2]
    simp only [reverse_sockopt, if_neg (Ne.symm hlv), if_true, hl, hg]
    rw [host_index_getD _ i hpnd hi2]
    simp only [hw]

/-- C4: on a host whose option constants are distinct, every supported Windows pair is
translated (the result is a function of the pair alone), looking the produced host pair up
backwards in the host tables gives the original Windows pair, and two different supported
Windows pairs never translate to the same host pair. -/
theorem convert_sockopt_reversible (C : HostSockOpts) (hd : C.distinct) (level optname : Int)
    (hs : supported_sockopt C level optname) :
    (convert_sockopt C level optname).1 = 1 ∧
    reverse_sockopt C (convert_sockopt C level optname).2.1 (convert_sockopt C level optname).2.2 =
      some (level, optname) ∧
    (∀ level' optname' : Int, supported_sockopt C level' optname' →
      (convert_sockopt C level' optname').2 = (convert_sockopt C level optname).2 →
        (level', optname') = (level, optname)) := by
  obtain ⟨h1, h2⟩ := reverse_sockopt_convert C hd level optname hs
  refine ⟨h1, h2, fun level' optname' hs' he => ?_⟩
  obtain ⟨-, h2'⟩ := reverse_sockopt_convert C hd level' optname' hs'
  rw [he, h2] at h2'
  exact (Option.some.inj h2').symm

/-- C4 on Linux, at `WS_SO_RCVBUF` of `WS_SOL_SOCKET`: the host pair is (1, 8) and the
reverse lookup of (1, 8) is the Windows pair again. -/
theorem convert_sockopt_reversible_linux :
    linux_sockopts.distinct ∧ supported_sockopt linux_sockopts WS_SOL_SOCKET WS_SO_RCVBUF ∧
    convert_sockopt linux_sockopts WS_SOL_SOCKET WS_SO_RCVBUF = (1, 1, 8) ∧
    reverse_sockopt linux_sockopts 1 8 = some (WS_SOL_SOCKET, WS_SO_RCVBUF) ∧
    (∀ level' optname' : Int, supported_sockopt linux_sockopts level' optname' →
      (convert_sockopt linux_sockopts level' optname').2 = (1, 8) →
        (level', optname') = (WS_SOL_SOCKET, WS_SO_RCVBUF)) :=
  have h := convert_sockopt_reversible linux_sockopts (by decide) WS_SOL_SOCKET WS_SO_RCVBUF
    (by decide)
  ⟨by decide, by decide, by decide, h.2.1, h.2.2⟩

/-- The closes of a trace with one more call. -/
theorem closed_fds_append (a b : List Call) :
    closed_fds (a ++ b) = closed_fds a ++ closed_fds b := by
  simp [closed_fds]

/-- The resolutions of a trace with more calls. -/
theorem resolved_fds_append (a b : List Call) :
    resolved_fds (a ++ b) = resolved_fds a ++ resolved_fds b := by
  simp [resolved_fds]

/-- The tail of `WSOCK32_setsockopt` closes the descriptor exactly once whenever it returns. -/
theorem setsockopt_forward_closes (S : Host) (C : HostSockOpts) (E : HostErrno) (w : World)
    (fd level optname : Int) (optval : HostOptVal) (optlen : Int) (r : Int) (w' : World)
    (h : setsockopt_forward S C E w fd level optname optval optlen = some (r, w')) :
    closed_fds w'.trace = closed_fds w.trace ++ [fd] := by
  unfold setsockopt_forward at h
  simp only at h
  cases hv : optval.deref_int <;> simp only [hv] at h <;> split_ifs at h <;>
    (simp only [Option.some.injEq, Prod.mk.injEq] at h
     obtain ⟨-, rfl⟩ := h
     simp [closed_fds, close, World.call, SetLastError, Call.closed])

/-- The paths of `WSOCK32_setsockopt` on a resolved handle: whenever the call returns, the
descriptor has been closed exactly once, except on the `WS_SO_DEBUG` path, which returns
without closing it. -/
theorem WSOCK32_setsockopt_closes (S : Host) (C : HostSockOpts) (E : HostErrno) (w : World)
    (s level optname : Int) (optval : Option (List Nat)) (optlen : Int) (fd : Nat)
    (r : Int) (w' : World)
    (hfd : S.FILE_GetUnixHandle w.trace (s % 65536) = some fd)
    (h : WSOCK32_setsockopt S C E w s level optname optval optlen = some (r, w')) :
    closed_fds w'.trace = closed_fds w.trace ++
      (if optname = WS_SO_DEBUG ∧ level = WS_SOL_SOCKET then [] else [(fd : Int)]) := by
  unfold WSOCK32_setsockopt at h
  simp only [_get_sock_fd, hfd, nat_fd_ne_neg_one, ne_eq, not_false_eq_true, if_true] at h
  have base : closed_fds (w.call (Call.FILE_GetUnixHandle (s % 65536) fd)).trace =
      closed_fds w.trace := by
    simp [closed_fds, World.call, Call.closed]
  by_cases hdbg : optname = WS_SO_DEBUG ∧ level = WS_SOL_SOCKET
  · rw [if_pos hdbg] at h
    cases optval with
    | none => simp at h
    | some b =>
      simp only [Option.some.injEq, Prod.mk.injEq] at h
      obtain ⟨-, rfl⟩ := h
      rw [if_pos hdbg, base]; simp
  · rw [if_neg hdbg] at h
    rw [if_neg hdbg, ← base]
    split_ifs at h <;>
      first
        | exact setsockopt_forward_closes _ _ _ _ _ _ _ _ _ _ _ h
        | (cases optval with
           | none => simp at h; done
           | some b => exact setsockopt_forward_closes _ _ _ _ _ _ _ _ _ _ _ h)
        | (simp only [Option.some.injEq, Prod.mk.injEq] at h
           obtain ⟨-, rfl⟩ := h
           simp [closed_fds, close, World.call, SetLastError, Call.closed])

/-- C9 (code defect): `WSOCK32_setsockopt` with `WS_SO_DEBUG` at `WS_SOL_SOCKET` on a
handle that resolves (to descriptor 3) returns 0 and the descriptor is never closed: the
trace holds the resolution and no `close`. -/
theorem WSOCK32_setsockopt_SO_DEBUG_leaks_fd :
    WSOCK32_setsockopt quiet_host linux_sockopts linux_errno World.init 100 WS_SOL_SOCKET
        WS_SO_DEBUG (some [1, 0, 0, 0]) 4 =
      some (0, { trace := [Call.FILE_GetUnixHandle 100 3], errno := 0, last_error := 0 }) ∧
    resolved_fds [Call.FILE_GetUnixHandle 100 3] = [3] ∧
    closed_fds [Call.FILE_GetUnixHandle 100 3] = [] := by
  decide

/-- The paths of `WSOCK32_listen` on a resolved handle: the descriptor is closed exactly
once when the host `listen` succeeds and not at all when it fails. -/
theorem WSOCK32_listen_closes (S : Host) (E : HostErrno) (w : World) (s backlog : Int)
    (fd : Nat) (hfd : S.FILE_GetUnixHandle w.trace s = some fd) :
    closed_fds (WSOCK32_listen S E w s backlog).2.trace = closed_fds w.trace ++
      (if (S.listen (w.trace ++ [Call.FILE_GetUnixHandle s fd]) fd backlog).ret = 0
        then [(fd : Int)] else []) := by
  unfold WSOCK32_listen
  simp only [_get_sock_fd, hfd, nat_fd_ne_neg_one, ne_eq, not_false_eq_true, if_true,
    World.call]
  split_ifs <;>
    simp [closed_fds, close, World.call, SetLastError, _enable_event, Call.closed]

/-- C10 (code defect): `WSOCK32_listen` on a handle that resolves (to descriptor 3) when the
host `listen` fails returns `SOCKET_ERROR` with the translated error and the descriptor is
never closed: the trace holds the resolution and no `close`. -/
theorem WSOCK32_listen_failure_leaks_fd :
    WSOCK32_listen listen_fails_host linux_errno World.init 100 5 =
      (SOCKET_ERROR, { trace := [Call.FILE_GetUnixHandle 100 3, Call.listen 3 5,
                                 Call.SetLastError WSAEADDRINUSE],
                       errno := 98, last_error := WSAEADDRINUSE }) ∧
    resolved_fds [Call.FILE_GetUnixHandle 100 3, Call.listen 3 5,
      Call.SetLastError WSAEADDRINUSE] = [3] ∧
    closed_fds [Call.FILE_GetUnixHandle 100 3, Call.listen 3 5,
      Call.SetLastError WSAEADDRINUSE] = [] := by
  decide

/-- The close of `WSOCK32_setsockopt` at a concrete call: `WS_SO_RCVBUF` with value 4096 on
handle 100, which resolves to descriptor 3; the request is forwarded and 3 is closed
once. -/
theorem WSOCK32_setsockopt_closes_sample :
    quiet_host.FILE_GetUnixHandle World.init.trace (100 % 65536) = some 3 ∧
    WSOCK32_setsockopt quiet_host linux_sockopts linux_errno World.init 100 WS_SOL_SOCKET
        WS_SO_RCVBUF (some [0, 16, 0, 0]) 4 =
      some (0, { trace := [Call.FILE_GetUnixHandle 100 3,
                           Call.setsockopt 3 1 8 (HostOptVal.caller (some [0, 16, 0, 0])) 4,
                           Call.close 3],
                 errno := 0, last_error := 0 }) ∧
    closed_fds [Call.FILE_GetUnixHandle 100 3,
        Call.setsockopt 3 1 8 (HostOptVal.caller (some [0, 16, 0, 0])) 4, Call.close 3] =
      closed_fds World.init.trace ++ [3] :=
  ⟨by decide, by decide,
   WSOCK32_setsockopt_closes quiet_host linux_sockopts linux_errno World.init 100 WS_SOL_SOCKET
     WS_SO_RCVBUF (some [0, 16, 0, 0]) 4 3 0
     { trace := [Call.FILE_GetUnixHandle 100 3,
                 Call.setsockopt 3 1 8 (HostOptVal.caller (some [0, 16, 0, 0])) 4,
                 Call.close 3],
       errno := 0, last_error := 0 } (by decide) (by decide)⟩

/-- The close of `WSOCK32_listen` at a concrete call: handle 100 resolves to descriptor 3,
the host `listen` succeeds and 3 is closed once. -/
theorem WSOCK32_listen_closes_sample :
    quiet_host.FILE_GetUnixHandle World.init.trace 100 = some 3 ∧
    closed_fds (WSOCK32_listen quiet_host linux_errno World.init 100 5).2.trace =
      closed_fds World.init.trace ++ [3] :=
  ⟨by decide, WSOCK32_listen_closes quiet_host linux_errno World.init 100 5 3 (by decide)⟩

/-- The descriptors listed from index `i` on do not depend on an entry before `i`. -/
theorem live_fds_set_lt (lfd : List Int) (n i k : Nat) (v : Int) (hk : k < i) :
    live_fds (lfd.set k v) n i = live_fds lfd n i := by
  induction n generalizing i with
  | zero => rfl
  | succ n ih =>
    have hne : k ≠ i := Nat.ne_of_lt hk
    simp only [live_fds, List.getD_eq_getElem?_getD, List.getElem?_set_ne hne]
    rw [ih (i + 1) (Nat.lt_succ_of_lt hk)]

/-- Two arrays that agree from index `i` on list the same descriptors from there. -/
theorem live_fds_congr (a b : List Int) (n i : Nat)
    (h : ∀ k, i ≤ k → k < i + n → a.getD k 0 = b.getD k 0) :
    live_fds a n i = live_fds b n i := by
  induction n generalizing i with
  | zero => rfl
  | succ n ih =>
    simp only [live_fds]
    rw [h i (Nat.le_refl _) (by omega), ih (i + 1) (fun k h1 h2 => h k (by omega) (by omega))]

/-- The import loop: it only resolves handles; it closes nothing; entry `k` of `lfd` holds
the descriptor resolved for entry `k`, so the descriptors it resolved are those listed in
`lfd` afterwards; entries before the start index are left alone. -/
theorem fd_set_import_loop_spec (S : Host) (fd_array : List Int) (n i : Nat) (st : ImportState)
    (h : i + n ≤ st.lfd.length) :
    (fd_set_import_loop S fd_array n i st).lfd.length = st.lfd.length ∧
    (∀ k, k < i → (fd_set_import_loop S fd_array n i st).lfd.getD k 0 = st.lfd.getD k 0) ∧
    ∃ evs, (fd_set_import_loop S fd_array n i st).w.trace = st.w.trace ++ evs ∧
      closed_fds evs = [] ∧
      resolved_fds evs = live_fds (fd_set_import_loop S fd_array n i st).lfd n i := by
  induction n generalizing i st with
  | zero => exact ⟨rfl, fun _ _ => rfl, [], by simp [fd_set_import_loop], rfl, rfl⟩
  | succ n ih =>
    have hi : i < st.lfd.length := by omega
    cases hres : S.FILE_GetUnixHandle st.w.trace (fd_array.getD i 0) with
    | none =>
      have hstep : fd_set_import_loop S fd_array (n + 1) i st =
          fd_set_import_loop S fd_array n (i + 1)
            { st with w := { st.w with
                               trace := st.w.trace ++ [Call.FILE_GetUnixHandle (fd_array.getD i 0) (-1)],
                               last_error := S.handle_error st.w.trace (fd_array.getD i 0) },
                      lfd := st.lfd.set i (-1) } := by
        simp [-List.getD_eq_getElem?_getD, fd_set_import_loop, _get_sock_fd, hres]
      rw [hstep]
      obtain ⟨hl, hk, evs, ht, hc, hr⟩ := ih (i + 1)
        { st with w := { st.w with
                           trace := st.w.trace ++ [Call.FILE_GetUnixHandle (fd_array.getD i 0) (-1)],
                           last_error := S.handle_error st.w.trace (fd_array.getD i 0) },
                  lfd := st.lfd.set i (-1) } (by simp; omega)
      refine ⟨by simpa using hl, fun k hki => ?_, Call.FILE_GetUnixHandle (fd_array.getD i 0) (-1) :: evs, ?_, ?_, ?_⟩
      · rw [hk k (by omega)]
        simp only [List.getD_eq_getElem?_getD]
        rw [List.getElem?_set_ne (by omega)]
      · rw [ht]; simp
      · simp [closed_fds, Call.closed] at hc ⊢
        exact hc
      · have hv := hk i (by omega)
        simp only [List.getD_eq_getElem?_getD, List.getElem?_set_self hi, Option.getD_some] at hv
        simp only [live_fds, List.getD_eq_getElem?_getD, hv]
        simp only [resolved_fds, List.filterMap_cons, Call.resolved, if_true] at hr ⊢
        simpa [List.getD_eq_getElem?_getD] using hr
    | some fd =>
      have hstep : fd_set_import_loop S fd_array (n + 1) i st =
          fd_set_import_loop S fd_array n (i + 1)
            { w := st.w.call (Call.FILE_GetUnixHandle (fd_array.getD i 0) fd),
              lfd := st.lfd.set i fd,
              highfd := if (fd : Int) > st.highfd then fd else st.highfd,
              fds := FD_SET fd st.fds } := by
        simp [-List.getD_eq_getElem?_getD, fd_set_import_loop, _get_sock_fd, hres, nat_fd_ne_neg_one]
      rw [hstep]
      obtain ⟨hl, hk, evs, ht, hc, hr⟩ := ih (i + 1)
        { w := st.w.call (Call.FILE_GetUnixHandle (fd_array.getD i 0) fd),
          lfd := st.lfd.set i fd,
          highfd := if (fd : Int) > st.highfd then fd else st.highfd,
          fds := FD_SET fd st.fds } (by simp; omega)
      refine ⟨by simpa using hl, fun k hki => ?_, Call.FILE_GetUnixHandle (fd_array.getD i 0) fd :: evs, ?_, ?_, ?_⟩
      · rw [hk k (by omega)]
        simp only [List.getD_eq_getElem?_getD]
        rw [List.getElem?_set_ne (by omega)]
      · rw [ht]; simp [World.call]
      · simp [closed_fds, Call.closed] at hc ⊢
        exact hc
      · have hv := hk i (by omega)
        simp only [List.getD_eq_getElem?_getD, List.getElem?_set_self hi, Option.getD_some] at hv
        have hfd : (fd : Int) ≥ 0 := by omega
        simp only [live_fds, List.getD_eq_getElem?_getD, hv, hfd, if_true]
        simp only [resolved_fds, List.filterMap_cons, Call.resolved, nat_fd_ne_neg_one,
          if_false] at hr ⊢
        simpa [List.getD_eq_getElem?_getD] using hr

/-- One iteration of the export loop: it resolves nothing, closes the descriptor of entry
`i` if there is one, and touches no other entry of `lfd`. -/
theorem fd_set_export_body_spec (S : Host) (C : HostSockOpts) (fds : fd_set) (i : Nat)
    (st : ExportState) :
    ((fd_set_export_body S C fds i st).lfd = st.lfd ∨
      (fd_set_export_body S C fds i st).lfd = st.lfd.set i (-1)) ∧
    (fd_set_export_body S C fds i st).exceptfds.isSome = st.exceptfds.isSome ∧
    ∃ evs, (fd_set_export_body S C fds i st).w.trace = st.w.trace ++ evs ∧
      resolved_fds evs = [] ∧
      closed_fds evs = (if st.lfd.getD i 0 ≥ 0 then [st.lfd.getD i 0] else []) := by
  unfold fd_set_export_body
  by_cases hv : st.lfd.getD i 0 ≥ 0
  · simp only [hv, if_true]
    by_cases hs : FD_ISSET (st.lfd.getD i 0) fds = true
    · simp only [hs, if_true]
      cases hex : st.exceptfds with
      | none =>
        refine ⟨Or.inr rfl, by simp [hex], [Call.close (st.lfd.getD i 0)], ?_, ?_, ?_⟩ <;>
          simp [close, World.call, resolved_fds, closed_fds, Call.resolved, Call.closed]
      | some ex =>
        simp only [sock_error_p]
        split_ifs <;>
          refine ⟨Or.inr rfl, by simp [hex],
            [Call.getsockopt (st.lfd.getD i 0) C.SOL_SOCKET C.SO_ERROR,
             Call.close (st.lfd.getD i 0)], ?_, ?_, ?_⟩ <;>
          simp [close, World.call, resolved_fds, closed_fds, Call.resolved, Call.closed]
    · simp only [hs]
      refine ⟨Or.inr rfl, rfl, [Call.close (st.lfd.getD i 0)], ?_, ?_, ?_⟩ <;>
        simp [close, World.call, resolved_fds, closed_fds, Call.resolved, Call.closed]
  · simp only [hv, if_false]
    exact ⟨Or.inl trivial, trivial, [], by simp, rfl, rfl⟩

/-- The export loop: it resolves nothing and closes exactly the descriptors listed in `lfd`
for the entries it walks over. -/
theorem fd_set_export_loop_spec (S : Host) (C : HostSockOpts) (fds : fd_set) (n i : Nat)
    (st : ExportState) :
    (fd_set_export_loop S C fds n i st).exceptfds.isSome = st.exceptfds.isSome ∧
    ∃ evs, (fd_set_export_loop S C fds n i st).w.trace = st.w.trace ++ evs ∧
      resolved_fds evs = [] ∧ closed_fds evs = live_fds st.lfd n i := by
  induction n generalizing i st with
  | zero => exact ⟨rfl, [], by simp [fd_set_export_loop], rfl, rfl⟩
  | succ n ih =>
    obtain ⟨hl, hx, e1, ht1, hr1, hc1⟩ := fd_set_export_body_spec S C fds i st
    obtain ⟨hx2, e2, ht2, hr2, hc2⟩ := ih (i + 1) (fd_set_export_body S C fds i st)
    have hlive : live_fds (fd_set_export_body S C fds i st).lfd n (i + 1) =
        live_fds st.lfd n (i + 1) := by
      rcases hl with hl | hl
      · rw [hl]
      · rw [hl, live_fds_set_lt _ _ _ _ _ (Nat.lt_succ_self i)]
    refine ⟨by simp only [fd_set_export_loop]; rw [hx2, hx], e1 ++ e2, ?_, ?_, ?_⟩
    · simp only [fd_set_export_loop]
      rw [ht2, ht1, List.append_assoc]
    · rw [resolved_fds_append, hr1, hr2]; rfl
    · rw [closed_fds_append, hc1, hc2, hlive]; rfl

/-- The unimport loop closes exactly the descriptors listed in `lfd` for the entries it
walks over, and resolves nothing. -/
theorem fd_set_unimport_loop_spec (lfd : List Int) (n i : Nat) (w : World) :
    ∃ evs, (fd_set_unimport_loop lfd n i w).trace = w.trace ++ evs ∧
      resolved_fds evs = [] ∧ closed_fds evs = live_fds lfd n i ∧
      (fd_set_unimport_loop lfd n i w).errno = w.errno ∧
      (fd_set_unimport_loop lfd n i w).last_error = w.last_error := by
  induction n generalizing i w with
  | zero => exact ⟨[], by simp [fd_set_unimport_loop], rfl, rfl, rfl, rfl⟩
  | succ n ih =>
    simp only [fd_set_unimport_loop, live_fds]
    by_cases hv : lfd.getD i 0 ≥ 0
    · obtain ⟨e2, ht, hr, hc, he, hle⟩ := ih (i + 1) (close w (lfd.getD i 0))
      simp only [hv, if_true]
      refine ⟨Call.close (lfd.getD i 0) :: e2, ?_, ?_, ?_, ?_, ?_⟩
      · rw [ht]; simp [close, World.call]
      · simpa [resolved_fds, Call.resolved] using hr
      · simp only [closed_fds, List.filterMap_cons, Call.closed] at hc ⊢
        rw [hc]; rfl
      · rw [he]; rfl
      · rw [hle]; rfl
    · obtain ⟨e2, ht, hr, hc, he, hle⟩ := ih (i + 1) w
      simp only [hv, if_false]
      exact ⟨e2, ht, hr, by simpa using hc, he, hle⟩

/-- One iteration of the exception-set loop: it resolves nothing, closes the descriptor of
entry `i` if there is one, and touches no other entry of `exceptfd`. -/
theorem ws_select_except_body_spec (exceptfds : fd_set) (i : Nat) (st : ExceptLoopState) :
    (ws_select_except_body exceptfds i st).exceptfd = st.exceptfd.set i (-1) ∧
    ∃ evs, (ws_select_except_body exceptfds i st).w.trace = st.w.trace ++ evs ∧
      resolved_fds evs = [] ∧
      closed_fds evs = (if st.exceptfd.getD i 0 ≥ 0 then [st.exceptfd.getD i 0] else []) := by
  refine ⟨by unfold ws_select_except_body; simp only []; split_ifs <;> rfl, ?_⟩
  by_cases hv : st.exceptfd.getD i 0 ≥ 0
  · refine ⟨[Call.close (st.exceptfd.getD i 0)], ?_, ?_, ?_⟩
    · unfold ws_select_except_body
      simp only []
      split_ifs <;> simp [close, World.call]
    · simp [resolved_fds, Call.resolved]
    · rw [if_pos hv]; rfl
  · refine ⟨[], ?_, rfl, by rw [if_neg hv]; rfl⟩
    unfold ws_select_except_body
    simp only []
    split_ifs <;> simp_all

/-- The exception-set loop closes exactly the descriptors listed in `exceptfd` for the
entries it walks over, and resolves nothing. -/
theorem ws_select_except_loop_spec (exceptfds : fd_set) (n i : Nat) (st : ExceptLoopState) :
    ∃ evs, (ws_select_except_loop exceptfds n i st).w.trace = st.w.trace ++ evs ∧
      resolved_fds evs = [] ∧ closed_fds evs = live_fds st.exceptfd n i := by
  induction n generalizing i st with
  | zero => exact ⟨[], by simp [ws_select_except_loop], rfl, rfl⟩
  | succ n ih =>
    obtain ⟨hl, e1, ht1, hr1, hc1⟩ := ws_select_except_body_spec exceptfds i st
    obtain ⟨e2, ht2, hr2, hc2⟩ := ih (i + 1) (ws_select_except_body exceptfds i st)
    refine ⟨e1 ++ e2, ?_, ?_, ?_⟩
    · simp only [ws_select_except_loop]
      rw [ht2, ht1, List.append_assoc]
    · rw [resolved_fds_append, hr1, hr2]; rfl
    · rw [closed_fds_append, hc1, hc2, hl, live_fds_set_lt _ _ _ _ _ (Nat.lt_succ_self i)]; rfl

/-- `fd_set_import`: the pointer it returns is `NULL` exactly for a `NULL` wire set; it
resolves handles and closes nothing; the descriptors it resolved are those it leaves in
`lfd`. -/
theorem fd_set_import_spec (S : Host) (w : World) (fds : fd_set) (wsfds : Option ws_fd_set)
    (highfd : Int) (lfd : List Int) (b32 : Bool) (h : wire_count wsfds ≤ lfd.length) :
    (fd_set_import S w fds wsfds highfd lfd b32).1.isSome = wsfds.isSome ∧
    ∃ evs, (fd_set_import S w fds wsfds highfd lfd b32).2.w.trace = w.trace ++ evs ∧
      closed_fds evs = [] ∧
      resolved_fds evs =
        live_fds (fd_set_import S w fds wsfds highfd lfd b32).2.lfd (wire_count wsfds) 0 := by
  cases wsfds with
  | none => exact ⟨rfl, [], by simp [fd_set_import], rfl, rfl⟩
  | some ws =>
    obtain ⟨-, -, evs, ht, hc, hr⟩ := fd_set_import_loop_spec S ws.fd_array ws.fd_count 0
      { w := w, highfd := highfd, lfd := lfd, fds := FD_ZERO } (by simpa [wire_count] using h)
    exact ⟨rfl, evs, ht, hc, hr⟩

/-- `fd_set_export`: it resolves nothing and closes exactly the descriptors listed in `lfd`
for the entries of the wire set. -/
theorem fd_set_export_spec (S : Host) (C : HostSockOpts) (w : World) (fds : fd_set)
    (exceptfds : Option fd_set) (wsfds : Option ws_fd_set) (lfd : List Int) (b32 : Bool) :
    (fd_set_export S C w fds exceptfds wsfds lfd b32).exceptfds.isSome = exceptfds.isSome ∧
    ∃ evs, (fd_set_export S C w fds exceptfds wsfds lfd b32).w.trace = w.trace ++ evs ∧
      resolved_fds evs = [] ∧ closed_fds evs = live_fds lfd (wire_count wsfds) 0 := by
  cases wsfds with
  | none => exact ⟨rfl, [], by simp [fd_set_export], rfl, rfl⟩
  | some ws =>
    obtain ⟨hx, evs, ht, hr, hc⟩ := fd_set_export_loop_spec S C fds ws.fd_count 0
      { w := w, exceptfds := exceptfds, fd_array := ws.fd_array, lfd := lfd, j := 0,
        num_err := 0 }
    exact ⟨hx, evs, ht, hr, hc⟩

/-- `fd_set_unimport`: it resolves nothing and closes exactly the descriptors listed in
`lfd` for the entries of the wire set. -/
theorem fd_set_unimport_spec (w : World) (wsfds : Option ws_fd_set) (lfd : List Int)
    (b32 : Bool) :
    ∃ evs, (fd_set_unimport w wsfds lfd b32).trace = w.trace ++ evs ∧
      resolved_fds evs = [] ∧ closed_fds evs = live_fds lfd (wire_count wsfds) 0 := by
  cases wsfds with
  | none => exact ⟨[], by simp [fd_set_unimport], rfl, rfl⟩
  | some ws =>
    obtain ⟨evs, ht, hr, hc, -, -⟩ := fd_set_unimport_loop_spec lfd ws.fd_count 0 w
    exact ⟨evs, ht, hr, hc⟩

/-- The count loop of `list_size` adds the sizes of the entries. -/
theorem list_size_loop_eq (item_size : Nat) (l : List (List Nat)) (j : Nat) :
    list_size_loop item_size l j = j + entries_size item_size l := by
  induction l generalizing j with
  | nil => simp [list_size_loop, entries_size]
  | cons e t ih =>
    simp only [list_size_loop, entries_size, List.map_cons, List.sum_cons] at ih ⊢
    rw [ih]; omega

/-- With a non-zero item size every entry takes that many bytes. -/
theorem entries_size_fixed (item_size : Nat) (l : List (List Nat)) (h : item_size ≠ 0) :
    entries_size item_size l = l.length * item_size := by
  induction l with
  | nil => simp [entries_size]
  | cons e t ih =>
    simp only [entries_size, List.map_cons, List.sum_cons, List.length_cons] at ih ⊢
    rw [ih, entry_size, if_pos h]; ring

/-- With item size 0 every entry takes its string length and the NUL. -/
theorem entries_size_strings (l : List (List Nat)) :
    entries_size 0 l = (l.map (fun a => strlen a + 1)).sum := by
  induction l with
  | nil => rfl
  | cons e t ih =>
    simp only [entries_size, List.map_cons, List.sum_cons] at ih ⊢
    rw [ih]; simp [entry_size]

/-- The copy loop of `list_dup` advances `p` by the sizes of the entries it copies. -/
theorem list_dup_loop_snd (Y : Layout) (l : List (List Nat)) (ref : Nat) (base : Int)
    (item_size : Nat) (n i : Nat) (m : Mem) (p : Nat) (h : i + n = l.length) :
    (list_dup_loop Y l ref base item_size n i m p).2 =
      p + entries_size item_size (l.drop i) := by
  induction n generalizing i m p with
  | zero =>
    have : l.drop i = [] := List.drop_eq_nil_of_le (by omega)
    simp [list_dup_loop, this, entries_size]
  | succ n ih =>
    have hi : i < l.length := by omega
    simp only [list_dup_loop]
    rw [ih (i + 1) _ _ (by omega)]
    rw [List.drop_eq_getElem_cons hi]
    simp only [entries_size, List.map_cons, List.sum_cons]
    have : l.getD i [] = l[i] := by
      rw [List.getD_eq_getElem?_getD, List.getElem?_eq_getElem hi]; rfl
    rw [this]; omega

/-- What `list_dup` returns: the pointer array and the copied entries. -/
theorem list_dup_size (Y : Layout) (l : List (List Nat)) (m : Mem) (ref : Nat) (base : Int)
    (item_size : Nat) :
    (list_dup Y (some l) m ref base item_size).map Prod.fst =
      some ((l.length + 1) * Y.sizeof_ptr + entries_size item_size l) := by
  simp only [list_dup, Option.map_some']
  rw [list_dup_loop_snd Y l ref base item_size l.length 0 m _ (by omega)]
  simp
  omega

/-- C5 (as stated, refuted): a record with name "hi", no alias and one address, of address
length 0.  The formula of the claim gives 16 + 3 + 4 + 0 + 8 + 0 = 31 on the x86 layout, but
`WS_dup_he` returns 33: with length 0 the address is measured as a string (`strlen` + 1). -/
theorem WS_dup_he_size_zero_length :
    (WS_dup_he x86_layout alloc_ok HeState.init
      (some { h_name := [104, 105], h_aliases := some [], h_addrtype := 2, h_length := 0,
              h_addr_list := some [[127, 0, 0, 1]] }) WS_DUP_LINEAR).map Prod.fst = some 33 ∧
    x86_layout.sizeof_ws_hostent32 + (strlen [104, 105] + 1) + (0 + 1) * x86_layout.sizeof_ptr
      + 0 + (1 + 1) * x86_layout.sizeof_ptr + 1 * 0 = 31 := by
  decide

/-- C5 (amended): for a host record with a name, `N` aliases and `M` addresses of address
length `L`, where `L` is not 0 or there is no address, and with the scratch buffer
available (big enough already, or allocated), `WS_dup_he` returns the header size of the
mode (`ws_hostent16` with `WS_DUP_SEGPTR`, `ws_hostent32` otherwise) + (name length + 1) +
(N+1) pointers + the sum of (alias length + 1) + (M+1) pointers + M*L. -/
theorem WS_dup_he_size (Y : Layout) (alloc : Nat → Option (Int × Int)) (st : HeState)
    (name : List Nat) (aliases addrs : List (List Nat)) (addrtype : Int) (L flag : Nat)
    (buf : HeBuffer)
    (hL : L ≠ 0 ∨ addrs = [])
    (hbuf : (check_buffer_he alloc st (hostent_size Y
      (some { h_name := name, h_aliases := some aliases, h_addrtype := addrtype, h_length := L,
              h_addr_list := some addrs }))).he_buffer = some buf) :
    (WS_dup_he Y alloc st
      (some { h_name := name, h_aliases := some aliases, h_addrtype := addrtype, h_length := L,
              h_addr_list := some addrs }) flag).map Prod.fst =
      some ((if flag &&& WS_DUP_SEGPTR ≠ 0 then Y.sizeof_ws_hostent16
              else Y.sizeof_ws_hostent32)
        + (strlen name + 1)
        + (aliases.length + 1) * Y.sizeof_ptr
        + (aliases.map (fun a => strlen a + 1)).sum
        + (addrs.length + 1) * Y.sizeof_ptr
        + addrs.length * L) := by
  have hsz : entries_size L addrs = addrs.length * L := by
    rcases hL with h | h
    · exact entries_size_fixed L addrs h
    · subst h; simp [entries_size]
  have hne : hostent_size Y
      (some { h_name := name, h_aliases := some aliases, h_addrtype := addrtype, h_length := L,
              h_addr_list := some addrs }) ≠ 0 := by
    simp [hostent_size]
  simp only [WS_dup_he, hne, ne_eq, not_false_eq_true, if_true, hbuf]
  have h1 := list_dup_size Y aliases
    (store_bytes buf.mem (dup_header_size Y flag) (cstr name ++ [0]))
    (dup_header_size Y flag + (strlen name + 1))
    (dup_base flag buf + ((dup_header_size Y flag + (strlen name + 1) : Nat) : Int)) 0
  rcases hd1 : list_dup Y (some aliases)
    (store_bytes buf.mem (dup_header_size Y flag) (cstr name ++ [0]))
    (dup_header_size Y flag + (strlen name + 1))
    (dup_base flag buf + ((dup_header_size Y flag + (strlen name + 1) : Nat) : Int)) 0 with
    _ | ⟨n1, m1⟩
  · rw [hd1] at h1; simp at h1
  · rw [hd1] at h1
    simp only [Option.map_some', Option.some.injEq] at h1
    simp only []
    have h2 := list_dup_size Y addrs m1 (dup_header_size Y flag + (strlen name + 1) + n1)
      (dup_base flag buf + ((dup_header_size Y flag + (strlen name + 1) + n1 : Nat) : Int)) L
    rcases hd2 : list_dup Y (some addrs) m1 (dup_header_size Y flag + (strlen name + 1) + n1)
      (dup_base flag buf + ((dup_header_size Y flag + (strlen name + 1) + n1 : Nat) : Int)) L with
      _ | ⟨n2, m2⟩
    · rw [hd2] at h2; simp at h2
    · have hH : (if flag &&& WS_DUP_SEGPTR ≠ 0 then Y.sizeof_ws_hostent16
          else Y.sizeof_ws_hostent32) = dup_header_size Y flag := rfl
      rw [hH]
      simp only [Option.map_some', Option.some.injEq, hostent_size, list_size,
        list_size_loop_eq, hsz, entries_size_strings]
      generalize dup_header_size Y flag = H
      generalize (aliases.length + 1) * Y.sizeof_ptr = c1
      generalize (addrs.length + 1) * Y.sizeof_ptr = c2
      generalize addrs.length * L = c3
      generalize (List.map (fun a => strlen a + 1) aliases).sum = c4
      omega

/-- C5 (amended) on the x86 layout: name "hi", aliases "a" and "bc", two 4-byte addresses, in
linear mode; the buffer is allocated and the size is 16 + 3 + 12 + 5 + 12 + 8 = 56. -/
theorem WS_dup_he_size_sample :
    ((4 : Nat) ≠ 0 ∨ [[127, 0, 0, 1], [10, 0, 0, 2]] = ([] : List (List Nat))) ∧
    (WS_dup_he x86_layout alloc_ok HeState.init
      (some { h_name := [104, 105], h_aliases := some [[97], [98, 99]], h_addrtype := 2,
              h_length := 4, h_addr_list := some [[127, 0, 0, 1], [10, 0, 0, 2]] })
      WS_DUP_LINEAR).map Prod.fst = some 56 :=
  ⟨by decide,
   WS_dup_he_size x86_layout alloc_ok HeState.init [104, 105] [[97], [98, 99]]
     [[127, 0, 0, 1], [10, 0, 0, 2]] 2 4 WS_DUP_LINEAR
     (HeBuffer.fresh 0x40001000 0x10570000) (Or.inl (by decide)) rfl⟩

/-- A byte store leaves the cells outside its range alone. -/
theorem store_bytes_outside (m : Mem) (p : Nat) (bs : List Nat) (a : Nat)
    (h : a < p ∨ p + bs.length ≤ a) : store_bytes m p bs a = m a := by
  unfold store_bytes
  rw [if_neg]
  omega

/-- A pointer store leaves the cells outside its range alone. -/
theorem store_ptr_outside (P : Nat) (m : Mem) (p : Nat) (v : Int) (a : Nat)
    (h : a < p ∨ p + P ≤ a) : store_ptr P m p v a = m a := by
  unfold store_ptr
  rw [if_neg]
  omega

/-- Reading bytes depends on the cells of the range only. -/
theorem load_bytes_congr (m m' : Mem) (q n : Nat)
    (h : ∀ a, q ≤ a → a < q + n → m a = m' a) : load_bytes m q n = load_bytes m' q n := by
  induction n generalizing q with
  | zero => rfl
  | succ n ih =>
    simp only [load_bytes]
    rw [h q (Nat.le_refl _) (by omega), ih (q + 1) (fun a h1 h2 => h a (by omega) (by omega))]

/-- Reading a pointer depends on the cells of the pointer only. -/
theorem load_ptr_congr (P : Nat) (hP : 0 < P) (m m' : Mem) (q : Nat)
    (h : ∀ a, q ≤ a → a < q + P → m a = m' a) : load_ptr P m q = load_ptr P m' q := by
  unfold load_ptr
  rw [h q (Nat.le_refl _) (by omega)]
  have hall : (List.range P).all (fun k => decide (k = 0 ∨ m (q + k) = Cell.ptr_rest)) =
      (List.range P).all (fun k => decide (k = 0 ∨ m' (q + k) = Cell.ptr_rest)) := by
    rw [Bool.eq_iff_iff]
    simp only [List.all_eq_true, List.mem_range, decide_eq_true_eq]
    constructor
    · intro H k hk
      rw [← h (q + k) (by omega) (by omega)]
      exact H k hk
    · intro H k hk
      rw [h (q + k) (by omega) (by omega)]
      exact H k hk
  rw [hall]

/-- Bytes that were stored are read back. -/
theorem load_bytes_store_bytes (m : Mem) (p : Nat) (bs : List Nat) :
    load_bytes (store_bytes m p bs) p bs.length = some bs := by
  induction bs generalizing m p with
  | nil => rfl
  | cons b t ih =>
    simp only [List.length_cons, load_bytes]
    have h0 : store_bytes m p (b :: t) p = Cell.byte b := by
      simp [store_bytes]
    have ht : load_bytes (store_bytes m p (b :: t)) (p + 1) t.length = some t := by
      rw [← ih (store_bytes m p (b :: t)) (p + 1)]
      apply load_bytes_congr
      intro a h1 h2
      have e : a - p = (a - (p + 1)) + 1 := by omega
      simp only [store_bytes, List.length_cons]
      rw [if_pos (by omega), if_pos (by omega), e]
      simp
    rw [h0, ht]

/-- A pointer that was stored is read back. -/
theorem load_ptr_store_ptr (P : Nat) (hP : 0 < P) (m : Mem) (p : Nat) (v : Int) :
    load_ptr P (store_ptr P m p v) p = some v := by
  unfold load_ptr
  have h0 : store_ptr P m p v p = Cell.ptr v := by
    simp [store_ptr, hP]
  rw [h0]
  simp only []
  rw [if_pos]
  rw [List.all_eq_true]
  intro k hk
  have hk' := List.mem_range.1 hk
  by_cases hz : k = 0
  · simp [hz]
  · have : store_ptr P m p v (p + k) = Cell.ptr_rest := by
      simp only [store_ptr]
      rw [if_pos (by omega), if_neg (by omega)]
    simp [this]

/-- What `memcpy` reads has the length asked for. -/
theorem read_bytes_length (s : List Nat) (k : Nat) : (read_bytes s k).length = k := by
  simp [read_bytes]

/-- The first `strlen + 1` bytes at a string pointer are the string and its NUL. -/
theorem read_bytes_strlen (s : List Nat) : read_bytes s (strlen s + 1) = cstr s ++ [0] := by
  induction s with
  | nil => rfl
  | cons b t ih =>
    by_cases hb : b = 0
    · subst hb
      simp [read_bytes, strlen, cstr, List.range_succ]
    · have hc : cstr (b :: t) = b :: cstr t := by
        simp [cstr, List.takeWhile_cons, hb]
      have hl : strlen (b :: t) = strlen t + 1 := by
        simp [strlen, hc]
      rw [hl, hc, List.cons_append, ← ih]
      simp only [read_bytes]
      rw [List.range_succ_eq_map (strlen t + 1)]
      simp [List.map_map, Function.comp_def]

/-- The size of the first `k + 1` entries from index `i` on. -/
theorem entries_size_take_succ (item_size : Nat) (l : List (List Nat)) (i k : Nat)
    (hi : i < l.length) :
    entries_size item_size ((l.drop i).take (k + 1)) =
      entry_size item_size (l.getD i []) + entries_size item_size ((l.drop (i + 1)).take k) := by
  have hg : l.getD i [] = l[i] := by
    rw [List.getD_eq_getElem?_getD, List.getElem?_eq_getElem hi]; rfl
  rw [List.drop_eq_getElem_cons hi, List.take_succ_cons, hg]
  simp [entries_size]

/-- The copy loop of `list_dup`, from index `i` on with the next entry going to offset `p`,
where `p` lies past the pointer array: it writes only the pointer slots from `i` on and
the cells from `p` to the final `p`; afterwards slot `k` holds `base + (q - ref)` for the
offset `q` at which entry `k` was copied, and the bytes of entry `k` are at `q`. -/
theorem list_dup_loop_spec (Y : Layout) (hP : 0 < Y.sizeof_ptr) (l : List (List Nat))
    (ref : Nat) (base : Int) (item_size : Nat) (n i : Nat) (m : Mem) (p : Nat)
    (h : i + n = l.length) (hp : ref + (l.length + 1) * Y.sizeof_ptr ≤ p) :
    (∀ a, (a < ref + i * Y.sizeof_ptr ∨ (ref + l.length * Y.sizeof_ptr ≤ a ∧ a < p) ∨
        (list_dup_loop Y l ref base item_size n i m p).2 ≤ a) →
      (list_dup_loop Y l ref base item_size n i m p).1 a = m a) ∧
    (∀ k, i ≤ k → k < l.length →
      load_ptr Y.sizeof_ptr (list_dup_loop Y l ref base item_size n i m p).1
          (ref + k * Y.sizeof_ptr) =
        some (base + (((p + entries_size item_size ((l.drop i).take (k - i)) : Nat) : Int)
          - (ref : Int))) ∧
      load_bytes (list_dup_loop Y l ref base item_size n i m p).1
          (p + entries_size item_size ((l.drop i).take (k - i)))
          (entry_size item_size (l.getD k [])) =
        some (read_bytes (l.getD k []) (entry_size item_size (l.getD k [])))) := by
  induction n generalizing i m p with
  | zero =>
    refine ⟨fun a _ => rfl, fun k h1 h2 => ?_⟩
    omega
  | succ n ih =>
    have hi : i < l.length := by omega
    have hmul : (i + 1) * Y.sizeof_ptr = i * Y.sizeof_ptr + Y.sizeof_ptr := by ring
    have hmul2 : (l.length + 1) * Y.sizeof_ptr = l.length * Y.sizeof_ptr + Y.sizeof_ptr := by
      ring
    have hle : (i + 1) * Y.sizeof_ptr ≤ l.length * Y.sizeof_ptr :=
      Nat.mul_le_mul_right _ (by omega)
    obtain ⟨hfr, hent⟩ := ih (i + 1)
      (store_bytes (store_ptr Y.sizeof_ptr m (ref + i * Y.sizeof_ptr)
        (base + ((p : Int) - (ref : Int)))) p
        (read_bytes (l.getD i []) (entry_size item_size (l.getD i []))))
      (p + entry_size item_size (l.getD i [])) (by omega) (by omega)
    have hsnd := list_dup_loop_snd Y l ref base item_size n (i + 1)
      (store_bytes (store_ptr Y.sizeof_ptr m (ref + i * Y.sizeof_ptr)
        (base + ((p : Int) - (ref : Int)))) p
        (read_bytes (l.getD i []) (entry_size item_size (l.getD i []))))
      (p + entry_size item_size (l.getD i [])) (by omega)
    simp only [list_dup_loop]
    constructor
    · intro a ha
      rw [hfr a (by omega)]
      rw [store_bytes_outside _ _ _ _ (by rw [read_bytes_length]; omega)]
      rw [store_ptr_outside _ _ _ _ _ (by omega)]
    · intro k hk1 hk2
      by_cases hki : k = i
      · subst hki
        simp only [Nat.sub_self, List.take_zero, entries_size, List.map_nil, List.sum_nil,
          Nat.add_zero]
        constructor
        · rw [load_ptr_congr _ hP _ (store_ptr Y.sizeof_ptr m (ref + k * Y.sizeof_ptr)
            (base + ((p : Int) - (ref : Int)))) _ (fun a h1 h2 => ?_)]
          · exact load_ptr_store_ptr _ hP _ _ _
          · rw [hfr a (by omega)]
            rw [store_bytes_outside _ _ _ _ (by omega)]
        · rw [load_bytes_congr _ (store_bytes (store_ptr Y.sizeof_ptr m (ref + k * Y.sizeof_ptr)
            (base + ((p : Int) - (ref : Int)))) p
            (read_bytes (l.getD k []) (entry_size item_size (l.getD k [])))) _ _
            (fun a h1 h2 => hfr a (by omega))]
          have := load_bytes_store_bytes (store_ptr Y.sizeof_ptr m (ref + k * Y.sizeof_ptr)
            (base + ((p : Int) - (ref : Int)))) p
            (read_bytes (l.getD k []) (entry_size item_size (l.getD k [])))
          rw [read_bytes_length] at this
          exact this
      · obtain ⟨h1, h2⟩ := hent k (by omega) hk2
        have hkk : k - i = (k - (i + 1)) + 1 := by omega
        rw [hkk, entries_size_take_succ item_size l i _ hi]
        rw [← Nat.add_assoc]
        exact ⟨h1, h2⟩

/-- The size of the first `k` entries is at most the size of all. -/
theorem entries_size_take_le (item_size : Nat) (l : List (List Nat)) (k : Nat) (hk : k < l.length) :
    entries_size item_size (l.take k) + entry_size item_size (l.getD k []) ≤
      entries_size item_size l := by
  induction l generalizing k with
  | nil => simp at hk
  | cons e t ih =>
    cases k with
    | zero => simp [entries_size]
    | succ k =>
      have hk' : k < t.length := by simpa using hk
      have := ih k hk'
      simp only [entries_size, List.take_succ_cons, List.map_cons, List.sum_cons,
        List.getD_cons_succ] at this ⊢
      omega

/-- `list_dup` on a list that is not `NULL`: it returns the size of the pointer array and of
the copied entries, writes inside that range only, leaves in slot `k` the value
`base + (q - ref)` for the offset `q` of the copy of entry `k`, and a `NULL` in the slot
after the last entry. -/
theorem list_dup_spec (Y : Layout) (hP : 0 < Y.sizeof_ptr) (l : List (List Nat)) (m : Mem)
    (ref : Nat) (base : Int) (item_size : Nat) :
    ∃ m', list_dup Y (some l) m ref base item_size =
        some ((l.length + 1) * Y.sizeof_ptr + entries_size item_size l, m') ∧
      (∀ a, (a < ref ∨ ref + ((l.length + 1) * Y.sizeof_ptr + entries_size item_size l) ≤ a) →
        m' a = m a) ∧
      (∀ k, k < l.length →
        load_ptr Y.sizeof_ptr m' (ref + k * Y.sizeof_ptr) =
          some (base + (((ref + (l.length + 1) * Y.sizeof_ptr +
            entries_size item_size (l.take k) : Nat) : Int) - (ref : Int))) ∧
        load_bytes m' (ref + (l.length + 1) * Y.sizeof_ptr + entries_size item_size (l.take k))
            (entry_size item_size (l.getD k [])) =
          some (read_bytes (l.getD k []) (entry_size item_size (l.getD k [])))) ∧
      load_ptr Y.sizeof_ptr m' (ref + l.length * Y.sizeof_ptr) = some 0 := by
  obtain ⟨hfr, hent⟩ := list_dup_loop_spec Y hP l ref base item_size l.length 0 m
    (ref + (l.length + 1) * Y.sizeof_ptr) (by omega) (Nat.le_refl _)
  have hsnd := list_dup_loop_snd Y l ref base item_size l.length 0 m
    (ref + (l.length + 1) * Y.sizeof_ptr) (by omega)
  have hmul2 : (l.length + 1) * Y.sizeof_ptr = l.length * Y.sizeof_ptr + Y.sizeof_ptr := by
    ring
  simp only [List.drop_zero] at hsnd hent
  refine ⟨store_ptr Y.sizeof_ptr
    (list_dup_loop Y l ref base item_size l.length 0 m (ref + (l.length + 1) * Y.sizeof_ptr)).1
    (ref + l.length * Y.sizeof_ptr) 0, ?_, ?_, ?_, ?_⟩
  · simp only [list_dup]
    rw [hsnd]
    congr 2
    omega
  · intro a ha
    rw [store_ptr_outside _ _ _ _ _ (by omega)]
    exact hfr a (by omega)
  · intro k hk
    have hkle : (k + 1) * Y.sizeof_ptr ≤ l.length * Y.sizeof_ptr :=
      Nat.mul_le_mul_right _ (by omega)
    have hk1 : (k + 1) * Y.sizeof_ptr = k * Y.sizeof_ptr + Y.sizeof_ptr := by ring
    obtain ⟨h1, h2⟩ := hent k (Nat.zero_le _) hk
    simp only [Nat.sub_zero] at h1 h2
    constructor
    · rw [load_ptr_congr _ hP _ _ _ (fun a ha1 ha2 => store_ptr_outside _ _ _ _ _ (by omega))]
      exact h1
    · rw [load_bytes_congr _ _ _ _ (fun a ha1 ha2 => store_ptr_outside _ _ _ _ _ (by omega))]
      exact h2
  · exact load_ptr_store_ptr _ hP _ _ _

/-- C6: for every host record whose lists are not `NULL`, every flag and an available
scratch buffer, `WS_dup_he` returns and afterwards: `h_name`, `h_aliases` and `h_addr_list`
of the flattened record and every entry before the terminator of the two pointer arrays
equal the base of the mode (`dup_base`: the buffer address with `WS_DUP_LINEAR`, 0 with
`WS_DUP_OFFSET`, the segmented address with `WS_DUP_SEGPTR`) plus an offset below the
returned size; the buffer holds at those offsets the name, the aliases in their order
(each with its NUL) and the addresses in their order (`h_length` bytes each); each pointer
array ends in a `NULL` entry. -/
theorem WS_dup_he_self_contained (Y : Layout) (hP : 0 < Y.sizeof_ptr)
    (alloc : Nat → Option (Int × Int)) (st : HeState) (name : List Nat)
    (aliases addrs : List (List Nat)) (addrtype : Int) (L flag : Nat) (buf : HeBuffer)
    (hbuf : (check_buffer_he alloc st (hostent_size Y
      (some { h_name := name, h_aliases := some aliases, h_addrtype := addrtype, h_length := L,
              h_addr_list := some addrs }))).he_buffer = some buf) :
    ∃ (size : Nat) (st' : HeState) (buf' : HeBuffer),
      WS_dup_he Y alloc st
        (some { h_name := name, h_aliases := some aliases, h_addrtype := addrtype, h_length := L,
                h_addr_list := some addrs }) flag = some (size, st') ∧
      st'.he_buffer = some buf' ∧ buf'.addr = buf.addr ∧ buf'.segptr = buf.segptr ∧
      (buf'.header.h_name = dup_base flag buf + (dup_header_size Y flag : Nat) ∧
        dup_header_size Y flag < size ∧
        load_bytes buf'.mem (dup_header_size Y flag) (strlen name + 1) = some (cstr name ++ [0])) ∧
      (buf'.header.h_aliases = dup_base flag buf + (aliases_offset Y flag name : Nat) ∧
        aliases_offset Y flag name < size ∧
        (∀ k, k < aliases.length → ∃ q : Nat,
          load_ptr Y.sizeof_ptr buf'.mem (aliases_offset Y flag name + k * Y.sizeof_ptr) =
            some (dup_base flag buf + (q : Nat)) ∧
          q < size ∧
          load_bytes buf'.mem q (strlen (aliases.getD k []) + 1) =
            some (cstr (aliases.getD k []) ++ [0])) ∧
        load_ptr Y.sizeof_ptr buf'.mem
          (aliases_offset Y flag name + aliases.length * Y.sizeof_ptr) = some 0) ∧
      (buf'.header.h_addr_list = dup_base flag buf + (addr_list_offset Y flag name aliases : Nat) ∧
        addr_list_offset Y flag name aliases < size ∧
        (∀ k, k < addrs.length → ∃ q : Nat,
          load_ptr Y.sizeof_ptr buf'.mem (addr_list_offset Y flag name aliases + k * Y.sizeof_ptr) =
            some (dup_base flag buf + (q : Nat)) ∧
          q < size ∧ q + L ≤ size ∧
          load_bytes buf'.mem q L = some (read_bytes (addrs.getD k []) L)) ∧
        load_ptr Y.sizeof_ptr buf'.mem
          (addr_list_offset Y flag name aliases + addrs.length * Y.sizeof_ptr) = some 0) ∧
      (dup_base WS_DUP_LINEAR buf = buf.addr ∧ dup_base WS_DUP_OFFSET buf = 0 ∧
        dup_base WS_DUP_SEGPTR buf = buf.segptr) := by
  have hne : hostent_size Y
      (some { h_name := name, h_aliases := some aliases, h_addrtype := addrtype, h_length := L,
              h_addr_list := some addrs }) ≠ 0 := by
    simp [hostent_size]
  obtain ⟨m1, hd1, hf1, he1, ht1⟩ := list_dup_spec Y hP aliases
    (store_bytes buf.mem (dup_header_size Y flag) (cstr name ++ [0]))
    (dup_header_size Y flag + (strlen name + 1))
    (dup_base flag buf + ((dup_header_size Y flag + (strlen name + 1) : Nat) : Int)) 0
  obtain ⟨m2, hd2, hf2, he2, ht2⟩ := list_dup_spec Y hP addrs m1
    (dup_header_size Y flag + (strlen name + 1) +
      ((aliases.length + 1) * Y.sizeof_ptr + entries_size 0 aliases))
    (dup_base flag buf + ((dup_header_size Y flag + (strlen name + 1) +
      ((aliases.length + 1) * Y.sizeof_ptr + entries_size 0 aliases) : Nat) : Int)) L
  simp only [WS_dup_he, hne, ne_eq, not_false_eq_true, if_true, hbuf, hd1, hd2]
  have hsize : hostent_size Y
      (some { h_name := name, h_aliases := some aliases, h_addrtype := addrtype, h_length := L,
              h_addr_list := some addrs }) + dup_header_size Y flag - Y.sizeof_hostent =
      addr_list_offset Y flag name aliases +
        ((addrs.length + 1) * Y.sizeof_ptr + entries_size L addrs) := by
    simp only [hostent_size, list_size, list_size_loop_eq, addr_list_offset, aliases_offset]
    omega
  have hlen0 : (cstr name ++ [0]).length = strlen name + 1 := by simp [strlen]
  have hPa : Y.sizeof_ptr ≤ (addrs.length + 1) * Y.sizeof_ptr := Nat.le_mul_of_pos_left _ (by omega)
  have hPb : Y.sizeof_ptr ≤ (aliases.length + 1) * Y.sizeof_ptr :=
    Nat.le_mul_of_pos_left _ (by omega)
  refine ⟨_, _, _, rfl, rfl, rfl, rfl, ⟨rfl, ?_, ?_⟩, ⟨rfl, ?_, ?_, ?_⟩, ⟨rfl, ?_, ?_, ?_⟩,
    ⟨rfl, rfl, rfl⟩⟩
  · rw [hsize]; simp only [addr_list_offset, aliases_offset]; omega
  · simp only []
    rw [load_bytes_congr m2 m1 _ _ (fun a h1 h2 => hf2 a (by omega))]
    rw [load_bytes_congr m1 _ _ _ (fun a h1 h2 => hf1 a (by omega))]
    rw [← hlen0]
    exact load_bytes_store_bytes _ _ _
  · rw [hsize]; simp only [addr_list_offset, aliases_offset]; omega
  · intro k hk
    obtain ⟨h1, h2⟩ := he1 k hk
    have hle := entries_size_take_le 0 aliases k hk
    have hes : entry_size 0 (aliases.getD k []) = strlen (aliases.getD k []) + 1 := by
      simp [entry_size]
    have hkle : (k + 1) * Y.sizeof_ptr ≤ aliases.length * Y.sizeof_ptr :=
      Nat.mul_le_mul_right _ (by omega)
    have hk1 : (k + 1) * Y.sizeof_ptr = k * Y.sizeof_ptr + Y.sizeof_ptr := by ring
    have hmul2 : (aliases.length + 1) * Y.sizeof_ptr =
        aliases.length * Y.sizeof_ptr + Y.sizeof_ptr := by ring
    refine ⟨dup_header_size Y flag + (strlen name + 1) + (aliases.length + 1) * Y.sizeof_ptr +
      entries_size 0 (aliases.take k), ?_, ?_, ?_⟩
    · simp only [aliases_offset]
      rw [load_ptr_congr _ hP m2 m1 _ (fun a h1 h2 => hf2 a (by omega))]
      rw [h1]
      congr 1
      push_cast
      ring
    · rw [hsize]; simp only [addr_list_offset, aliases_offset]; omega
    · simp only []
      rw [load_bytes_congr m2 m1 _ _ (fun a h1 h2 => hf2 a (by omega))]
      rw [hes, read_bytes_strlen] at h2
      exact h2
  · simp only [aliases_offset]
    have hmul2 : (aliases.length + 1) * Y.sizeof_ptr =
        aliases.length * Y.sizeof_ptr + Y.sizeof_ptr := by ring
    rw [load_ptr_congr _ hP m2 m1 _ (fun a h1 h2 => hf2 a (by omega))]
    exact ht1
  · rw [hsize]; omega
  · intro k hk
    obtain ⟨h1, h2⟩ := he2 k hk
    have hle := entries_size_take_le L addrs k hk
    have hpos : 1 ≤ entry_size L (addrs.getD k []) := by
      simp only [entry_size]; split_ifs <;> omega
    refine ⟨addr_list_offset Y flag name aliases + (addrs.length + 1) * Y.sizeof_ptr +
      entries_size L (addrs.take k), ?_, ?_, ?_, ?_⟩
    · simp only [addr_list_offset, aliases_offset]
      rw [h1]
      congr 1
      push_cast
      ring
    · rw [hsize]; omega
    · rw [hsize]
      by_cases hL : L = 0
      · omega
      · have : entry_size L (addrs.getD k []) = L := by simp [entry_size, hL]
        omega
    · by_cases hL : L = 0
      · subst hL; rfl
      · have hes : entry_size L (addrs.getD k []) = L := by simp [entry_size, hL]
        rw [hes] at h2
        simp only [addr_list_offset, aliases_offset]
        exact h2
  · simp only [addr_list_offset, aliases_offset]
    exact ht2

/-- C6 on the x86 layout in segmented mode: name "hi", aliases "a" and "bc", two 4-byte
addresses.  The record is flattened, `h_name` is the segmented address of the buffer plus
16, the name is read back at offset 16, and the alias array (at offset 19) ends in a `NULL`
after its two entries. -/
theorem WS_dup_he_self_contained_sample :
    0 < x86_layout.sizeof_ptr ∧
    ∃ (size : Nat) (st' : HeState) (buf' : HeBuffer),
      WS_dup_he x86_layout alloc_ok HeState.init
        (some { h_name := [104, 105], h_aliases := some [[97], [98, 99]], h_addrtype := 2,
                h_length := 4, h_addr_list := some [[127, 0, 0, 1], [10, 0, 0, 2]] })
        WS_DUP_SEGPTR = some (size, st') ∧
      st'.he_buffer = some buf' ∧
      buf'.header.h_name = 0x10570000 + 16 ∧
      load_bytes buf'.mem 16 3 = some [104, 105, 0] ∧
      load_ptr 4 buf'.mem (19 + 2 * 4) = some 0 :=
  ⟨by decide,
   match WS_dup_he_self_contained x86_layout (by decide) alloc_ok HeState.init [104, 105]
      [[97], [98, 99]] [[127, 0, 0, 1], [10, 0, 0, 2]] 2 4 WS_DUP_SEGPTR
      (HeBuffer.fresh 0x40001000 0x10570000) rfl with
   | ⟨size, st', buf', h1, h2, _, _, ⟨hn, _, hb⟩, ⟨_, _, _, ht⟩, _, _⟩ =>
     ⟨size, st', buf', h1, h2, hn, hb, ht⟩⟩

/-- `convert_sockopt` on the receive-buffer-size option. -/
theorem convert_sockopt_RCVBUF (C : HostSockOpts) :
    convert_sockopt C WS_SOL_SOCKET WS_SO_RCVBUF = (1, C.SOL_SOCKET, C.SO_RCVBUF) := by
  simp [convert_sockopt, _ws_sock_ops, _px_sock_ops, scan_ops, WS_SO_DEBUG, WS_SO_REUSEADDR,
    WS_SO_KEEPALIVE, WS_SO_DONTROUTE, WS_SO_BROADCAST, WS_SO_LINGER, WS_SO_OOBINLINE,
    WS_SO_SNDBUF, WS_SO_RCVBUF]

/-- `convert_sockopt` on the linger option. -/
theorem convert_sockopt_LINGER (C : HostSockOpts) :
    convert_sockopt C WS_SOL_SOCKET WS_SO_LINGER = (1, C.SOL_SOCKET, C.SO_LINGER) := by
  simp [convert_sockopt, _ws_sock_ops, _px_sock_ops, scan_ops, WS_SO_DEBUG, WS_SO_REUSEADDR,
    WS_SO_KEEPALIVE, WS_SO_DONTROUTE, WS_SO_BROADCAST, WS_SO_LINGER]

/-- What the tail of `WSOCK32_setsockopt` does when the option is not `SO_RCVBUF`, or is
`SO_RCVBUF` with a value of at least 2048: one host `setsockopt` with the arguments as they
stand, and the result follows the host's answer. -/
theorem setsockopt_forward_forwards (S : Host) (C : HostSockOpts) (E : HostErrno) (w : World)
    (fd level optname : Int) (optval : HostOptVal) (optlen : Int)
    (h : optname ≠ C.SO_RCVBUF ∨ ∃ v, optval.deref_int = some v ∧ 2048 ≤ v) :
    ∃ w', setsockopt_forward S C E w fd level optname optval optlen =
        some (if (S.setsockopt w.trace fd level optname optval optlen).ret = 0 then 0
              else SOCKET_ERROR, w') ∧
      setsockopt_calls w'.trace =
        setsockopt_calls w.trace ++ [Call.setsockopt fd level optname optval optlen] ∧
      w'.errno = (S.setsockopt w.trace fd level optname optval optlen).errno ∧
      w'.last_error =
        (if (S.setsockopt w.trace fd level optname optval optlen).ret = 0 then w.last_error
         else wsaErrno E (S.setsockopt w.trace fd level optname optval optlen).errno) := by
  unfold setsockopt_forward
  rcases h with h | ⟨v, hv, hge⟩
  · simp only [if_neg h]
    split_ifs with hr <;>
      exact ⟨_, rfl, by simp [setsockopt_calls, close, World.call, SetLastError,
        Call.is_setsockopt], by simp [close, World.call, SetLastError],
        by simp [close, World.call, SetLastError]⟩
  · simp only [hv, if_neg (not_lt.mpr hge), ite_self]
    split_ifs with hr <;>
      exact ⟨_, rfl, by simp [setsockopt_calls, close, World.call, SetLastError,
        Call.is_setsockopt], by simp [close, World.call, SetLastError],
        by simp [close, World.call, SetLastError]⟩

/-- What the tail of `WSOCK32_setsockopt` does on `SO_RCVBUF` with a value below 2048: it
closes the descriptor and returns 0. -/
theorem setsockopt_forward_small_RCVBUF (S : Host) (C : HostSockOpts) (E : HostErrno)
    (w : World) (fd level : Int) (optval : HostOptVal) (optlen v : Int)
    (hv : optval.deref_int = some v) (hlt : v < 2048) :
    setsockopt_forward S C E w fd level C.SO_RCVBUF optval optlen = some (0, close w fd) := by
  unfold setsockopt_forward
  simp only [if_true, hv, if_pos hlt]


/-- `WSOCK32_setsockopt` on a resolved handle, past the two special cases and a successful
`convert_sockopt`: the three ways the value is handed to the tail of the function. -/
theorem WSOCK32_setsockopt_converted (S : Host) (C : HostSockOpts) (E : HostErrno) (w : World)
    (s level optname : Int) (optval : Option (List Nat)) (optlen : Int) (fd : Nat) (l o : Int)
    (hfd : S.FILE_GetUnixHandle w.trace (s % 65536) = some fd)
    (hdbg : ¬ (optname = WS_SO_DEBUG ∧ level = WS_SOL_SOCKET))
    (hdl : ¬ (as_UINT optname = WS_SO_DONTLINGER ∧ level = WS_SOL_SOCKET))
    (hc : convert_sockopt C level optname = (1, l, o)) :
    WSOCK32_setsockopt S C E w s level optname optval optlen =
      (if o = C.SO_LINGER ∧ optval ≠ none then
        match optval with
        | none => none
        | some b =>
          setsockopt_forward S C E (w.call (Call.FILE_GetUnixHandle (s % 65536) fd)) fd l o
            (HostOptVal.linger (read_UINT16 b 0) (read_UINT16 b 1)) sizeof_linger
      else if as_UINT optlen < sizeof_int then
        match optval with
        | none => none
        | some b =>
          setsockopt_forward S C E (w.call (Call.FILE_GetUnixHandle (s % 65536) fd)) fd l o
            (HostOptVal.woptval (read_INT16 b)) sizeof_int
      else
        setsockopt_forward S C E (w.call (Call.FILE_GetUnixHandle (s % 65536) fd)) fd l o
          (HostOptVal.caller optval) optlen) := by
  unfold WSOCK32_setsockopt
  simp only [_get_sock_fd, hfd, nat_fd_ne_neg_one, ne_eq, not_false_eq_true, if_true]
  rw [if_neg hdbg, if_neg hdl]
  simp only [hc]
  rw [if_neg (by decide)]

/-- The world right after a handle resolution has the host `setsockopt` calls and the last
error of the world before it. -/
theorem resolved_world_frame (w : World) (s fd : Int) :
    setsockopt_calls (w.call (Call.FILE_GetUnixHandle s fd)).trace = setsockopt_calls w.trace ∧
    (w.call (Call.FILE_GetUnixHandle s fd)).last_error = w.last_error := by
  simp [World.call, setsockopt_calls, Call.is_setsockopt]

/-- C14: `WSOCK32_setsockopt` on a resolved handle with `WS_SO_RCVBUF` at `WS_SOL_SOCKET`.
The requested value `v` is the integer the call reads at `optval` (after the widening of a
value narrower than an `int`).  If `v < 2048` the call returns 0, the trace holds no new
host `setsockopt` and the last error is unchanged.  If `2048 ≤ v` the host `setsockopt` is
called once, with `SOL_SOCKET` and `SO_RCVBUF`; the call returns 0 when the host does and
`SOCKET_ERROR` with the translated `errno` as last error otherwise. -/
theorem WSOCK32_setsockopt_RCVBUF_floor (S : Host) (C : HostSockOpts) (E : HostErrno)
    (w : World) (s : Int) (b : List Nat) (optlen : Int) (fd : Nat)
    (hfd : S.FILE_GetUnixHandle w.trace (s % 65536) = some fd)
    (hne : C.SO_RCVBUF ≠ C.SO_LINGER) :
    let w1 := w.call (Call.FILE_GetUnixHandle (s % 65536) fd)
    let v := if as_UINT optlen < sizeof_int then read_INT16 b else read_int b
    let hval := if as_UINT optlen < sizeof_int then HostOptVal.woptval (read_INT16 b)
      else HostOptVal.caller (some b)
    let hlen := if as_UINT optlen < sizeof_int then sizeof_int else optlen
    let r := S.setsockopt w1.trace fd C.SOL_SOCKET C.SO_RCVBUF hval hlen
    (v < 2048 →
      ∃ w', WSOCK32_setsockopt S C E w s WS_SOL_SOCKET WS_SO_RCVBUF (some b) optlen =
          some (0, w') ∧
        setsockopt_calls w'.trace = setsockopt_calls w.trace ∧
        w'.last_error = w.last_error) ∧
    (2048 ≤ v →
      ∃ w', WSOCK32_setsockopt S C E w s WS_SOL_SOCKET WS_SO_RCVBUF (some b) optlen =
          some (if r.ret = 0 then 0 else SOCKET_ERROR, w') ∧
        setsockopt_calls w'.trace = setsockopt_calls w.trace ++
          [Call.setsockopt fd C.SOL_SOCKET C.SO_RCVBUF hval hlen] ∧
        w'.last_error = if r.ret = 0 then w.last_error else wsaErrno E r.errno) := by
  intro w1 v hval hlen r
  have hcall : WSOCK32_setsockopt S C E w s WS_SOL_SOCKET WS_SO_RCVBUF (some b) optlen =
      setsockopt_forward S C E w1 fd C.SOL_SOCKET C.SO_RCVBUF hval hlen := by
    rw [WSOCK32_setsockopt_converted S C E w s WS_SOL_SOCKET WS_SO_RCVBUF (some b) optlen fd
      C.SOL_SOCKET C.SO_RCVBUF hfd (by decide) (by decide) (convert_sockopt_RCVBUF C),
      if_neg (fun h => hne h.1)]
    by_cases hn : as_UINT optlen < sizeof_int
    · simp only [hval, hlen, if_pos hn, w1]
    · simp only [hval, hlen, if_neg hn, w1]
  have hderef : hval.deref_int = some v := by
    by_cases hn : as_UINT optlen < sizeof_int
    · simp only [hval, v, if_pos hn, HostOptVal.deref_int]
    · simp only [hval, v, if_neg hn, HostOptVal.deref_int]
  have hw1 : setsockopt_calls w1.trace = setsockopt_calls w.trace ∧
      w1.last_error = w.last_error := resolved_world_frame w (s % 65536) fd
  constructor
  · intro hlt
    refine ⟨close w1 fd, ?_, ?_, ?_⟩
    · rw [hcall]; exact setsockopt_forward_small_RCVBUF S C E w1 fd _ hval hlen v hderef hlt
    · rw [← hw1.1]; simp [close, World.call, setsockopt_calls, Call.is_setsockopt]
    · rw [← hw1.2]; simp [close, World.call]
  · intro hge
    obtain ⟨w', h1, h2, -, h4⟩ := setsockopt_forward_forwards S C E w1 fd C.SOL_SOCKET
      C.SO_RCVBUF hval hlen (Or.inr ⟨v, hderef, hge⟩)
    exact ⟨w', hcall ▸ h1, hw1.1 ▸ h2, hw1.2 ▸ h4⟩

/-- C14 at concrete calls on handle 100 (descriptor 3, Linux constants): a request for 1024
bytes returns 0 without any host `setsockopt`, a request for 4096 bytes is forwarded. -/
theorem WSOCK32_setsockopt_RCVBUF_floor_sample :
    quiet_host.FILE_GetUnixHandle World.init.trace (100 % 65536) = some 3 ∧
    linux_sockopts.SO_RCVBUF ≠ linux_sockopts.SO_LINGER ∧
    (∃ w', WSOCK32_setsockopt quiet_host linux_sockopts linux_errno World.init 100
          WS_SOL_SOCKET WS_SO_RCVBUF (some [0, 4, 0, 0]) 4 = some (0, w') ∧
        setsockopt_calls w'.trace = setsockopt_calls World.init.trace ∧
        w'.last_error = World.init.last_error) :=
  ⟨by decide, by decide,
   (WSOCK32_setsockopt_RCVBUF_floor quiet_host linux_sockopts linux_errno World.init 100
     [0, 4, 0, 0] 4 3 (by decide) (by decide)).1 (by decide)⟩

/-- C15: `WSOCK32_setsockopt` on a resolved handle with level `WS_SOL_SOCKET`, option
`WS_SO_DONTLINGER` and a buffer holding the integer `v = read_int b` calls the host
`setsockopt` once, with `SOL_SOCKET`, `SO_LINGER`, a `struct linger` whose `l_onoff` is 1
when `v = 0` and 0 otherwise and whose `l_linger` is 0, and the length
`sizeof(struct linger)`; the result follows the host's answer. -/
theorem WSOCK32_setsockopt_DONTLINGER (S : Host) (C : HostSockOpts) (E : HostErrno)
    (w : World) (s optname : Int) (b : List Nat) (optlen : Int) (fd : Nat)
    (hfd : S.FILE_GetUnixHandle w.trace (s % 65536) = some fd)
    (ho : as_UINT optname = WS_SO_DONTLINGER)
    (hne : C.SO_LINGER ≠ C.SO_RCVBUF) :
    let w1 := w.call (Call.FILE_GetUnixHandle (s % 65536) fd)
    let lg := HostOptVal.linger (if read_int b = 0 then 1 else 0) 0
    let r := S.setsockopt w1.trace fd C.SOL_SOCKET C.SO_LINGER lg sizeof_linger
    ∃ w', WSOCK32_setsockopt S C E w s WS_SOL_SOCKET optname (some b) optlen =
        some (if r.ret = 0 then 0 else SOCKET_ERROR, w') ∧
      setsockopt_calls w'.trace = setsockopt_calls w.trace ++
        [Call.setsockopt fd C.SOL_SOCKET C.SO_LINGER lg sizeof_linger] := by
  intro w1 lg r
  have hdbg : ¬ optname = WS_SO_DEBUG := by
    intro h
    rw [h] at ho
    exact absurd ho (by decide)
  have hlg : (HostOptVal.linger (if ¬ read_int b = 0 then 0 else 1) 0) = lg := by
    by_cases hz : read_int b = 0 <;> simp [lg, hz]
  have hcall : WSOCK32_setsockopt S C E w s WS_SOL_SOCKET optname (some b) optlen =
      setsockopt_forward S C E w1 fd C.SOL_SOCKET C.SO_LINGER lg sizeof_linger := by
    unfold WSOCK32_setsockopt
    simp only [_get_sock_fd, hfd, nat_fd_ne_neg_one, ne_eq, not_false_eq_true, if_true,
      and_true]
    rw [if_neg hdbg, if_pos ho, hlg]
  have hw1 : setsockopt_calls w1.trace = setsockopt_calls w.trace ∧
      w1.last_error = w.last_error := resolved_world_frame w (s % 65536) fd
  obtain ⟨w', h1, h2, -, -⟩ := setsockopt_forward_forwards S C E w1 fd C.SOL_SOCKET
    C.SO_LINGER lg sizeof_linger (Or.inl hne)
  exact ⟨w', hcall ▸ h1, hw1.1 ▸ h2⟩

/-- C15 at concrete calls on handle 100 (descriptor 3, Linux constants, option -129): the
value 0 gives `l_onoff = 1`. -/
theorem WSOCK32_setsockopt_DONTLINGER_sample :
    quiet_host.FILE_GetUnixHandle World.init.trace (100 % 65536) = some 3 ∧
    as_UINT (-129) = WS_SO_DONTLINGER ∧
    linux_sockopts.SO_LINGER ≠ linux_sockopts.SO_RCVBUF ∧
    (∃ w', WSOCK32_setsockopt quiet_host linux_sockopts linux_errno World.init 100
          WS_SOL_SOCKET (-129) (some [0, 0, 0, 0]) 4 = some (0, w') ∧
        setsockopt_calls w'.trace = [Call.setsockopt 3 1 13 (HostOptVal.linger 1 0) 8]) :=
  ⟨by decide, by decide, by decide,
   WSOCK32_setsockopt_DONTLINGER quiet_host linux_sockopts linux_errno World.init 100 (-129)
     [0, 0, 0, 0] 4 3 (by decide) (by decide) (by decide)⟩

/-- C16: `WSOCK32_setsockopt` on a resolved handle with `WS_SO_LINGER` at `WS_SOL_SOCKET`
and a non-null value whose first two unsigned 16-bit fields are `read_UINT16 b 0` and
`read_UINT16 b 1` calls the host `setsockopt` once, with `SOL_SOCKET`, `SO_LINGER`, a
`struct linger` holding these two values and the length `sizeof(struct linger)`, for every
`optlen` of the caller; the result follows the host's answer. -/
theorem WSOCK32_setsockopt_LINGER (S : Host) (C : HostSockOpts) (E : HostErrno)
    (w : World) (s : Int) (b : List Nat) (optlen : Int) (fd : Nat)
    (hfd : S.FILE_GetUnixHandle w.trace (s % 65536) = some fd)
    (hne : C.SO_LINGER ≠ C.SO_RCVBUF) :
    let w1 := w.call (Call.FILE_GetUnixHandle (s % 65536) fd)
    let lg := HostOptVal.linger (read_UINT16 b 0) (read_UINT16 b 1)
    let r := S.setsockopt w1.trace fd C.SOL_SOCKET C.SO_LINGER lg sizeof_linger
    ∃ w', WSOCK32_setsockopt S C E w s WS_SOL_SOCKET WS_SO_LINGER (some b) optlen =
        some (if r.ret = 0 then 0 else SOCKET_ERROR, w') ∧
      setsockopt_calls w'.trace = setsockopt_calls w.trace ++
        [Call.setsockopt fd C.SOL_SOCKET C.SO_LINGER lg sizeof_linger] := by
  intro w1 lg r
  have hcall : WSOCK32_setsockopt S C E w s WS_SOL_SOCKET WS_SO_LINGER (some b) optlen =
      setsockopt_forward S C E w1 fd C.SOL_SOCKET C.SO_LINGER lg sizeof_linger := by
    rw [WSOCK32_setsockopt_converted S C E w s WS_SOL_SOCKET WS_SO_LINGER (some b) optlen fd
      C.SOL_SOCKET C.SO_LINGER hfd (by decide) (by decide) (convert_sockopt_LINGER C),
      if_pos ⟨rfl, by simp⟩]
  have hw1 : setsockopt_calls w1.trace = setsockopt_calls w.trace ∧
      w1.last_error = w.last_error := resolved_world_frame w (s % 65536) fd
  obtain ⟨w', h1, h2, -, -⟩ := setsockopt_forward_forwards S C E w1 fd C.SOL_SOCKET
    C.SO_LINGER lg sizeof_linger (Or.inl hne)
  exact ⟨w', hcall ▸ h1, hw1.1 ▸ h2⟩

/-- C16 at a concrete call on handle 100 (descriptor 3, Linux constants): the fields (1, 30)
with a caller length of 2. -/
theorem WSOCK32_setsockopt_LINGER_sample :
    quiet_host.FILE_GetUnixHandle World.init.trace (100 % 65536) = some 3 ∧
    linux_sockopts.SO_LINGER ≠ linux_sockopts.SO_RCVBUF ∧
    (∃ w', WSOCK32_setsockopt quiet_host linux_sockopts linux_errno World.init 100
          WS_SOL_SOCKET WS_SO_LINGER (some [1, 0, 30, 0]) 2 = some (0, w') ∧
        setsockopt_calls w'.trace = [Call.setsockopt 3 1 13 (HostOptVal.linger 1 30) 8]) :=
  ⟨by decide, by decide,
   WSOCK32_setsockopt_LINGER quiet_host linux_sockopts linux_errno World.init 100
     [1, 0, 30, 0] 2 3 (by decide) (by decide)⟩

/-- No entry of the two Windows option tables is `WS_SO_DONTLINGER` when read as unsigned. -/
theorem supported_not_DONTLINGER (C : HostSockOpts) (level optname : Int)
    (hs : supported_sockopt C level optname) :
    ¬ (as_UINT optname = WS_SO_DONTLINGER ∧ level = WS_SOL_SOCKET) := by
  rintro ⟨ho, hl⟩
  rcases hs with ⟨-, hm, -⟩ | ⟨hl2, -, -⟩
  · have hi : ∀ (g : Option Int) (e : Int), optname ∈ ifdef_entry g e → optname = e := by
      intro g e h
      cases g <;> simp [ifdef_entry] at h
      exact h
    have h11 : ∀ x ∈ [WS_SO_DEBUG, WS_SO_REUSEADDR, WS_SO_KEEPALIVE, WS_SO_DONTROUTE,
        WS_SO_BROADCAST, WS_SO_LINGER, WS_SO_OOBINLINE, WS_SO_SNDBUF, WS_SO_RCVBUF,
        WS_SO_ERROR, WS_SO_TYPE, WS_SO_RCVTIMEO, WS_SO_SNDTIMEO, 0],
        as_UINT x ≠ WS_SO_DONTLINGER := by decide
    apply h11 optname _ ho
    unfold _ws_sock_ops at hm
    rcases List.mem_append.1 hm with h | h
    · rcases List.mem_append.1 h with h | h
      · rcases List.mem_append.1 h with h | h
        · exact List.mem_append_left [WS_SO_RCVTIMEO, WS_SO_SNDTIMEO, 0] h
        · rw [hi _ _ h]; decide
      · rw [hi _ _ h]; decide
    · rw [List.mem_singleton.1 h]; decide
  · rw [hl] at hl2
    exact absurd hl2 (by decide)

/-- On a supported pair `convert_sockopt` returns 1. -/
theorem convert_sockopt_supported (C : HostSockOpts) (level optname : Int)
    (hs : supported_sockopt C level optname) :
    convert_sockopt C level optname =
      (1, (convert_sockopt C level optname).2.1, (convert_sockopt C level optname).2.2) := by
  have h := (convert_sockopt_ret C level optname).1 hs
  rcases hc : convert_sockopt C level optname with ⟨c, l, o⟩
  rw [hc] at h
  simp only at h
  rw [h]

/-- C17 (as stated, refuted): two supported options other than `SO_LINGER` with a caller
length of 2 for which the host `setsockopt` is not called at all: `WS_SO_RCVBUF` with the
16-bit value 1024 (below the floor of 2048) and `WS_SO_DEBUG`.  Both calls return 0. -/
theorem WSOCK32_setsockopt_narrow_not_passed :
    supported_sockopt linux_sockopts WS_SOL_SOCKET WS_SO_RCVBUF ∧
    (convert_sockopt linux_sockopts WS_SOL_SOCKET WS_SO_RCVBUF).2.2 ≠ linux_sockopts.SO_LINGER ∧
    WSOCK32_setsockopt quiet_host linux_sockopts linux_errno World.init 100 WS_SOL_SOCKET
        WS_SO_RCVBUF (some [0, 4]) 2 =
      some (0, { trace := [Call.FILE_GetUnixHandle 100 3, Call.close 3],
                 errno := 0, last_error := 0 }) ∧
    setsockopt_calls [Call.FILE_GetUnixHandle 100 3, Call.close 3] = [] ∧
    supported_sockopt linux_sockopts WS_SOL_SOCKET WS_SO_DEBUG ∧
    (convert_sockopt linux_sockopts WS_SOL_SOCKET WS_SO_DEBUG).2.2 ≠ linux_sockopts.SO_LINGER ∧
    WSOCK32_setsockopt quiet_host linux_sockopts linux_errno World.init 100 WS_SOL_SOCKET
        WS_SO_DEBUG (some [1, 0]) 2 =
      some (0, { trace := [Call.FILE_GetUnixHandle 100 3], errno := 0, last_error := 0 }) ∧
    setsockopt_calls [Call.FILE_GetUnixHandle 100 3] = [] := by
  decide

/-- C17 (amended): `WSOCK32_setsockopt` on a resolved handle for a supported option whose
host option is not `SO_LINGER`, that is not `WS_SO_DEBUG` at `WS_SOL_SOCKET` and not an
`SO_RCVBUF` request below 2048, with a non-null buffer and a caller length `optlen` that is
a non-negative `INT`.  The host `setsockopt` is called once with the converted level and
option.  If `optlen < 4` it receives the integer `read_INT16 b` (the sign-extended 16-bit
value at the caller's buffer) and the length 4; if `4 ≤ optlen` it receives the caller's
buffer and `optlen` as they came.  The result follows the host's answer. -/
theorem WSOCK32_setsockopt_widens_narrow_value (S : Host) (C : HostSockOpts) (E : HostErrno)
    (w : World) (s level optname : Int) (b : List Nat) (optlen : Int) (fd : Nat)
    (hfd : S.FILE_GetUnixHandle w.trace (s % 65536) = some fd)
    (hs : supported_sockopt C level optname)
    (hdbg : ¬ (optname = WS_SO_DEBUG ∧ level = WS_SOL_SOCKET))
    (hlg : (convert_sockopt C level optname).2.2 ≠ C.SO_LINGER)
    (hrb : (convert_sockopt C level optname).2.2 = C.SO_RCVBUF →
      2048 ≤ (if optlen < 4 then read_INT16 b else read_int b))
    (hlen : 0 ≤ optlen ∧ optlen < 2147483648) :
    let w1 := w.call (Call.FILE_GetUnixHandle (s % 65536) fd)
    let l := (convert_sockopt C level optname).2.1
    let o := (convert_sockopt C level optname).2.2
    let hval := if optlen < 4 then HostOptVal.woptval (read_INT16 b)
      else HostOptVal.caller (some b)
    let hlen := if optlen < 4 then 4 else optlen
    let r := S.setsockopt w1.trace fd l o hval hlen
    ∃ w', WSOCK32_setsockopt S C E w s level optname (some b) optlen =
        some (if r.ret = 0 then 0 else SOCKET_ERROR, w') ∧
      setsockopt_calls w'.trace = setsockopt_calls w.trace ++
        [Call.setsockopt fd l o hval hlen] := by
  intro w1 l o hval hlen' r
  have hu : as_UINT optlen = optlen := by
    unfold as_UINT
    exact Int.emod_eq_of_lt hlen.1 (by omega)
  have hcall : WSOCK32_setsockopt S C E w s level optname (some b) optlen =
      setsockopt_forward S C E w1 fd l o hval hlen' := by
    rw [WSOCK32_setsockopt_converted S C E w s level optname (some b) optlen fd l o hfd hdbg
      (supported_not_DONTLINGER C level optname hs) (convert_sockopt_supported C level optname hs),
      if_neg (fun h => hlg h.1), hu]
    by_cases hn : optlen < 4
    · simp only [hval, hlen', sizeof_int, if_pos hn, w1]
    · simp only [hval, hlen', sizeof_int, if_neg hn, w1]
  have hderef : hval.deref_int = some (if optlen < 4 then read_INT16 b else read_int b) := by
    by_cases hn : optlen < 4
    · simp only [hval, if_pos hn, HostOptVal.deref_int]
    · simp only [hval, if_neg hn, HostOptVal.deref_int]
  have hw1 : setsockopt_calls w1.trace = setsockopt_calls w.trace ∧
      w1.last_error = w.last_error := resolved_world_frame w (s % 65536) fd
  have hcond : o ≠ C.SO_RCVBUF ∨ ∃ v, hval.deref_int = some v ∧ 2048 ≤ v := by
    by_cases ho : o = C.SO_RCVBUF
    · exact Or.inr ⟨_, hderef, hrb ho⟩
    · exact Or.inl ho
  obtain ⟨w', h1, h2, -, -⟩ := setsockopt_forward_forwards S C E w1 fd l o hval hlen' hcond
  exact ⟨w', hcall ▸ h1, hw1.1 ▸ h2⟩

/-- C17 (amended) at a concrete call on handle 100 (descriptor 3, Linux constants):
`WS_SO_KEEPALIVE` with the two bytes ff ff and length 2 reaches the host as the integer -1
with length 4. -/
theorem WSOCK32_setsockopt_widens_narrow_value_sample :
    quiet_host.FILE_GetUnixHandle World.init.trace (100 % 65536) = some 3 ∧
    supported_sockopt linux_sockopts WS_SOL_SOCKET WS_SO_KEEPALIVE ∧
    (∃ w', WSOCK32_setsockopt quiet_host linux_sockopts linux_errno World.init 100
          WS_SOL_SOCKET WS_SO_KEEPALIVE (some [255, 255]) 2 = some (0, w') ∧
        setsockopt_calls w'.trace = [Call.setsockopt 3 1 9 (HostOptVal.woptval (-1)) 4]) :=
  ⟨by decide, by decide,
   WSOCK32_setsockopt_widens_narrow_value quiet_host linux_sockopts linux_errno World.init 100
     WS_SOL_SOCKET WS_SO_KEEPALIVE [255, 255] 2 3 (by decide) (by decide) (by decide)
     (by decide) (by decide) (by decide)⟩

/-- The closes of `fd_set_unimport` leave `errno` and the last error as they are. -/
theorem fd_set_unimport_frame (w : World) (wsfds : Option ws_fd_set) (lfd : List Int)
    (b32 : Bool) :
    (fd_set_unimport w wsfds lfd b32).errno = w.errno ∧
    (fd_set_unimport w wsfds lfd b32).last_error = w.last_error := by
  cases wsfds with
  | none => exact ⟨rfl, rfl⟩
  | some ws =>
    obtain ⟨evs, -, -, -, he, hl⟩ := fd_set_unimport_loop_spec lfd ws.fd_count 0 w
    exact ⟨he, hl⟩

/-- The store of `clear_fd_count`: a set that is there stays there and its count is 0, in
both layouts. -/
theorem clear_fd_count_spec (b32 : Bool) (wsfds : Option ws_fd_set) :
    (clear_fd_count b32 wsfds).isSome = wsfds.isSome ∧
    wire_count (clear_fd_count b32 wsfds) = 0 := by
  cases wsfds with
  | none => exact ⟨rfl, rfl⟩
  | some ws => cases b32 <;> exact ⟨rfl, rfl⟩

/-- C18: for a protocol record with a name and an empty alias list, with the scratch buffer
available (big enough already, or allocated), `WS_dup_pe` returns the header size of the
mode (`ws_protoent16` with `WS_DUP_SEGPTR`, `ws_protoent32` otherwise) + name length + 1 +
one pointer size.  In the buffer the name with its NUL follows the header, the alias
pointer array starts right after it (the field `p_aliases` points there), its first entry
is `NULL`, and that entry ends the record (the returned size is the offset of the array
plus one pointer): the array is one null entry. -/
theorem WS_dup_pe_no_aliases (Y : Layout) (Z : PeLayout) (hP : 0 < Y.sizeof_ptr)
    (alloc : Nat → Option (Int × Int)) (st : PeState) (name : List Nat) (proto : Int)
    (flag : Nat) (buf : PeBuffer)
    (hbuf : (check_buffer_pe alloc st (protoent_size Y Z
      (some { p_name := name, p_aliases := some [], p_proto := proto }))).pe_buffer =
        some buf) :
    let H := if flag &&& WS_DUP_SEGPTR ≠ 0 then Z.sizeof_ws_protoent16
      else Z.sizeof_ws_protoent32
    ∃ (st' : PeState) (buf' : PeBuffer),
      WS_dup_pe Y Z alloc st (some { p_name := name, p_aliases := some [], p_proto := proto })
        flag = some (H + (strlen name + 1) + Y.sizeof_ptr, st') ∧
      st'.pe_buffer = some buf' ∧
      buf'.header.p_name = dup_base_pe flag buf + (H : Nat) ∧
      load_bytes buf'.mem H (strlen name + 1) = some (cstr name ++ [0]) ∧
      buf'.header.p_aliases = dup_base_pe flag buf + ((H + (strlen name + 1) : Nat) : Int) ∧
      load_ptr Y.sizeof_ptr buf'.mem (H + (strlen name + 1)) = some 0 := by
  intro H
  have hH : dup_header_size_pe Z flag = H := rfl
  have hne : protoent_size Y Z
      (some { p_name := name, p_aliases := some [], p_proto := proto }) ≠ 0 := by
    simp [protoent_size]
  have hlen : (cstr name ++ [0]).length = strlen name + 1 := by
    simp [strlen]
  simp only [WS_dup_pe, hne, ne_eq, not_false_eq_true, if_true, hbuf, list_dup, list_dup_loop,
    List.length_nil, hH]
  refine ⟨_, _, congrArg some (Prod.ext ?_ rfl), rfl, rfl, ?_, ?_, ?_⟩
  · simp only [protoent_size, list_size, list_size_loop, List.length_nil]
    generalize H = h
    generalize Z.sizeof_protoent = a
    generalize strlen name = b
    generalize Y.sizeof_ptr = c
    omega
  · simp only []
    rw [← hlen, ← load_bytes_store_bytes buf.mem H (cstr name ++ [0])]
    apply load_bytes_congr
    intro a h1 h2
    apply store_ptr_outside
    left
    rw [hlen] at h2 ⊢
    omega
  · simp only [Nat.cast_add]
  · simp only []
    have := load_ptr_store_ptr Y.sizeof_ptr hP (store_bytes buf.mem H (cstr name ++ [0]))
      (H + (strlen name + 1)) 0
    simpa using this

/-- C18 on the x86 layout: the record "tcp" (protocol 6) without aliases, in linear mode; the
buffer is allocated, the size is 12 + 3 + 1 + 4 = 20 and the pointer at offset 16 is
`NULL`. -/
theorem WS_dup_pe_no_aliases_sample :
    0 < x86_layout.sizeof_ptr ∧
    ∃ (st' : PeState) (buf' : PeBuffer),
      WS_dup_pe x86_layout x86_pe_layout alloc_ok PeState.init
        (some { p_name := [116, 99, 112], p_aliases := some [], p_proto := 6 })
        WS_DUP_LINEAR = some (20, st') ∧
      st'.pe_buffer = some buf' ∧
      buf'.header.p_name = 0x40001000 + 12 ∧
      load_bytes buf'.mem 12 4 = some [116, 99, 112, 0] ∧
      buf'.header.p_aliases = 0x40001000 + 16 ∧
      load_ptr 4 buf'.mem 16 = some 0 :=
  ⟨by decide,
   WS_dup_pe_no_aliases x86_layout x86_pe_layout (by decide) alloc_ok PeState.init
     [116, 99, 112] 6 WS_DUP_LINEAR (PeBuffer.fresh 0x40001000 0x10570000) rfl⟩

/-- `WS_dup_he` on a `NULL` record returns 0 and leaves the static variables alone. -/
theorem WS_dup_he_null_record (Y : Layout) (alloc : Nat → Option (Int × Int)) (st : HeState)
    (flag : Nat) : WS_dup_he Y alloc st none flag = some (0, st) := rfl

/-- `WS_dup_he` on a record when `check_buffer_he` leaves `he_buffer` `NULL` (no buffer yet
or one that is too small, and `SEGPTR_ALLOC` fails): the result of `check_buffer_he` is not
looked at, the `strcpy` of the name goes through the `NULL` pointer and the call faults; it
does not return. -/
theorem WS_dup_he_no_buffer (Y : Layout) (alloc : Nat → Option (Int × Int)) (st : HeState)
    (he : hostent) (flag : Nat)
    (hfail : (check_buffer_he alloc st (hostent_size Y (some he))).he_buffer = none) :
    WS_dup_he Y alloc st (some he) flag = none := by
  have hne : hostent_size Y (some he) ≠ 0 := by
    simp only [hostent_size]
    omega
  simp only [WS_dup_he, hne, ne_eq, not_false_eq_true, if_true, hfail]

/-- C19 (code defect): `WS_dup_he` on the x86 layout with no scratch buffer yet and an
allocator that fails.  For a `NULL` record it returns 0.  For the record "hi" (no aliases,
one address) `check_buffer_he` leaves `he_buffer` `NULL` and the call faults on the write of
the name instead of returning 0, so the caller's `SetLastError(WSAENOBUFS)` is not
reached.  `WS_dup_pe` does the same on the record "tcp". -/
theorem WS_dup_he_allocation_failure_faults :
    (WS_dup_he x86_layout alloc_fails HeState.init none WS_DUP_LINEAR).map Prod.fst = some 0 ∧
    (check_buffer_he alloc_fails HeState.init (hostent_size x86_layout
      (some { h_name := [104, 105], h_aliases := some [], h_addrtype := 2, h_length := 4,
              h_addr_list := some [[127, 0, 0, 1]] }))).he_buffer.isNone = true ∧
    (WS_dup_he x86_layout alloc_fails HeState.init
      (some { h_name := [104, 105], h_aliases := some [], h_addrtype := 2, h_length := 4,
              h_addr_list := some [[127, 0, 0, 1]] }) WS_DUP_LINEAR).isNone = true ∧
    (WS_dup_pe x86_layout x86_pe_layout alloc_fails PeState.init
      (some { p_name := [116, 99, 112], p_aliases := some [], p_proto := 6 })
      WS_DUP_LINEAR).isNone = true := by
  decide

/-- `wsaErrno` returns `WSAEWOULDBLOCK` only for `EWOULDBLOCK`. -/
theorem wsaErrno_eq_WSAEWOULDBLOCK (E : HostErrno) (e : Int)
    (h : wsaErrno E e = WSAEWOULDBLOCK) : e = E.EWOULDBLOCK := by
  rcases switch_return_cases (wsaErrno_cases E) WSAEOPNOTSUPP e with hm | ⟨-, hd⟩
  · have hm' : (e, WSAEWOULDBLOCK) ∈ wsaErrno_cases E := by
      rw [← h]; exact hm
    simpa [wsaErrno_cases, mem_ifdef_case] using hm'
  · unfold wsaErrno at h
    rw [hd] at h
    exact absurd h (by decide)

/-- Where the `switch` of `wsaErrno` compiles, `EWOULDBLOCK` returns `WSAEWOULDBLOCK`. -/
theorem wsaErrno_EWOULDBLOCK (E : HostErrno) (hnd : (wsaErrno_labels E).Nodup) :
    wsaErrno E E.EWOULDBLOCK = WSAEWOULDBLOCK := by
  apply switch_return_of_mem _ _ _ _ hnd
  simp [wsaErrno_cases]

/-- The sets `do_block` builds for the masks 1 (read) and 2 (write). -/
theorem do_block_read (S : Host) (w : World) (fd : Int) :
    (do_block S w fd 1).2 =
      { w.call (Call.select (fd + 1) (some [fd]) (some []) (some []) none) with
        errno := (S.select w.trace (fd + 1) (some [fd]) (some []) (some []) none).errno } := by
  have h0 : (1 : Nat) &&& (1 <<< 0) ≠ 0 := by decide
  have h1 : ¬ ((1 : Nat) &&& (1 <<< 1) ≠ 0) := by decide
  have h2 : ¬ ((1 : Nat) &&& (1 <<< 2) ≠ 0) := by decide
  unfold do_block
  simp only [if_pos h0, if_neg h1, if_neg h2, FD_SET, FD_ZERO, List.not_mem_nil, if_false]
  split_ifs <;> rfl

/-- C12 (as stated, refuted): a socket in blocking mode (handle 100, descriptor 3) whose
readiness wait is interrupted and whose host `recv` then fails with `EWOULDBLOCK`:
`WSOCK32_recv` returns `SOCKET_ERROR` and the last error is `WSAEWOULDBLOCK`. -/
theorem WSOCK32_recv_blocking_reports_would_block :
    (interrupted_wait_host.get_socket_event [Call.FILE_GetUnixHandle 100 3] 100 false 0 0).state
      &&& WS_FD_NONBLOCKING = 0 ∧
    WSOCK32_recv interrupted_wait_host linux_errno World.init 100 16 0 =
      (SOCKET_ERROR,
       { trace := [Call.FILE_GetUnixHandle 100 3, Call.get_socket_event 100 false 0 0,
                   Call.select 4 (some [3]) (some []) (some []) none,
                   Call.host HostFn.recv 3 none [16, 0],
                   Call.SetLastError WSAEWOULDBLOCK, Call.close 3],
         errno := 11, last_error := WSAEWOULDBLOCK }) := by
  decide

/-- C12 (amended): `WSOCK32_recv` on a resolved handle of a socket in blocking mode
(`WS_FD_NONBLOCKING` clear in the state the handle server reports).  After the resolution
and the state request the calls are, in this order: one host `select` on descriptor bound
`fd+1` with `fd` alone in the read set, empty write and exception sets and no timeout; one
host `recv` on `fd`, whatever the wait returned; then the close and the request that
re-enables `FD_READ` when the `recv` succeeded (returned 0 or more), or `SetLastError` with
the translated `errno` and the close when it failed.  The call reports `WSAEWOULDBLOCK`
(returns `SOCKET_ERROR` with that last error) only if this one `recv` failed with
`EWOULDBLOCK`, and it does so then wherever the `switch` of `wsaErrno` compiles. -/
theorem WSOCK32_recv_blocking (S : Host) (E : HostErrno) (w : World) (s len flags : Int)
    (fd : Nat)
    (hfd : S.FILE_GetUnixHandle w.trace s = some fd)
    (hb : (S.get_socket_event (w.trace ++ [Call.FILE_GetUnixHandle s fd]) s false 0 0).state
      &&& WS_FD_NONBLOCKING = 0) :
    let t1 := w.trace ++ [Call.FILE_GetUnixHandle s fd, Call.get_socket_event s false 0 0]
    let wait := Call.select ((fd : Int) + 1) (some [(fd : Int)]) (some []) (some []) none
    let r := S.host (t1 ++ [wait]) HostFn.recv fd none [len, flags]
    let out := WSOCK32_recv S E w s len flags
    out.2.trace = t1 ++ [wait, Call.host HostFn.recv fd none [len, flags]] ++
      (if r.ret ≥ 0 then [Call.close fd, Call.enable_socket_event s FD_READ 0 0]
       else [Call.SetLastError (wsaErrno E r.errno), Call.close fd]) ∧
    out.1 = (if r.ret ≥ 0 then r.ret else SOCKET_ERROR) ∧
    out.2.last_error = (if r.ret ≥ 0 then w.last_error else wsaErrno E r.errno) ∧
    (out.1 = SOCKET_ERROR ∧ out.2.last_error = WSAEWOULDBLOCK →
      r.ret < 0 ∧ r.errno = E.EWOULDBLOCK) ∧
    ((wsaErrno_labels E).Nodup → r.ret < 0 → r.errno = E.EWOULDBLOCK →
      out.1 = SOCKET_ERROR ∧ out.2.last_error = WSAEWOULDBLOCK) := by
  intro t1 wait r out
  have hout : out =
      (if r.ret ≥ 0 then
        (r.ret, { trace := t1 ++ [wait, Call.host HostFn.recv fd none [len, flags]] ++
                    [Call.close fd, Call.enable_socket_event s FD_READ 0 0],
                  errno := r.errno, last_error := w.last_error })
       else
        (SOCKET_ERROR,
         { trace := t1 ++ [wait, Call.host HostFn.recv fd none [len, flags]] ++
                    [Call.SetLastError (wsaErrno E r.errno), Call.close fd],
           errno := r.errno, last_error := wsaErrno E r.errno })) := by
    simp only [out, r, t1, wait, WSOCK32_recv, _get_sock_fd, hfd, nat_fd_ne_neg_one, ne_eq,
      not_false_eq_true, if_true, _is_blocking, get_socket_event, World.call, hb,
      decide_True, do_block_read, List.append_assoc, List.cons_append, List.nil_append]
    split_ifs <;> simp [close, World.call, SetLastError, _enable_event]
  by_cases hr : r.ret ≥ 0
  · rw [hout, if_pos hr]
    simp only [if_pos hr]
    refine ⟨trivial, trivial, trivial, ?_, ?_⟩
    · rintro ⟨h1, -⟩
      rw [h1] at hr
      exact absurd hr (by decide)
    · intro _ h2
      exact absurd hr (not_le.mpr h2)
  · rw [hout, if_neg hr]
    simp only [if_neg hr]
    refine ⟨trivial, trivial, trivial, ?_, ?_⟩
    · rintro ⟨-, h2⟩
      exact ⟨not_le.mp hr, wsaErrno_eq_WSAEWOULDBLOCK E _ h2⟩
    · intro hnd _ h3
      rw [h3]
      exact ⟨trivial, wsaErrno_EWOULDBLOCK E hnd⟩

/-- C12 (amended) at a concrete call: handle 100 (descriptor 3) of a blocking socket on
`quiet_host`, where the wait times out and the host `recv` returns 0. -/
theorem WSOCK32_recv_blocking_sample :
    quiet_host.FILE_GetUnixHandle World.init.trace 100 = some 3 ∧
    (WSOCK32_recv quiet_host linux_errno World.init 100 16 0).2.trace =
      [Call.FILE_GetUnixHandle 100 3, Call.get_socket_event 100 false 0 0,
       Call.select 4 (some [3]) (some []) (some []) none,
       Call.host HostFn.recv 3 none [16, 0],
       Call.close 3, Call.enable_socket_event 100 FD_READ 0 0] :=
  ⟨by decide,
   (WSOCK32_recv_blocking quiet_host linux_errno World.init 100 16 0 3 (by decide)
     (by decide)).1⟩

/-- `WSOCK32_recv` on a resolved handle of a socket in non-blocking mode whose host `recv`
fails: no `select`, one host `recv`, `SetLastError` with the translated `errno`, the close,
and nothing else; in particular no `enable_socket_event` request. -/
theorem WSOCK32_recv_nonblocking_failure (S : Host) (E : HostErrno) (w : World)
    (s len flags : Int) (fd : Nat)
    (hfd : S.FILE_GetUnixHandle w.trace s = some fd)
    (hb : (S.get_socket_event (w.trace ++ [Call.FILE_GetUnixHandle s fd]) s false 0 0).state
      &&& WS_FD_NONBLOCKING ≠ 0)
    (hr : (S.host (w.trace ++ [Call.FILE_GetUnixHandle s fd,
      Call.get_socket_event s false 0 0]) HostFn.recv fd none [len, flags]).ret < 0) :
    WSOCK32_recv S E w s len flags =
      (SOCKET_ERROR,
       { trace := w.trace ++ [Call.FILE_GetUnixHandle s fd, Call.get_socket_event s false 0 0,
           Call.host HostFn.recv fd none [len, flags],
           Call.SetLastError (wsaErrno E (S.host (w.trace ++ [Call.FILE_GetUnixHandle s fd,
             Call.get_socket_event s false 0 0]) HostFn.recv fd none [len, flags]).errno),
           Call.close fd],
         errno := (S.host (w.trace ++ [Call.FILE_GetUnixHandle s fd,
           Call.get_socket_event s false 0 0]) HostFn.recv fd none [len, flags]).errno,
         last_error := wsaErrno E (S.host (w.trace ++ [Call.FILE_GetUnixHandle s fd,
           Call.get_socket_event s false 0 0]) HostFn.recv fd none [len, flags]).errno }) := by
  have hr' : ¬ (S.host (w.trace ++ [Call.FILE_GetUnixHandle s fd,
      Call.get_socket_event s false 0 0]) HostFn.recv fd none [len, flags]).ret ≥ 0 :=
    not_le.mpr hr
  simp only [WSOCK32_recv, _get_sock_fd, hfd, nat_fd_ne_neg_one, ne_eq,
    not_false_eq_true, if_true, _is_blocking, get_socket_event, World.call, hb,
    decide_False, List.append_assoc, List.cons_append, List.nil_append, if_neg hr']
  simp [close, World.call, SetLastError]
  intro h
  exact absurd h (not_le.mpr hr)

/-- C13 (code defect): handle 100 (descriptor 3) of a socket in non-blocking mode whose host
calls fail with `EWOULDBLOCK`.  `WSOCK32_recv` makes no readiness wait and returns
`SOCKET_ERROR` with last error `WSAEWOULDBLOCK`, but its trace holds no
`enable_socket_event` request: the read-readiness bit is not flagged.  `WSOCK32_send` on the
same socket does send the request for `FD_WRITE` on its would-block path. -/
theorem WSOCK32_recv_would_block_sends_no_request :
    WSOCK32_recv would_block_host linux_errno World.init 100 16 0 =
      (SOCKET_ERROR,
       { trace := [Call.FILE_GetUnixHandle 100 3, Call.get_socket_event 100 false 0 0,
                   Call.host HostFn.recv 3 none [16, 0],
                   Call.SetLastError WSAEWOULDBLOCK, Call.close 3],
         errno := 11, last_error := WSAEWOULDBLOCK }) ∧
    WSOCK32_send would_block_host linux_errno World.init 100 16 0 =
      (SOCKET_ERROR,
       { trace := [Call.FILE_GetUnixHandle 100 3, Call.get_socket_event 100 false 0 0,
                   Call.host HostFn.send 3 none [16, 0],
                   Call.SetLastError WSAEWOULDBLOCK,
                   Call.enable_socket_event 100 FD_WRITE 0 0, Call.close 3],
         errno := 11, last_error := WSAEWOULDBLOCK }) := by
  decide

/-- `SetLastError` adds no `create_socket` request to the trace. -/
theorem create_socket_calls_SetLastError (w : World) (e : Nat) :
    create_socket_calls (SetLastError w e).trace = create_socket_calls w.trace := by
  simp [SetLastError, create_socket_calls, Call.is_create_socket]

/-- C21: the three rejections of `WSOCK32_socket`, in the order of the source.  An address
family that is not `AF_INET`, `AF_UNSPEC` or (with `HAVE_IPX`) `WS_AF_IPX` gives
`WSAEAFNOSUPPORT`; otherwise a type that is not `SOCK_STREAM`, `SOCK_DGRAM` or `SOCK_RAW`
gives `WSAESOCKTNOSUPPORT`; otherwise a negative protocol gives `WSAEPROTONOSUPPORT`.  In
each case the call returns `INVALID_SOCKET`, the only thing it does is the `SetLastError`,
and the trace holds no new `create_socket` request. -/
theorem WSOCK32_socket_rejects (S : Host) (C : HostSockOpts) (A : AddrFamilies)
    (T : HostSockTypes) (w : World) (af type protocol : Int) :
    let family_ok := af = A.AF_INET ∨ af = A.AF_UNSPEC ∨ (A.AF_IPX ≠ none ∧ af = A.WS_AF_IPX)
    let type_ok := type = T.SOCK_STREAM ∨ type = T.SOCK_DGRAM ∨ type = T.SOCK_RAW
    let out := WSOCK32_socket S C A T w af type protocol
    (¬ family_ok → out = (INVALID_SOCKET, SetLastError w WSAEAFNOSUPPORT)) ∧
    (family_ok → ¬ type_ok → out = (INVALID_SOCKET, SetLastError w WSAESOCKTNOSUPPORT)) ∧
    (family_ok → type_ok → protocol < 0 →
      out = (INVALID_SOCKET, SetLastError w WSAEPROTONOSUPPORT)) ∧
    (¬ family_ok ∨ ¬ type_ok ∨ protocol < 0 →
      out.1 = INVALID_SOCKET ∧ create_socket_calls out.2.trace = create_socket_calls w.trace) := by
  intro family_ok type_ok out
  have h1 : ¬ family_ok → out = (INVALID_SOCKET, SetLastError w WSAEAFNOSUPPORT) := by
    intro hf
    have hnone : socket_family A af = none := by
      unfold socket_family
      rw [if_neg (fun h => hf (Or.inr (Or.inr h))),
        if_neg (fun h => hf (h.elim Or.inl (fun h => Or.inr (Or.inl h))))]
    simp only [out, WSOCK32_socket, hnone]
  have hsome : family_ok → ∃ af', socket_family A af = some af' := by
    intro hf
    unfold socket_family
    by_cases hx : A.AF_IPX ≠ none ∧ af = A.WS_AF_IPX
    · rw [if_pos hx]
      exact Option.ne_none_iff_exists'.mp hx.1
    · rw [if_neg hx]
      have : af = A.AF_INET ∨ af = A.AF_UNSPEC := by
        rcases hf with h | h | h
        · exact Or.inl h
        · exact Or.inr h
        · exact absurd h hx
      rw [if_pos this]
      exact ⟨af, rfl⟩
  have h2 : family_ok → ¬ type_ok →
      out = (INVALID_SOCKET, SetLastError w WSAESOCKTNOSUPPORT) := by
    intro hf ht
    obtain ⟨af', ha⟩ := hsome hf
    simp only [out, WSOCK32_socket, ha]
    rw [if_pos ht]
  have h3 : family_ok → type_ok → protocol < 0 →
      out = (INVALID_SOCKET, SetLastError w WSAEPROTONOSUPPORT) := by
    intro hf ht hp
    obtain ⟨af', ha⟩ := hsome hf
    simp only [out, WSOCK32_socket, ha]
    rw [if_neg (not_not.mpr ht), if_pos hp]
  refine ⟨h1, h2, h3, ?_⟩
  intro h
  by_cases hf : family_ok
  · by_cases ht : type_ok
    · have hp : protocol < 0 := by
        rcases h with h | h | h
        · exact absurd hf h
        · exact absurd ht h
        · exact h
      rw [h3 hf ht hp]
      exact ⟨rfl, create_socket_calls_SetLastError w _⟩
    · rw [h2 hf ht]
      exact ⟨rfl, create_socket_calls_SetLastError w _⟩
  · rw [h1 hf]
    exact ⟨rfl, create_socket_calls_SetLastError w _⟩

/-- C21 at concrete calls with the Linux constants: family 99, type 7 with family `AF_INET`,
and protocol -1 with `AF_INET` and `SOCK_STREAM`. -/
theorem WSOCK32_socket_rejects_sample :
    WSOCK32_socket quiet_host linux_sockopts linux_families linux_socktypes World.init 99 1 6 =
      (INVALID_SOCKET, { trace := [Call.SetLastError WSAEAFNOSUPPORT], errno := 0,
                         last_error := WSAEAFNOSUPPORT }) ∧
    WSOCK32_socket quiet_host linux_sockopts linux_families linux_socktypes World.init 2 7 6 =
      (INVALID_SOCKET, { trace := [Call.SetLastError WSAESOCKTNOSUPPORT], errno := 0,
                         last_error := WSAESOCKTNOSUPPORT }) ∧
    WSOCK32_socket quiet_host linux_sockopts linux_families linux_socktypes World.init 2 1 (-1) =
      (INVALID_SOCKET, { trace := [Call.SetLastError WSAEPROTONOSUPPORT], errno := 0,
                         last_error := WSAEPROTONOSUPPORT }) :=
  ⟨(WSOCK32_socket_rejects quiet_host linux_sockopts linux_families linux_socktypes World.init
      99 1 6).1 (by decide),
   (WSOCK32_socket_rejects quiet_host linux_sockopts linux_families linux_socktypes World.init
      2 7 6).2.1 (by decide) (by decide),
   (WSOCK32_socket_rejects quiet_host linux_sockopts linux_families linux_socktypes World.init
      2 1 (-1)).2.2.1 (by decide) (by decide) (by decide)⟩

/-- What the `switch(protocol)` of `WSOCK32_socket` accepts: the pairs (`IPPROTO_TCP`,
`SOCK_STREAM`), (`IPPROTO_UDP`, `SOCK_DGRAM`) and, through the fall-through, (`IPPROTO_TCP`,
`SOCK_DGRAM`); every other pair goes to `default`. -/
theorem socket_infer_family_eq (C : HostSockOpts) (A : AddrFamilies) (T : HostSockTypes)
    (type protocol : Int) :
    socket_infer_family C A T type protocol =
      (if (protocol = C.IPPROTO_TCP ∧ type = T.SOCK_STREAM) ∨
          (protocol = T.IPPROTO_UDP ∧ type = T.SOCK_DGRAM) ∨
          (protocol = C.IPPROTO_TCP ∧ type = T.SOCK_DGRAM) then some A.AF_INET else none) := by
  unfold socket_infer_family
  split_ifs <;> first | rfl | (exfalso; tauto)

/-- C30 (code defect): `WSOCK32_socket(AF_UNSPEC, SOCK_DGRAM, IPPROTO_TCP)` with the Linux
constants (0, 2, 6).  The pair is not one of the two consistent pairs, yet the call does not
fail with `WSAEPROTOTYPE`: the case `IPPROTO_TCP` falls through into the case
`IPPROTO_UDP`, whose test on `SOCK_DGRAM` succeeds, so `AF_INET` (2) is inferred, the
`create_socket` request is sent and its handle returned.  The pair (`IPPROTO_UDP`,
`SOCK_STREAM`) is refused as the claim says. -/
theorem WSOCK32_socket_infers_for_tcp_dgram :
    WSOCK32_socket quiet_host linux_sockopts linux_families linux_socktypes World.init 0 2 6 =
      (100, { trace := [Call.create_socket 2 2 6], errno := 0, last_error := 0 }) ∧
    WSOCK32_socket quiet_host linux_sockopts linux_families linux_socktypes World.init 0 1 17 =
      (INVALID_SOCKET, { trace := [Call.SetLastError WSAEPROTOTYPE], errno := 0,
                         last_error := WSAEPROTOTYPE }) := by
  decide

/-- C29 (code defect): `WSASend` over two buffers of 10 bytes on handle 100 (descriptor 3)
of a socket whose host `send` sends every buffer in full.  `WSOCK32_send` returns the
number of bytes sent, 10, and `WSASend` takes every result other than 0 for a failure: it
leaves the loop after the first buffer, returns 10 and `*lpNumberOfBytesSent` stays 0; the
second buffer is never passed on.  With buffers of length 0 the loop does run to its end
and returns 0. -/
theorem WSASend_stops_after_first_buffer :
    WSASend send_all_host linux_errno linux_msgflags World.init 100 [10, 10] 0 =
      (10, 0,
       { trace := [Call.FILE_GetUnixHandle 100 3, Call.get_socket_event 100 false 0 0,
                   Call.host HostFn.send 3 none [10, 0], Call.close 3],
         errno := 0, last_error := 0 }) ∧
    (WSASend send_all_host linux_errno linux_msgflags World.init 100 [0, 0] 0).1 = 0 ∧
    (WSASend send_all_host linux_errno linux_msgflags World.init 100 [0, 0] 0).2.1 = 0 := by
  decide

/-- The wait `do_block(fd, 7)`: one host `select` with `fd` in all three sets. -/
theorem do_block_all (S : Host) (w : World) (fd : Int) :
    (do_block S w fd 7).2 =
      { w.call (Call.select (fd + 1) (some [fd]) (some [fd]) (some [fd]) none) with
        errno := (S.select w.trace (fd + 1) (some [fd]) (some [fd]) (some [fd]) none).errno } := by
  have h0 : (7 : Nat) &&& (1 <<< 0) ≠ 0 := by decide
  have h1 : (7 : Nat) &&& (1 <<< 1) ≠ 0 := by decide
  have h2 : (7 : Nat) &&& (1 <<< 2) ≠ 0 := by decide
  unfold do_block
  simp only [if_pos h0, if_pos h1, if_pos h2, FD_SET, FD_ZERO, List.not_mem_nil, if_false]
  split_ifs <;> rfl

/-- C24: `WSOCK32_connect` on a resolved handle when the host `connect` fails with
`EINPROGRESS`.  After the host `connect` the first call is the request
`enable_socket_event` for `FD_CONNECT|FD_READ|FD_WRITE` that sets
`WS_FD_CONNECT|WS_FD_READ|WS_FD_WRITE` and clears `WS_FD_CONNECTED|WS_FD_LISTENING`, then
the state request.  On a non-blocking socket the call sets `WSAEWOULDBLOCK`, closes the
descriptor and returns `SOCKET_ERROR`, with no `select`.  On a blocking socket it waits
(`select` with the descriptor in all three sets, no timeout), sends two more state
requests and reads the error code of the connect event: if it is 0 the call closes the
descriptor, requests `WS_FD_CONNECTED|WS_FD_READ|WS_FD_WRITE` set and
`WS_FD_CONNECT|WS_FD_LISTENING` cleared, and returns 0; otherwise it sets that code as last
error, closes the descriptor and returns `SOCKET_ERROR`.  On each path the descriptor is
closed exactly once. -/
theorem WSOCK32_connect_in_progress (S : Host) (E : HostErrno) (A : AddrFamilies) (w : World)
    (s : Int) (name : Option Int) (namelen : Int) (fd : Nat)
    (hfd : S.FILE_GetUnixHandle w.trace s = some fd)
    (hr : (S.host (w.trace ++ [Call.FILE_GetUnixHandle s fd]) HostFn.connect fd
      (convert_sockaddr A name namelen).1 [(convert_sockaddr A name namelen).2]).ret ≠ 0)
    (he : (S.host (w.trace ++ [Call.FILE_GetUnixHandle s fd]) HostFn.connect fd
      (convert_sockaddr A name namelen).1 [(convert_sockaddr A name namelen).2]).errno =
        E.EINPROGRESS) :
    let connect := Call.host HostFn.connect fd (convert_sockaddr A name namelen).1
      [(convert_sockaddr A name namelen).2]
    let track := Call.enable_socket_event s (FD_CONNECT ||| FD_READ ||| FD_WRITE)
      (WS_FD_CONNECT ||| WS_FD_READ ||| WS_FD_WRITE) (WS_FD_CONNECTED ||| WS_FD_LISTENING)
    let connected := Call.enable_socket_event s (FD_CONNECT ||| FD_READ ||| FD_WRITE)
      (WS_FD_CONNECTED ||| WS_FD_READ ||| WS_FD_WRITE) (WS_FD_CONNECT ||| WS_FD_LISTENING)
    let query := Call.get_socket_event s false 0 0
    let wait := Call.select ((fd : Int) + 1) (some [(fd : Int)]) (some [(fd : Int)])
      (some [(fd : Int)]) none
    let t1 := w.trace ++ [Call.FILE_GetUnixHandle s fd, connect, track]
    let state := (S.get_socket_event t1 s false 0 0).state
    let sel := S.select (t1 ++ [query]) ((fd : Int) + 1) (some [(fd : Int)]) (some [(fd : Int)])
      (some [(fd : Int)]) none
    let err := (S.get_socket_event (t1 ++ [query, wait, query]) s false 0 0).errors.getD
      FD_CONNECT_BIT 0
    let out := WSOCK32_connect S E A w s name namelen
    (state &&& WS_FD_NONBLOCKING ≠ 0 →
      out = (SOCKET_ERROR,
        { trace := t1 ++ [query, Call.SetLastError WSAEWOULDBLOCK, Call.close fd],
          errno := E.EINPROGRESS, last_error := WSAEWOULDBLOCK })) ∧
    (state &&& WS_FD_NONBLOCKING = 0 → err = 0 →
      out = (0,
        { trace := t1 ++ [query, wait, query, query, Call.close fd, connected],
          errno := sel.errno, last_error := w.last_error })) ∧
    (state &&& WS_FD_NONBLOCKING = 0 → err ≠ 0 →
      out = (SOCKET_ERROR,
        { trace := t1 ++ [query, wait, query, query, Call.SetLastError err, Call.close fd],
          errno := sel.errno, last_error := err })) ∧
    closed_fds out.2.trace = closed_fds w.trace ++ [(fd : Int)] := by
  intro connect track connected query wait t1 state sel err out
  have hout : out =
      (if state &&& WS_FD_NONBLOCKING = 0 then
        (if err ≠ 0 then
          (SOCKET_ERROR,
            { trace := t1 ++ [query, wait, query, query, Call.SetLastError err, Call.close fd],
              errno := sel.errno, last_error := err })
         else
          (0,
            { trace := t1 ++ [query, wait, query, query, Call.close fd, connected],
              errno := sel.errno, last_error := w.last_error }))
       else
        (SOCKET_ERROR,
          { trace := t1 ++ [query, Call.SetLastError WSAEWOULDBLOCK, Call.close fd],
            errno := E.EINPROGRESS, last_error := WSAEWOULDBLOCK })) := by
    simp only [out, WSOCK32_connect, _get_sock_fd, hfd, nat_fd_ne_neg_one, ne_eq,
      not_false_eq_true, if_true, World.call, if_neg hr, he, _enable_event, _is_blocking,
      get_socket_event, _sync_sock_state, _get_sock_error, do_block_all, connect_success,
      close, SetLastError, List.append_assoc, List.cons_append, List.nil_append,
      decide_eq_true_eq]
    simp only [state, err, sel, t1, connect, track, connected, query, wait, List.append_assoc,
      List.cons_append, List.nil_append]
  refine ⟨?_, ?_, ?_, ?_⟩
  · intro hs
    rw [hout, if_neg hs]
  · intro hs h0
    rw [hout, if_pos hs, if_neg (not_not.mpr h0)]
  · intro hs h0
    rw [hout, if_pos hs, if_pos h0]
  · rw [hout]
    split_ifs <;>
      simp [t1, connect, track, connected, query, wait, closed_fds, Call.closed]

/-- C24 at a concrete call: handle 100 (descriptor 3) of a blocking socket whose host
`connect` fails with `EINPROGRESS` (115 on Linux) and whose connect event carries no error:
the call returns 0 and the descriptor is closed once. -/
theorem WSOCK32_connect_in_progress_sample :
    connect_pending_host.FILE_GetUnixHandle World.init.trace 100 = some 3 ∧
    WSOCK32_connect connect_pending_host linux_errno linux_families World.init 100 (some 2) 16 =
      (0,
       { trace := [Call.FILE_GetUnixHandle 100 3, Call.host HostFn.connect 3 (some 2) [16],
           Call.enable_socket_event 100 (FD_CONNECT ||| FD_READ ||| FD_WRITE)
             (WS_FD_CONNECT ||| WS_FD_READ ||| WS_FD_WRITE) (WS_FD_CONNECTED ||| WS_FD_LISTENING),
           Call.get_socket_event 100 false 0 0,
           Call.select 4 (some [3]) (some [3]) (some [3]) none,
           Call.get_socket_event 100 false 0 0, Call.get_socket_event 100 false 0 0,
           Call.close 3,
           Call.enable_socket_event 100 (FD_CONNECT ||| FD_READ ||| FD_WRITE)
             (WS_FD_CONNECTED ||| WS_FD_READ ||| WS_FD_WRITE) (WS_FD_CONNECT ||| WS_FD_LISTENING)],
         errno := 0, last_error := 0 }) :=
  ⟨by decide,
   (WSOCK32_connect_in_progress connect_pending_host linux_errno linux_families World.init 100
     (some 2) 16 3 (by decide) (by decide) (by decide)).2.1 (by decide) (by decide)⟩

/-- The scan of `WSOCK32_async_accept` stops at the first free slot and claims it. -/
theorem async_accept_scan_found (s : Int) (accept_old : List Int) (n q q0 : Nat)
    (h1 : q ≤ q0) (h2 : q0 < q + n) (h0 : accept_old.getD q0 0 = 0)
    (hb : ∀ k, q ≤ k → k < q0 → accept_old.getD k 0 ≠ 0) :
    async_accept_scan s n q accept_old = (q0, accept_old.set q0 s) := by
  induction n generalizing q with
  | zero => omega
  | succ n ih =>
    by_cases hq : q = q0
    · subst hq
      simp only [async_accept_scan, h0, if_true]
    · have hne : accept_old.getD q 0 ≠ 0 := hb q (Nat.le_refl _) (by omega)
      simp only [async_accept_scan, if_neg hne]
      exact ih (q + 1) (by omega) (by omega) (fun k hk1 hk2 => hb k (by omega) hk2)

/-- The scan of `WSOCK32_async_accept` over occupied slots runs to its end and changes
nothing. -/
theorem async_accept_scan_full (s : Int) (accept_old : List Int) (n q : Nat)
    (hb : ∀ k, q ≤ k → k < q + n → accept_old.getD k 0 ≠ 0) :
    async_accept_scan s n q accept_old = (q + n, accept_old) := by
  induction n generalizing q with
  | zero => rfl
  | succ n ih =>
    have hne : accept_old.getD q 0 ≠ 0 := hb q (Nat.le_refl _) (by omega)
    simp only [async_accept_scan, if_neg hne]
    rw [ih (q + 1) (fun k hk1 hk2 => hb k (by omega) (by omega))]
    congr 1
    omega

/-- C26: the accept queue of `WSOCK32_async_accept` (both arrays of `WS_ACCEPT_QUEUE` = 6
entries).  If `q0` is the lowest index with `accept_old[q0] = 0`, the call stores `s` in
`accept_old[q0]` and `as` in `accept_new[q0]` and leaves every other slot of both arrays as
it was.  If no slot has `accept_old` 0, both arrays stay as they are.  `WSOCK32_accept` on
a resolved handle returns the handle the `accept_socket` request gave (when it is not 0)
whatever the queue holds, and with a full queue it leaves the queue as it was. -/
theorem WSOCK32_async_accept_claims_lowest_free_slot (S : Host) (E : HostErrno) (w : World)
    (Q : AcceptQueue) (s as : Int) (addr : Option Int) (fd : Nat)
    (hlo : Q.accept_old.length = WS_ACCEPT_QUEUE) (hln : Q.accept_new.length = WS_ACCEPT_QUEUE)
    (hfd : S.FILE_GetUnixHandle w.trace s = some fd) :
    (∀ q0, q0 < WS_ACCEPT_QUEUE → Q.accept_old.getD q0 0 = 0 →
      (∀ k, k < q0 → Q.accept_old.getD k 0 ≠ 0) →
      (WSOCK32_async_accept w Q s as).2 =
        { accept_old := Q.accept_old.set q0 s, accept_new := Q.accept_new.set q0 as } ∧
      (Q.accept_old.set q0 s).getD q0 0 = s ∧ (Q.accept_new.set q0 as).getD q0 0 = as ∧
      (∀ k, k ≠ q0 → (Q.accept_old.set q0 s).getD k 0 = Q.accept_old.getD k 0 ∧
        (Q.accept_new.set q0 as).getD k 0 = Q.accept_new.getD k 0)) ∧
    ((∀ k, k < WS_ACCEPT_QUEUE → Q.accept_old.getD k 0 ≠ 0) →
      (WSOCK32_async_accept w Q s as).2 = Q) ∧
    (let w1 := w.call (Call.FILE_GetUnixHandle s fd)
     let w2 :=
       if (_is_blocking S w1 s).1 then
         SetLastError
           (_get_sock_error S (_sync_sock_state S (do_block S (_is_blocking S w1 s).2 fd 5).2 s)
             s FD_ACCEPT_BIT).2
           (_get_sock_error S (_sync_sock_state S (do_block S (_is_blocking S w1 s).2 fd 5).2 s)
             s FD_ACCEPT_BIT).1
       else (_is_blocking S w1 s).2
     let accepted := (S.accept_socket (close w2 fd).trace s).2
     accepted ≠ 0 →
       (WSOCK32_accept S E w Q s addr).1 = accepted ∧
       ((∀ k, k < WS_ACCEPT_QUEUE → Q.accept_old.getD k 0 ≠ 0) →
         (WSOCK32_accept S E w Q s addr).2.2 = Q)) := by
  have hfull : (∀ k, k < WS_ACCEPT_QUEUE → Q.accept_old.getD k 0 ≠ 0) →
      ∀ (w' : World) (s' as' : Int), (WSOCK32_async_accept w' Q s' as').2 = Q := by
    intro hb w' s' as'
    have hs := async_accept_scan_full s' Q.accept_old WS_ACCEPT_QUEUE 0
      (fun k _ hk => hb k (by omega))
    simp only [WSOCK32_async_accept, hs, Nat.zero_add, lt_irrefl, if_false]
  refine ⟨?_, fun hb => hfull hb w s as, ?_⟩
  · intro q0 hq h0 hb
    have hs := async_accept_scan_found s Q.accept_old WS_ACCEPT_QUEUE 0 q0 (Nat.zero_le _)
      (by omega) h0 (fun k _ hk => hb k hk)
    refine ⟨?_, ?_, ?_, ?_⟩
    · simp only [WSOCK32_async_accept, hs, hq, if_true]
    · simp [List.getD_eq_getElem?_getD, List.getElem?_set_self (hlo ▸ hq)]
    · simp [List.getD_eq_getElem?_getD, List.getElem?_set_self (hln ▸ hq)]
    · intro k hk
      simp [List.getD_eq_getElem?_getD, List.getElem?_set_ne (Ne.symm hk)]
  · intro w1 w2 accepted hacc
    have hw2 : w2 = (if (_is_blocking S w1 s).1 then
         SetLastError
           (_get_sock_error S (_sync_sock_state S (do_block S (_is_blocking S w1 s).2 fd 5).2 s)
             s FD_ACCEPT_BIT).2
           (_get_sock_error S (_sync_sock_state S (do_block S (_is_blocking S w1 s).2 fd 5).2 s)
             s FD_ACCEPT_BIT).1
       else (_is_blocking S w1 s).2) := rfl
    have hacc' : (S.accept_socket (close w2 fd).trace s).2 ≠ 0 := hacc
    constructor
    · simp only [WSOCK32_accept, _get_sock_fd, hfd, nat_fd_ne_neg_one, ne_eq,
        not_false_eq_true, if_true]
      rw [← hw2]
      simp only [World.call] at hacc' ⊢
      rw [if_pos hacc']
      split_ifs <;> rfl
    · intro hb
      simp only [WSOCK32_accept, _get_sock_fd, hfd, nat_fd_ne_neg_one, ne_eq,
        not_false_eq_true, if_true]
      rw [← hw2]
      simp only [World.call] at hacc' ⊢
      rw [if_pos hacc']
      split_ifs <;> first | rfl | exact hfull hb _ _ _

/-- The accept queue at work: with slots 0 and 1 taken the pair (100, 200) goes to slot 2;
with a full queue `WSOCK32_accept` on a socket with an active `WSAAsyncSelect` still
returns the accepted handle 200 and the queue stays as it was. -/
theorem WSOCK32_async_accept_claims_lowest_free_slot_sample :
    (WSOCK32_async_accept World.init two_taken_queue 100 200).2 =
        { accept_old := [7, 8, 100, 0, 0, 0], accept_new := [0, 9, 200, 0, 0, 0] } ∧
      (WSOCK32_accept async_listen_host linux_errno World.init full_queue 100 none).1 = 200 ∧
      (WSOCK32_accept async_listen_host linux_errno World.init full_queue 100 none).2.2 =
        full_queue :=
  ⟨((WSOCK32_async_accept_claims_lowest_free_slot async_listen_host linux_errno World.init
      two_taken_queue 100 200 none 3 (by decide) (by decide) (by decide)).1 2 (by decide)
      (by decide) (by decide)).1,
   ((WSOCK32_async_accept_claims_lowest_free_slot async_listen_host linux_errno World.init
      full_queue 100 200 none 3 (by decide) (by decide) (by decide)).2.2 (by decide)).1,
   ((WSOCK32_async_accept_claims_lowest_free_slot async_listen_host linux_errno World.init
      full_queue 100 200 none 3 (by decide) (by decide) (by decide)).2.2 (by decide)).2
      (by decide)⟩

/-- The loop of `fd_set_import`, started at entry `i` in the world `import_world` gives for
`i`: what it leaves in `lfd`, in the host set, in `highfd` and in the world. -/
theorem fd_set_import_loop_entries (S : Host) (fd_array : List Int) (w0 : World) (n i : Nat)
    (st : ImportState) (hw : st.w = import_world S fd_array w0 i)
    (h : i + n ≤ st.lfd.length) :
    (fd_set_import_loop S fd_array n i st).w = import_world S fd_array w0 (i + n) ∧
    (fd_set_import_loop S fd_array n i st).lfd.length = st.lfd.length ∧
    (∀ k, (fd_set_import_loop S fd_array n i st).lfd.getD k 0 =
      if i ≤ k ∧ k < i + n then import_fd S fd_array w0 k else st.lfd.getD k 0) ∧
    (∀ fd, fd ∈ (fd_set_import_loop S fd_array n i st).fds ↔
      fd ∈ st.fds ∨ ∃ k, i ≤ k ∧ k < i + n ∧ import_fd S fd_array w0 k = fd ∧ fd ≠ -1) ∧
    (fd_set_import_loop S fd_array n i st).highfd =
      (((List.range' i n).map (import_fd S fd_array w0)).filter (fun fd => fd ≠ -1)).foldl
        max st.highfd := by
  induction n generalizing i st with
  | zero =>
    refine ⟨hw, rfl, fun k => ?_, fun fd => ?_, rfl⟩
    · rw [if_neg (by omega)]; rfl
    · simp only [fd_set_import_loop]
      constructor
      · exact Or.inl
      · rintro (h | ⟨k, h1, h2, -⟩)
        · exact h
        · omega
  | succ n ih =>
    have hi : i < st.lfd.length := by omega
    have hfd : (_get_sock_fd S st.w (fd_array.getD i 0)).1 = import_fd S fd_array w0 i := by
      rw [hw]; rfl
    have hw1 : (_get_sock_fd S st.w (fd_array.getD i 0)).2 = import_world S fd_array w0 (i + 1) := by
      rw [hw]; rfl
    by_cases hv : import_fd S fd_array w0 i = -1
    · have hstep : fd_set_import_loop S fd_array (n + 1) i st =
          fd_set_import_loop S fd_array n (i + 1)
            { st with w := import_world S fd_array w0 (i + 1), lfd := st.lfd.set i (-1) } := by
        rw [← hw1]
        simp only [fd_set_import_loop]
        rw [if_neg (by rw [hfd]; exact not_not.mpr hv)]
      rw [hstep]
      obtain ⟨h1, h2, h3, h4, h5⟩ := ih (i + 1)
        { st with w := import_world S fd_array w0 (i + 1), lfd := st.lfd.set i (-1) } rfl
        (by simp only [List.length_set]; omega)
      refine ⟨by rw [h1]; congr 1; omega, by simpa using h2, fun k => ?_, fun fd => ?_, ?_⟩
      · rw [h3 k]
        by_cases hk : k = i
        · subst hk
          rw [if_neg (by omega), if_pos (by omega), hv]
          simp only [List.getD_eq_getElem?_getD, List.getElem?_set_self hi, Option.getD_some]
        · by_cases hk2 : i + 1 ≤ k ∧ k < i + 1 + n
          · rw [if_pos hk2, if_pos (by omega)]
          · rw [if_neg hk2, if_neg (by omega)]
            simp only [List.getD_eq_getElem?_getD]
            rw [List.getElem?_set_ne (Ne.symm hk)]
      · rw [h4 fd]
        constructor
        · rintro (h | ⟨k, k1, k2, k3, k4⟩)
          · exact Or.inl h
          · exact Or.inr ⟨k, by omega, by omega, k3, k4⟩
        · rintro (h | ⟨k, k1, k2, k3, k4⟩)
          · exact Or.inl h
          · refine Or.inr ⟨k, ?_, by omega, k3, k4⟩
            by_contra hc
            have : k = i := by omega
            subst this
            exact k4 (k3 ▸ hv)
      · rw [h5]
        simp only [List.range'_succ, List.map_cons, List.filter_cons, hv, ne_eq,
          not_true_eq_false, decide_False, Bool.false_eq_true, if_false]
    · have hstep : fd_set_import_loop S fd_array (n + 1) i st =
          fd_set_import_loop S fd_array n (i + 1)
            { w := import_world S fd_array w0 (i + 1),
              lfd := st.lfd.set i (import_fd S fd_array w0 i),
              highfd := if import_fd S fd_array w0 i > st.highfd
                then import_fd S fd_array w0 i else st.highfd,
              fds := FD_SET (import_fd S fd_array w0 i) st.fds } := by
        rw [← hw1, ← hfd]
        simp only [fd_set_import_loop]
        rw [if_pos (by rw [hfd]; exact hv)]
      rw [hstep]
      obtain ⟨h1, h2, h3, h4, h5⟩ := ih (i + 1)
        { w := import_world S fd_array w0 (i + 1),
          lfd := st.lfd.set i (import_fd S fd_array w0 i),
          highfd := if import_fd S fd_array w0 i > st.highfd
            then import_fd S fd_array w0 i else st.highfd,
          fds := FD_SET (import_fd S fd_array w0 i) st.fds } rfl
        (by simp only [List.length_set]; omega)
      refine ⟨by rw [h1]; congr 1; omega, by simpa using h2, fun k => ?_, fun fd => ?_, ?_⟩
      · rw [h3 k]
        by_cases hk : k = i
        · subst hk
          rw [if_neg (show ¬(k + 1 ≤ k ∧ k < k + 1 + n) by omega),
            if_pos (show k ≤ k ∧ k < k + (n + 1) by omega)]
          simp only [List.getD_eq_getElem?_getD, List.getElem?_set_self hi, Option.getD_some]
        · by_cases hk2 : i + 1 ≤ k ∧ k < i + 1 + n
          · rw [if_pos hk2, if_pos (show i ≤ k ∧ k < i + (n + 1) by omega)]
          · rw [if_neg hk2, if_neg (show ¬(i ≤ k ∧ k < i + (n + 1)) by omega)]
            simp only [List.getD_eq_getElem?_getD]
            rw [List.getElem?_set_ne (Ne.symm hk)]
      · rw [h4 fd]
        have hset : fd ∈ FD_SET (import_fd S fd_array w0 i) st.fds ↔
            fd = import_fd S fd_array w0 i ∨ fd ∈ st.fds := by
          unfold FD_SET
          split_ifs with hm
          · constructor
            · exact Or.inr
            · rintro (h | h)
              · exact h ▸ hm
              · exact h
          · exact List.mem_cons
        simp only [hset]
        constructor
        · rintro ((h | h) | ⟨k, k1, k2, k3, k4⟩)
          · exact Or.inr ⟨i, le_refl _, by omega, h.symm, h ▸ hv⟩
          · exact Or.inl h
          · exact Or.inr ⟨k, by omega, by omega, k3, k4⟩
        · rintro (h | ⟨k, k1, k2, k3, k4⟩)
          · exact Or.inl (Or.inr h)
          · by_cases hk : k = i
            · subst hk
              exact Or.inl (Or.inl k3.symm)
            · exact Or.inr ⟨k, by omega, by omega, k3, k4⟩
      · rw [h5]
        simp only [List.range'_succ, List.map_cons, List.filter_cons, hv, ne_eq,
          not_false_eq_true, decide_True, if_true, List.foldl_cons]
        congr 1
        simp only [gt_iff_lt]
        split_ifs with hlt
        · exact (max_eq_right (le_of_lt hlt)).symm
        · exact (max_eq_left (not_lt.mp hlt)).symm

/-- C23: `fd_set_import` on a wire set of K = `fd_count` entries, in either layout (`b32`),
with `lfd` holding at least K entries.  It returns the host set.  For every i < K, `lfd[i]`
is what `_get_sock_fd` gives for entry i when the loop reaches it: the descriptor the handle
resolves to, or -1 when it does not resolve, whatever happened to the entries before it;
the entries of `lfd` from K on stay.  The host set holds exactly the descriptors resolved,
`highfd` is the maximum of its previous value and the descriptors resolved, and the world
is the one after K resolutions.  On a null wire set the result is `NULL` and the world,
`highfd`, `lfd` and the host set are as they were. -/
theorem fd_set_import_resolves_each_entry (S : Host) (w : World) (fds : fd_set)
    (ws : ws_fd_set) (highfd : Int) (lfd : List Int) (b32 : Bool)
    (hK : ws.fd_count ≤ lfd.length) :
    (fd_set_import S w fds (some ws) highfd lfd b32).1 =
      some (fd_set_import S w fds (some ws) highfd lfd b32).2.fds ∧
    (fd_set_import S w fds (some ws) highfd lfd b32).2.lfd.length = lfd.length ∧
    (∀ i, i < ws.fd_count →
      (fd_set_import S w fds (some ws) highfd lfd b32).2.lfd.getD i 0 =
        import_fd S ws.fd_array w i ∧
      import_fd S ws.fd_array w i =
        match S.FILE_GetUnixHandle (import_world S ws.fd_array w i).trace
            (ws.fd_array.getD i 0) with
        | some fd => (fd : Int)
        | none => -1) ∧
    (∀ i, ws.fd_count ≤ i →
      (fd_set_import S w fds (some ws) highfd lfd b32).2.lfd.getD i 0 = lfd.getD i 0) ∧
    (∀ fd, fd ∈ (fd_set_import S w fds (some ws) highfd lfd b32).2.fds ↔
      ∃ i, i < ws.fd_count ∧ import_fd S ws.fd_array w i = fd ∧ fd ≠ -1) ∧
    (fd_set_import S w fds (some ws) highfd lfd b32).2.highfd =
      (((List.range ws.fd_count).map (import_fd S ws.fd_array w)).filter
        (fun fd => fd ≠ -1)).foldl max highfd ∧
    (fd_set_import S w fds (some ws) highfd lfd b32).2.w =
      import_world S ws.fd_array w ws.fd_count ∧
    fd_set_import S w fds none highfd lfd b32 =
      (none, { w := w, highfd := highfd, lfd := lfd, fds := fds }) := by
  obtain ⟨h1, h2, h3, h4, h5⟩ := fd_set_import_loop_entries S ws.fd_array w ws.fd_count 0
    { w := w, highfd := highfd, lfd := lfd, fds := FD_ZERO } rfl (by simpa using hK)
  refine ⟨rfl, h2, fun i hi => ⟨?_, ?_⟩, fun i hi => ?_, fun fd => ?_, ?_, ?_, rfl⟩
  · show (fd_set_import_loop S ws.fd_array ws.fd_count 0 _).lfd.getD i 0 = _
    rw [h3 i, if_pos (by omega)]
  · unfold import_fd _get_sock_fd
    cases S.FILE_GetUnixHandle (import_world S ws.fd_array w i).trace (ws.fd_array.getD i 0) <;>
      rfl
  · show (fd_set_import_loop S ws.fd_array ws.fd_count 0 _).lfd.getD i 0 = _
    rw [h3 i, if_neg (by omega)]
  · show fd ∈ (fd_set_import_loop S ws.fd_array ws.fd_count 0 _).fds ↔ _
    rw [h4 fd]
    constructor
    · rintro (h | ⟨k, -, k2, k3, k4⟩)
      · exact absurd h (List.not_mem_nil fd)
      · exact ⟨k, by omega, k3, k4⟩
    · rintro ⟨k, k2, k3, k4⟩
      exact Or.inr ⟨k, Nat.zero_le _, by omega, k3, k4⟩
  · show (fd_set_import_loop S ws.fd_array ws.fd_count 0 _).highfd = _
    rw [h5, List.range_eq_range']
  · show (fd_set_import_loop S ws.fd_array ws.fd_count 0 _).w = _
    rw [h1, Nat.zero_add]

/-- Import of the three handles 11, 13, 12 on a host where 13 does not resolve: `lfd` gets
3, -1, 5, the entry after the failing one is processed, and `highfd` rises from 2 to 5. -/
theorem fd_set_import_resolves_each_entry_sample :
    (fd_set_import one_bad_handle_host World.init [] (some ⟨3, [11, 13, 12]⟩) 2
        [0, 0, 0, 0] true).2.lfd.getD 1 0 = -1 ∧
      (fd_set_import one_bad_handle_host World.init [] (some ⟨3, [11, 13, 12]⟩) 2
        [0, 0, 0, 0] true).2.lfd.getD 2 0 = 5 ∧
      (fd_set_import one_bad_handle_host World.init [] (some ⟨3, [11, 13, 12]⟩) 2
        [0, 0, 0, 0] true).2.highfd = 5 :=
  ⟨((fd_set_import_resolves_each_entry one_bad_handle_host World.init [] ⟨3, [11, 13, 12]⟩ 2
      [0, 0, 0, 0] true (by decide)).2.2.1 1 (by decide)).1,
   ((fd_set_import_resolves_each_entry one_bad_handle_host World.init [] ⟨3, [11, 13, 12]⟩ 2
      [0, 0, 0, 0] true (by decide)).2.2.1 2 (by decide)).1,
   (fd_set_import_resolves_each_entry one_bad_handle_host World.init [] ⟨3, [11, 13, 12]⟩ 2
      [0, 0, 0, 0] true (by decide)).2.2.2.2.2.1⟩

/-- Fewer entries are kept than have been looked at. -/
theorem kept_entries_length_le (S : Host) (C : HostSockOpts) (w : World) (fds : fd_set)
    (track : Bool) (lfd : List Int) (i : Nat) :
    (kept_entries S C w fds track lfd i).length ≤ i := by
  unfold kept_entries
  exact le_trans (List.length_filter_le _ _) (by simp)

/-- The entries kept below `i + 1`. -/
theorem kept_entries_succ (S : Host) (C : HostSockOpts) (w : World) (fds : fd_set)
    (track : Bool) (lfd : List Int) (i : Nat) :
    kept_entries S C w fds track lfd (i + 1) =
      kept_entries S C w fds track lfd i ++
        (if export_kept S C w fds track lfd i then [i] else []) := by
  unfold kept_entries
  rw [List.range_succ, List.filter_append]
  congr 1
  by_cases h : export_kept S C w fds track lfd i = true <;> simp [List.filter_cons, h]

/-- The entries diverted below `i + 1`. -/
theorem diverted_entries_succ (S : Host) (C : HostSockOpts) (w : World) (fds : fd_set)
    (track : Bool) (lfd : List Int) (i : Nat) :
    diverted_entries S C w fds track lfd (i + 1) =
      diverted_entries S C w fds track lfd i ++
        (if export_diverted S C w fds track lfd i then [i] else []) := by
  unfold diverted_entries
  rw [List.range_succ, List.filter_append]
  congr 1
  by_cases h : export_diverted S C w fds track lfd i = true <;> simp [List.filter_cons, h]

/-- Writing entry `i` at the end of the compacted part of the wire array. -/
theorem compact_set (fd_array : List Int) (kept : List Nat) (i : Nat)
    (hj : kept.length ≤ i) (hi : i < fd_array.length) :
    (kept.map (fun k => fd_array.getD k 0) ++ fd_array.drop kept.length).set kept.length
        ((kept.map (fun k => fd_array.getD k 0) ++ fd_array.drop kept.length).getD i 0) =
      (kept ++ [i]).map (fun k => fd_array.getD k 0) ++ fd_array.drop (kept ++ [i]).length := by
  have hlen : (kept.map (fun k => fd_array.getD k 0)).length = kept.length := by simp
  have hread : (kept.map (fun k => fd_array.getD k 0) ++ fd_array.drop kept.length).getD i 0 =
      fd_array.getD i 0 := by
    simp only [List.getD_eq_getElem?_getD]
    rw [List.getElem?_append_right (by rw [List.length_map]; exact hj), List.length_map,
      List.getElem?_drop]
    congr 2
    omega
  rw [hread]
  have hd : fd_array.drop kept.length =
      fd_array.getD kept.length 0 :: fd_array.drop (kept.length + 1) := by
    have hk : kept.length < fd_array.length := by omega
    rw [List.drop_eq_getElem_cons hk]
    simp [List.getD_eq_getElem?_getD, List.getElem?_eq_getElem hk]
  rw [hd, List.set_append_right _ _ (by rw [hlen]), hlen, Nat.sub_self]
  simp [List.map_append]

/-- The body of the loop of `fd_set_export` at entry `i` carries the loop invariant from
`i` to `i + 1`. -/
theorem fd_set_export_body_invariant (S : Host) (C : HostSockOpts) (w : World) (fds : fd_set)
    (exceptfds : Option fd_set) (fd_array lfd : List Int) (i : Nat) (st : ExportState)
    (hi : i < fd_array.length)
    (h : export_invariant S C w fds exceptfds fd_array lfd i st) :
    export_invariant S C w fds exceptfds fd_array lfd (i + 1)
      (fd_set_export_body S C fds i st) := by
  obtain ⟨sw, sex, sfa, slfd, sj, sn⟩ := st
  obtain ⟨hw, hl, hj, hfa, hn, hx⟩ := h
  simp only at hw hl hj hfa hn hx
  have hli : slfd.getD i 0 = lfd.getD i 0 := hl i (le_refl _)
  have hjle := kept_entries_length_le S C w fds exceptfds.isSome lfd i
  have hl1 : ∀ k, i + 1 ≤ k → (slfd.set i (-1)).getD k 0 = lfd.getD k 0 := by
    intro k hk
    rw [← hl k (by omega)]
    simp only [List.getD_eq_getElem?_getD]
    rw [List.getElem?_set_ne (by omega)]
  unfold export_invariant
  rw [kept_entries_succ, diverted_entries_succ]
  by_cases hv : lfd.getD i 0 ≥ 0
  · by_cases hs : FD_ISSET (lfd.getD i 0) fds = true
    · have hready : export_ready fds lfd i = true := by simp [-List.getD_eq_getElem?_getD, export_ready, hv, hs]
      cases hex : exceptfds with
      | none =>
        subst hex
        have hsex : sex = none := hx
        subst hsex
        have hd : export_diverted S C w fds false lfd i = false := by
          simp [export_diverted]
        have hk : export_kept S C w fds false lfd i = true := by
          simp [export_kept, hready, hd]
        simp only [Option.isSome_none] at hw hj hfa hn hjle ⊢
        simp only [fd_set_export_body, hli, hv, hs, if_true, hd, hk, Bool.false_eq_true,
          if_false, List.append_nil, export_world, hready, Bool.and_false]
        refine ⟨by rw [hw], hl1, by rw [hj]; simp, ?_, hn, rfl⟩
        rw [hfa, hj]
        exact compact_set fd_array _ i hjle hi
      | some ex =>
        subst hex
        simp only [Option.isSome_some, Option.map_some'] at hw hj hfa hn hjle hx ⊢
        by_cases herr : (sock_error_p S C (export_world S C w fds true lfd i)
            (lfd.getD i 0)).1 = true
        · have hd : export_diverted S C w fds true lfd i = true := by
            simp [-List.getD_eq_getElem?_getD, export_diverted, hready, herr]
          have hk : export_kept S C w fds true lfd i = false := by
            simp [-List.getD_eq_getElem?_getD, export_kept, hd]
          simp only [fd_set_export_body, hli, hv, hs, if_true, hd, hk, Bool.false_eq_true,
            if_false, List.append_nil, export_world, hready, Bool.and_true, hx, hw, herr]
          refine ⟨trivial, hl1, hj, hfa, by rw [hn]; simp, ?_⟩
          simp [-List.getD_eq_getElem?_getD, List.foldl_append]
        · have hd : export_diverted S C w fds true lfd i = false := by
            simp [-List.getD_eq_getElem?_getD, export_diverted, hready, herr]
          have hk : export_kept S C w fds true lfd i = true := by
            simp [-List.getD_eq_getElem?_getD, export_kept, hready, hd]
          simp only [fd_set_export_body, hli, hv, hs, if_true, hd, hk, Bool.false_eq_true,
            if_false, List.append_nil, export_world, hready, Bool.and_true, hx, hw, herr]
          refine ⟨trivial, hl1, by rw [hj]; simp, ?_, hn, trivial⟩
          rw [hfa, hj]
          exact compact_set fd_array _ i hjle hi
    · have hready : export_ready fds lfd i = false := by simp [-List.getD_eq_getElem?_getD, export_ready, hs]
      have hd : export_diverted S C w fds exceptfds.isSome lfd i = false := by
        simp [export_diverted, hready]
      have hk : export_kept S C w fds exceptfds.isSome lfd i = false := by
        simp [export_kept, hready]
      simp only [fd_set_export_body, hli, hv, hs, if_true, hd, hk, Bool.false_eq_true,
        if_false, List.append_nil, export_world, hready, Bool.false_and]
      exact ⟨by rw [hw], hl1, hj, hfa, hn, hx⟩
  · have hready : export_ready fds lfd i = false := by simp [-List.getD_eq_getElem?_getD, export_ready, hv]
    have hd : export_diverted S C w fds exceptfds.isSome lfd i = false := by
      simp [export_diverted, hready]
    have hk : export_kept S C w fds exceptfds.isSome lfd i = false := by
      simp [export_kept, hready]
    simp only [fd_set_export_body, hli, hv, if_false, hd, hk, Bool.false_eq_true,
      List.append_nil, export_world]
    exact ⟨hw, fun k hk => hl k (by omega), hj, hfa, hn, hx⟩

/-- The loop of `fd_set_export` carries the loop invariant from `i` to `i + n`. -/
theorem fd_set_export_loop_invariant (S : Host) (C : HostSockOpts) (w : World) (fds : fd_set)
    (exceptfds : Option fd_set) (fd_array lfd : List Int) (n i : Nat) (st : ExportState)
    (hi : i + n ≤ fd_array.length)
    (h : export_invariant S C w fds exceptfds fd_array lfd i st) :
    export_invariant S C w fds exceptfds fd_array lfd (i + n)
      (fd_set_export_loop S C fds n i st) := by
  induction n generalizing i st with
  | zero => exact h
  | succ n ih =>
    have h1 := fd_set_export_body_invariant S C w fds exceptfds fd_array lfd i st (by omega) h
    have h2 := ih (i + 1) (fd_set_export_body S C fds i st) (by omega) h1
    have e : i + 1 + n = i + (n + 1) := by omega
    rw [e] at h2
    exact h2

/-- The descriptors in a host set after a run of `FD_SET`. -/
theorem mem_foldl_FD_SET (g : Nat → Int) (l : List Nat) (ex : fd_set) (fd : Int) :
    fd ∈ l.foldl (fun e k => FD_SET (g k) e) ex ↔ fd ∈ ex ∨ ∃ k, k ∈ l ∧ g k = fd := by
  induction l generalizing ex with
  | nil => simp
  | cons a l ih =>
    rw [List.foldl_cons, ih]
    have hset : fd ∈ FD_SET (g a) ex ↔ fd = g a ∨ fd ∈ ex := by
      unfold FD_SET
      split_ifs with hm
      · constructor
        · exact Or.inr
        · rintro (h | h)
          · exact h ▸ hm
          · exact h
      · exact List.mem_cons
    rw [hset]
    constructor
    · rintro ((h | h) | ⟨k, hk, hg⟩)
      · exact Or.inr ⟨a, List.mem_cons_self _ _, h.symm⟩
      · exact Or.inl h
      · exact Or.inr ⟨k, List.mem_cons_of_mem _ hk, hg⟩
    · rintro (h | ⟨k, hk, hg⟩)
      · exact Or.inl (Or.inr h)
      · rcases List.mem_cons.mp hk with rfl | hk
        · exact Or.inl (Or.inl hg.symm)
        · exact Or.inr ⟨k, hk, hg⟩

/-- C22: `fd_set_export` on a wire set of K = `fd_count` entries (its array holding at
least K).  Entry i is looked at when `lfd[i] >= 0` and the descriptor `lfd[i]` is set in
the host set; such an entry is diverted exactly when an exception set was supplied and
the descriptor has a pending socket error at that moment, and it is kept otherwise.  The
wire array then starts with the entries kept, in their original order, `fd_count` is their
number, and the return value is the number of entries diverted.  The exception host set is
the one supplied with `FD_SET` done for the descriptor of every diverted entry.  An entry
with `lfd[i] = -1` is never kept. -/
theorem fd_set_export_keeps_ready_entries (S : Host) (C : HostSockOpts) (w : World)
    (fds : fd_set) (exceptfds : Option fd_set) (ws : ws_fd_set) (lfd : List Int) (b32 : Bool)
    (hK : ws.fd_count ≤ ws.fd_array.length) :
    (fd_set_export S C w fds exceptfds (some ws) lfd b32).wsfds =
      some { fd_count := (kept_entries S C w fds exceptfds.isSome lfd ws.fd_count).length,
             fd_array :=
               (kept_entries S C w fds exceptfds.isSome lfd ws.fd_count).map
                   (fun k => ws.fd_array.getD k 0) ++
                 ws.fd_array.drop
                   (kept_entries S C w fds exceptfds.isSome lfd ws.fd_count).length } ∧
    (fd_set_export S C w fds exceptfds (some ws) lfd b32).num_err =
      ((diverted_entries S C w fds exceptfds.isSome lfd ws.fd_count).length : Int) ∧
    (fd_set_export S C w fds exceptfds (some ws) lfd b32).exceptfds =
      exceptfds.map (fun ex =>
        (diverted_entries S C w fds exceptfds.isSome lfd ws.fd_count).foldl
          (fun e k => FD_SET (lfd.getD k 0) e) ex) ∧
    (∀ ex fd, exceptfds = some ex →
      (fd ∈ (diverted_entries S C w fds exceptfds.isSome lfd ws.fd_count).foldl
          (fun e k => FD_SET (lfd.getD k 0) e) ex ↔
        fd ∈ ex ∨ ∃ i, i ∈ diverted_entries S C w fds exceptfds.isSome lfd ws.fd_count ∧
          lfd.getD i 0 = fd)) ∧
    (kept_entries S C w fds exceptfds.isSome lfd ws.fd_count).Pairwise (fun a b => a < b) ∧
    (∀ i, i ∈ kept_entries S C w fds exceptfds.isSome lfd ws.fd_count ↔
      i < ws.fd_count ∧ lfd.getD i 0 ≥ 0 ∧ FD_ISSET (lfd.getD i 0) fds = true ∧
        i ∉ diverted_entries S C w fds exceptfds.isSome lfd ws.fd_count) ∧
    (∀ i, i ∈ diverted_entries S C w fds exceptfds.isSome lfd ws.fd_count ↔
      i < ws.fd_count ∧ lfd.getD i 0 ≥ 0 ∧ FD_ISSET (lfd.getD i 0) fds = true ∧
        exceptfds.isSome = true ∧
        (sock_error_p S C (export_world S C w fds exceptfds.isSome lfd i)
          (lfd.getD i 0)).1 = true) ∧
    (∀ i, lfd.getD i 0 = -1 →
      i ∉ kept_entries S C w fds exceptfds.isSome lfd ws.fd_count) := by
  have hinv := fd_set_export_loop_invariant S C w fds exceptfds ws.fd_array lfd ws.fd_count 0
    { w := w, exceptfds := exceptfds, fd_array := ws.fd_array, lfd := lfd, j := 0,
      num_err := 0 } (by omega)
    ⟨rfl, fun _ _ => rfl, rfl, rfl, rfl, by cases exceptfds <;> rfl⟩
  rw [Nat.zero_add] at hinv
  obtain ⟨-, -, hj, hfa, hn, hx⟩ := hinv
  have hdiv : ∀ i, i ∈ diverted_entries S C w fds exceptfds.isSome lfd ws.fd_count ↔
      i < ws.fd_count ∧ lfd.getD i 0 ≥ 0 ∧ FD_ISSET (lfd.getD i 0) fds = true ∧
        exceptfds.isSome = true ∧
        (sock_error_p S C (export_world S C w fds exceptfds.isSome lfd i)
          (lfd.getD i 0)).1 = true := by
    intro i
    simp only [diverted_entries, List.mem_filter, List.mem_range, export_diverted,
      export_ready, Bool.and_eq_true, decide_eq_true_eq, and_assoc]
  have hkept : ∀ i, i ∈ kept_entries S C w fds exceptfds.isSome lfd ws.fd_count ↔
      i < ws.fd_count ∧ lfd.getD i 0 ≥ 0 ∧ FD_ISSET (lfd.getD i 0) fds = true ∧
        i ∉ diverted_entries S C w fds exceptfds.isSome lfd ws.fd_count := by
    intro i
    simp only [kept_entries, diverted_entries, List.mem_filter, List.mem_range, export_kept,
      export_ready, Bool.and_eq_true, decide_eq_true_eq, and_assoc, Bool.not_eq_true',
      not_and, Bool.not_eq_true]
    constructor
    · rintro ⟨h1, h2, h3, h4⟩
      exact ⟨h1, h2, h3, fun _ => h4⟩
    · rintro ⟨h1, h2, h3, h4⟩
      exact ⟨h1, h2, h3, h4 h1⟩
  refine ⟨?_, hn, hx, fun ex fd _ => mem_foldl_FD_SET _ _ _ _, ?_, hkept, hdiv, ?_⟩
  · simp only [fd_set_export]
    rw [hj, hfa]
  · unfold kept_entries
    exact List.Pairwise.sublist (List.filter_sublist _) (List.pairwise_lt_range _)
  · intro i hi hm
    have := ((hkept i).mp hm).2.1
    rw [hi] at this
    exact absurd this (by decide)

/-- Export of four entries with `lfd` = -1, 3, 4, 5, host set 3 and 4, an exception set,
and a pending error on descriptor 4: the entry of descriptor 3 is kept and moves to the
front, that of descriptor 4 is diverted, the others are dropped. -/
theorem fd_set_export_keeps_ready_entries_sample :
    (fd_set_export error_above_three_host linux_sockopts World.init [3, 4] (some [])
        (some ⟨4, [11, 12, 13, 14]⟩) [-1, 3, 4, 5] true).wsfds =
        some ⟨1, [12, 12, 13, 14]⟩ ∧
      (fd_set_export error_above_three_host linux_sockopts World.init [3, 4] (some [])
        (some ⟨4, [11, 12, 13, 14]⟩) [-1, 3, 4, 5] true).num_err = 1 ∧
      (fd_set_export error_above_three_host linux_sockopts World.init [3, 4] (some [])
        (some ⟨4, [11, 12, 13, 14]⟩) [-1, 3, 4, 5] true).exceptfds = some [4] :=
  ⟨(fd_set_export_keeps_ready_entries error_above_three_host linux_sockopts World.init [3, 4]
      (some []) ⟨4, [11, 12, 13, 14]⟩ [-1, 3, 4, 5] true (by decide)).1,
   (fd_set_export_keeps_ready_entries error_above_three_host linux_sockopts World.init [3, 4]
      (some []) ⟨4, [11, 12, 13, 14]⟩ [-1, 3, 4, 5] true (by decide)).2.1,
   (fd_set_export_keeps_ready_entries error_above_three_host linux_sockopts World.init [3, 4]
      (some []) ⟨4, [11, 12, 13, 14]⟩ [-1, 3, 4, 5] true (by decide)).2.2.1⟩

/-- Testing a state against a one-bit flag is testing that bit. -/
theorem and_two_pow_ne_zero (x k : Nat) : x &&& 2 ^ k ≠ 0 ↔ x.testBit k = true := by
  constructor
  · intro h
    by_contra hb
    apply h
    apply Nat.eq_of_testBit_eq
    intro i
    rw [Nat.testBit_and, Nat.testBit_two_pow, Nat.zero_testBit]
    by_cases hik : k = i
    · subst hik
      simp [Bool.not_eq_true _ ▸ hb]
    · simp [hik]
  · intro hb h
    have := congrArg (fun y => y.testBit k) h
    simp [Nat.testBit_and, Nat.testBit_two_pow, hb] at this

/-- The count of the three flags in terms of the bits 4, 30 and 28. -/
theorem connection_flags_bits (state : Nat) :
    connection_flags state =
      (if state.testBit 4 then 1 else 0) + (if state.testBit 30 then 1 else 0) +
        (if state.testBit 28 then 1 else 0) := by
  have h4 := and_two_pow_ne_zero state 4
  have h30 := and_two_pow_ne_zero state 30
  have h28 := and_two_pow_ne_zero state 28
  unfold connection_flags
  have e4 : WS_FD_CONNECT = 2 ^ 4 := by decide
  have e30 : WS_FD_CONNECTED = 2 ^ 30 := by decide
  have e28 : WS_FD_LISTENING = 2 ^ 28 := by decide
  rw [e4, e30, e28]
  simp only [h4, h30, h28]

/-- A request preserves "at most one of the three flags" when, for every two of the flags,
it sets neither or clears one of them. -/
theorem request_preserves_of_bits (sstate cstate : Nat)
    (h : ((!(sstate.testBit 4 || sstate.testBit 30)) || cstate.testBit 4 ||
            cstate.testBit 30) &&
          ((!(sstate.testBit 4 || sstate.testBit 28)) || cstate.testBit 4 ||
            cstate.testBit 28) &&
          ((!(sstate.testBit 30 || sstate.testBit 28)) || cstate.testBit 30 ||
            cstate.testBit 28) = true) :
    request_preserves sstate cstate := by
  intro state hs
  rw [connection_flags_bits] at hs ⊢
  unfold socket_state_update
  simp only [Nat.testBit_and, Nat.testBit_or, Nat.testBit_xor]
  have m4 : Nat.testBit 4294967295 4 = true := by decide
  have m30 : Nat.testBit 4294967295 30 = true := by decide
  have m28 : Nat.testBit 4294967295 28 = true := by decide
  rw [m4, m30, m28]
  revert h hs
  cases state.testBit 4 <;> cases state.testBit 30 <;> cases state.testBit 28 <;>
    cases sstate.testBit 4 <;> cases sstate.testBit 30 <;> cases sstate.testBit 28 <;>
    cases cstate.testBit 4 <;> cases cstate.testBit 30 <;> cases cstate.testBit 28 <;>
    decide

/-- A trace adds nothing to itself. -/
theorem new_calls_preserve_refl (tr : List Call) : new_calls_preserve tr tr :=
  ⟨[], (List.append_nil tr).symm, fun _ h => absurd h (List.not_mem_nil _)⟩

/-- One more call that preserves the flags. -/
theorem new_calls_preserve_snoc (tr tr2 : List Call) (c : Call)
    (h : new_calls_preserve tr tr2) (hc : call_preserves c) :
    new_calls_preserve tr (tr2 ++ [c]) := by
  obtain ⟨evs, he, hp⟩ := h
  refine ⟨evs ++ [c], by rw [he, List.append_assoc], fun d hd => ?_⟩
  rcases List.mem_append.mp hd with hd | hd
  · exact hp d hd
  · rw [List.mem_singleton.mp hd]
    exact hc

/-- The second component of a pair that has been taken apart. -/
theorem preserves_of_eq_snd {α : Type} (tr : List Call) (p : α × World) (a : α) (w1 : World)
    (he : p = (a, w1)) (h : new_calls_preserve tr p.2.trace) :
    new_calls_preserve tr w1.trace := by
  rw [he] at h
  exact h

/-- The first component of a pair that has been taken apart. -/
theorem preserves_of_eq_fst {α : Type} (tr : List Call) (p : World × α) (a : α) (w1 : World)
    (he : p = (w1, a)) (h : new_calls_preserve tr p.1.trace) :
    new_calls_preserve tr w1.trace := by
  rw [he] at h
  exact h

/-- A logged call that preserves the flags. -/
theorem preserves_call (tr : List Call) (w : World) (c : Call)
    (hc : call_preserves c) (h : new_calls_preserve tr w.trace) :
    new_calls_preserve tr (w.call c).trace :=
  new_calls_preserve_snoc tr w.trace c h hc

/-- The call `SetLastError` is no request. -/
theorem preserves_SetLastError (tr : List Call) (w : World) (err : Nat)
    (h : new_calls_preserve tr w.trace) : new_calls_preserve tr (SetLastError w err).trace :=
  new_calls_preserve_snoc tr w.trace _ h trivial

/-- The call `close` is no request. -/
theorem preserves_close (tr : List Call) (w : World) (fd : Int)
    (h : new_calls_preserve tr w.trace) : new_calls_preserve tr (close w fd).trace :=
  new_calls_preserve_snoc tr w.trace _ h trivial

/-- An `enable_socket_event` request that preserves the flags. -/
theorem preserves_enable_event (tr : List Call) (w : World) (s : Int) (event sstate cstate : Nat)
    (hc : request_preserves sstate cstate) (h : new_calls_preserve tr w.trace) :
    new_calls_preserve tr (_enable_event w s event sstate cstate).trace :=
  new_calls_preserve_snoc tr w.trace _ h hc

/-- The function `_get_sock_fd` sends no request. -/
theorem preserves_get_sock_fd (tr : List Call) (S : Host) (w : World) (s : Int)
    (h : new_calls_preserve tr w.trace) :
    new_calls_preserve tr (_get_sock_fd S w s).2.trace := by
  unfold _get_sock_fd
  cases S.FILE_GetUnixHandle w.trace s <;>
    exact new_calls_preserve_snoc tr w.trace _ h trivial

/-- The function `_is_blocking` sends no `enable_socket_event` request. -/
theorem preserves_is_blocking (tr : List Call) (S : Host) (w : World) (s : Int)
    (h : new_calls_preserve tr w.trace) :
    new_calls_preserve tr (_is_blocking S w s).2.trace :=
  new_calls_preserve_snoc tr w.trace _ h trivial

/-- The function `_get_sock_mask` sends no `enable_socket_event` request. -/
theorem preserves_get_sock_mask (tr : List Call) (S : Host) (w : World) (s : Int)
    (h : new_calls_preserve tr w.trace) :
    new_calls_preserve tr (_get_sock_mask S w s).2.trace :=
  new_calls_preserve_snoc tr w.trace _ h trivial

/-- The function `_get_sock_error` sends no `enable_socket_event` request. -/
theorem preserves_get_sock_error (tr : List Call) (S : Host) (w : World) (s : Int)
    (bit : Nat) (h : new_calls_preserve tr w.trace) :
    new_calls_preserve tr (_get_sock_error S w s bit).2.trace :=
  new_calls_preserve_snoc tr w.trace _ h trivial

/-- The function `_sync_sock_state` sends no `enable_socket_event` request. -/
theorem preserves_sync_sock_state (tr : List Call) (S : Host) (w : World) (s : Int)
    (h : new_calls_preserve tr w.trace) :
    new_calls_preserve tr (_sync_sock_state S w s).trace :=
  new_calls_preserve_snoc tr w.trace _ h trivial

/-- The function `do_block` sends no request. -/
theorem preserves_do_block (tr : List Call) (S : Host) (w : World) (fd : Int) (mask : Nat)
    (h : new_calls_preserve tr w.trace) :
    new_calls_preserve tr (do_block S w fd mask).2.trace := by
  unfold do_block
  simp only []
  split_ifs <;> exact new_calls_preserve_snoc tr w.trace _ h (by exact trivial)

/-- The function `set_error` sends no request. -/
theorem preserves_set_error (tr : List Call) (S : Host) (w : World) (err : Nat)
    (h : new_calls_preserve tr w.trace) :
    new_calls_preserve tr (set_error S w err).2.trace := by
  unfold set_error
  split
  · exact new_calls_preserve_snoc tr w.trace _ h trivial
  · exact h

/-- The function `WSAEventSelect` sends no `enable_socket_event` request. -/
theorem preserves_WSAEventSelect (tr : List Call) (S : Host) (w : World) (s hEvent lEvent : Int)
    (h : new_calls_preserve tr w.trace) :
    new_calls_preserve tr (WSAEventSelect S w s hEvent lEvent).2.trace := by
  unfold WSAEventSelect
  simp only []
  split
  · exact new_calls_preserve_snoc tr w.trace _ h trivial
  · exact preserves_SetLastError _ _ _ (new_calls_preserve_snoc tr w.trace _ h trivial)

/-- The function `WSAAsyncSelect` sends no `enable_socket_event` request. -/
theorem preserves_WSAAsyncSelect (tr : List Call) (S : Host) (w : World) (s hWnd uMsg : Int)
    (lEvent : Nat) (h : new_calls_preserve tr w.trace) :
    new_calls_preserve tr (WSAAsyncSelect S w s hWnd uMsg lEvent).2.trace := by
  unfold WSAAsyncSelect
  repeat' first
    | with_reducible exact new_calls_preserve_refl _
    | assumption
    | with_reducible refine preserves_close _ _ _ ?_
    | with_reducible refine preserves_SetLastError _ _ _ ?_
    | with_reducible refine preserves_enable_event _ _ _ _ _ _ (request_preserves_of_bits _ _ (by with_unfolding_all decide)) ?_
    | with_reducible refine preserves_call _ _ _ (by with_unfolding_all exact trivial) ?_
    | with_reducible refine preserves_do_block _ _ _ _ _ ?_
    | with_reducible refine preserves_sync_sock_state _ _ _ _ ?_
    | with_reducible refine preserves_set_error _ _ _ _ ?_
    | with_reducible refine preserves_WSAEventSelect _ _ _ _ _ _ ?_
    | with_reducible refine preserves_get_sock_fd _ _ _ _ ?_
    | with_reducible refine preserves_is_blocking _ _ _ _ ?_
    | with_reducible refine preserves_get_sock_mask _ _ _ _ ?_
    | with_reducible refine preserves_get_sock_error _ _ _ _ _ ?_
    | with_reducible refine preserves_of_eq_snd _ _ _ _ (by assumption) ?_
    | with_reducible refine preserves_of_eq_fst _ _ _ _ (by assumption) ?_
    | split
    | dsimp only

/-- The request at the label `connect_success` preserves the flags. -/
theorem preserves_connect_success (tr : List Call) (w : World) (s : Int)
    (h : new_calls_preserve tr w.trace) :
    new_calls_preserve tr (connect_success w s).2.trace :=
  preserves_enable_event _ _ _ _ _ _ (request_preserves_of_bits _ _ (by decide)) h

/-- The function `ioctlsocket_forward` sends no request. -/
theorem preserves_ioctlsocket_forward (tr : List Call) (S : Host) (E : HostErrno) (w : World)
    (fd newcmd : Int) (h : new_calls_preserve tr w.trace) :
    new_calls_preserve tr (ioctlsocket_forward S E w fd newcmd).2.trace := by
  unfold ioctlsocket_forward
  repeat' first
    | with_reducible exact new_calls_preserve_refl _
    | assumption
    | with_reducible refine preserves_close _ _ _ ?_
    | with_reducible refine preserves_SetLastError _ _ _ ?_
    | with_reducible refine preserves_enable_event _ _ _ _ _ _ (request_preserves_of_bits _ _ (by with_unfolding_all decide)) ?_
    | with_reducible refine preserves_call _ _ _ (by with_unfolding_all exact trivial) ?_
    | with_reducible refine preserves_do_block _ _ _ _ _ ?_
    | with_reducible refine preserves_sync_sock_state _ _ _ _ ?_
    | with_reducible refine preserves_set_error _ _ _ _ ?_
    | with_reducible refine preserves_WSAEventSelect _ _ _ _ _ _ ?_
    | with_reducible refine preserves_get_sock_fd _ _ _ _ ?_
    | with_reducible refine preserves_is_blocking _ _ _ _ ?_
    | with_reducible refine preserves_get_sock_mask _ _ _ _ ?_
    | with_reducible refine preserves_get_sock_error _ _ _ _ _ ?_
    | with_reducible refine preserves_of_eq_snd _ _ _ _ (by assumption) ?_
    | with_reducible refine preserves_of_eq_fst _ _ _ _ (by assumption) ?_
    | split
    | dsimp only

/-- The request of `WSOCK32_async_accept` preserves the flags. -/
theorem preserves_async_accept (tr : List Call) (w : World) (Q : AcceptQueue)
    (s as : Int) (h : new_calls_preserve tr w.trace) :
    new_calls_preserve tr (WSOCK32_async_accept w Q s as).1.trace :=
  preserves_enable_event _ _ _ _ _ _ (request_preserves_of_bits _ _ (by decide)) h

/-- The `enable_socket_event` requests of `WSOCK32_listen` preserve "at most one of the three
flags". -/
theorem WSOCK32_listen_preserves (S : Host) (E : HostErrno) (w : World) (s backlog : Int) :
    new_calls_preserve w.trace (WSOCK32_listen S E w s backlog).2.trace := by
  unfold WSOCK32_listen
  repeat' first
    | with_reducible exact new_calls_preserve_refl _
    | assumption
    | with_reducible refine preserves_close _ _ _ ?_
    | with_reducible refine preserves_SetLastError _ _ _ ?_
    | with_reducible refine preserves_enable_event _ _ _ _ _ _ (request_preserves_of_bits _ _ (by with_unfolding_all decide)) ?_
    | with_reducible refine preserves_call _ _ _ (by with_unfolding_all exact trivial) ?_
    | with_reducible refine preserves_do_block _ _ _ _ _ ?_
    | with_reducible refine preserves_sync_sock_state _ _ _ _ ?_
    | with_reducible refine preserves_set_error _ _ _ _ ?_
    | with_reducible refine preserves_WSAEventSelect _ _ _ _ _ _ ?_
    | with_reducible refine preserves_get_sock_fd _ _ _ _ ?_
    | with_reducible refine preserves_is_blocking _ _ _ _ ?_
    | with_reducible refine preserves_get_sock_mask _ _ _ _ ?_
    | with_reducible refine preserves_get_sock_error _ _ _ _ _ ?_
    | with_reducible refine preserves_WSAAsyncSelect _ _ _ _ _ _ _ ?_
    | with_reducible refine preserves_connect_success _ _ _ ?_
    | with_reducible refine preserves_ioctlsocket_forward _ _ _ _ _ _ ?_
    | with_reducible refine preserves_async_accept _ _ _ _ _ ?_
    | with_reducible refine preserves_of_eq_snd _ _ _ _ (by assumption) ?_
    | with_reducible refine preserves_of_eq_fst _ _ _ _ (by assumption) ?_
    | split
    | dsimp only

/-- The `enable_socket_event` requests of `WSOCK32_connect` preserve "at most one of the three
flags". -/
theorem WSOCK32_connect_preserves (S : Host) (E : HostErrno) (A : AddrFamilies) (w : World) (s : Int)
    (name : Option Int) (namelen : Int) :
    new_calls_preserve w.trace (WSOCK32_connect S E A w s name namelen).2.trace := by
  unfold WSOCK32_connect
  repeat' first
    | with_reducible exact new_calls_preserve_refl _
    | assumption
    | with_reducible refine preserves_close _ _ _ ?_
    | with_reducible refine preserves_SetLastError _ _ _ ?_
    | with_reducible refine preserves_enable_event _ _ _ _ _ _ (request_preserves_of_bits _ _ (by with_unfolding_all decide)) ?_
    | with_reducible refine preserves_call _ _ _ (by with_unfolding_all exact trivial) ?_
    | with_reducible refine preserves_do_block _ _ _ _ _ ?_
    | with_reducible refine preserves_sync_sock_state _ _ _ _ ?_
    | with_reducible refine preserves_set_error _ _ _ _ ?_
    | with_reducible refine preserves_WSAEventSelect _ _ _ _ _ _ ?_
    | with_reducible refine preserves_get_sock_fd _ _ _ _ ?_
    | with_reducible refine preserves_is_blocking _ _ _ _ ?_
    | with_reducible refine preserves_get_sock_mask _ _ _ _ ?_
    | with_reducible refine preserves_get_sock_error _ _ _ _ _ ?_
    | with_reducible refine preserves_WSAAsyncSelect _ _ _ _ _ _ _ ?_
    | with_reducible refine preserves_connect_success _ _ _ ?_
    | with_reducible refine preserves_ioctlsocket_forward _ _ _ _ _ _ ?_
    | with_reducible refine preserves_async_accept _ _ _ _ _ ?_
    | with_reducible refine preserves_of_eq_snd _ _ _ _ (by assumption) ?_
    | with_reducible refine preserves_of_eq_fst _ _ _ _ (by assumption) ?_
    | split
    | dsimp only

/-- The `enable_socket_event` requests of `WSOCK32_accept` preserve "at most one of the three
flags". -/
theorem WSOCK32_accept_preserves (S : Host) (E : HostErrno) (w : World) (Q : AcceptQueue) (s : Int)
    (addr : Option Int) :
    new_calls_preserve w.trace (WSOCK32_accept S E w Q s addr).2.1.trace := by
  unfold WSOCK32_accept
  repeat' first
    | with_reducible exact new_calls_preserve_refl _
    | assumption
    | with_reducible refine preserves_close _ _ _ ?_
    | with_reducible refine preserves_SetLastError _ _ _ ?_
    | with_reducible refine preserves_enable_event _ _ _ _ _ _ (request_preserves_of_bits _ _ (by with_unfolding_all decide)) ?_
    | with_reducible refine preserves_call _ _ _ (by with_unfolding_all exact trivial) ?_
    | with_reducible refine preserves_do_block _ _ _ _ _ ?_
    | with_reducible refine preserves_sync_sock_state _ _ _ _ ?_
    | with_reducible refine preserves_set_error _ _ _ _ ?_
    | with_reducible refine preserves_WSAEventSelect _ _ _ _ _ _ ?_
    | with_reducible refine preserves_get_sock_fd _ _ _ _ ?_
    | with_reducible refine preserves_is_blocking _ _ _ _ ?_
    | with_reducible refine preserves_get_sock_mask _ _ _ _ ?_
    | with_reducible refine preserves_get_sock_error _ _ _ _ _ ?_
    | with_reducible refine preserves_WSAAsyncSelect _ _ _ _ _ _ _ ?_
    | with_reducible refine preserves_connect_success _ _ _ ?_
    | with_reducible refine preserves_ioctlsocket_forward _ _ _ _ _ _ ?_
    | with_reducible refine preserves_async_accept _ _ _ _ _ ?_
    | with_reducible refine preserves_of_eq_snd _ _ _ _ (by assumption) ?_
    | with_reducible refine preserves_of_eq_fst _ _ _ _ (by assumption) ?_
    | split
    | dsimp only

/-- The `enable_socket_event` requests of `WSOCK32_recv` preserve "at most one of the three
flags". -/
theorem WSOCK32_recv_preserves (S : Host) (E : HostErrno) (w : World) (s len flags : Int) :
    new_calls_preserve w.trace (WSOCK32_recv S E w s len flags).2.trace := by
  unfold WSOCK32_recv
  repeat' first
    | with_reducible exact new_calls_preserve_refl _
    | assumption
    | with_reducible refine preserves_close _ _ _ ?_
    | with_reducible refine preserves_SetLastError _ _ _ ?_
    | with_reducible refine preserves_enable_event _ _ _ _ _ _ (request_preserves_of_bits _ _ (by with_unfolding_all decide)) ?_
    | with_reducible refine preserves_call _ _ _ (by with_unfolding_all exact trivial) ?_
    | with_reducible refine preserves_do_block _ _ _ _ _ ?_
    | with_reducible refine preserves_sync_sock_state _ _ _ _ ?_
    | with_reducible refine preserves_set_error _ _ _ _ ?_
    | with_reducible refine preserves_WSAEventSelect _ _ _ _ _ _ ?_
    | with_reducible refine preserves_get_sock_fd _ _ _ _ ?_
    | with_reducible refine preserves_is_blocking _ _ _ _ ?_
    | with_reducible refine preserves_get_sock_mask _ _ _ _ ?_
    | with_reducible refine preserves_get_sock_error _ _ _ _ _ ?_
    | with_reducible refine preserves_WSAAsyncSelect _ _ _ _ _ _ _ ?_
    | with_reducible refine preserves_connect_success _ _ _ ?_
    | with_reducible refine preserves_ioctlsocket_forward _ _ _ _ _ _ ?_
    | with_reducible refine preserves_async_accept _ _ _ _ _ ?_
    | with_reducible refine preserves_of_eq_snd _ _ _ _ (by assumption) ?_
    | with_reducible refine preserves_of_eq_fst _ _ _ _ (by assumption) ?_
    | split
    | dsimp only

/-- The `enable_socket_event` requests of `WSOCK32_recvfrom` preserve "at most one of the three
flags". -/
theorem WSOCK32_recvfrom_preserves (S : Host) (E : HostErrno) (w : World) (s len flags : Int)
    (sa_from : Option Int) :
    new_calls_preserve w.trace (WSOCK32_recvfrom S E w s len flags sa_from).2.trace := by
  unfold WSOCK32_recvfrom
  repeat' first
    | with_reducible exact new_calls_preserve_refl _
    | assumption
    | with_reducible refine preserves_close _ _ _ ?_
    | with_reducible refine preserves_SetLastError _ _ _ ?_
    | with_reducible refine preserves_enable_event _ _ _ _ _ _ (request_preserves_of_bits _ _ (by with_unfolding_all decide)) ?_
    | with_reducible refine preserves_call _ _ _ (by with_unfolding_all exact trivial) ?_
    | with_reducible refine preserves_do_block _ _ _ _ _ ?_
    | with_reducible refine preserves_sync_sock_state _ _ _ _ ?_
    | with_reducible refine preserves_set_error _ _ _ _ ?_
    | with_reducible refine preserves_WSAEventSelect _ _ _ _ _ _ ?_
    | with_reducible refine preserves_get_sock_fd _ _ _ _ ?_
    | with_reducible refine preserves_is_blocking _ _ _ _ ?_
    | with_reducible refine preserves_get_sock_mask _ _ _ _ ?_
    | with_reducible refine preserves_get_sock_error _ _ _ _ _ ?_
    | with_reducible refine preserves_WSAAsyncSelect _ _ _ _ _ _ _ ?_
    | with_reducible refine preserves_connect_success _ _ _ ?_
    | with_reducible refine preserves_ioctlsocket_forward _ _ _ _ _ _ ?_
    | with_reducible refine preserves_async_accept _ _ _ _ _ ?_
    | with_reducible refine preserves_of_eq_snd _ _ _ _ (by assumption) ?_
    | with_reducible refine preserves_of_eq_fst _ _ _ _ (by assumption) ?_
    | split
    | dsimp only

/-- The `enable_socket_event` requests of `WSOCK32_send` preserve "at most one of the three
flags". -/
theorem WSOCK32_send_preserves (S : Host) (E : HostErrno) (w : World) (s len flags : Int) :
    new_calls_preserve w.trace (WSOCK32_send S E w s len flags).2.trace := by
  unfold WSOCK32_send
  repeat' first
    | with_reducible exact new_calls_preserve_refl _
    | assumption
    | with_reducible refine preserves_close _ _ _ ?_
    | with_reducible refine preserves_SetLastError _ _ _ ?_
    | with_reducible refine preserves_enable_event _ _ _ _ _ _ (request_preserves_of_bits _ _ (by with_unfolding_all decide)) ?_
    | with_reducible refine preserves_call _ _ _ (by with_unfolding_all exact trivial) ?_
    | with_reducible refine preserves_do_block _ _ _ _ _ ?_
    | with_reducible refine preserves_sync_sock_state _ _ _ _ ?_
    | with_reducible refine preserves_set_error _ _ _ _ ?_
    | with_reducible refine preserves_WSAEventSelect _ _ _ _ _ _ ?_
    | with_reducible refine preserves_get_sock_fd _ _ _ _ ?_
    | with_reducible refine preserves_is_blocking _ _ _ _ ?_
    | with_reducible refine preserves_get_sock_mask _ _ _ _ ?_
    | with_reducible refine preserves_get_sock_error _ _ _ _ _ ?_
    | with_reducible refine preserves_WSAAsyncSelect _ _ _ _ _ _ _ ?_
    | with_reducible refine preserves_connect_success _ _ _ ?_
    | with_reducible refine preserves_ioctlsocket_forward _ _ _ _ _ _ ?_
    | with_reducible refine preserves_async_accept _ _ _ _ _ ?_
    | with_reducible refine preserves_of_eq_snd _ _ _ _ (by assumption) ?_
    | with_reducible refine preserves_of_eq_fst _ _ _ _ (by assumption) ?_
    | split
    | dsimp only

/-- The `enable_socket_event` requests of `WSOCK32_sendto` preserve "at most one of the three
flags". -/
theorem WSOCK32_sendto_preserves (S : Host) (E : HostErrno) (A : AddrFamilies) (w : World) (s len flags : Int)
    (sa_to : Option Int) (tolen : Int) :
    new_calls_preserve w.trace (WSOCK32_sendto S E A w s len flags sa_to tolen).2.trace := by
  unfold WSOCK32_sendto
  repeat' first
    | with_reducible exact new_calls_preserve_refl _
    | assumption
    | with_reducible refine preserves_close _ _ _ ?_
    | with_reducible refine preserves_SetLastError _ _ _ ?_
    | with_reducible refine preserves_enable_event _ _ _ _ _ _ (request_preserves_of_bits _ _ (by with_unfolding_all decide)) ?_
    | with_reducible refine preserves_call _ _ _ (by with_unfolding_all exact trivial) ?_
    | with_reducible refine preserves_do_block _ _ _ _ _ ?_
    | with_reducible refine preserves_sync_sock_state _ _ _ _ ?_
    | with_reducible refine preserves_set_error _ _ _ _ ?_
    | with_reducible refine preserves_WSAEventSelect _ _ _ _ _ _ ?_
    | with_reducible refine preserves_get_sock_fd _ _ _ _ ?_
    | with_reducible refine preserves_is_blocking _ _ _ _ ?_
    | with_reducible refine preserves_get_sock_mask _ _ _ _ ?_
    | with_reducible refine preserves_get_sock_error _ _ _ _ _ ?_
    | with_reducible refine preserves_WSAAsyncSelect _ _ _ _ _ _ _ ?_
    | with_reducible refine preserves_connect_success _ _ _ ?_
    | with_reducible refine preserves_ioctlsocket_forward _ _ _ _ _ _ ?_
    | with_reducible refine preserves_async_accept _ _ _ _ _ ?_
    | with_reducible refine preserves_of_eq_snd _ _ _ _ (by assumption) ?_
    | with_reducible refine preserves_of_eq_fst _ _ _ _ (by assumption) ?_
    | split
    | dsimp only

/-- The `enable_socket_event` requests of `WSOCK32_shutdown` preserve "at most one of the three
flags". -/
theorem WSOCK32_shutdown_preserves (S : Host) (E : HostErrno) (H : HostShut) (w : World) (s how : Int) :
    new_calls_preserve w.trace (WSOCK32_shutdown S E H w s how).2.trace := by
  unfold WSOCK32_shutdown
  repeat' first
    | with_reducible exact new_calls_preserve_refl _
    | assumption
    | with_reducible refine preserves_close _ _ _ ?_
    | with_reducible refine preserves_SetLastError _ _ _ ?_
    | with_reducible refine preserves_enable_event _ _ _ _ _ _ (request_preserves_of_bits _ _ (by with_unfolding_all decide)) ?_
    | with_reducible refine preserves_call _ _ _ (by with_unfolding_all exact trivial) ?_
    | with_reducible refine preserves_do_block _ _ _ _ _ ?_
    | with_reducible refine preserves_sync_sock_state _ _ _ _ ?_
    | with_reducible refine preserves_set_error _ _ _ _ ?_
    | with_reducible refine preserves_WSAEventSelect _ _ _ _ _ _ ?_
    | with_reducible refine preserves_get_sock_fd _ _ _ _ ?_
    | with_reducible refine preserves_is_blocking _ _ _ _ ?_
    | with_reducible refine preserves_get_sock_mask _ _ _ _ ?_
    | with_reducible refine preserves_get_sock_error _ _ _ _ _ ?_
    | with_reducible refine preserves_WSAAsyncSelect _ _ _ _ _ _ _ ?_
    | with_reducible refine preserves_connect_success _ _ _ ?_
    | with_reducible refine preserves_ioctlsocket_forward _ _ _ _ _ _ ?_
    | with_reducible refine preserves_async_accept _ _ _ _ _ ?_
    | with_reducible refine preserves_of_eq_snd _ _ _ _ (by assumption) ?_
    | with_reducible refine preserves_of_eq_fst _ _ _ _ (by assumption) ?_
    | split
    | dsimp only

/-- The `enable_socket_event` requests of `WSOCK32_ioctlsocket` preserve "at most one of the
three flags". -/
theorem WSOCK32_ioctlsocket_preserves (S : Host) (E : HostErrno) (I : IoctlCodes) (w : World)
    (s cmd : Int) (argp : Option Nat) (r : Int × World)
    (hr : WSOCK32_ioctlsocket S E I w s cmd argp = some r) :
    new_calls_preserve w.trace r.2.trace := by
  unfold WSOCK32_ioctlsocket at hr
  repeat' split at hr
  all_goals try dsimp only at hr
  all_goals try (cases hr; done)
  all_goals injection hr with hr
  all_goals subst hr
  repeat' first
    | with_reducible exact new_calls_preserve_refl _
    | assumption
    | with_reducible refine preserves_close _ _ _ ?_
    | with_reducible refine preserves_SetLastError _ _ _ ?_
    | with_reducible refine preserves_enable_event _ _ _ _ _ _ (request_preserves_of_bits _ _ (by with_unfolding_all decide)) ?_
    | with_reducible refine preserves_call _ _ _ (by with_unfolding_all exact trivial) ?_
    | with_reducible refine preserves_do_block _ _ _ _ _ ?_
    | with_reducible refine preserves_sync_sock_state _ _ _ _ ?_
    | with_reducible refine preserves_set_error _ _ _ _ ?_
    | with_reducible refine preserves_WSAEventSelect _ _ _ _ _ _ ?_
    | with_reducible refine preserves_get_sock_fd _ _ _ _ ?_
    | with_reducible refine preserves_is_blocking _ _ _ _ ?_
    | with_reducible refine preserves_get_sock_mask _ _ _ _ ?_
    | with_reducible refine preserves_get_sock_error _ _ _ _ _ ?_
    | with_reducible refine preserves_WSAAsyncSelect _ _ _ _ _ _ _ ?_
    | with_reducible refine preserves_connect_success _ _ _ ?_
    | with_reducible refine preserves_ioctlsocket_forward _ _ _ _ _ _ ?_
    | with_reducible refine preserves_async_accept _ _ _ _ _ ?_
    | with_reducible refine preserves_of_eq_snd _ _ _ _ (by assumption) ?_

/-- The request of a successful `listen` sets `WS_FD_LISTENING` and clears `WS_FD_CONNECT`
and `WS_FD_CONNECTED`, whatever the state was. -/
theorem listen_request_state (state : Nat) :
    socket_state_update state WS_FD_LISTENING (WS_FD_CONNECT ||| WS_FD_CONNECTED) &&&
        WS_FD_LISTENING ≠ 0 ∧
    socket_state_update state WS_FD_LISTENING (WS_FD_CONNECT ||| WS_FD_CONNECTED) &&&
        WS_FD_CONNECT = 0 ∧
    socket_state_update state WS_FD_LISTENING (WS_FD_CONNECT ||| WS_FD_CONNECTED) &&&
        WS_FD_CONNECTED = 0 := by
  have e4 : WS_FD_CONNECT = 2 ^ 4 := by decide
  have e30 : WS_FD_CONNECTED = 2 ^ 30 := by decide
  have e28 : WS_FD_LISTENING = 2 ^ 28 := by decide
  have hmask : (4294967295 ^^^ (2 ^ 4 ||| 2 ^ 30) : Nat) = 3221225455 := by decide
  have hb : ∀ k, Nat.testBit
      (socket_state_update state WS_FD_LISTENING (WS_FD_CONNECT ||| WS_FD_CONNECTED)) k =
      ((state.testBit k || Nat.testBit (2 ^ 28) k) && Nat.testBit 3221225455 k) := by
    intro k
    unfold socket_state_update
    rw [e4, e30, e28, hmask, Nat.testBit_and, Nat.testBit_or]
  have h28 := hb 28
  have h4 := hb 4
  have h30 := hb 30
  have t28 : Nat.testBit (2 ^ 28) 28 = true := by decide
  have m28 : Nat.testBit 3221225455 28 = true := by decide
  have m4 : Nat.testBit 3221225455 4 = false := by decide
  have m30 : Nat.testBit 3221225455 30 = false := by decide
  rw [t28, m28, Bool.or_true, Bool.and_true] at h28
  rw [m4, Bool.and_false] at h4
  rw [m30, Bool.and_false] at h30
  refine ⟨?_, ?_, ?_⟩
  · rw [e28] at h28 ⊢
    exact (and_two_pow_ne_zero _ 28).mpr h28
  · rw [e4] at h4 ⊢
    by_contra hne
    rw [(and_two_pow_ne_zero _ 4).mp hne] at h4
    exact Bool.noConfusion h4
  · rw [e30] at h30 ⊢
    by_contra hne
    rw [(and_two_pow_ne_zero _ 30).mp hne] at h30
    exact Bool.noConfusion h30

/-- What `WSOCK32_listen` adds to the trace: on success (result 0) the resolution, the
host `listen`, the `close` and the request; on failure no request. -/
theorem WSOCK32_listen_requests (S : Host) (E : HostErrno) (w : World) (s backlog : Int) :
    ((WSOCK32_listen S E w s backlog).1 = 0 →
      ∃ fd, (WSOCK32_listen S E w s backlog).2.trace = w.trace ++
        [Call.FILE_GetUnixHandle s fd, Call.listen fd backlog, Call.close fd,
         Call.enable_socket_event s FD_ACCEPT WS_FD_LISTENING
           (WS_FD_CONNECT ||| WS_FD_CONNECTED)]) ∧
    ((WSOCK32_listen S E w s backlog).1 ≠ 0 →
      enable_socket_event_calls (WSOCK32_listen S E w s backlog).2.trace =
        enable_socket_event_calls w.trace) := by
  unfold WSOCK32_listen
  cases hres : S.FILE_GetUnixHandle w.trace s with
  | none =>
    simp only [_get_sock_fd, hres, ne_eq, not_true_eq_false, if_false]
    constructor
    · intro h
      exact absurd (show SOCKET_ERROR = 0 from h) (by decide)
    · intro _
      simp [enable_socket_event_calls, SetLastError, Call.is_enable_socket_event]
  | some fd =>
    simp only [_get_sock_fd, hres, nat_fd_ne_neg_one, ne_eq, not_false_eq_true, if_true,
      World.call]
    split_ifs with hret
    · constructor
      · intro _
        exact ⟨fd, by simp [close, _enable_event, World.call]⟩
      · intro h
        exact absurd rfl h
    · constructor
      · intro h
        exact absurd (show SOCKET_ERROR = 0 from h) (by decide)
      · intro _
        simp [enable_socket_event_calls, SetLastError, Call.is_enable_socket_event]

/-- C25: with the handle server's update taken as `state := (state | set) & ~clear`, the
calls that `WSOCK32_listen`, `WSOCK32_connect`, `WSOCK32_accept`, `WSOCK32_recv`,
`WSOCK32_recvfrom`, `WSOCK32_send`, `WSOCK32_sendto`, `WSOCK32_shutdown` and
`WSOCK32_ioctlsocket` add to the trace are such that every `enable_socket_event` request
among them takes a state with at most one of `WS_FD_CONNECT`, `WS_FD_CONNECTED`,
`WS_FD_LISTENING` set to a state with at most one of them set.  A `listen` that succeeds
(result 0) adds the resolution, the host `listen`, the `close` and one request, which
leaves `WS_FD_LISTENING` set and `WS_FD_CONNECT` and `WS_FD_CONNECTED` clear; a `listen`
that fails adds no request. -/
theorem enable_requests_keep_one_connection_flag (S : Host) (E : HostErrno)
    (A : AddrFamilies) (H : HostShut) (I : IoctlCodes) (w : World) (Q : AcceptQueue)
    (s : Int) :
    (∀ backlog, new_calls_preserve w.trace (WSOCK32_listen S E w s backlog).2.trace) ∧
    (∀ name namelen,
      new_calls_preserve w.trace (WSOCK32_connect S E A w s name namelen).2.trace) ∧
    (∀ addr, new_calls_preserve w.trace (WSOCK32_accept S E w Q s addr).2.1.trace) ∧
    (∀ len flags, new_calls_preserve w.trace (WSOCK32_recv S E w s len flags).2.trace) ∧
    (∀ len flags sa_from,
      new_calls_preserve w.trace (WSOCK32_recvfrom S E w s len flags sa_from).2.trace) ∧
    (∀ len flags, new_calls_preserve w.trace (WSOCK32_send S E w s len flags).2.trace) ∧
    (∀ len flags sa_to tolen,
      new_calls_preserve w.trace (WSOCK32_sendto S E A w s len flags sa_to tolen).2.trace) ∧
    (∀ how, new_calls_preserve w.trace (WSOCK32_shutdown S E H w s how).2.trace) ∧
    (∀ cmd argp r, WSOCK32_ioctlsocket S E I w s cmd argp = some r →
      new_calls_preserve w.trace r.2.trace) ∧
    (∀ backlog, (WSOCK32_listen S E w s backlog).1 = 0 →
      ∃ fd, (WSOCK32_listen S E w s backlog).2.trace = w.trace ++
        [Call.FILE_GetUnixHandle s fd, Call.listen fd backlog, Call.close fd,
         Call.enable_socket_event s FD_ACCEPT WS_FD_LISTENING
           (WS_FD_CONNECT ||| WS_FD_CONNECTED)]) ∧
    (∀ state,
      socket_state_update state WS_FD_LISTENING (WS_FD_CONNECT ||| WS_FD_CONNECTED) &&&
          WS_FD_LISTENING ≠ 0 ∧
      socket_state_update state WS_FD_LISTENING (WS_FD_CONNECT ||| WS_FD_CONNECTED) &&&
          WS_FD_CONNECT = 0 ∧
      socket_state_update state WS_FD_LISTENING (WS_FD_CONNECT ||| WS_FD_CONNECTED) &&&
          WS_FD_CONNECTED = 0) ∧
    (∀ backlog, (WSOCK32_listen S E w s backlog).1 ≠ 0 →
      enable_socket_event_calls (WSOCK32_listen S E w s backlog).2.trace =
        enable_socket_event_calls w.trace) :=
  ⟨fun backlog => WSOCK32_listen_preserves S E w s backlog,
   fun name namelen => WSOCK32_connect_preserves S E A w s name namelen,
   fun addr => WSOCK32_accept_preserves S E w Q s addr,
   fun len flags => WSOCK32_recv_preserves S E w s len flags,
   fun len flags sa_from => WSOCK32_recvfrom_preserves S E w s len flags sa_from,
   fun len flags => WSOCK32_send_preserves S E w s len flags,
   fun len flags sa_to tolen => WSOCK32_sendto_preserves S E A w s len flags sa_to tolen,
   fun how => WSOCK32_shutdown_preserves S E H w s how,
   fun cmd argp r hr => WSOCK32_ioctlsocket_preserves S E I w s cmd argp r hr,
   fun backlog => (WSOCK32_listen_requests S E w s backlog).1,
   listen_request_state,
   fun backlog => (WSOCK32_listen_requests S E w s backlog).2⟩

/-- A `listen` that succeeds on handle 100 (descriptor 3) sends the one request; a `listen`
that fails sends none. -/
theorem enable_requests_keep_one_connection_flag_sample :
    (∃ fd, (WSOCK32_listen quiet_host linux_errno World.init 100 5).2.trace =
      World.init.trace ++
        [Call.FILE_GetUnixHandle 100 fd, Call.listen fd 5, Call.close fd,
         Call.enable_socket_event 100 FD_ACCEPT WS_FD_LISTENING
           (WS_FD_CONNECT ||| WS_FD_CONNECTED)]) ∧
      enable_socket_event_calls
          (WSOCK32_listen listen_fails_host linux_errno World.init 100 5).2.trace =
        enable_socket_event_calls World.init.trace :=
  ⟨(enable_requests_keep_one_connection_flag quiet_host linux_errno linux_families linux_shut
      linux_ioctls World.init AcceptQueue.init 100).2.2.2.2.2.2.2.2.2.1 5 (by decide),
   (enable_requests_keep_one_connection_flag listen_fails_host linux_errno linux_families
      linux_shut linux_ioctls World.init AcceptQueue.init 100).2.2.2.2.2.2.2.2.2.2.2 5
      (by decide)⟩

/-- The `PostMessageA` calls of a trace with one more call. -/
theorem PostMessageA_calls_snoc (tr : List Call) (c : Call) :
    PostMessageA_calls (tr ++ [c]) =
      PostMessageA_calls tr ++ (if c.is_PostMessageA then [c] else []) := by
  unfold PostMessageA_calls
  rw [List.filter_append]
  congr 1
  by_cases h : c.is_PostMessageA = true <;> simp [List.filter_cons, h]

/-- The release calls of a trace with one more call. -/
theorem release_calls_snoc (tr : List Call) (c : Call) :
    release_calls (tr ++ [c]) = release_calls tr ++ (if c.is_release then [c] else []) := by
  unfold release_calls
  rw [List.filter_append]
  congr 1
  by_cases h : c.is_release = true <;> simp [List.filter_cons, h]

/-- The `PostMessageA` calls of two traces in a row. -/
theorem PostMessageA_calls_append (a b : List Call) :
    PostMessageA_calls (a ++ b) = PostMessageA_calls a ++ PostMessageA_calls b :=
  List.filter_append _ _

/-- The release calls of two traces in a row. -/
theorem release_calls_append (a b : List Call) :
    release_calls (a ++ b) = release_calls a ++ release_calls b :=
  List.filter_append _ _

/-- The dispatch loop posts nothing when the mask is empty. -/
theorem async_event_dispatch_zero (reply : Nat → Nat → Int) (info : ws_select_info)
    (errors : List Nat) (n i : Nat) (w : World) :
    async_event_dispatch reply info 0 errors n i w = w := by
  induction n generalizing i w with
  | zero => rfl
  | succ n ih =>
    simp only [async_event_dispatch, Nat.zero_and, ne_eq, not_true_eq_false, if_false]
    exact ih (i + 1) w

/-- The dispatch loop releases nothing. -/
theorem release_calls_dispatch (reply : Nat → Nat → Int) (info : ws_select_info)
    (pmask : Nat) (errors : List Nat) (n i : Nat) (w : World) :
    release_calls (async_event_dispatch reply info pmask errors n i w).trace =
      release_calls w.trace := by
  induction n generalizing i w with
  | zero => rfl
  | succ n ih =>
    simp only [async_event_dispatch]
    rw [ih]
    split_ifs
    · simp only [World.call]
      rw [release_calls_snoc]
      simp [Call.is_release]
    · rfl

/-- The request block of `WINSOCK_DoAsyncEvent` posts nothing and releases nothing. -/
theorem async_event_request_calls (S : Host) (w : World) (info : ws_select_info) :
    PostMessageA_calls (async_event_request S w info).2.trace = PostMessageA_calls w.trace ∧
    release_calls (async_event_request S w info).2.trace = release_calls w.trace := by
  unfold async_event_request set_error
  simp only []
  split_ifs <;>
    simp [World.call, SetLastError, PostMessageA_calls, release_calls,
      Call.is_PostMessageA, Call.is_release]

/-- The function `WSAAsyncSelect` posts no message. -/
theorem PostMessageA_calls_WSAAsyncSelect (S : Host) (w : World) (s hWnd uMsg : Int)
    (lEvent : Nat) :
    PostMessageA_calls (WSAAsyncSelect S w s hWnd uMsg lEvent).2.trace =
      PostMessageA_calls w.trace := by
  unfold WSAAsyncSelect
  cases hres : S.FILE_GetUnixHandle w.trace s with
  | none =>
    simp [_get_sock_fd, hres, SetLastError, PostMessageA_calls, Call.is_PostMessageA]
  | some fd =>
    simp only [_get_sock_fd, hres, nat_fd_ne_neg_one, ne_eq, not_false_eq_true, if_true,
      WSAEventSelect]
    repeat' split
    all_goals
      simp [World.call, SetLastError, close, PostMessageA_calls, Call.is_PostMessageA]

/-- The accept queue scan of `WINSOCK_DoAsyncEvent` posts no message. -/
theorem PostMessageA_calls_scan (S : Host) (info : ws_select_info) (n q : Nat) (w : World)
    (Q : AcceptQueue) :
    PostMessageA_calls (async_event_scan S info n q w Q).1.trace = PostMessageA_calls w.trace := by
  induction n generalizing q w Q with
  | zero => rfl
  | succ n ih =>
    simp only [async_event_scan]
    split_ifs
    · rw [ih, PostMessageA_calls_WSAAsyncSelect]
    · rw [ih]
    · rw [ih]

/-- The accept queue scan of `WINSOCK_DoAsyncEvent` does nothing when no slot holds an
accepted socket for `info->sock`. -/
theorem async_event_scan_idle (S : Host) (info : ws_select_info) (n q : Nat) (w : World)
    (Q : AcceptQueue)
    (h : ∀ k, q ≤ k → k < q + n →
      ¬(Q.accept_old.getD k 0 = info.sock ∧ Q.accept_new.getD k 0 ≠ 0)) :
    async_event_scan S info n q w Q = (w, Q) := by
  induction n generalizing q with
  | zero => rfl
  | succ n ih =>
    have hq := h q (Nat.le_refl _) (by omega)
    simp only [async_event_scan]
    split_ifs with h1 h2
    · exact absurd ⟨h1, h2⟩ hq
    · exact ih (q + 1) (fun k hk1 hk2 => h k (by omega) (by omega))
    · exact ih (q + 1) (fun k hk1 hk2 => h k (by omega) (by omega))

/-- C27 (as stated, fails): `WINSOCK_DoAsyncEvent` for a registration whose socket is gone
(the query leaves the last error `WSAENOTSOCK`), the reply still carrying the pending events
`FD_READ` and `FD_CLOSE`: the calls are the query, `SERVICE_Delete` and `WS_FREE`; no
`PostMessageA` is made, so no notification reaches the window. -/
theorem WINSOCK_DoAsyncEvent_orphan_posts_nothing :
    WINSOCK_DoAsyncEvent closed_socket_host 10 select_reply World.init AcceptQueue.init
        sample_info =
      ({ trace := [Call.SetLastError 0, Call.get_socket_event 100 true 7 7,
                   Call.SetLastError WSAENOTSOCK, Call.SERVICE_Delete 9, Call.WS_FREE 4096],
         errno := 0, last_error := WSAENOTSOCK }, AcceptQueue.init) ∧
    PostMessageA_calls [Call.SetLastError 0, Call.get_socket_event 100 true 7 7,
      Call.SetLastError WSAENOTSOCK, Call.SERVICE_Delete 9, Call.WS_FREE 4096] = [] := by
  decide

/-- The world `WINSOCK_DoAsyncEvent` leaves for an orphaned socket: the accept queue scan,
then the two release calls. -/
theorem WINSOCK_DoAsyncEvent_orphan_world (S : Host) (FD_MAX_EVENTS : Nat)
    (WSAMAKESELECTREPLY : Nat → Nat → Int) (w : World) (Q : AcceptQueue)
    (info : ws_select_info)
    (horph : (async_event_request S (SetLastError w 0) info).2.last_error = WSAENOTSOCK ∨
      (async_event_request S (SetLastError w 0) info).2.last_error = WSAEINVAL) :
    (WINSOCK_DoAsyncEvent S FD_MAX_EVENTS WSAMAKESELECTREPLY w Q info).1 =
      ((async_event_scan S info WS_ACCEPT_QUEUE 0
        (async_event_request S (SetLastError w 0) info).2 Q).1.call
          (Call.SERVICE_Delete info.service)).call (Call.WS_FREE info.ptr) := by
  have hclear : WS_FD_SERVEVENT &&& (4294967295 ^^^ WS_FD_SERVEVENT) = 0 := by decide
  have hserv : WS_FD_SERVEVENT &&& WS_FD_SERVEVENT ≠ 0 := by decide
  rcases hq : async_event_request S (SetLastError w 0) info with ⟨r, w1⟩
  rw [hq] at horph
  simp only at horph
  unfold WINSOCK_DoAsyncEvent
  simp only [hq, horph, decide_True, if_true]
  rw [if_pos hserv]
  simp only [hclear, async_event_dispatch_zero]

/-- The world `WINSOCK_DoAsyncEvent` leaves for a socket that is not orphaned: the accept
queue scan if `WS_FD_SERVEVENT` is pending, then the dispatch loop. -/
theorem WINSOCK_DoAsyncEvent_live_world (S : Host) (FD_MAX_EVENTS : Nat)
    (WSAMAKESELECTREPLY : Nat → Nat → Int) (w : World) (Q : AcceptQueue)
    (info : ws_select_info)
    (horph : ¬((async_event_request S (SetLastError w 0) info).2.last_error = WSAENOTSOCK ∨
      (async_event_request S (SetLastError w 0) info).2.last_error = WSAEINVAL)) :
    (WINSOCK_DoAsyncEvent S FD_MAX_EVENTS WSAMAKESELECTREPLY w Q info).1 =
      async_event_dispatch WSAMAKESELECTREPLY info
        (if (async_event_request S (SetLastError w 0) info).1.pmask &&& WS_FD_SERVEVENT ≠ 0
          then (async_event_request S (SetLastError w 0) info).1.pmask &&&
            (4294967295 ^^^ WS_FD_SERVEVENT)
          else (async_event_request S (SetLastError w 0) info).1.pmask)
        (async_event_request S (SetLastError w 0) info).1.errors FD_MAX_EVENTS 0
        (if (async_event_request S (SetLastError w 0) info).1.pmask &&& WS_FD_SERVEVENT ≠ 0
          then (async_event_scan S info WS_ACCEPT_QUEUE 0
            (async_event_request S (SetLastError w 0) info).2 Q).1
          else (async_event_request S (SetLastError w 0) info).2) := by
  rcases hq : async_event_request S (SetLastError w 0) info with ⟨r, w1⟩
  rw [hq] at horph
  simp only at horph
  unfold WINSOCK_DoAsyncEvent
  simp only [hq, horph, decide_False, Bool.false_eq_true, if_false]
  split_ifs <;> rfl

/-- C27 (amended): when the query of `WINSOCK_DoAsyncEvent` leaves the last error
`WSAENOTSOCK` or `WSAEINVAL` (the socket is orphaned), the call posts no message; after
the accept queue scan it makes exactly the two calls `SERVICE_Delete( info->service )` and
`WS_FREE(info)`, in this order, and nothing after them, and when no slot of the accept queue
holds an accepted socket for `info->sock` these are the only releases of the call.  When
the socket is not orphaned, the dispatch and the cleanup release nothing: the releases are
those of the trace after the accept queue scan, and there are none when no slot of the
accept queue holds an accepted socket for `info->sock`. -/
theorem WINSOCK_DoAsyncEvent_orphan_releases_once (S : Host) (FD_MAX_EVENTS : Nat)
    (WSAMAKESELECTREPLY : Nat → Nat → Int) (w : World) (Q : AcceptQueue)
    (info : ws_select_info) :
    (((async_event_request S (SetLastError w 0) info).2.last_error = WSAENOTSOCK ∨
        (async_event_request S (SetLastError w 0) info).2.last_error = WSAEINVAL) →
      (WINSOCK_DoAsyncEvent S FD_MAX_EVENTS WSAMAKESELECTREPLY w Q info).1.trace =
        (async_event_scan S info WS_ACCEPT_QUEUE 0
          (async_event_request S (SetLastError w 0) info).2 Q).1.trace ++
          [Call.SERVICE_Delete info.service, Call.WS_FREE info.ptr] ∧
      PostMessageA_calls
          (WINSOCK_DoAsyncEvent S FD_MAX_EVENTS WSAMAKESELECTREPLY w Q info).1.trace =
        PostMessageA_calls w.trace ∧
      ((∀ k, k < WS_ACCEPT_QUEUE →
          ¬(Q.accept_old.getD k 0 = info.sock ∧ Q.accept_new.getD k 0 ≠ 0)) →
        release_calls
            (WINSOCK_DoAsyncEvent S FD_MAX_EVENTS WSAMAKESELECTREPLY w Q info).1.trace =
          release_calls w.trace ++
            [Call.SERVICE_Delete info.service, Call.WS_FREE info.ptr])) ∧
    (¬((async_event_request S (SetLastError w 0) info).2.last_error = WSAENOTSOCK ∨
        (async_event_request S (SetLastError w 0) info).2.last_error = WSAEINVAL) →
      release_calls
          (WINSOCK_DoAsyncEvent S FD_MAX_EVENTS WSAMAKESELECTREPLY w Q info).1.trace =
        release_calls
          (if (async_event_request S (SetLastError w 0) info).1.pmask &&& WS_FD_SERVEVENT ≠ 0
            then (async_event_scan S info WS_ACCEPT_QUEUE 0
              (async_event_request S (SetLastError w 0) info).2 Q).1
            else (async_event_request S (SetLastError w 0) info).2).trace ∧
      ((∀ k, k < WS_ACCEPT_QUEUE →
          ¬(Q.accept_old.getD k 0 = info.sock ∧ Q.accept_new.getD k 0 ≠ 0)) →
        release_calls
            (WINSOCK_DoAsyncEvent S FD_MAX_EVENTS WSAMAKESELECTREPLY w Q info).1.trace =
          release_calls w.trace)) := by
  have hreq := async_event_request_calls S (SetLastError w 0) info
  have hw0p : PostMessageA_calls (SetLastError w 0).trace = PostMessageA_calls w.trace := by
    simp [SetLastError, PostMessageA_calls, Call.is_PostMessageA]
  have hw0r : release_calls (SetLastError w 0).trace = release_calls w.trace := by
    simp [SetLastError, release_calls, Call.is_release]
  constructor
  · intro horph
    rw [WINSOCK_DoAsyncEvent_orphan_world S FD_MAX_EVENTS WSAMAKESELECTREPLY w Q info horph]
    have htr : ∀ x : World, ((x.call (Call.SERVICE_Delete info.service)).call
          (Call.WS_FREE info.ptr)).trace =
        x.trace ++ [Call.SERVICE_Delete info.service, Call.WS_FREE info.ptr] := by
      intro x
      simp [World.call]
    rw [htr]
    refine ⟨rfl, ?_, fun hidle => ?_⟩
    · have hp : PostMessageA_calls [Call.SERVICE_Delete info.service, Call.WS_FREE info.ptr] =
          [] := rfl
      rw [PostMessageA_calls_append, hp, List.append_nil, PostMessageA_calls_scan, hreq.1,
        hw0p]
    · have hr : release_calls [Call.SERVICE_Delete info.service, Call.WS_FREE info.ptr] =
          [Call.SERVICE_Delete info.service, Call.WS_FREE info.ptr] := rfl
      rw [async_event_scan_idle S info WS_ACCEPT_QUEUE 0 _ Q
        (fun k _ hk => hidle k (by omega))]
      rw [release_calls_append, hr, hreq.2, hw0r]
  · intro horph
    rw [WINSOCK_DoAsyncEvent_live_world S FD_MAX_EVENTS WSAMAKESELECTREPLY w Q info horph,
      release_calls_dispatch]
    refine ⟨rfl, fun hidle => ?_⟩
    rw [async_event_scan_idle S info WS_ACCEPT_QUEUE 0 _ Q
      (fun k _ hk => hidle k (by omega))]
    simp only [ite_self]
    rw [hreq.2, hw0r]

/-- The orphaned socket of `closed_socket_host`: the two releases are made once. -/
theorem WINSOCK_DoAsyncEvent_orphan_releases_once_sample :
    release_calls
        (WINSOCK_DoAsyncEvent closed_socket_host 10 select_reply World.init AcceptQueue.init
          sample_info).1.trace =
      release_calls World.init.trace ++ [Call.SERVICE_Delete 9, Call.WS_FREE 4096] :=
  ((WINSOCK_DoAsyncEvent_orphan_releases_once closed_socket_host 10 select_reply World.init
    AcceptQueue.init sample_info).1 (by decide)).2.2 (by decide)

/-- A socket that is not orphaned, with the events `FD_READ` and `FD_CLOSE` pending: the
two messages are posted and nothing is released. -/
theorem WINSOCK_DoAsyncEvent_posts_pending_events :
    WINSOCK_DoAsyncEvent pending_events_host 10 select_reply World.init AcceptQueue.init
        sample_info =
      ({ trace := [Call.SetLastError 0, Call.get_socket_event 100 true 7 7,
                   Call.PostMessageA 1 1024 100 1, Call.PostMessageA 1 1024 100 32],
         errno := 0, last_error := 0 }, AcceptQueue.init) := by
  decide

/-- The counting loop adds the number of lines left. -/
theorem count_lines_eq (stream : List (List Nat)) (intcnt : Int) :
    count_lines stream intcnt = intcnt + stream.length := by
  induction stream generalizing intcnt with
  | nil => simp [count_lines]
  | cons l rest ih =>
    simp only [count_lines, ih, List.length_cons]
    push_cast
    ring

/-- Skipping `n` lines drops them from the stream. -/
theorem skip_lines_stream (n : Nat) (buf : List Nat) (stream : List (List Nat)) :
    (skip_lines n buf stream).2 = stream.drop n := by
  induction n generalizing buf stream with
  | zero => rfl
  | succ n ih =>
    cases stream with
    | nil =>
      simp only [skip_lines, fgets]
      rw [ih]
      simp
    | cons l rest =>
      simp only [skip_lines, fgets]
      rw [ih]
      rfl

/-- The byte right after a prefix. -/
theorem getD_after_prefix (pre tail : List Nat) :
    (pre ++ tail).getD pre.length 0 = tail.getD 0 0 := by
  induction pre with
  | nil => rfl
  | cons a pre ih => simpa using ih

/-- Writing right after what has been written. -/
theorem set_after_written (written o : List Nat) (v : Nat) (h : 0 < o.length) :
    (written ++ o).set written.length v = (written ++ [v]) ++ o.drop 1 := by
  cases o with
  | nil => simp at h
  | cons a o =>
    induction written with
    | nil => rfl
    | cons b written ih => simp

/-- The C string of bytes without NUL that are followed by a NUL. -/
theorem cstr_terminated (xs ys : List Nat) (h : ∀ c, c ∈ xs → c ≠ 0) :
    cstr (xs ++ 0 :: ys) = xs := by
  unfold cstr
  induction xs with
  | nil => simp
  | cons a xs ih =>
    have ha : a ≠ 0 := h a (List.mem_cons_self _ _)
    have ih2 := ih (fun c hc => h c (List.mem_cons_of_mem _ hc))
    rw [List.cons_append, List.takeWhile_cons, if_pos (by simpa using ha), ih2]

/-- The loop over the leading white space stops at the first byte that is no space. -/
theorem skip_spaces_spec (ws pre tail : List Nat) (n : Nat)
    (hws : ∀ c, c ∈ ws → isspace c = true) (htail : isspace (tail.getD 0 0) = false)
    (hn : ws.length ≤ n) :
    skip_spaces (pre ++ ws ++ tail) n pre.length = pre.length + ws.length := by
  induction ws generalizing pre n with
  | nil =>
    cases n with
    | zero => rfl
    | succ n =>
      simp only [skip_spaces, List.append_nil, getD_after_prefix, htail, Bool.false_eq_true,
        if_false, List.length_nil, Nat.add_zero]
  | cons c ws ih =>
    cases n with
    | zero => simp at hn
    | succ n =>
      have hc : isspace c = true := hws c (List.mem_cons_self _ _)
      have hb : (pre ++ c :: ws ++ tail).getD pre.length 0 = c := by
        rw [List.append_assoc, getD_after_prefix]
        rfl
      simp only [skip_spaces, hb, hc, if_true]
      have := ih (pre ++ [c]) n (fun d hd => hws d (List.mem_cons_of_mem _ hd))
        (by simpa using hn)
      simp only [List.append_assoc, List.singleton_append, List.cons_append, List.nil_append,
        List.length_append, List.length_singleton] at this ⊢
      rw [this, List.length_cons]
      omega

/-- The loop over the digits copies them and stops at the first byte that is no digit. -/
theorem copy_digits_spec (digits pre tail : List Nat) (n : Nat) (written o : List Nat)
    (hd : ∀ c, c ∈ digits → isdigit c = true) (htail : isdigit (tail.getD 0 0) = false)
    (hn : digits.length ≤ n) (ho : digits.length ≤ o.length) :
    copy_digits (pre ++ digits ++ tail) n pre.length (written ++ o) written.length =
      (pre.length + digits.length, written ++ digits ++ o.drop digits.length,
       written.length + digits.length) := by
  induction digits generalizing pre n written o with
  | nil =>
    cases n with
    | zero => simp [copy_digits]
    | succ n =>
      simp [copy_digits, -List.getD_eq_getElem?_getD, getD_after_prefix, htail]
  | cons c digits ih =>
    cases n with
    | zero => simp at hn
    | succ n =>
      have hc : isdigit c = true := hd c (List.mem_cons_self _ _)
      have hb : (pre ++ c :: digits ++ tail).getD pre.length 0 = c := by
        rw [List.append_assoc, getD_after_prefix]
        rfl
      have hol : 0 < o.length := by
        simp only [List.length_cons] at ho
        omega
      simp only [copy_digits, hb, hc, if_true]
      rw [set_after_written written o c hol]
      have := ih (pre ++ [c]) n (written ++ [c]) (o.drop 1)
        (fun d hd' => hd d (List.mem_cons_of_mem _ hd')) (by simpa using hn)
        (by simp only [List.length_drop, List.length_cons] at ho ⊢; omega)
      simp only [List.append_assoc, List.singleton_append, List.cons_append, List.nil_append,
        List.length_append, List.length_singleton, List.drop_drop] at this ⊢
      rw [this, List.length_cons]
      refine Prod.ext (by simp; omega) (Prod.ext ?_ (by simp; omega))
      simp [Nat.add_comm]

/-- A file whose lines are shorter than the buffer is delivered line by line. -/
theorem fgets_stream_short (size : Nat) (file : List (List Nat))
    (h : ∀ l, l ∈ file → 0 < l.length ∧ l.length < size) : fgets_stream size file = file := by
  unfold fgets_stream
  induction file with
  | nil => rfl
  | cons l file ih =>
    obtain ⟨h0, h1⟩ := h l (List.mem_cons_self _ _)
    rw [List.flatMap_cons, ih (fun x hx => h x (List.mem_cons_of_mem _ hx))]
    obtain ⟨n, hn⟩ : ∃ n, l.length = n + 1 := ⟨l.length - 1, by omega⟩
    rw [hn]
    simp only [line_pieces]
    rw [if_pos (by omega)]
    rfl

/-- The loop over the name copies it and arrives at the byte after it. -/
theorem copy_name_spec (name pre tail : List Nat) (m : Nat) (written o : List Nat)
    (hname : ∀ c, c ∈ name → c ≠ 0 ∧ isspace c = false ∧ c ≠ 58)
    (ho : name.length ≤ o.length) :
    copy_name (pre ++ name ++ tail) (name.length + m) pre.length (written ++ o)
        written.length =
      copy_name (pre ++ name ++ tail) m (pre.length + name.length)
        (written ++ name ++ o.drop name.length) (written.length + name.length) := by
  induction name generalizing pre written o with
  | nil => simp
  | cons c name ih =>
    obtain ⟨c0, cs, c58⟩ := hname c (List.mem_cons_self _ _)
    have hb : (pre ++ c :: name ++ tail).getD pre.length 0 = c := by
      rw [List.append_assoc, getD_after_prefix]
      rfl
    have hol : 0 < o.length := by
      simp only [List.length_cons] at ho
      omega
    have hfuel : (c :: name).length + m = (name.length + m) + 1 := by
      simp only [List.length_cons]
      omega
    rw [hfuel]
    simp only [copy_name, hb, c0, cs, c58, if_false, Bool.false_eq_true]
    rw [set_after_written written o c hol]
    have := ih (pre ++ [c]) (written ++ [c]) (o.drop 1)
      (fun d hd => hname d (List.mem_cons_of_mem _ hd))
      (by simp only [List.length_drop, List.length_cons] at ho ⊢; omega)
    simp only [List.append_assoc, List.singleton_append, List.cons_append, List.nil_append,
      List.length_append, List.length_singleton, List.drop_drop] at this ⊢
    rw [this, List.length_cons]
    have e1 : pre.length + 1 + name.length = pre.length + (name.length + 1) := by omega
    have e2 : written.length + 1 + name.length = written.length + (name.length + 1) := by
      omega
    have e3 : 1 + name.length = name.length + 1 := by omega
    rw [e1, e2, e3]

/-- The name loop of `WSAIOCTL_GetInterfaceName` at a colon. -/
theorem copy_name_colon (buf : List Nat) (m i : Nat) (out : List Nat) (p : Nat)
    (h : buf.getD i 0 = 58) :
    copy_name buf (m + 1) i out p =
      (if buf.getD (copy_digits buf buf.length (i + 1) (out.set p 58) (p + 1)).1 0 ≠ 58 then
        (true, (copy_digits buf buf.length (i + 1) (out.set p 58) (p + 1)).2.1, p)
      else
        (true, (copy_digits buf buf.length (i + 1) (out.set p 58) (p + 1)).2.1,
          (copy_digits buf buf.length (i + 1) (out.set p 58) (p + 1)).2.2)) := by
  have hs : isspace 58 = false := by decide
  simp only [copy_name, h, hs]
  split_ifs <;> simp_all

/-- The name loop of `WSAIOCTL_GetInterfaceName` on a line `ws name ':' digits after`: the
name, the colon and the digits are written, and the write position ends after the digits
when a second colon follows them and at the first colon otherwise. -/
theorem copy_name_line (ws name digits after out : List Nat)
    (hname : ∀ c, c ∈ name → c ≠ 0 ∧ isspace c = false ∧ c ≠ 58)
    (hdigits : ∀ c, c ∈ digits → isdigit c = true)
    (hafter : isdigit ((after ++ [0]).getD 0 0) = false)
    (hout : name.length + 1 + digits.length < out.length) :
    copy_name (ws ++ name ++ 58 :: (digits ++ (after ++ [0])))
        (ws ++ name ++ 58 :: (digits ++ (after ++ [0]))).length ws.length out 0 =
      (true, name ++ 58 :: digits ++ out.drop (name.length + 1 + digits.length),
       if (after ++ [0]).getD 0 0 = 58 then name.length + 1 + digits.length
       else name.length) := by
  have hlen : (ws ++ name ++ 58 :: (digits ++ (after ++ [0]))).length =
      name.length + (ws.length + digits.length + after.length + 1 + 1) := by
    simp only [List.length_append, List.length_cons, List.length_nil]
    omega
  have h1 := copy_name_spec name ws (58 :: (digits ++ (after ++ [0])))
    (ws.length + digits.length + after.length + 1 + 1) [] out hname (by omega)
  simp only [List.nil_append, List.length_nil, Nat.zero_add] at h1
  rw [hlen, h1]
  have hb : (ws ++ name ++ 58 :: (digits ++ (after ++ [0]))).getD (ws.length + name.length) 0 =
      58 := by
    have := getD_after_prefix (ws ++ name) (58 :: (digits ++ (after ++ [0])))
    simp only [List.length_append] at this
    rw [this]
    rfl
  have hol : 0 < (out.drop name.length).length := by
    simp only [List.length_drop]
    omega
  have hset : (name ++ out.drop name.length).set name.length 58 =
      (name ++ [58]) ++ out.drop (name.length + 1) := by
    rw [set_after_written name (out.drop name.length) 58 hol, List.drop_drop]
  have hd1 : digits.length ≤ (ws ++ name ++ 58 :: (digits ++ (after ++ [0]))).length := by
    rw [hlen]
    omega
  have hd2 : digits.length ≤ (out.drop (name.length + 1)).length := by
    simp only [List.length_drop]
    omega
  have hdig : copy_digits (ws ++ name ++ 58 :: (digits ++ (after ++ [0])))
      (ws ++ name ++ 58 :: (digits ++ (after ++ [0]))).length (ws.length + name.length + 1)
      (name ++ [58] ++ List.drop (name.length + 1) out) (name.length + 1) =
      (ws.length + (name.length + 1) + digits.length,
       name ++ 58 :: digits ++ List.drop (name.length + 1 + digits.length) out,
       name.length + 1 + digits.length) := by
    have := copy_digits_spec digits (ws ++ name ++ [58]) (after ++ [0])
      (ws ++ name ++ 58 :: (digits ++ (after ++ [0]))).length (name ++ [58])
      (out.drop (name.length + 1)) hdigits hafter hd1 hd2
    simpa [Nat.add_assoc] using this
  have hb2 : (ws ++ name ++ 58 :: (digits ++ (after ++ [0]))).getD
      (ws.length + (name.length + 1) + digits.length) 0 = (after ++ [0]).getD 0 0 := by
    have := getD_after_prefix (ws ++ name ++ 58 :: digits) (after ++ [0])
    simp only [List.append_assoc, List.cons_append, List.length_append, List.length_cons]
      at this ⊢
    rw [← this]
    congr 1
    omega
  rw [copy_name_colon _ _ _ _ _ hb, hset, hdig]
  simp only [hb2]
  by_cases h58 : (after ++ [0]).getD 0 0 = 58
  · rw [if_neg (not_not.mpr h58), if_pos h58]
  · rw [if_pos h58, if_neg h58]

/-- The line `fgets` delivers after `k` lines have been skipped. -/
theorem fgets_after_skip (k : Nat) (buf b : List Nat) (lines : List (List Nat))
    (hk : k < lines.length) :
    (fgets b (skip_lines k buf lines).2).1 = lines.getD k [] ++ [0] := by
  rw [skip_lines_stream, List.drop_eq_getElem_cons hk]
  simp [fgets, List.getD_eq_getElem?_getD, List.getElem?_eq_getElem hk]

/-- C28: the device file is read with `fgets` into the 512-byte line buffer and consists of
two header lines and the interface lines `lines`, every line shorter than the buffer.  Then
`WSAIOCTL_GetInterfaceCount` returns the number of interface lines.  For `k` below that
number, let line `k` be white space `ws`, a name (bytes that are neither NUL nor white space
nor a colon), a colon, a run of digits `digits` and the rest `after`, which does not start
with a digit, and let `out` have room for the name, the colon, the digits and a NUL.  Then
`WSAIOCTL_GetInterfaceName` returns `TRUE` (1) and the C string left in `out` is the name,
unless `after` starts with a colon (the alias form `name:digits:`), where it is
`name:digits`.  In the first case the digits are the start of the first statistic when it
follows the colon directly, and they are not part of the C string. -/
theorem interface_lines_counted_and_named (S : Host) (w : World) (h1 h2 : List Nat)
    (lines : List (List Nat))
    (hopen : S.fopen_netdev w.trace =
      some (fgets_stream netdev_line_buffer (h1 :: h2 :: lines)))
    (hshort : ∀ l, l ∈ h1 :: h2 :: lines → 0 < l.length ∧ l.length < netdev_line_buffer) :
    (WSAIOCTL_GetInterfaceCount S w).1 = (lines.length : Int) ∧
    ∀ (k : Nat) (buf0 out ws name digits after : List Nat), k < lines.length →
      lines.getD k [] = ws ++ name ++ 58 :: (digits ++ after) →
      (∀ c, c ∈ ws → isspace c = true) →
      (∀ c, c ∈ name → c ≠ 0 ∧ isspace c = false ∧ c ≠ 58) →
      (∀ c, c ∈ digits → isdigit c = true) →
      (∀ c, after.head? = some c → isdigit c = false) →
      name.length + 1 + digits.length < out.length →
      (WSAIOCTL_GetInterfaceName S w k buf0 out).1 = 1 ∧
      cstr (WSAIOCTL_GetInterfaceName S w k buf0 out).2.1 =
        (if after.head? = some 58 then name ++ 58 :: digits else name) := by
  have hstream := fgets_stream_short netdev_line_buffer (h1 :: h2 :: lines) hshort
  rw [hstream] at hopen
  constructor
  · simp only [WSAIOCTL_GetInterfaceCount, hopen, fgets, count_lines_eq, Int.zero_add]
  · intro k buf0 out ws name digits after hk hline hws hname hdigits hafter hout
    have hbuf : (fgets (skip_lines k (h2 ++ [0]) lines).1 (skip_lines k (h2 ++ [0]) lines).2).1 =
        ws ++ name ++ 58 :: (digits ++ (after ++ [0])) := by
      rw [fgets_after_skip k _ _ lines hk, hline]
      simp
    have h0 : (after ++ [0]).getD 0 0 = 58 ↔ after.head? = some 58 := by
      cases after with
      | nil => simp
      | cons a after => simp
    have hnd : isdigit ((after ++ [0]).getD 0 0) = false := by
      cases after with
      | nil => decide
      | cons a after => exact hafter a rfl
    have hsp : isspace ((name ++ 58 :: (digits ++ (after ++ [0]))).getD 0 0) = false := by
      cases name with
      | nil =>
        show isspace 58 = false
        decide
      | cons a name => exact (hname a (List.mem_cons_self _ _)).2.1
    have hi := skip_spaces_spec ws [] (name ++ 58 :: (digits ++ (after ++ [0])))
      (ws ++ name ++ 58 :: (digits ++ (after ++ [0]))).length hws hsp (by simp)
    simp only [List.nil_append, List.length_nil, Nat.zero_add] at hi
    rw [← List.append_assoc] at hi
    have hcopy := copy_name_line ws name digits after out hname hdigits hnd hout
    have hout' : WSAIOCTL_GetInterfaceName S w k buf0 out =
        (1, (name ++ 58 :: digits ++ out.drop (name.length + 1 + digits.length)).set
          (if (after ++ [0]).getD 0 0 = 58 then name.length + 1 + digits.length
            else name.length) 0, w.call Call.fopen_netdev) := by
      have hf : ∀ (b l : List Nat) (rest : List (List Nat)),
          fgets b (l :: rest) = (l ++ [0], rest) := fun _ _ _ => rfl
      simp only [WSAIOCTL_GetInterfaceName, hopen, hf]
      rw [hbuf, hi, hcopy]
      rfl
    rw [hout']
    refine ⟨rfl, ?_⟩
    simp only []
    by_cases h58 : (after ++ [0]).getD 0 0 = 58
    · rw [if_pos h58, if_pos (h0.mp h58)]
      have hl : name.length + 1 + digits.length = (name ++ 58 :: digits).length := by
        simp only [List.length_append, List.length_cons]
        omega
      rw [hl, set_after_written (name ++ 58 :: digits) _ 0
        (by simp only [List.length_drop]; omega)]
      rw [List.append_assoc, List.singleton_append]
      refine cstr_terminated _ _ (fun c hc => ?_)
      rcases List.mem_append.mp hc with hc | hc
      · exact (hname c hc).1
      · rcases List.mem_cons.mp hc with rfl | hc
        · decide
        · intro hz
          have := hdigits c hc
          rw [hz] at this
          exact absurd this (by decide)
    · rw [if_neg h58, if_neg (fun h => h58 (h0.mpr h))]
      rw [List.append_assoc, set_after_written name _ 0 (by simp)]
      rw [List.append_assoc, List.singleton_append]
      exact cstr_terminated _ _ (fun c hc => (hname c hc).1)

/-- The device file of `three_interfaces_host`: three interfaces; the second line, whose
first statistic follows the colon directly, gives the name `eth0` and the third, an alias,
gives `eth0:1`. -/
theorem interface_lines_counted_and_named_sample :
    (WSAIOCTL_GetInterfaceCount three_interfaces_host World.init).1 = 3 ∧
      cstr (WSAIOCTL_GetInterfaceName three_interfaces_host World.init 1 []
        (List.replicate 16 255)).2.1 = [101, 116, 104, 48] ∧
      cstr (WSAIOCTL_GetInterfaceName three_interfaces_host World.init 2 []
        (List.replicate 16 255)).2.1 = [101, 116, 104, 48, 58, 49] :=
  ⟨(interface_lines_counted_and_named three_interfaces_host World.init
      [73, 110, 116, 101, 114, 45, 124, 10] [32, 102, 97, 99, 101, 32, 124, 10]
      [[32, 32, 108, 111, 58, 32, 32, 32, 50, 49, 57, 32, 51, 10],
       [101, 116, 104, 48, 58, 49, 50, 51, 52, 53, 54, 32, 55, 10],
       [101, 116, 104, 48, 58, 49, 58, 32, 53, 32, 48, 10]] (by decide) (by decide)).1,
   ((interface_lines_counted_and_named three_interfaces_host World.init
      [73, 110, 116, 101, 114, 45, 124, 10] [32, 102, 97, 99, 101, 32, 124, 10]
      [[32, 32, 108, 111, 58, 32, 32, 32, 50, 49, 57, 32, 51, 10],
       [101, 116, 104, 48, 58, 49, 50, 51, 52, 53, 54, 32, 55, 10],
       [101, 116, 104, 48, 58, 49, 58, 32, 53, 32, 48, 10]] (by decide) (by decide)).2
      1 [] (List.replicate 16 255) [] [101, 116, 104, 48] [49, 50, 51, 52, 53, 54]
      [32, 55, 10] (by decide) (by decide) (by decide) (by decide) (by decide) (by decide)
      (by decide)).2,
   ((interface_lines_counted_and_named three_interfaces_host World.init
      [73, 110, 116, 101, 114, 45, 124, 10] [32, 102, 97, 99, 101, 32, 124, 10]
      [[32, 32, 108, 111, 58, 32, 32, 32, 50, 49, 57, 32, 51, 10],
       [101, 116, 104, 48, 58, 49, 50, 51, 52, 53, 54, 32, 55, 10],
       [101, 116, 104, 48, 58, 49, 58, 32, 53, 32, 48, 10]] (by decide) (by decide)).2
      2 [] (List.replicate 16 255) [] [101, 116, 104, 48] [49] [58, 32, 53, 32, 48, 10]
      (by decide) (by decide) (by decide) (by decide) (by decide) (by decide)
      (by decide)).2⟩

/-- A store through one pointer does not change what another pointer points to. -/
theorem WsMem.deref_store_other (mem : WsMem) (p q : Option Nat) (v : Option ws_fd_set)
    (h : ∀ a, p = some a → q ≠ some a) : (mem.store p v).deref q = mem.deref q := by
  cases p with
  | none => rfl
  | some a =>
    cases v with
    | none => rfl
    | some ws =>
      cases q with
      | none => rfl
      | some b =>
        have hne : b ≠ a := fun hb => h a rfl (by rw [hb])
        simp [WsMem.store, WsMem.deref, Function.update, hne]

/-- What a pointer points to after a store through it. -/
theorem WsMem.deref_store_same (mem : WsMem) (p : Option Nat) (v : Option ws_fd_set)
    (hv : v.isSome = p.isSome) : (mem.store p v).deref p = v := by
  cases p with
  | none =>
    cases v with
    | none => rfl
    | some ws => simp at hv
  | some a =>
    cases v with
    | none => simp at hv
    | some ws => simp [WsMem.store, WsMem.deref]

/-- The part of `__ws_select` after the host `select`, for three pointers of which no two
are the same object: it resolves nothing and closes exactly the descriptors listed in the
three arrays, whatever `select` returned. -/
theorem ws_select_finish_spec (S : Host) (C : HostSockOpts) (E : HostErrno) (w : World)
    (b32 : Bool) (highfd : Int) (readfds writefds : fd_set) (p_except : Option fd_set)
    (mem : WsMem) (ws_readfds ws_writefds ws_exceptfds : Option Nat)
    (readfd writefd exceptfd : List Int)
    (hp : p_except.isSome = ws_exceptfds.isSome)
    (hrw : ∀ a, ws_readfds = some a → ws_writefds ≠ some a)
    (hre : ∀ a, ws_readfds = some a → ws_exceptfds ≠ some a)
    (hwe : ∀ a, ws_writefds = some a → ws_exceptfds ≠ some a) :
    ∃ evs, (ws_select_finish S C E w b32 highfd readfds writefds p_except mem ws_readfds
        ws_writefds ws_exceptfds readfd writefd exceptfd).w.trace = w.trace ++ evs ∧
      resolved_fds evs = [] ∧
      closed_fds evs = live_fds readfd (wire_count (mem.deref ws_readfds)) 0 ++
        live_fds writefd (wire_count (mem.deref ws_writefds)) 0 ++
        live_fds exceptfd (wire_count (mem.deref ws_exceptfds)) 0 := by
  unfold ws_select_finish
  have hpe : p_except.isSome = (mem.deref ws_exceptfds).isSome := by
    rw [hp]
    cases ws_exceptfds <;> rfl
  by_cases hpos : highfd > 0
  · simp only [hpos, if_true, WsMem.deref_store_other _ _ _ _ hrw,
      WsMem.deref_store_other _ _ _ _ hre, WsMem.deref_store_other _ _ _ _ hwe]
    generalize mem.deref ws_readfds = vr at *
    generalize mem.deref ws_writefds = vw at *
    obtain ⟨hx1, e1, ht1, hr1, hc1⟩ :=
      fd_set_export_spec S C w readfds p_except vr readfd b32
    obtain ⟨hx2, e2, ht2, hr2, hc2⟩ :=
      fd_set_export_spec S C (fd_set_export S C w readfds p_except vr readfd b32).w
        writefds (fd_set_export S C w readfds p_except vr readfd b32).exceptfds
        vw writefd b32
    rw [hx1, hpe] at hx2
    cases hws : mem.deref ws_exceptfds with
    | none =>
      refine ⟨e1 ++ e2, ?_, ?_, ?_⟩
      · split <;> simp_all
      · rw [resolved_fds_append, hr1, hr2]; rfl
      · rw [closed_fds_append, hc1, hc2]; simp [wire_count, live_fds]
    | some ws =>
      rw [hws] at hx2
      cases hex : (fd_set_export S C (fd_set_export S C w readfds p_except vr readfd b32).w
        writefds (fd_set_export S C w readfds p_except vr readfd b32).exceptfds
        vw writefd b32).exceptfds with
      | none => rw [hex] at hx2; simp at hx2
      | some ex =>
        obtain ⟨e3, ht3, hr3, hc3⟩ := ws_select_except_loop_spec ex ws.fd_count 0
          { w := (fd_set_export S C (fd_set_export S C w readfds p_except vr readfd b32).w
              writefds (fd_set_export S C w readfds p_except vr readfd b32).exceptfds
              vw writefd b32).w,
            fd_array := ws.fd_array, exceptfd := exceptfd, j := 0 }
        refine ⟨e1 ++ e2 ++ e3, ?_, ?_, ?_⟩
        · simp only []
          rw [ht3, ht2, ht1]
          simp [List.append_assoc]
        · rw [resolved_fds_append, resolved_fds_append, hr1, hr2, hr3]; rfl
        · rw [closed_fds_append, closed_fds_append, hc1, hc2, hc3]; rfl
  · simp only [hpos, if_false]
    generalize mem.deref ws_readfds = vr at *
    generalize mem.deref ws_writefds = vw at *
    generalize mem.deref ws_exceptfds = ve at *
    obtain ⟨e1, ht1, hr1, hc1⟩ := fd_set_unimport_spec w vr readfd b32
    obtain ⟨e2, ht2, hr2, hc2⟩ :=
      fd_set_unimport_spec (fd_set_unimport w vr readfd b32) vw writefd b32
    obtain ⟨e3, ht3, hr3, hc3⟩ :=
      fd_set_unimport_spec (fd_set_unimport (fd_set_unimport w vr readfd b32)
        vw writefd b32) ve exceptfd b32
    by_cases hz : highfd = 0
    · simp only [hz, if_true]
      refine ⟨e1 ++ e2 ++ e3, ?_, ?_, ?_⟩
      · rw [ht3, ht2, ht1]; simp [List.append_assoc]
      · rw [resolved_fds_append, resolved_fds_append, hr1, hr2, hr3]; rfl
      · rw [closed_fds_append, closed_fds_append, hc1, hc2, hc3]
    · simp only [hz, if_false]
      refine ⟨e1 ++ e2 ++ e3 ++ [Call.SetLastError (wsaErrno E (fd_set_unimport
          (fd_set_unimport (fd_set_unimport w vr readfd b32) vw writefd b32)
          ve exceptfd b32).errno)], ?_, ?_, ?_⟩
      · simp only [SetLastError]
        rw [ht3, ht2, ht1]; simp [List.append_assoc]
      · rw [resolved_fds_append, resolved_fds_append, resolved_fds_append, hr1, hr2, hr3]; rfl
      · rw [closed_fds_append, closed_fds_append, closed_fds_append, hc1, hc2, hc3]
        simp [closed_fds, Call.closed]

/-- The function `__ws_select` called with three pointers of which no two are the same
object, for every answer of the host (every outcome of `select`, every resolution
result), every layout and every combination of `NULL` and non-`NULL` wire sets whose counts
fit the descriptor arrays: the descriptors closed during the call are exactly the
descriptors `fd_set_import` resolved during the call, each closed as often as it was
resolved (once per resolution) and in the same order; nothing else is closed. -/
theorem ws_select_closes_distinct_sets (S : Host) (C : HostSockOpts) (E : HostErrno)
    (w : World) (L : SelectLocals) (b32 : Bool) (mem : WsMem)
    (ws_readfds ws_writefds ws_exceptfds : Option Nat) (timeout : Option (Int × Int))
    (hr : wire_count (mem.deref ws_readfds) ≤ L.readfd.length)
    (hw : wire_count (mem.deref ws_writefds) ≤ L.writefd.length)
    (he : wire_count (mem.deref ws_exceptfds) ≤ L.exceptfd.length)
    (hrw : ∀ a, ws_readfds = some a → ws_writefds ≠ some a)
    (hre : ∀ a, ws_readfds = some a → ws_exceptfds ≠ some a)
    (hwe : ∀ a, ws_writefds = some a → ws_exceptfds ≠ some a) :
    ∃ evs, (__ws_select S C E w L b32 mem ws_readfds ws_writefds ws_exceptfds timeout).w.trace =
        w.trace ++ evs ∧
      closed_fds evs = resolved_fds evs ∧
      ∀ fd : Int, (closed_fds evs).count fd = (resolved_fds evs).count fd := by
  unfold __ws_select
  simp only []
  have s1 := fd_set_import_spec S w L.readfds (mem.deref ws_readfds) 0 L.readfd b32 hr
  rcases h1 : fd_set_import S w L.readfds (mem.deref ws_readfds) 0 L.readfd b32 with
    ⟨p_read, ir⟩
  rw [h1] at s1
  obtain ⟨-, e1, ht1, hc1, hr1⟩ := s1
  simp only [] at ht1 hr1 ⊢
  have s2 := fd_set_import_spec S ir.w L.writefds (mem.deref ws_writefds) ir.highfd L.writefd
    b32 hw
  rcases h2 : fd_set_import S ir.w L.writefds (mem.deref ws_writefds) ir.highfd L.writefd
    b32 with ⟨p_write, iw⟩
  rw [h2] at s2
  obtain ⟨-, e2, ht2, hc2, hr2⟩ := s2
  simp only [] at ht2 hr2 ⊢
  have s3 := fd_set_import_spec S iw.w L.exceptfds (mem.deref ws_exceptfds) iw.highfd
    L.exceptfd b32 he
  rcases h3 : fd_set_import S iw.w L.exceptfds (mem.deref ws_exceptfds) iw.highfd L.exceptfd
    b32 with ⟨p_except, ie⟩
  rw [h3] at s3
  obtain ⟨hp, e3, ht3, hc3, hr3⟩ := s3
  simp only [] at hp ht3 hr3 ⊢
  have hp' : (p_except.map (fun _ =>
      (S.select ie.w.trace (ie.highfd + 1) p_read p_write p_except timeout).exceptfds)).isSome =
      ws_exceptfds.isSome := by
    rw [Option.isSome_map', hp]
    cases ws_exceptfds <;> rfl
  obtain ⟨e4, ht4, hr4, hc4⟩ := ws_select_finish_spec S C E
    { ie.w.call (Call.select (ie.highfd + 1) p_read p_write p_except timeout) with
      errno := (S.select ie.w.trace (ie.highfd + 1) p_read p_write p_except timeout).errno }
    b32 (S.select ie.w.trace (ie.highfd + 1) p_read p_write p_except timeout).ret
    (if p_read.isSome then
      (S.select ie.w.trace (ie.highfd + 1) p_read p_write p_except timeout).readfds else ir.fds)
    (if p_write.isSome then
      (S.select ie.w.trace (ie.highfd + 1) p_read p_write p_except timeout).writefds else iw.fds)
    (p_except.map (fun _ =>
      (S.select ie.w.trace (ie.highfd + 1) p_read p_write p_except timeout).exceptfds))
    mem ws_readfds ws_writefds ws_exceptfds ir.lfd iw.lfd ie.lfd hp' hrw hre hwe
  have key : closed_fds (e1 ++ e2 ++ e3 ++
        [Call.select (ie.highfd + 1) p_read p_write p_except timeout] ++ e4) =
      resolved_fds (e1 ++ e2 ++ e3 ++
        [Call.select (ie.highfd + 1) p_read p_write p_except timeout] ++ e4) := by
    simp only [closed_fds_append, resolved_fds_append, hc1, hc2, hc3, hc4, hr1, hr2, hr3, hr4]
    simp [closed_fds, resolved_fds, Call.closed, Call.resolved]
  refine ⟨e1 ++ e2 ++ e3 ++ [Call.select (ie.highfd + 1) p_read p_write p_except timeout] ++ e4,
    ?_, key, fun fd => by rw [key]⟩
  rw [ht4]
  simp only [World.call]
  rw [ht3, ht2, ht1]
  simp [List.append_assoc]

/-- The property of `ws_select_closes_distinct_sets` at a concrete call: two handles in the
read set, one in the write set, no exception set, 64-entry arrays, `select` timing out;
the descriptors 3, 4 and 5 are resolved and each is closed once. -/
theorem ws_select_closes_distinct_sets_sample :
    closed_fds (__ws_select quiet_host linux_sockopts linux_errno World.init zero_locals false
        (wire_memory [{ fd_count := 2, fd_array := [100, 101] },
          { fd_count := 1, fd_array := [100] }])
        (some 0) (some 1) none none).w.trace = [3, 4, 5] ∧
    ∃ evs, (__ws_select quiet_host linux_sockopts linux_errno World.init zero_locals false
        (wire_memory [{ fd_count := 2, fd_array := [100, 101] },
          { fd_count := 1, fd_array := [100] }])
        (some 0) (some 1) none none).w.trace = World.init.trace ++ evs ∧
      closed_fds evs = resolved_fds evs ∧
      ∀ fd : Int, (closed_fds evs).count fd = (resolved_fds evs).count fd :=
  ⟨by decide,
   ws_select_closes_distinct_sets quiet_host linux_sockopts linux_errno World.init
     zero_locals false (wire_memory [{ fd_count := 2, fd_array := [100, 101] },
       { fd_count := 1, fd_array := [100] }]) (some 0) (some 1) none none
     (by decide) (by decide) (by decide) (by decide) (by decide) (by decide)⟩

/-- C7 (code defect): a 32-bit `select` where the same wire set, holding the sockets 100
and 101, is passed as read set and as exception set.  The imports resolve the descriptors
3, 4 (read) and 5, 6 (exception); the host reports descriptor 3 readable (result 1).  The
export of the read set closes 3 and 4 and stores the count 1 in the set; the exception loop
takes its count from the same set, so it runs once and closes 5 only: `__ws_select` returns
1 and descriptor 6, which `fd_set_import` resolved, is never closed. -/
theorem ws_select_same_set_twice_leaves_fd_open :
    (__ws_select one_readable_host linux_sockopts linux_errno World.init zero_locals true
        (wire_memory [{ fd_count := 2, fd_array := [100, 101] }]) (some 0) none (some 0)
        none).ret = 1 ∧
    resolved_fds (__ws_select one_readable_host linux_sockopts linux_errno World.init
        zero_locals true (wire_memory [{ fd_count := 2, fd_array := [100, 101] }]) (some 0)
        none (some 0) none).w.trace = [3, 4, 5, 6] ∧
    closed_fds (__ws_select one_readable_host linux_sockopts linux_errno World.init
        zero_locals true (wire_memory [{ fd_count := 2, fd_array := [100, 101] }]) (some 0)
        none (some 0) none).w.trace = [3, 4, 5] ∧
    (closed_fds (__ws_select one_readable_host linux_sockopts linux_errno World.init
        zero_locals true (wire_memory [{ fd_count := 2, fd_array := [100, 101] }]) (some 0)
        none (some 0) none).w.trace).count 6 = 0 := by
  decide

/-- C8 (code defect): a 32-bit `select` with socket 100 in the read set and in the exception
set, two sets at the addresses 0 and 1 (descriptors 3 and 4).  The host reports descriptor
3 readable (result 1) and it has a pending socket error.  `fd_set_export` takes the entry
out of the read set and only marks descriptor 3 in the host exception set, which the
exception loop never looks up (it walks the descriptors of the exception set, here 4), so
`__ws_select` returns 1 while the three wire sets hold 0 entries together. -/
theorem ws_select_counts_dropped_entry :
    (__ws_select pending_error_host linux_sockopts linux_errno World.init zero_locals true
        (wire_memory [{ fd_count := 1, fd_array := [100] }, { fd_count := 1, fd_array := [100] }])
        (some 0) none (some 1) none).ret = 1 ∧
    resolved_fds (__ws_select pending_error_host linux_sockopts linux_errno World.init
        zero_locals true
        (wire_memory [{ fd_count := 1, fd_array := [100] }, { fd_count := 1, fd_array := [100] }])
        (some 0) none (some 1) none).w.trace = [3, 4] ∧
    wire_count ((__ws_select pending_error_host linux_sockopts linux_errno World.init
        zero_locals true
        (wire_memory [{ fd_count := 1, fd_array := [100] }, { fd_count := 1, fd_array := [100] }])
        (some 0) none (some 1) none).mem.deref (some 0)) +
    wire_count ((__ws_select pending_error_host linux_sockopts linux_errno World.init
        zero_locals true
        (wire_memory [{ fd_count := 1, fd_array := [100] }, { fd_count := 1, fd_array := [100] }])
        (some 0) none (some 1) none).mem.deref none) +
    wire_count ((__ws_select pending_error_host linux_sockopts linux_errno World.init
        zero_locals true
        (wire_memory [{ fd_count := 1, fd_array := [100] }, { fd_count := 1, fd_array := [100] }])
        (some 0) none (some 1) none).mem.deref (some 1)) = 0 := by
  decide

/-- The store of `clear_fd_count` through a pointer: afterwards the set behind that pointer
has count 0, a set that had count 0 still has, and an object the pointer does not point to
is as it was. -/
theorem clear_fd_count_store (b32 : Bool) (mem : WsMem) (p : Option Nat) :
    wire_count ((mem.store p (clear_fd_count b32 (mem.deref p))).deref p) = 0 ∧
    (∀ q, wire_count (mem.deref q) = 0 →
      wire_count ((mem.store p (clear_fd_count b32 (mem.deref p))).deref q) = 0) ∧
    (∀ a, p ≠ some a → (mem.store p (clear_fd_count b32 (mem.deref p))) a = mem a) := by
  cases p with
  | none => exact ⟨rfl, fun q h => h, fun a _ => rfl⟩
  | some a =>
    refine ⟨?_, fun q h => ?_, fun c hc => ?_⟩
    · cases b32 <;> simp [WsMem.store, WsMem.deref, clear_fd_count, wire_count]
    · cases q with
      | none => rfl
      | some c =>
        by_cases hca : c = a
        · subst hca
          cases b32 <;> simp [WsMem.store, WsMem.deref, clear_fd_count, wire_count]
        · cases b32 <;>
            simpa [WsMem.store, WsMem.deref, clear_fd_count, wire_count, Function.update,
              hca] using h
    · have hca : c ≠ a := fun h => hc (by rw [h])
      cases b32 <;> simp [WsMem.store, WsMem.deref, clear_fd_count, Function.update, hca]

/-- The part of `__ws_select` after a host `select` that returned 0 or less. -/
theorem ws_select_finish_not_ready (S : Host) (C : HostSockOpts) (E : HostErrno) (w : World)
    (b32 : Bool) (highfd : Int) (readfds writefds : fd_set) (p_except : Option fd_set)
    (mem : WsMem) (ws_readfds ws_writefds ws_exceptfds : Option Nat)
    (readfd writefd exceptfd : List Int) (hh : highfd ≤ 0) :
    (ws_select_finish S C E w b32 highfd readfds writefds p_except mem ws_readfds
      ws_writefds ws_exceptfds readfd writefd exceptfd).ret =
        (if highfd = 0 then 0 else SOCKET_ERROR) ∧
    (ws_select_finish S C E w b32 highfd readfds writefds p_except mem ws_readfds
      ws_writefds ws_exceptfds readfd writefd exceptfd).w.last_error =
        (if highfd = 0 then w.last_error else wsaErrno E w.errno) ∧
    wire_count ((ws_select_finish S C E w b32 highfd readfds writefds p_except mem ws_readfds
      ws_writefds ws_exceptfds readfd writefd exceptfd).mem.deref ws_readfds) = 0 ∧
    wire_count ((ws_select_finish S C E w b32 highfd readfds writefds p_except mem ws_readfds
      ws_writefds ws_exceptfds readfd writefd exceptfd).mem.deref ws_writefds) = 0 ∧
    wire_count ((ws_select_finish S C E w b32 highfd readfds writefds p_except mem ws_readfds
      ws_writefds ws_exceptfds readfd writefd exceptfd).mem.deref ws_exceptfds) = 0 ∧
    (∀ a, ws_readfds ≠ some a → ws_writefds ≠ some a → ws_exceptfds ≠ some a →
      (ws_select_finish S C E w b32 highfd readfds writefds p_except mem ws_readfds
        ws_writefds ws_exceptfds readfd writefd exceptfd).mem a = mem a) := by
  have h1 := fd_set_unimport_frame w (mem.deref ws_readfds) readfd b32
  have h2 := fd_set_unimport_frame (fd_set_unimport w (mem.deref ws_readfds) readfd b32)
    (mem.deref ws_writefds) writefd b32
  have h3 := fd_set_unimport_frame (fd_set_unimport (fd_set_unimport w (mem.deref ws_readfds)
    readfd b32) (mem.deref ws_writefds) writefd b32) (mem.deref ws_exceptfds) exceptfd b32
  have hn : ¬ highfd > 0 := not_lt.mpr hh
  obtain ⟨a1, b1, c1⟩ := clear_fd_count_store b32 mem ws_readfds
  obtain ⟨a2, b2, c2⟩ := clear_fd_count_store b32
    (mem.store ws_readfds (clear_fd_count b32 (mem.deref ws_readfds))) ws_writefds
  obtain ⟨a3, b3, c3⟩ := clear_fd_count_store b32
    ((mem.store ws_readfds (clear_fd_count b32 (mem.deref ws_readfds))).store ws_writefds
      (clear_fd_count b32
        ((mem.store ws_readfds (clear_fd_count b32 (mem.deref ws_readfds))).deref ws_writefds)))
    ws_exceptfds
  have hmem : (ws_select_finish S C E w b32 highfd readfds writefds p_except mem ws_readfds
      ws_writefds ws_exceptfds readfd writefd exceptfd).mem =
      ((mem.store ws_readfds (clear_fd_count b32 (mem.deref ws_readfds))).store ws_writefds
        (clear_fd_count b32
          ((mem.store ws_readfds (clear_fd_count b32 (mem.deref ws_readfds))).deref
            ws_writefds))).store ws_exceptfds
        (clear_fd_count b32
          (((mem.store ws_readfds (clear_fd_count b32 (mem.deref ws_readfds))).store
            ws_writefds
            (clear_fd_count b32
              ((mem.store ws_readfds (clear_fd_count b32 (mem.deref ws_readfds))).deref
                ws_writefds))).deref ws_exceptfds)) := by
    simp only [ws_select_finish, if_neg hn]
    split_ifs <;> rfl
  refine ⟨?_, ?_, ?_, ?_, ?_, ?_⟩
  · simp only [ws_select_finish, if_neg hn]
    split_ifs <;> rfl
  · by_cases hz : highfd = 0
    · simp only [ws_select_finish, if_neg hn, if_pos hz]
      rw [h3.2, h2.2, h1.2]
    · simp only [ws_select_finish, if_neg hn, if_neg hz, SetLastError]
      rw [h3.1, h2.1, h1.1]
  · rw [hmem]
    exact b3 _ (b2 _ a1)
  · rw [hmem]
    exact b3 _ a2
  · rw [hmem]
    exact a3
  · intro a hr hw he
    rw [hmem, c3 a he, c2 a hw, c1 a hr]

/-- C20: `__ws_select` in both modes (`b32` false and true), with `r` the answer of the host
`select` to the sets the three imports built.  If `r.ret = 0` the call returns 0; if
`r.ret < 0` it returns `SOCKET_ERROR` and the last error is `wsaErrno` of the `errno` the
host `select` left.  In both cases each wire set that was passed (not `NULL`) is still there
and has `fd_count` 0, also when the same set was passed more than once, and the objects of
the caller's memory that were not passed are as they were. -/
theorem ws_select_nothing_ready_clears_counts (S : Host) (C : HostSockOpts) (E : HostErrno)
    (w : World) (L : SelectLocals) (b32 : Bool) (mem : WsMem)
    (ws_readfds ws_writefds ws_exceptfds : Option Nat) (timeout : Option (Int × Int)) :
    let o := __ws_select S C E w L b32 mem ws_readfds ws_writefds ws_exceptfds timeout
    let ir := fd_set_import S w L.readfds (mem.deref ws_readfds) 0 L.readfd b32
    let iw := fd_set_import S ir.2.w L.writefds (mem.deref ws_writefds) ir.2.highfd L.writefd b32
    let ie := fd_set_import S iw.2.w L.exceptfds (mem.deref ws_exceptfds) iw.2.highfd
      L.exceptfd b32
    let r := S.select ie.2.w.trace (ie.2.highfd + 1) ir.1 iw.1 ie.1 timeout
    (r.ret = 0 → o.ret = 0) ∧
    (r.ret < 0 → o.ret = SOCKET_ERROR ∧ o.w.last_error = wsaErrno E r.errno) ∧
    (r.ret ≤ 0 →
      (o.mem.deref ws_readfds).isSome = ws_readfds.isSome ∧
      wire_count (o.mem.deref ws_readfds) = 0 ∧
      (o.mem.deref ws_writefds).isSome = ws_writefds.isSome ∧
      wire_count (o.mem.deref ws_writefds) = 0 ∧
      (o.mem.deref ws_exceptfds).isSome = ws_exceptfds.isSome ∧
      wire_count (o.mem.deref ws_exceptfds) = 0 ∧
      ∀ a, ws_readfds ≠ some a → ws_writefds ≠ some a → ws_exceptfds ≠ some a →
        o.mem a = mem a) := by
  intro o ir iw ie r
  have hsome : ∀ (m : WsMem) (p : Option Nat), (m.deref p).isSome = p.isSome := by
    intro m p
    cases p <;> rfl
  have key : r.ret ≤ 0 →
      o.ret = (if r.ret = 0 then 0 else SOCKET_ERROR) ∧
      o.w.last_error = (if r.ret = 0 then ie.2.w.last_error else wsaErrno E r.errno) ∧
      wire_count (o.mem.deref ws_readfds) = 0 ∧
      wire_count (o.mem.deref ws_writefds) = 0 ∧
      wire_count (o.mem.deref ws_exceptfds) = 0 ∧
      (∀ a, ws_readfds ≠ some a → ws_writefds ≠ some a → ws_exceptfds ≠ some a →
        o.mem a = mem a) := by
    intro hle
    exact ws_select_finish_not_ready S C E _ b32 r.ret _ _ _ mem ws_readfds ws_writefds
      ws_exceptfds _ _ _ hle
  refine ⟨fun h0 => ?_, fun hlt => ?_, fun hle => ?_⟩
  · have := (key (le_of_eq h0)).1
    rwa [if_pos h0] at this
  · obtain ⟨h1, h2, -⟩ := key (le_of_lt hlt)
    rw [if_neg (ne_of_lt hlt)] at h1 h2
    exact ⟨h1, h2⟩
  · obtain ⟨-, -, h3, h4, h5, h6⟩ := key hle
    exact ⟨hsome _ _, h3, hsome _ _, h4, hsome _ _, h5, h6⟩

/-- C20 at concrete calls in the 16-bit mode, read set {100, 101} and exception set {100}:
on `quiet_host` the host `select` returns 0 and so does `__ws_select`; on
`select_fails_host` it fails with `EINTR` and `__ws_select` returns `SOCKET_ERROR` with last
error `WSAEINTR`. -/
theorem ws_select_nothing_ready_clears_counts_sample :
    (__ws_select quiet_host linux_sockopts linux_errno World.init zero_locals false
      (wire_memory [{ fd_count := 2, fd_array := [100, 101] },
        { fd_count := 1, fd_array := [100] }]) (some 0) none (some 1) none).ret = 0 ∧
    ((__ws_select select_fails_host linux_sockopts linux_errno World.init zero_locals false
      (wire_memory [{ fd_count := 2, fd_array := [100, 101] },
        { fd_count := 1, fd_array := [100] }]) (some 0) none (some 1) none).ret =
        SOCKET_ERROR ∧
     (__ws_select select_fails_host linux_sockopts linux_errno World.init zero_locals false
      (wire_memory [{ fd_count := 2, fd_array := [100, 101] },
        { fd_count := 1, fd_array := [100] }]) (some 0) none (some 1) none).w.last_error =
        WSAEINTR) :=
  ⟨(ws_select_nothing_ready_clears_counts quiet_host linux_sockopts linux_errno World.init
      zero_locals false (wire_memory [{ fd_count := 2, fd_array := [100, 101] },
        { fd_count := 1, fd_array := [100] }]) (some 0) none (some 1) none).1 (by decide),
   (ws_select_nothing_ready_clears_counts select_fails_host linux_sockopts linux_errno
      World.init zero_locals false (wire_memory [{ fd_count := 2, fd_array := [100, 101] },
        { fd_count := 1, fd_array := [100] }]) (some 0) none (some 1) none).2.1 (by decide)⟩

end Winsock
